import Mathlib

/-!
# LCUI widget task module (src/gui/widget_task.c)

A shallow embedding of the incremental update scheduler of the LCUI widget
tree, followed by theorems about it.

Modelling conventions.

* Widgets live in an arena (`List Widget`); a widget pointer is an index into
  the arena and `NULL` is `none`.  `parent` and `children` are the links of
  the C structure.
* `float` members are represented by integers standing for the stored value;
  the module only copies them and compares them (`MEMCMP`, `!=`), except in
  `Widget_UpdateVisibleChildren`.
* Structures that the module only copies and compares bytewise (border,
  shadow, background) are represented by a number standing for their content.
* Constants, enumerations and functions of other LCUI modules are parameters:
  `Defs` holds the constants, `Env` the functions.  Every call of a function
  of another module that may change widgets is recorded in `World.trace`
  and its effect on the arena is `Env.effect`.
* `size_t` counters are natural numbers.
-/

namespace LCUI

/-! ## Constants declared in the LCUI headers -/

/-- Constants of the LCUI headers used by widget_task.c: the members of
`LCUI_WidgetTaskType`, of `LCUI_WidgetState`, the style values, the surface
event codes, the style keys and the timing constants. -/
structure Defs where
  LCUI_WTASK_VISIBLE : Nat
  LCUI_WTASK_POSITION : Nat
  LCUI_WTASK_RESIZE : Nat
  LCUI_WTASK_SHADOW : Nat
  LCUI_WTASK_BORDER : Nat
  LCUI_WTASK_OPACITY : Nat
  LCUI_WTASK_MARGIN : Nat
  LCUI_WTASK_PADDING : Nat
  LCUI_WTASK_BACKGROUND : Nat
  LCUI_WTASK_ZINDEX : Nat
  LCUI_WTASK_DISPLAY : Nat
  LCUI_WTASK_FLEX : Nat
  LCUI_WTASK_PROPS : Nat
  LCUI_WTASK_UPDATE_STYLE : Nat
  LCUI_WTASK_REFRESH_STYLE : Nat
  LCUI_WTASK_TITLE : Nat
  LCUI_WTASK_USER : Nat
  LCUI_WTASK_REFLOW : Nat
  LCUI_WTASK_TOTAL_NUM : Nat
  LCUI_WSTATE_UPDATED : Nat
  LCUI_WSTATE_LAYOUTED : Nat
  LCUI_WSTATE_NORMAL : Nat
  LCUI_WSTATE_DELETED : Nat
  SV_NONE : Int
  SV_STATIC : Int
  SV_ABSOLUTE : Int
  SV_PADDING_BOX : Int
  SV_BORDER_BOX : Int
  SV_GRAPH_BOX : Int
  LCUI_WEVENT_SHOW : Nat
  LCUI_WEVENT_HIDE : Nat
  LCUI_WEVENT_TITLE : Nat
  key_width : Nat
  key_height : Nat
  CLOCKS_PER_SEC : Nat
  LCUI_MAX_FRAMES_PER_SEC : Nat

/-! ## Data model -/

/-- Rectangle with float members (LCUI_RectF). -/
structure LCUI_RectF where
  x : Int
  y : Int
  width : Int
  height : Int
deriving DecidableEq, Repr

/-- Four float edges (LCUI_Rect2F). -/
structure LCUI_Rect2F where
  left : Int
  top : Int
  right : Int
  bottom : Int
deriving DecidableEq, Repr

/-- Box model of a widget (LCUI_WidgetBoxModelRec). -/
structure LCUI_WidgetBoxModelRec where
  content : LCUI_RectF
  padding : LCUI_RectF
  border : LCUI_RectF
  canvas : LCUI_RectF
  outer : LCUI_RectF
deriving DecidableEq, Repr

/-- Flex properties of the computed style (LCUI_FlexBoxLayoutStyle). -/
structure LCUI_FlexBoxLayoutStyle where
  wrap : Int
  direction : Int
  justify_content : Int
  align_content : Int
  align_items : Int
  grow : Int
  shrink : Int
  basis : Int
deriving DecidableEq, Repr

/-- The members of the computed style (LCUI_WidgetStyle) that the module
reads.  `border`, `shadow` and `background` stand for the content of the
corresponding structures. -/
structure LCUI_WidgetStyle where
  visible : Bool
  display : Int
  position : Int
  z_index : Int
  opacity : Int
  left : Int
  right : Int
  top : Int
  bottom : Int
  border : Nat
  shadow : Nat
  background : Nat
  flex : LCUI_FlexBoxLayoutStyle
deriving DecidableEq, Repr

/-- The task record of a widget: `w->task`. -/
structure LCUI_WidgetTaskBoxRec where
  for_self : Bool
  for_children : Bool
  states : Nat → Bool

/-- The update rules of a widget (LCUI_WidgetRulesRec). `on_update_progress`
tells whether the callback pointer is set. -/
structure LCUI_WidgetRulesRec where
  only_on_visible : Bool
  first_update_visible_children : Bool
  cache_children_style : Bool
  max_update_children_count : Int
  on_update_progress : Bool
deriving DecidableEq, Repr

/-- The rules data of a widget (LCUI_WidgetRulesDataRec): what `w->rules`
points to.  `style_cache` is a pointer to a dictionary of the heap of
dictionaries. -/
structure LCUI_WidgetRulesDataRec where
  rules : LCUI_WidgetRulesRec
  style_cache : Option Nat
  default_max_update_count : Nat
  progress : Nat
deriving DecidableEq, Repr

/-- A resolved style sheet pointer: either a sheet of the global cache
(returned by LCUI_GetCachedStyleSheet) or a sheet created by StyleSheet(). -/
inductive StyleRef where
  | cached (id : Nat)
  | sheet (id : Nat)
deriving DecidableEq, Repr

/-- The members of a widget (LCUI_WidgetRec) that the module uses.
`has_runtask` stands for `w->proto && w->proto->runtask`, `children_show_length`
for `w->children_show.length`. -/
structure Widget where
  state : Nat
  index : Nat
  hash : Nat
  parent : Option Nat
  children : List Nat
  children_show_length : Nat
  task : LCUI_WidgetTaskBoxRec
  computed_style : LCUI_WidgetStyle
  width : Int
  height : Int
  margin : LCUI_Rect2F
  padding : LCUI_Rect2F
  box : LCUI_WidgetBoxModelRec
  inherited_style : Option StyleRef
  rules : Option LCUI_WidgetRulesDataRec
  has_runtask : Bool

/-- An all-zero rectangle. -/
def LCUI_RectF.zero : LCUI_RectF := ⟨0, 0, 0, 0⟩

/-- An all-zero box model. -/
def LCUI_WidgetBoxModelRec.zero : LCUI_WidgetBoxModelRec :=
  ⟨LCUI_RectF.zero, LCUI_RectF.zero, LCUI_RectF.zero, LCUI_RectF.zero, LCUI_RectF.zero⟩

/-- An all-zero computed style. -/
def LCUI_WidgetStyle.zero : LCUI_WidgetStyle :=
  { visible := false, display := 0, position := 0, z_index := 0, opacity := 0,
    left := 0, right := 0, top := 0, bottom := 0, border := 0, shadow := 0,
    background := 0, flex := ⟨0, 0, 0, 0, 0, 0, 0, 0⟩ }

/-- What reading through an index outside the arena yields: a widget without
links and without flags. -/
def Widget.null : Widget :=
  { state := 0, index := 0, hash := 0, parent := none, children := [],
    children_show_length := 0,
    task := { for_self := false, for_children := false, states := fun _ => false },
    computed_style := LCUI_WidgetStyle.zero, width := 0, height := 0,
    margin := ⟨0, 0, 0, 0⟩, padding := ⟨0, 0, 0, 0⟩,
    box := LCUI_WidgetBoxModelRec.zero, inherited_style := none, rules := none,
    has_runtask := false }

/-- Read the widget behind a pointer. -/
def getW (ws : List Widget) (i : Nat) : Widget := ws.getD i Widget.null

/-- Write through a widget pointer: the widget at `i` becomes `f` of itself. -/
def updW (ws : List Widget) (i : Nat) (f : Widget → Widget) : List Widget :=
  ws.set i (f (getW ws i))

/-- The assignment `states[task] = value`. -/
def setState (states : Nat → Bool) (task : Nat) (value : Bool) : Nat → Bool :=
  fun i => if i = task then value else states i

/-- The assignment `w->task.for_children = value`. -/
def Widget.setForChildren (w : Widget) (value : Bool) : Widget :=
  { w with task := { w.task with for_children := value } }

/-- The assignment `w->task.for_self = value`. -/
def Widget.setForSelf (w : Widget) (value : Bool) : Widget :=
  { w with task := { w.task with for_self := value } }

/-- The assignment `w->task.states[task] = value`. -/
def Widget.setTaskState (w : Widget) (task : Nat) (value : Bool) : Widget :=
  { w with task := { w.task with states := setState w.task.states task value } }

/-! ## Task flags and their propagation (lines 161-217) -/

/-- The loop `while (widget && !widget->task.for_children)` shared by
Widget_AddTask (lines 213-216) and Widget_UpdateTaskStatus (lines 184-187):
mark the widget under the cursor and move to its parent.  The first argument
bounds the number of iterations; each iteration marks a widget that was not
marked, so the number of widgets of the arena plus one is enough. -/
def markParents : Nat → List Widget → Option Nat → List Widget
  | 0, ws, _ => ws
  | _ + 1, ws, none => ws
  | n + 1, ws, some i =>
    if (getW ws i).task.for_children then ws
    else markParents n (updW ws i (fun w => w.setForChildren true)) (getW ws i).parent

/-- Widget_AddTask (lines 203-217). -/
def Widget_AddTask (K : Defs) (ws : List Widget) (widget : Nat) (task : Nat) : List Widget :=
  if (getW ws widget).state = K.LCUI_WSTATE_DELETED then ws
  else
    let ws1 := updW ws widget (fun w => (w.setForSelf true).setTaskState task true)
    markParents (ws1.length + 1) ws1 (getW ws1 widget).parent

/-- Widget_UpdateTaskStatus (lines 171-188). -/
def Widget_UpdateTaskStatus (K : Defs) (ws : List Widget) (widget : Nat) : List Widget :=
  if (List.range K.LCUI_WTASK_TOTAL_NUM).any (fun i => (getW ws widget).task.states i) then
    let ws1 := updW ws widget (fun w => w.setForSelf true)
    markParents (ws1.length + 1) ws1 (some widget)
  else ws

/-- The loop of Widget_AddTaskForChildren over the children (lines 196-200),
given the function that handles the subtree of one child. -/
def addTaskForChildrenLoop (K : Defs) (rec_call : List Widget → Nat → Option (List Widget))
    (task : Nat) : List Nat → List Widget → Option (List Widget)
  | [], ws => some ws
  | child :: rest, ws =>
    match rec_call (Widget_AddTask K ws child task) child with
    | none => none
    | some ws1 => addTaskForChildrenLoop K rec_call task rest ws1

/-- Widget_AddTaskForChildren (lines 190-201).  The first argument bounds the
depth of the recursion; `none` means that the bound was reached. -/
def Widget_AddTaskForChildren (K : Defs) : Nat → List Widget → Nat → Nat → Option (List Widget)
  | 0, _, _, _ => none
  | fuel + 1, ws, widget, task =>
    let ws1 := updW ws widget (fun w => w.setForChildren true)
    addTaskForChildrenLoop K (fun ws2 child => Widget_AddTaskForChildren K fuel ws2 child task)
      task (getW ws1 widget).children ws1

/-- Widget_OnUpdateContentBox (lines 161-169). -/
def Widget_OnUpdateContentBox (K : Defs) (ws : List Widget) (w : Nat) : List Widget :=
  (getW ws w).children.foldl
    (fun acc child =>
      Widget_AddTask K (Widget_AddTask K acc child K.LCUI_WTASK_POSITION) child K.LCUI_WTASK_RESIZE)
    ws

/-! ## Update contexts, the module state and the environment -/

/-- Snapshot for the difference check (LCUI_WidgetTaskDiffRec, lines 46-70). -/
structure LCUI_WidgetTaskDiffRec where
  z_index : Int
  display : Int
  left : Int
  right : Int
  top : Int
  bottom : Int
  width : Int
  height : Int
  opacity : Int
  visible : Bool
  margin : LCUI_Rect2F
  padding : LCUI_Rect2F
  position : Int
  border : Nat
  shadow : Nat
  background : Nat
  box : LCUI_WidgetBoxModelRec
  flex : LCUI_FlexBoxLayoutStyle
  invalid_box : Int
  can_render : Bool
  sync_props_to_surface : Bool
  should_add_invalid_area : Bool
deriving DecidableEq, Repr

/-- The result of `memset(&ctx->diff, 0, sizeof(ctx->diff))`. -/
def LCUI_WidgetTaskDiffRec.zero : LCUI_WidgetTaskDiffRec :=
  { z_index := 0, display := 0, left := 0, right := 0, top := 0, bottom := 0,
    width := 0, height := 0, opacity := 0, visible := false,
    margin := ⟨0, 0, 0, 0⟩, padding := ⟨0, 0, 0, 0⟩, position := 0, border := 0,
    shadow := 0, background := 0, box := LCUI_WidgetBoxModelRec.zero,
    flex := ⟨0, 0, 0, 0, 0, 0, 0, 0⟩, invalid_box := 0, can_render := false,
    sync_props_to_surface := false, should_add_invalid_area := false }

/-- One update context (LCUI_WidgetTaskContextRec, lines 80-86).  The member
`parent` is not stored here: a context pointer is the list made of the
context and of its ancestors, see `LCUI_WidgetTaskContext`.  `owner` is not a
member of the C structure: it records the widget for which Widget_BeginUpdate
created the context. -/
structure LCUI_WidgetTaskContextRec where
  style_hash : Nat
  style_cache : Option Nat
  diff : LCUI_WidgetTaskDiffRec
  profile : Option Nat
  owner : Nat
deriving DecidableEq, Repr

/-- A context pointer: `[]` is NULL, otherwise the head is the context pointed
to and the tail is what its member `parent` points to. -/
abbrev LCUI_WidgetTaskContext := List LCUI_WidgetTaskContextRec

/-- Argument of the layout engine (LCUI_WidgetLayoutContextRec). -/
structure LCUI_WidgetLayoutContextRec where
  container : Nat
  box : LCUI_WidgetBoxModelRec
  invalid_box : Int
  should_add_invalid_area : Bool
deriving DecidableEq, Repr

/-- The style computing functions of other modules that LCUIWidget_InitTasks
installs as task handlers (lines 222-234). -/
inductive ComputeFn where
  | Widget_ComputeVisibilityStyle
  | Widget_ComputePositionStyle
  | Widget_ComputeSizeStyle
  | Widget_ComputeBoxShadowStyle
  | Widget_ComputeBorderStyle
  | Widget_ComputeOpacityStyle
  | Widget_ComputeMarginStyle
  | Widget_ComputePaddingStyle
  | Widget_ComputeBackgroundStyle
  | Widget_ComputeZIndexStyle
  | Widget_ComputeDisplayStyle
  | Widget_ComputeFlexBoxStyle
  | Widget_ComputeProperties
deriving DecidableEq, Repr

/-- An entry of the handler table `self.handlers`. -/
inductive Handler where
  | compute (fn : ComputeFn)
  | Widget_OnUpdateStyle
  | Widget_OnRefreshStyle
  | Widget_OnSetTitle
deriving DecidableEq, Repr

/-- A call of a function of another module that may change widgets.
`LCUI_GetStyleSheet w sheet` stands for the selector matching of lines
465-468 into the new sheet, `LCUI_GetCachedStyleSheet w` for lines 472-474. -/
inductive Call where
  | compute (fn : ComputeFn) (w : Nat)
  | runtask (w : Nat)
  | Widget_ExecUpdateStyle (w : Nat) (is_refresh_all : Bool)
  | Widget_UpdateStyle (w : Nat) (is_refresh_all : Bool)
  | Widget_PostSurfaceEvent (w : Nat) (event : Nat) (bubble : Bool)
  | Widget_UpdateBoxSize (w : Nat)
  | Widget_UpdateBoxPosition (w : Nat)
  | Widget_UpdateCanvasBox (w : Nat)
  | Widget_InvalidateArea (w : Nat) (rect : Option LCUI_RectF) (box : Int)
  | Widget_AddState (w : Nat) (state : Nat)
  | Widget_SortChildrenShow (w : Nat)
  | LCUIWidgetLayout_Reflow (ctx : LCUI_WidgetLayoutContextRec)
  | Widget_GenerateSelfHash (w : Nat)
  | LCUI_GetStyleSheet (w : Nat) (sheet : Nat)
  | LCUI_GetCachedStyleSheet (w : Nat)
  | on_update_progress (w : Nat) (progress : Nat)
  | LCUIWidget_ClearTrash
deriving DecidableEq, Repr

/-- The functions of other modules and of the C library.  `effect` is what a
call does to the widgets; `malloc n` is the result of the n-th allocation of
a context (`none` when it fails, otherwise the indeterminate content of the
new block); `clock n` is the result of the n-th call of `clock()`;
`Widget_GetOffset` receives the values its two output arguments hold when it
is called and returns the values they hold afterwards. -/
structure Env where
  effect : Call → List Widget → List Widget
  malloc : Nat → Option LCUI_WidgetTaskContextRec
  clock : Nat → Int
  LCUIWidget_GetRoot : Nat
  LCUIWidget_ClearTrash : List Widget → Nat
  LCUI_GetCachedStyleSheet : List Widget → Nat → Nat
  Widget_IsFlexLayoutStyleWorks : List Widget → Nat → Bool
  Widget_InVisibleArea : List Widget → Nat → Bool
  Widget_HasAutoStyle : List Widget → Nat → Nat → Bool
  Widget_GetOffset : List Widget → Nat → Int × Int → Int × Int
  LCUIRectF_IsCoverRect : LCUI_RectF → LCUI_RectF → Bool
  LCUIRectF_MergeRect : LCUI_RectF → LCUI_RectF → LCUI_RectF
  LCUIRectF_GetOverlayRect : LCUI_RectF → LCUI_RectF → Option LCUI_RectF
  LCUIRectF_ValidateArea : LCUI_RectF → Int → Int → LCUI_RectF

/-- The module state: `static struct WidgetTaskModule self` (lines 88-94).
`metrics` stands for the content of the stored LCUI_MetricsRec. -/
structure WidgetTaskModule where
  max_updates_per_frame : Nat
  metrics : Nat
  refresh_all : Bool
  handlers : Nat → Option Handler

/-- The profile filled by the profiling entry points (LCUI_WidgetTasksProfileRec). -/
structure LCUI_WidgetTasksProfileRec where
  time : Int
  destroy_time : Int
  destroy_count : Nat
deriving DecidableEq, Repr

/-- The state the module works on: the widgets, the module state, the heap of
style cache dictionaries (a dictionary maps a key to the number of a style
sheet), the number of style sheets created, of contexts allocated and of
`clock()` calls so far, the current display metrics (what LCUI_GetMetrics
points to), the profile and the calls made so far. -/
structure World where
  widgets : List Widget
  self : WidgetTaskModule
  dicts : List (List (Nat × Nat))
  sheets : Nat
  mallocs : Nat
  clocks : Nat
  metrics : Nat
  profile : LCUI_WidgetTasksProfileRec
  trace : List Call

/-- What stops a run of the model short of a result: the recursion bound was
reached, or a NULL pointer was dereferenced. -/
inductive Fault where
  | fuel
  | null
deriving DecidableEq, Repr

/-- Make a call of another module: apply its effect and record it. -/
def World.call (E : Env) (S : World) (c : Call) : World :=
  { S with widgets := E.effect c S.widgets, trace := S.trace ++ [c] }

/-- Apply a change to the widgets. -/
def World.onWidgets (S : World) (f : List Widget → List Widget) : World :=
  { S with widgets := f S.widgets }

/-- The call `clock()`. -/
def World.clock (E : Env) (S : World) : Int × World :=
  (E.clock S.clocks, { S with clocks := S.clocks + 1 })

/-! ## Handlers (lines 140-159, 219-242) -/

/-- The states after lines 145-148 of Widget_OnRefreshStyle: every state
between UPDATE_STYLE and REFLOW (both excluded) is set and UPDATE_STYLE is
cleared. -/
def refreshStates (K : Defs) (states : Nat → Bool) : Nat → Bool :=
  fun i =>
    if i = K.LCUI_WTASK_UPDATE_STYLE then false
    else if K.LCUI_WTASK_UPDATE_STYLE + 1 ≤ i ∧ i < K.LCUI_WTASK_REFLOW then true
    else states i

/-- Widget_OnRefreshStyle (lines 140-149). -/
def Widget_OnRefreshStyle (K : Defs) (E : Env) (S : World) (w : Nat) : World :=
  let S1 := S.call E (Call.Widget_ExecUpdateStyle w true)
  S1.onWidgets (fun ws => updW ws w (fun x =>
    { x with task := { x.task with states := refreshStates K x.task.states } }))

/-- Widget_OnUpdateStyle (lines 151-154). -/
def Widget_OnUpdateStyle (E : Env) (S : World) (w : Nat) : World :=
  S.call E (Call.Widget_ExecUpdateStyle w false)

/-- Widget_OnSetTitle (lines 156-159). -/
def Widget_OnSetTitle (K : Defs) (E : Env) (S : World) (w : Nat) : World :=
  S.call E (Call.Widget_PostSurfaceEvent w K.LCUI_WEVENT_TITLE true)

/-- The call `self.handlers[i](w)` for a non-NULL entry. -/
def runHandler (K : Defs) (E : Env) (S : World) (h : Handler) (w : Nat) : World :=
  match h with
  | Handler.compute fn => S.call E (Call.compute fn w)
  | Handler.Widget_OnUpdateStyle => Widget_OnUpdateStyle E S w
  | Handler.Widget_OnRefreshStyle => Widget_OnRefreshStyle K E S w
  | Handler.Widget_OnSetTitle => Widget_OnSetTitle K E S w

/-- The assignment `self.handlers[i] = h`. -/
def setHandler (handlers : Nat → Option Handler) (i : Nat) (h : Option Handler) :
    Nat → Option Handler :=
  fun j => if j = i then h else handlers j

/-- LCUIWidget_InitTasks (lines 219-242). -/
def LCUIWidget_InitTasks (K : Defs) (S : World) : World :=
  let h0 := S.self.handlers
  let h1 := setHandler h0 K.LCUI_WTASK_VISIBLE (some (Handler.compute ComputeFn.Widget_ComputeVisibilityStyle))
  let h2 := setHandler h1 K.LCUI_WTASK_POSITION (some (Handler.compute ComputeFn.Widget_ComputePositionStyle))
  let h3 := setHandler h2 K.LCUI_WTASK_RESIZE (some (Handler.compute ComputeFn.Widget_ComputeSizeStyle))
  let h4 := setHandler h3 K.LCUI_WTASK_SHADOW (some (Handler.compute ComputeFn.Widget_ComputeBoxShadowStyle))
  let h5 := setHandler h4 K.LCUI_WTASK_BORDER (some (Handler.compute ComputeFn.Widget_ComputeBorderStyle))
  let h6 := setHandler h5 K.LCUI_WTASK_OPACITY (some (Handler.compute ComputeFn.Widget_ComputeOpacityStyle))
  let h7 := setHandler h6 K.LCUI_WTASK_MARGIN (some (Handler.compute ComputeFn.Widget_ComputeMarginStyle))
  let h8 := setHandler h7 K.LCUI_WTASK_PADDING (some (Handler.compute ComputeFn.Widget_ComputePaddingStyle))
  let h9 := setHandler h8 K.LCUI_WTASK_BACKGROUND (some (Handler.compute ComputeFn.Widget_ComputeBackgroundStyle))
  let h10 := setHandler h9 K.LCUI_WTASK_ZINDEX (some (Handler.compute ComputeFn.Widget_ComputeZIndexStyle))
  let h11 := setHandler h10 K.LCUI_WTASK_DISPLAY (some (Handler.compute ComputeFn.Widget_ComputeDisplayStyle))
  let h12 := setHandler h11 K.LCUI_WTASK_FLEX (some (Handler.compute ComputeFn.Widget_ComputeFlexBoxStyle))
  let h13 := setHandler h12 K.LCUI_WTASK_PROPS (some (Handler.compute ComputeFn.Widget_ComputeProperties))
  let h14 := setHandler h13 K.LCUI_WTASK_UPDATE_STYLE (some Handler.Widget_OnUpdateStyle)
  let h15 := setHandler h14 K.LCUI_WTASK_REFRESH_STYLE (some Handler.Widget_OnRefreshStyle)
  let h16 := setHandler h15 K.LCUI_WTASK_TITLE (some Handler.Widget_OnSetTitle)
  let h17 := setHandler h16 K.LCUI_WTASK_REFLOW none
  { S with self := { S.self with handlers := h17, refresh_all := true, max_updates_per_frame := 4 } }

/-! ## The diff protocol (lines 249-413) -/

/-- The end of Widget_InitDiff (lines 264-267), reached when no parent
context stops it. -/
def Widget_InitDiff_eligible (K : Defs) (S : World) (w : Nat)
    (d : LCUI_WidgetTaskDiffRec) : LCUI_WidgetTaskDiffRec :=
  let d1 :=
    if (getW S.widgets w).state < K.LCUI_WSTATE_LAYOUTED then
      { d with invalid_box := K.SV_GRAPH_BOX }
    else d
  { d1 with should_add_invalid_area := true }

/-- Widget_InitDiff (lines 249-268) on the context `ctx` whose member
`parent` is `parent`. -/
def Widget_InitDiff (K : Defs) (S : World) (w : Nat) (ctx : LCUI_WidgetTaskContextRec)
    (parent : LCUI_WidgetTaskContext) : LCUI_WidgetTaskContextRec :=
  let d0 : LCUI_WidgetTaskDiffRec :=
    { ctx.diff with
      can_render := true
      invalid_box := if S.self.refresh_all then K.SV_GRAPH_BOX else 0
      should_add_invalid_area := false }
  match parent with
  | [] => { ctx with diff := Widget_InitDiff_eligible K S w d0 }
  | p :: _ =>
    if !p.diff.can_render then
      { ctx with diff := { d0 with can_render := false } }
    else if p.diff.invalid_box ≥ K.SV_PADDING_BOX then
      { ctx with diff := { d0 with invalid_box := K.SV_GRAPH_BOX } }
    else { ctx with diff := Widget_InitDiff_eligible K S w d0 }

/-- Widget_BeginDiff (lines 270-297). -/
def Widget_BeginDiff (K : Defs) (S : World) (w : Nat) (ctx : LCUI_WidgetTaskContextRec)
    (parent : LCUI_WidgetTaskContext) : LCUI_WidgetTaskContextRec :=
  if S.self.refresh_all then
    Widget_InitDiff K S w { ctx with diff := LCUI_WidgetTaskDiffRec.zero } parent
  else
    let x := getW S.widgets w
    let style := x.computed_style
    { ctx with diff :=
      { ctx.diff with
        left := style.left
        right := style.right
        top := style.top
        bottom := style.bottom
        width := x.width
        height := x.height
        margin := x.margin
        padding := x.padding
        display := style.display
        z_index := style.z_index
        visible := style.visible
        opacity := style.opacity
        position := style.position
        shadow := style.shadow
        border := style.border
        background := style.background
        flex := style.flex
        box := x.box } }

/-- Widget_AddReflowTask (lines 299-307); the argument may be NULL. -/
def Widget_AddReflowTask (K : Defs) (E : Env) (ws : List Widget) (w : Option Nat) :
    List Widget :=
  match w with
  | none => ws
  | some i =>
    let ws1 :=
      match (getW ws i).parent with
      | some p =>
        if E.Widget_IsFlexLayoutStyleWorks ws i then Widget_AddTask K ws p K.LCUI_WTASK_REFLOW
        else ws
      | none => ws
    Widget_AddTask K ws1 i K.LCUI_WTASK_REFLOW

/-- Lines 318-326 of Widget_EndDiff: the visibility check. -/
def Widget_EndDiff_visibility (K : Defs) (E : Env) (S : World) (w : Nat)
    (diff : LCUI_WidgetTaskDiffRec) : LCUI_WidgetTaskDiffRec × World :=
  let visible := (getW S.widgets w).computed_style.visible
  let d1 := { diff with can_render := visible }
  if visible != diff.visible then
    ({ d1 with invalid_box := K.SV_GRAPH_BOX },
      S.call E (Call.Widget_PostSurfaceEvent w
        (if visible then K.LCUI_WEVENT_SHOW else K.LCUI_WEVENT_HIDE) true))
  else (d1, S)

/-- Lines 330-331 of Widget_EndDiff: the box model is recomputed. -/
def Widget_EndDiff_boxes (E : Env) (S : World) (w : Nat) : World :=
  (S.call E (Call.Widget_UpdateBoxSize w)).call E (Call.Widget_UpdateBoxPosition w)

/-- Lines 332-341 of Widget_EndDiff: changes of the padding, outer and canvas
boxes. -/
def Widget_EndDiff_geometry (K : Defs) (E : Env) (S : World) (w : Nat)
    (diff : LCUI_WidgetTaskDiffRec) : LCUI_WidgetTaskDiffRec × World :=
  let box := (getW S.widgets w).box
  if diff.box.padding ≠ box.padding then
    ({ diff with invalid_box := K.SV_GRAPH_BOX },
      S.onWidgets (fun ws =>
        Widget_AddReflowTask K E (Widget_OnUpdateContentBox K ws w) (some w)))
  else if diff.box.outer ≠ box.outer then
    ({ diff with invalid_box := K.SV_GRAPH_BOX },
      S.onWidgets (fun ws => Widget_AddReflowTask K E ws (getW ws w).parent))
  else if diff.box.canvas ≠ box.canvas then
    ({ diff with invalid_box := K.SV_GRAPH_BOX }, S)
  else (diff, S)

/-- Lines 342-355 of Widget_EndDiff: changes of the flex properties. -/
def Widget_EndDiff_flex (K : Defs) (E : Env) (S : World) (w : Nat)
    (diff : LCUI_WidgetTaskDiffRec) : World :=
  if E.Widget_IsFlexLayoutStyleWorks S.widgets w then
    let style := (getW S.widgets w).computed_style
    let S1 :=
      if diff.flex.wrap ≠ style.flex.wrap ∨ diff.flex.direction ≠ style.flex.direction ∨
          diff.flex.justify_content ≠ style.flex.justify_content ∨
          diff.flex.align_content ≠ style.flex.align_content ∨
          diff.flex.align_items ≠ style.flex.align_items then
        S.onWidgets (fun ws => Widget_AddReflowTask K E ws (some w))
      else S
    let style1 := (getW S1.widgets w).computed_style
    if diff.flex.grow ≠ style1.flex.grow ∨ diff.flex.shrink ≠ style1.flex.shrink ∨
        diff.flex.basis ≠ style1.flex.basis then
      S1.onWidgets (fun ws => Widget_AddReflowTask K E ws (getW ws w).parent)
    else S1
  else S

/-- Lines 356-371 of Widget_EndDiff: changes of the display and of the
position mode. -/
def Widget_EndDiff_display (K : Defs) (E : Env) (S : World) (w : Nat)
    (diff : LCUI_WidgetTaskDiffRec) : LCUI_WidgetTaskDiffRec × World :=
  let style := (getW S.widgets w).computed_style
  if diff.display ≠ style.display then
    let S1 :=
      if style.position ≠ K.SV_ABSOLUTE then
        S.onWidgets (fun ws => Widget_AddReflowTask K E ws (getW ws w).parent)
      else S
    let S2 :=
      if (getW S1.widgets w).computed_style.display ≠ K.SV_NONE then
        S1.onWidgets (fun ws => Widget_AddReflowTask K E ws (some w))
      else S1
    ({ diff with invalid_box := K.SV_GRAPH_BOX }, S2)
  else if diff.position ≠ style.position then
    let S1 :=
      if diff.position = K.SV_ABSOLUTE ∨ style.position = K.SV_ABSOLUTE then
        S.onWidgets (fun ws => Widget_AddReflowTask K E ws (some w))
      else S
    ({ diff with invalid_box := K.SV_GRAPH_BOX },
      S1.onWidgets (fun ws => Widget_AddReflowTask K E ws (getW ws w).parent))
  else (diff, S)

/-- Lines 378-391 of Widget_EndDiff: the level of the repaint; `none` is the
`return 0` of line 390. -/
def Widget_EndDiff_level (K : Defs) (style : LCUI_WidgetStyle)
    (diff : LCUI_WidgetTaskDiffRec) : Option LCUI_WidgetTaskDiffRec :=
  if diff.invalid_box = K.SV_GRAPH_BOX then some diff
  else if diff.z_index ≠ style.z_index ∧ style.position ≠ K.SV_STATIC then
    some { diff with invalid_box := K.SV_GRAPH_BOX }
  else if diff.shadow ≠ style.shadow then
    some { diff with invalid_box := K.SV_GRAPH_BOX }
  else if diff.invalid_box = K.SV_BORDER_BOX then some diff
  else if diff.border ≠ style.border then
    some { diff with invalid_box := K.SV_BORDER_BOX }
  else if diff.background ≠ style.background then
    some { diff with invalid_box := K.SV_BORDER_BOX }
  else none

/-- Lines 394-412 of Widget_EndDiff: the invalid area is handed to the
painter, unless a reflow is pending. -/
def Widget_EndDiff_emit (K : Defs) (E : Env) (S : World) (w : Nat)
    (diff : LCUI_WidgetTaskDiffRec) : Int × World :=
  if (getW S.widgets w).task.states K.LCUI_WTASK_REFLOW then (0, S)
  else
    let S1 :=
      if diff.invalid_box ≥ K.SV_BORDER_BOX then S.call E (Call.Widget_UpdateCanvasBox w)
      else S
    match (getW S1.widgets w).parent with
    | none => (1, S1.call E (Call.Widget_InvalidateArea w none diff.invalid_box))
    | some p =>
      if !E.LCUIRectF_IsCoverRect diff.box.canvas (getW S1.widgets w).box.canvas then
        let S2 := S1.call E (Call.Widget_InvalidateArea p (some diff.box.canvas) K.SV_PADDING_BOX)
        (1, S2.call E (Call.Widget_InvalidateArea w none diff.invalid_box))
      else
        let rect := E.LCUIRectF_MergeRect diff.box.canvas (getW S1.widgets w).box.canvas
        (1, S1.call E (Call.Widget_InvalidateArea p (some rect) K.SV_PADDING_BOX))

/-- Widget_EndDiff (lines 309-413): the returned value, the context with its
diff as the function leaves it, and the state. -/
def Widget_EndDiff (K : Defs) (E : Env) (S : World) (w : Nat)
    (ctx : LCUI_WidgetTaskContextRec) : Int × LCUI_WidgetTaskContextRec × World :=
  if !ctx.diff.can_render then (0, ctx, S)
  else
    let (d1, S1) := Widget_EndDiff_visibility K E S w ctx.diff
    let S2 := Widget_EndDiff_boxes E S1 w
    let (d3, S3) := Widget_EndDiff_geometry K E S2 w d1
    let S4 := Widget_EndDiff_flex K E S3 w d3
    let (d5, S5) := Widget_EndDiff_display K E S4 w d3
    if !d5.should_add_invalid_area then (0, { ctx with diff := d5 }, S5)
    else
      match Widget_EndDiff_level K (getW S5.widgets w).computed_style d5 with
      | none => (0, { ctx with diff := d5 }, S5)
      | some d6 =>
        let (r, S6) := Widget_EndDiff_emit K E S5 w d6
        (r, { ctx with diff := d6 }, S6)

/-! ## Entering and leaving the update of a widget (lines 415-487) -/

/-- Lines 432-438 of Widget_BeginUpdate: the style cache and the style hash
of the nearest context of the chain that has a style cache. -/
def findStyleCache : LCUI_WidgetTaskContext → Option (Nat × Nat)
  | [] => none
  | p :: rest =>
    match p.style_cache with
    | some cache => some (cache, p.style_hash)
    | none => findStyleCache rest

/-- Dict_FetchValue on a dictionary of the heap. -/
def Dict_FetchValue (dicts : List (List (Nat × Nat))) (d : Nat) (key : Nat) : Option Nat :=
  ((dicts.getD d []).find? (fun e => e.1 = key)).map (fun e => e.2)

/-- Dict_Add on a dictionary of the heap. -/
def Dict_Add (dicts : List (List (Nat × Nat))) (d : Nat) (key : Nat) (val : Nat) :
    List (List (Nat × Nat)) :=
  dicts.set d ((dicts.getD d []) ++ [(key, val)])

/-- The key of line 461, `((hash << 5) + hash) + w->hash` on `unsigned`. -/
def styleCacheKey (hash : Nat) (widget_hash : Nat) : Nat :=
  ((((hash <<< 5) % 2 ^ 32 + hash) % 2 ^ 32) + widget_hash) % 2 ^ 32

/-- Lines 447-457 of Widget_BeginUpdate: a widget whose rules ask for it
becomes the owner of the style cache of its subtree. -/
def Widget_BeginUpdate_own (E : Env) (S : World) (w : Nat)
    (c : LCUI_WidgetTaskContextRec) : LCUI_WidgetTaskContextRec × World :=
  match c.style_cache, (getW S.widgets w).rules with
  | none, some data =>
    if data.rules.cache_children_style then
      let S1 :=
        match data.style_cache with
        | some _ => S
        | none =>
          { S with
            dicts := S.dicts ++ [[]]
            widgets := updW S.widgets w (fun x =>
              { x with rules := some { data with style_cache := some S.dicts.length } }) }
      let S2 := S1.call E (Call.Widget_GenerateSelfHash w)
      ({ c with
          style_hash := (getW S2.widgets w).hash
          style_cache := (getW S2.widgets w).rules.bind (fun d => d.style_cache) }, S2)
    else (c, S)
  | _, _ => (c, S)

/-- Lines 458-475 of Widget_BeginUpdate: the inherited style is resolved,
through the style cache of the context when there is one and the widget has
a hash, through the global cache otherwise. -/
def Widget_BeginUpdate_resolve (E : Env) (S : World) (w : Nat)
    (c : LCUI_WidgetTaskContextRec) : World :=
  match c.style_cache with
  | some cache =>
    if (getW S.widgets w).hash ≠ 0 then
      let hash := styleCacheKey c.style_hash (getW S.widgets w).hash
      match Dict_FetchValue S.dicts cache hash with
      | some style =>
        S.onWidgets (fun ws => updW ws w (fun x =>
          { x with inherited_style := some (StyleRef.sheet style) }))
      | none =>
        let style := S.sheets
        let S1 := { S with sheets := S.sheets + 1 }
        let S2 := S1.call E (Call.LCUI_GetStyleSheet w style)
        let S3 := { S2 with dicts := Dict_Add S2.dicts cache hash style }
        S3.onWidgets (fun ws => updW ws w (fun x =>
          { x with inherited_style := some (StyleRef.sheet style) }))
    else
      let style := E.LCUI_GetCachedStyleSheet S.widgets w
      (S.call E (Call.LCUI_GetCachedStyleSheet w)).onWidgets (fun ws => updW ws w (fun x =>
        { x with inherited_style := some (StyleRef.cached style) }))
  | none =>
    let style := E.LCUI_GetCachedStyleSheet S.widgets w
    (S.call E (Call.LCUI_GetCachedStyleSheet w)).onWidgets (fun ws => updW ws w (fun x =>
      { x with inherited_style := some (StyleRef.cached style) }))

/-- Widget_BeginUpdate (lines 415-480): the new context (NULL when the
allocation fails) and the state.  The new context has `ctx` as parent. -/
def Widget_BeginUpdate (K : Defs) (E : Env) (S : World) (w : Nat)
    (ctx : LCUI_WidgetTaskContext) : Option LCUI_WidgetTaskContextRec × World :=
  let S0 := { S with mallocs := S.mallocs + 1 }
  match E.malloc S.mallocs with
  | none => (none, S0)
  | some block =>
    let c1 : LCUI_WidgetTaskContextRec :=
      match findStyleCache ctx with
      | some (cache, hash) =>
        { block with style_cache := some cache, style_hash := hash, owner := w }
      | none => { block with style_cache := none, owner := w }
    let c2 : LCUI_WidgetTaskContextRec :=
      { c1 with profile := match ctx with
                           | p :: _ => p.profile
                           | [] => none }
    let S1 :=
      if (getW S0.widgets w).hash ≠ 0 ∧
          (getW S0.widgets w).task.states K.LCUI_WTASK_REFRESH_STYLE = true then
        S0.call E (Call.Widget_GenerateSelfHash w)
      else S0
    let (c3, S2) := Widget_BeginUpdate_own E S1 w c2
    let inherited_style := (getW S2.widgets w).inherited_style
    let S3 := Widget_BeginUpdate_resolve E S2 w c3
    let S4 :=
      if (getW S3.widgets w).inherited_style ≠ inherited_style then
        S3.onWidgets (fun ws => Widget_AddTask K ws w K.LCUI_WTASK_REFRESH_STYLE)
      else S3
    (some c3, S4)

/-- Widget_EndUpdate (lines 482-487): the context is released. -/
def Widget_EndUpdate (S : World) (_ctx : LCUI_WidgetTaskContextRec) : World := S

/-! ## Updating a widget and its children (lines 489-695) -/

/-- The type of Widget_UpdateWithContext, which the two functions that walk
over the children call back. -/
abbrev UpdateFn := World → Nat → LCUI_WidgetTaskContext → Except Fault (Nat × World)

/-- The loop of lines 505-514 of Widget_UpdateVisibleChildren: the rectangle
is moved and clipped along the chain of ancestors.  The first argument bounds
the number of iterations. -/
def visibleRectLoop (E : Env) (ws : List Widget) (w : Nat) :
    Nat → Nat → Option Nat → LCUI_RectF → Except Fault LCUI_RectF
  | 0, _, _, _ => Except.error Fault.fuel
  | _ + 1, _, none, rect => Except.ok rect
  | n + 1, child, some parent, rect =>
    if child = w then visibleRectLoop E ws w n parent (getW ws parent).parent rect
    else
      let rect1 : LCUI_RectF :=
        { rect with x := rect.x + (getW ws child).box.padding.x
                    y := rect.y + (getW ws child).box.padding.y }
      let rect2 := E.LCUIRectF_ValidateArea rect1 (getW ws parent).box.padding.width
        (getW ws parent).box.padding.height
      visibleRectLoop E ws w n parent (getW ws parent).parent rect2

/-- The loop of lines 523-540 of Widget_UpdateVisibleChildren over the
children: the state, the total and the flag `found`. -/
def updateVisibleChildrenLoop (E : Env) (upd : UpdateFn) (w : Nat)
    (ctx : LCUI_WidgetTaskContext) (visible_rect : LCUI_RectF) :
    List Nat → World → Nat → Bool → Except Fault (Nat × World)
  | [], S, total, _ => Except.ok (total, S)
  | child :: rest, S, total, found =>
    match E.LCUIRectF_GetOverlayRect visible_rect (getW S.widgets child).box.border with
    | none =>
      if found then Except.ok (total, S)
      else updateVisibleChildrenLoop E upd w ctx visible_rect rest S total found
    | some _ =>
      match upd S child ctx with
      | Except.error e => Except.error e
      | Except.ok (count, S1) =>
        let S2 :=
          if (getW S1.widgets child).task.for_self ∨ (getW S1.widgets child).task.for_children then
            S1.onWidgets (fun ws => updW ws w (fun x => x.setForChildren true))
          else S1
        updateVisibleChildrenLoop E upd w ctx visible_rect rest S2 (total + count) true

/-- Widget_UpdateVisibleChildren (lines 489-542). -/
def Widget_UpdateVisibleChildren (K : Defs) (E : Env) (upd : UpdateFn) (S : World) (w : Nat)
    (ctx : LCUI_WidgetTaskContext) : Except Fault (Nat × World) :=
  let ws := S.widgets
  let rect0 := (getW ws w).box.padding
  let needW := decide (rect0.width < 1) && E.Widget_HasAutoStyle ws w K.key_width
  let needH := decide (rect0.height < 1) && E.Widget_HasAutoStyle ws w K.key_height
  match (getW ws w).parent, needW || needH with
  | none, true => Except.error Fault.null
  | parent, _ =>
    -- `pbox` is read only when `needW` or `needH` holds, and then there is a parent
    let pbox := (getW ws (parent.getD 0)).box.padding
    let rect1 : LCUI_RectF := if needW then { rect0 with width := pbox.width } else rect0
    let rect2 : LCUI_RectF := if needH then { rect1 with height := pbox.height } else rect1
    match visibleRectLoop E ws w (ws.length + 1) w parent rect2 with
    | Except.error e => Except.error e
    | Except.ok visible0 =>
      let off := E.Widget_GetOffset ws w ((getW ws w).box.padding.x, (getW ws w).box.padding.y)
      let rect3 : LCUI_RectF := { (getW ws w).box.padding with x := off.1, y := off.2 }
      match E.LCUIRectF_GetOverlayRect visible0 rect3 with
      | none => Except.ok (0, S)
      | some visible1 =>
        let visible_rect : LCUI_RectF :=
          { visible1 with x := visible1.x - (getW ws w).box.padding.x
                          y := visible1.y - (getW ws w).box.padding.y }
        updateVisibleChildrenLoop E upd w ctx visible_rect (getW ws w).children S 0 false

/-- Lines 591-594 of Widget_UpdateChildren: the progress index follows a
child that reported work. -/
def noteProgress (child : Nat) (ws : List Widget) (w : Nat) : List Widget :=
  updW ws w (fun x =>
    match x.rules with
    | none => x
    | some data =>
      let p1 := max (getW ws child).index data.progress
      let p2 := if p1 > x.children_show_length then (getW ws child).index else p1
      { x with rules := some { data with progress := p2 } })

/-- The assignment `data->default_max_update_count = value` on the rules data
of `w`. -/
def setDefaultMaxUpdateCount (ws : List Widget) (w : Nat) (value : Nat) : List Widget :=
  updW ws w (fun x =>
    match x.rules with
    | none => x
    | some data => { x with rules := some { data with default_max_update_count := value } })

/-- The loop of lines 578-623 of Widget_UpdateChildren over the children that
were linked when the function was entered.  `hasData` tells whether `data` is
not NULL; the members of `data` are read through `w->rules`.  The arguments
after the list are the state, `total`, `update_count` and `msec`; the result
is `total` and the state when the loop is left, by its end or by `break`. -/
def updateChildrenLoop (K : Defs) (E : Env) (upd : UpdateFn) (w : Nat)
    (ctx : LCUI_WidgetTaskContext) (hasData : Bool) :
    List Nat → World → Nat → Nat → Int → Except Fault (Nat × World)
  | [], S, total, _, _ => Except.ok (total, S)
  | child :: rest, S, total, update_count, msec =>
    match upd S child ctx with
    | Except.error e => Except.error e
    | Except.ok (count, S1) =>
      let S2 :=
        if (getW S1.widgets child).task.for_self ∨ (getW S1.widgets child).task.for_children then
          S1.onWidgets (fun ws => updW ws w (fun x => x.setForChildren true))
        else S1
      let total1 := total + count
      let S3 := if hasData ∧ count > 0 then S2.onWidgets (fun ws => noteProgress child ws w) else S2
      let update_count1 := if hasData ∧ count > 0 then update_count + 1 else update_count
      match hasData, (getW S3.widgets w).rules with
      | true, some data =>
        if data.rules.max_update_children_count < 0 then
          updateChildrenLoop K E upd w ctx hasData rest S3 total1 update_count1 msec
        else if data.rules.max_update_children_count > 0 ∧
            update_count1 ≥ data.rules.max_update_children_count.toNat then
          Except.ok (total1, S3.onWidgets (fun ws => updW ws w (fun x => x.setForChildren true)))
        else if update_count1 < data.default_max_update_count then
          updateChildrenLoop K E upd w ctx hasData rest S3 total1 update_count1 msec
        else
          let S4 := S3.onWidgets (fun ws => updW ws w (fun x => x.setForChildren true))
          let (now, S5) := S4.clock E
          let msec1 := now - msec
          if msec1 < 1 then
            let S6 := S5.onWidgets (fun ws =>
              setDefaultMaxUpdateCount ws w (data.default_max_update_count + 128))
            updateChildrenLoop K E upd w ctx hasData rest S6 total1 update_count1 msec1
          else
            let allowance := update_count1 * K.CLOCKS_PER_SEC / S5.self.max_updates_per_frame /
              K.LCUI_MAX_FRAMES_PER_SEC / msec1.toNat
            let allowance1 := if allowance < 1 then 32 else allowance
            Except.ok (total1, S5.onWidgets (fun ws => setDefaultMaxUpdateCount ws w allowance1))
      | _, _ => updateChildrenLoop K E upd w ctx hasData rest S3 total1 update_count1 msec

/-- Lines 624-631 of Widget_UpdateChildren. -/
def Widget_UpdateChildren_finish (E : Env) (S : World) (w : Nat) (hasData : Bool) : World :=
  match hasData, (getW S.widgets w).rules with
  | true, some data =>
    let S1 :=
      if !(getW S.widgets w).task.for_children then
        S.onWidgets (fun ws => updW ws w (fun x =>
          { x with rules := some { data with progress := x.children_show_length } }))
      else S
    match (getW S1.widgets w).rules with
    | some data1 =>
      if data1.rules.on_update_progress then S1.call E (Call.on_update_progress w data1.progress)
      else S1
    | none => S1
  | _, _ => S

/-- Lines 574-632 of Widget_UpdateChildren: the general pass over the
children `node`, entered with the `total` and the `msec` of the first part. -/
def Widget_UpdateChildren_pass (K : Defs) (E : Env) (upd : UpdateFn) (S : World) (w : Nat)
    (ctx : LCUI_WidgetTaskContext) (hasData : Bool) (node : List Nat) (total : Nat)
    (msec : Int) : Except Fault (Nat × World) :=
  if !(getW S.widgets w).task.for_children then Except.ok (0, S)
  else
    let S1 := S.onWidgets (fun ws => updW ws w (fun x => x.setForChildren false))
    match updateChildrenLoop K E upd w ctx hasData node S1 total 0 msec with
    | Except.error e => Except.error e
    | Except.ok (total1, S2) => Except.ok (total1, Widget_UpdateChildren_finish E S2 w hasData)

/-- Widget_UpdateChildren (lines 544-633). -/
def Widget_UpdateChildren (K : Defs) (E : Env) (upd : UpdateFn) (S : World) (w : Nat)
    (ctx : LCUI_WidgetTaskContext) : Except Fault (Nat × World) :=
  if !(getW S.widgets w).task.for_children then Except.ok (0, S)
  else
    let node := (getW S.widgets w).children
    match (getW S.widgets w).rules with
    | none => Widget_UpdateChildren_pass K E upd S w ctx false node 0 0
    | some data =>
      let (msec, S1) := S.clock E
      if data.rules.only_on_visible && !E.Widget_InVisibleArea S1.widgets w then
        Except.ok (0, S1)
      else if data.rules.first_update_visible_children then
        match Widget_UpdateVisibleChildren K E upd S1 w ctx with
        | Except.error e => Except.error e
        | Except.ok (total, S2) => Widget_UpdateChildren_pass K E upd S2 w ctx true node total msec
      else Widget_UpdateChildren_pass K E upd S1 w ctx true node 0 msec

/-- One iteration of the loop of lines 647-654 of Widget_UpdateSelf. -/
def Widget_UpdateSelf_task (K : Defs) (E : Env) (w : Nat) (S : World) (i : Nat) : World :=
  if (getW S.widgets w).task.states i then
    let S1 := S.onWidgets (fun ws => updW ws w (fun x => x.setTaskState i false))
    match S1.self.handlers i with
    | some h => runHandler K E S1 h w
    | none => S1
  else S

/-- Widget_UpdateSelf (lines 635-657): the context with its diff as the
function leaves it, and the state. -/
def Widget_UpdateSelf (K : Defs) (E : Env) (S : World) (w : Nat)
    (ctx : LCUI_WidgetTaskContextRec) (parent : LCUI_WidgetTaskContext) :
    LCUI_WidgetTaskContextRec × World :=
  let ctx1 := Widget_BeginDiff K S w ctx parent
  let S1 :=
    if (getW S.widgets w).task.states K.LCUI_WTASK_USER ∧ (getW S.widgets w).has_runtask then
      (S.onWidgets (fun ws => updW ws w (fun x => x.setTaskState K.LCUI_WTASK_USER false))).call E
        (Call.runtask w)
    else S
  let S2 := S1.onWidgets (fun ws => updW ws w (fun x => x.setForSelf false))
  let S3 := (List.range K.LCUI_WTASK_REFLOW).foldl (Widget_UpdateSelf_task K E w) S2
  let r := Widget_EndDiff K E S3 w ctx1
  (r.2.1, r.2.2.call E (Call.Widget_AddState w K.LCUI_WSTATE_UPDATED))

/-- Widget_RunReflowTask (lines 659-669). -/
def Widget_RunReflowTask (E : Env) (S : World) (w : Nat) (task : LCUI_WidgetTaskContextRec) :
    World :=
  S.call E (Call.LCUIWidgetLayout_Reflow
    { container := w
      box := task.diff.box
      invalid_box := task.diff.invalid_box
      should_add_invalid_area := task.diff.can_render && task.diff.should_add_invalid_area })

/-- Widget_UpdateWithContext (lines 671-695).  The first argument bounds the
depth of the recursion.  When Widget_BeginUpdate returns NULL the next line
dereferences it. -/
def Widget_UpdateWithContext (K : Defs) (E : Env) : Nat → UpdateFn
  | 0 => fun _ _ _ => Except.error Fault.fuel
  | fuel + 1 => fun S w ctx =>
    if !(getW S.widgets w).task.for_self && !(getW S.widgets w).task.for_children then
      Except.ok (0, S)
    else
      match Widget_BeginUpdate K E S w ctx with
      | (none, _) => Except.error Fault.null
      | (some c0, S1) =>
        let c1 := Widget_InitDiff K S1 w c0 ctx
        let r2 :=
          if (getW S1.widgets w).task.for_self then Widget_UpdateSelf K E S1 w c1 ctx
          else (c1, S1)
        let r3 :=
          if (getW r2.2.widgets w).task.for_children then
            Widget_UpdateChildren K E (Widget_UpdateWithContext K E fuel) r2.2 w (r2.1 :: ctx)
          else Except.ok (0, r2.2)
        match r3 with
        | Except.error e => Except.error e
        | Except.ok (count, S3) =>
          let S4 := S3.call E (Call.Widget_SortChildrenShow w)
          let S5 :=
            if (getW S4.widgets w).task.states K.LCUI_WTASK_REFLOW then
              (Widget_RunReflowTask E S4 w r2.1).onWidgets (fun ws =>
                updW ws w (fun x => x.setTaskState K.LCUI_WTASK_REFLOW false))
            else S4
          Except.ok (count, Widget_EndUpdate S5 r2.1)

/-! ## The entry points (lines 697-777) -/

/-- Widget_Update (lines 697-707). -/
def Widget_Update (K : Defs) (E : Env) (fuel : Nat) (S : World) (w : Nat) :
    Except Fault (Nat × World) :=
  match Widget_BeginUpdate K E S w [] with
  | (none, _) => Except.error Fault.null
  | (some c0, S1) =>
    let c1 := Widget_InitDiff K S1 w c0 []
    match Widget_UpdateWithContext K E fuel S1 w [c1] with
    | Except.error e => Except.error e
    | Except.ok (count, S2) => Except.ok (count, Widget_EndUpdate S2 c1)

/-- LCUIWidget_RefreshStyle (lines 772-777). -/
def LCUIWidget_RefreshStyle (K : Defs) (E : Env) (fuel : Nat) (S : World) : Except Fault World :=
  let root := E.LCUIWidget_GetRoot
  let S1 := S.call E (Call.Widget_UpdateStyle root true)
  match Widget_AddTaskForChildren K fuel S1.widgets root K.LCUI_WTASK_REFRESH_STYLE with
  | none => Except.error Fault.fuel
  | some ws => Except.ok { S1 with widgets := ws }

/-- The loop of lines 724-726 of LCUIWidget_Update: `n` more passes over the
root. -/
def updatePasses (K : Defs) (E : Env) (fuel : Nat) (root : Nat) :
    Nat → World → Nat → Except Fault (Nat × World)
  | 0, S, count => Except.ok (count, S)
  | n + 1, S, count =>
    match Widget_Update K E fuel S root with
    | Except.error e => Except.error e
    | Except.ok (c, S1) => updatePasses K E fuel root n S1 (count + c)

/-- LCUIWidget_Update (lines 709-732). -/
def LCUIWidget_Update (K : Defs) (E : Env) (fuel : Nat) (S : World) : Except Fault (Nat × World) :=
  let S1 :=
    if S.metrics ≠ S.self.metrics then { S with self := { S.self with refresh_all := true } }
    else S
  let r2 := if S1.self.refresh_all then LCUIWidget_RefreshStyle K E fuel S1 else Except.ok S1
  match r2 with
  | Except.error e => Except.error e
  | Except.ok S2 =>
    let root := E.LCUIWidget_GetRoot
    match updatePasses K E fuel root 4 S2 0 with
    | Except.error e => Except.error e
    | Except.ok (count, S3) =>
      let S4 := S3.onWidgets (fun ws => updW ws root (fun x =>
        { x with state := K.LCUI_WSTATE_NORMAL }))
      let S5 := S4.call E Call.LCUIWidget_ClearTrash
      Except.ok (count,
        { S5 with self := { S5.self with metrics := S5.metrics, refresh_all := false } })

/-- Widget_UpdateWithProfile (lines 734-742). -/
def Widget_UpdateWithProfile (K : Defs) (E : Env) (fuel : Nat) (S : World) (w : Nat) :
    Except Fault World :=
  match Widget_BeginUpdate K E S w [] with
  | (none, _) => Except.error Fault.null
  | (some c0, S1) =>
    let c1 := { c0 with profile := some 0 }
    match Widget_UpdateWithContext K E fuel S1 w [c1] with
    | Except.error e => Except.error e
    | Except.ok (_, S2) => Except.ok (Widget_EndUpdate S2 c1)

/-- The loop of lines 762-764 of LCUIWidget_UpdateWithProfile. -/
def profilePasses (K : Defs) (E : Env) (fuel : Nat) (root : Nat) :
    Nat → World → Except Fault World
  | 0, S => Except.ok S
  | n + 1, S =>
    match Widget_UpdateWithProfile K E fuel S root with
    | Except.error e => Except.error e
    | Except.ok S1 => profilePasses K E fuel root n S1

/-- LCUIWidget_UpdateWithProfile (lines 744-770). -/
def LCUIWidget_UpdateWithProfile (K : Defs) (E : Env) (fuel : Nat) (S : World) :
    Except Fault World :=
  let (t0, S0) := S.clock E
  let S1 : World := { S0 with profile := { S0.profile with time := t0 } }
  let S2 :=
    if S1.metrics ≠ S1.self.metrics then { S1 with self := { S1.self with refresh_all := true } }
    else S1
  let r3 := if S2.self.refresh_all then LCUIWidget_RefreshStyle K E fuel S2 else Except.ok S2
  match r3 with
  | Except.error e => Except.error e
  | Except.ok S3 =>
    let r4 := if S3.self.refresh_all then LCUIWidget_RefreshStyle K E fuel S3 else Except.ok S3
    match r4 with
    | Except.error e => Except.error e
    | Except.ok S4 =>
      let root := E.LCUIWidget_GetRoot
      match profilePasses K E fuel root 4 S4 with
      | Except.error e => Except.error e
      | Except.ok S5 =>
        let S6 := S5.onWidgets (fun ws => updW ws root (fun x =>
          { x with state := K.LCUI_WSTATE_NORMAL }))
        let (t1, S7) := S6.clock E
        let S8 : World := { S7 with profile := { S7.profile with time := t1 - S7.profile.time } }
        let (t2, S9) := S8.clock E
        let S10 : World := { S9 with profile := { S9.profile with destroy_time := t2 } }
        let n := E.LCUIWidget_ClearTrash S10.widgets
        let S11 := S10.call E Call.LCUIWidget_ClearTrash
        let S12 : World := { S11 with profile := { S11.profile with destroy_count := n } }
        let (t3, S13) := S12.clock E
        Except.ok { S13 with profile := { S13.profile with destroy_time := t3 - S13.profile.destroy_time } }

/-! ## Predicates used to state the properties -/

/-- The number of widgets of the arena whose `for_children` flag is clear. -/
def unmarked (ws : List Widget) : Nat := ws.countP (fun w => !w.task.for_children)

/-- Relation between two arenas: the second one is the first one with the
`for_children` flag set on some more widgets. -/
def MarksOnly (ws ws' : List Widget) : Prop :=
  ws'.length = ws.length ∧
    ∀ i, getW ws' i = getW ws i ∨ getW ws' i = (getW ws i).setForChildren true

/-- The `for_children` flags are upward-closed: the parent of a marked widget
is marked. -/
def UpClosed (ws : List Widget) : Prop :=
  ∀ i p, (getW ws i).task.for_children = true → (getW ws i).parent = some p →
    (getW ws p).task.for_children = true

/-- Every parent link points into the arena. -/
def ValidParents (ws : List Widget) : Prop :=
  ∀ i p, (getW ws i).parent = some p → p < ws.length

/-- The flags are upward-closed except possibly at the cursor of the
propagation loop. -/
def UpClosedBut (ws : List Widget) (c : Option Nat) : Prop :=
  ∀ i p, (getW ws i).task.for_children = true → (getW ws i).parent = some p →
    (getW ws p).task.for_children = true ∨ c = some p

/-- The proper ancestors of `w`: `IsAncestor ws w a` says that `a` is reached
from `w` by following `parent` links. -/
inductive IsAncestor (ws : List Widget) (w : Nat) : Nat → Prop where
  | parent {a : Nat} : (getW ws w).parent = some a → IsAncestor ws w a
  | step {a b : Nat} : IsAncestor ws w b → (getW ws b).parent = some a → IsAncestor ws w a

/-- The proper descendants of `w`: `IsDescendant ws w d` says that `d` is
reached from `w` by following `children` links. -/
inductive IsDescendant (ws : List Widget) (w : Nat) : Nat → Prop where
  | child {c : Nat} : c ∈ (getW ws w).children → IsDescendant ws w c
  | step {c d : Nat} : IsDescendant ws w c → d ∈ (getW ws c).children → IsDescendant ws w d

/-- Relation between two arenas: the second one is the first one with more
task flags set; nothing but task flags differs. -/
def TasksGrow (ws ws' : List Widget) : Prop :=
  ws'.length = ws.length ∧
    ∀ i, getW ws' i = { getW ws i with task := (getW ws' i).task } ∧
      ((getW ws i).task.for_self = true → (getW ws' i).task.for_self = true) ∧
      ((getW ws i).task.for_children = true → (getW ws' i).task.for_children = true) ∧
      ∀ k, (getW ws i).task.states k = true → (getW ws' i).task.states k = true

/-- The widgets under `w` form a finite tree inside the arena: the children
links of `w` and of its descendants point into the arena and lower the
rank. -/
def IsTreeUnder (ws : List Widget) (rank : Nat → Nat) (w : Nat) : Prop :=
  ∀ i c, (i = w ∨ IsDescendant ws w i) → c ∈ (getW ws i).children →
    c < ws.length ∧ rank c < rank i

/-- The task state `kind` and `for_self` of widget `d` are set. -/
def Marked (ws : List Widget) (d kind : Nat) : Prop :=
  (getW ws d).task.states kind = true ∧ (getW ws d).task.for_self = true

/-- The task states and `for_self` of widget `i` are the same in both arenas. -/
def SameOwnTasks (ws ws' : List Widget) (i : Nat) : Prop :=
  (getW ws' i).task.states = (getW ws i).task.states ∧
    (getW ws' i).task.for_self = (getW ws i).task.for_self

/-- What one call of Widget_AddTaskForChildren with enough fuel achieves. -/
def AddTaskForChildrenSpec (K : Defs) (kind : Nat) (ws : List Widget) (w : Nat)
    (r : Option (List Widget)) : Prop :=
  ∃ ws', r = some ws' ∧ TasksGrow ws ws' ∧
    (∀ d, IsDescendant ws w d → (getW ws d).state ≠ K.LCUI_WSTATE_DELETED → Marked ws' d kind) ∧
    (∀ i, ¬ IsDescendant ws w i → SameOwnTasks ws ws' i) ∧
    (w < ws.length → (getW ws' w).task.for_children = true)

/-- The state in which Widget_EndDiff compares the boxes of `w` with the
snapshot: after the visibility check and after the box model was recomputed
(lines 318-331). -/
def atCompare (K : Defs) (E : Env) (S : World) (w : Nat) (ctx : LCUI_WidgetTaskContextRec) :
    World :=
  Widget_EndDiff_boxes E (Widget_EndDiff_visibility K E S w ctx.diff).2 w

/-- The diff of the context when Widget_EndDiff compares the boxes. -/
def diffAtCompare (K : Defs) (E : Env) (S : World) (w : Nat) (ctx : LCUI_WidgetTaskContextRec) :
    LCUI_WidgetTaskDiffRec :=
  (Widget_EndDiff_visibility K E S w ctx.diff).1

/-- The state after the layout related checks of Widget_EndDiff (lines
318-371), before the repaint related ones. -/
def afterLayoutChecks (K : Defs) (E : Env) (S : World) (w : Nat)
    (ctx : LCUI_WidgetTaskContextRec) : World :=
  let r3 := Widget_EndDiff_geometry K E (atCompare K E S w ctx) w (diffAtCompare K E S w ctx)
  (Widget_EndDiff_display K E (Widget_EndDiff_flex K E r3.2 w r3.1) w r3.1).2

/-- The diff after the layout related checks of Widget_EndDiff. -/
def diffAfterLayoutChecks (K : Defs) (E : Env) (S : World) (w : Nat)
    (ctx : LCUI_WidgetTaskContextRec) : LCUI_WidgetTaskDiffRec :=
  let r3 := Widget_EndDiff_geometry K E (atCompare K E S w ctx) w (diffAtCompare K E S w ctx)
  (Widget_EndDiff_display K E (Widget_EndDiff_flex K E r3.2 w r3.1) w r3.1).1

/-- The painter calls of Widget_EndDiff (Widget_UpdateCanvasBox and
Widget_InvalidateArea) leave the task records of the widgets alone. -/
def PainterKeepsTasks (E : Env) : Prop :=
  ∀ ws i,
    (∀ w, (getW (E.effect (Call.Widget_UpdateCanvasBox w) ws) i).task = (getW ws i).task) ∧
    (∀ w r l, (getW (E.effect (Call.Widget_InvalidateArea w r l) ws) i).task = (getW ws i).task)

/-- The calls that Widget_EndDiff makes before it compares the boxes
(Widget_PostSurfaceEvent, Widget_UpdateBoxSize and Widget_UpdateBoxPosition)
leave the task records of the widgets alone. -/
def BoxUpdateKeepsTasks (E : Env) : Prop :=
  ∀ ws i,
    (∀ w e b,
      (getW (E.effect (Call.Widget_PostSurfaceEvent w e b) ws) i).task = (getW ws i).task) ∧
    (∀ w, (getW (E.effect (Call.Widget_UpdateBoxSize w) ws) i).task = (getW ws i).task) ∧
    (∀ w, (getW (E.effect (Call.Widget_UpdateBoxPosition w) ws) i).task = (getW ws i).task)

/-- Whether a widget takes part in flex layout does not depend on task flags. -/
def FlexIgnoresTasks (E : Env) : Prop :=
  ∀ ws ws' w, TasksGrow ws ws' →
    E.Widget_IsFlexLayoutStyleWorks ws' w = E.Widget_IsFlexLayoutStyleWorks ws w

/-- Relation between two states: the second one is the first one with more
task flags set, and no call of another module was made in between. -/
def WorldGrow (S S' : World) : Prop :=
  TasksGrow S.widgets S'.widgets ∧ S'.trace = S.trace

/-- The box levels are ordered as the comparisons of the module assume: none
(0) below the padding box, below the border box, below the graph box. -/
def BoxLevelsOrdered (K : Defs) : Prop :=
  0 < K.SV_PADDING_BOX ∧ K.SV_PADDING_BOX < K.SV_BORDER_BOX ∧ K.SV_BORDER_BOX < K.SV_GRAPH_BOX

/-- The calls of other modules made between two states. -/
def callsSince (S S' : World) : List Call := S'.trace.drop S.trace.length

/-- The levels of the Widget_InvalidateArea calls of a list of calls. -/
def invalidationLevels (cs : List Call) : List Int :=
  cs.filterMap (fun c =>
    match c with
    | Call.Widget_InvalidateArea _ _ level => some level
    | _ => none)

/-- Nothing is mutated by the other modules: every call leaves the arena as
it is, and every allocation of a context succeeds. -/
def Quiet (E : Env) : Prop :=
  (∀ c ws, E.effect c ws = ws) ∧ ∀ n, (E.malloc n).isSome = true

/-- Style resolution yields for every widget of the arena the cached sheet
that the widget already holds, whatever the task flags are. -/
def StylesResolved (E : Env) (ws : List Widget) : Prop :=
  ∀ ws' i, i < ws.length →
    (getW ws i).inherited_style = some (StyleRef.cached (E.LCUI_GetCachedStyleSheet ws' i))

/-- Relation between two arenas: nothing but task records differs. -/
def BodyKept (ws ws' : List Widget) : Prop :=
  ws'.length = ws.length ∧ ∀ i, getW ws' i = { getW ws i with task := (getW ws' i).task }

/-- Relation between two arenas: nothing but task states differs. -/
def StatesOnly (ws ws' : List Widget) : Prop :=
  ws'.length = ws.length ∧
    ∀ i, getW ws' i =
      { getW ws i with task := { (getW ws i).task with states := (getW ws' i).task.states } }

/-- Relation between two states: the module state and the metrics are the
same and nothing but task states differs in the arena. -/
def QuietStep (S S' : World) : Prop :=
  S'.self = S.self ∧ S'.metrics = S.metrics ∧ StatesOnly S.widgets S'.widgets

/-- Relation between two states: the module state and the metrics are the
same and nothing but task records differs from the reference arena. -/
def Kept (ws0 : List Widget) (S S' : World) : Prop :=
  S'.self = S.self ∧ S'.metrics = S.metrics ∧ BodyKept ws0 S'.widgets

/-- The widget `i` is `w` or a proper descendant of `w`. -/
def InSubtree (ws : List Widget) (w i : Nat) : Prop := i = w ∨ IsDescendant ws w i

/-- The widget has pending work for itself or for its children. -/
def Dirty (ws : List Widget) (i : Nat) : Prop :=
  (getW ws i).task.for_self = true ∨ (getW ws i).task.for_children = true

/-- The widget has no pending work: `for_self` and `for_children` are clear. -/
def Clean (ws : List Widget) (i : Nat) : Prop :=
  (getW ws i).task.for_self = false ∧ (getW ws i).task.for_children = false

/-- The `for_self` and `for_children` flags of widget `i` are the same in
both arenas. -/
def SameFlags (ws ws' : List Widget) (i : Nat) : Prop :=
  (getW ws' i).task.for_self = (getW ws i).task.for_self ∧
    (getW ws' i).task.for_children = (getW ws i).task.for_children

/-- In the subtree of `w` (links read in `ws0`, flags in `ws`) every widget
with a child that has pending work has `for_children` set. -/
def FlagsClosed (ws0 ws : List Widget) (w : Nat) : Prop :=
  ∀ i c, InSubtree ws0 w i → c ∈ (getW ws0 i).children → Dirty ws c →
    (getW ws i).task.for_children = true

/-- No widget of the subtree of `w` declares update rules. -/
def NoRulesUnder (ws : List Widget) (w : Nat) : Prop :=
  ∀ i, InSubtree ws w i → (getW ws i).rules = none

/-- What a pass of Widget_UpdateWithContext over the subtree of `w` is ready
for: no refresh of everything is pending, the arena differs from the
reference arena `ws0` by task records only, no context of the chain has a
style cache, styles are resolved, the subtree is a finite tree without update
rules and its flags are closed. -/
def PassReady (E : Env) (ws0 : List Widget) (rank : Nat → Nat) (S : World) (w : Nat)
    (ctx : LCUI_WidgetTaskContext) : Prop :=
  S.self.refresh_all = false ∧ BodyKept ws0 S.widgets ∧ (∀ c ∈ ctx, c.style_cache = none) ∧
    StylesResolved E ws0 ∧ IsTreeUnder ws0 rank w ∧ w < ws0.length ∧ NoRulesUnder ws0 w ∧
    FlagsClosed ws0 S.widgets w

/-- What a pass of Widget_UpdateWithContext over the subtree of `w` achieves
when nothing is mutated: it returns 0, keeps the module state and everything
but task records, leaves the subtree without pending work and keeps the
flags of the widgets outside the subtree. -/
def PassSpec (ws0 : List Widget) (S : World) (w : Nat) (r : Except Fault (Nat × World)) : Prop :=
  ∃ S', r = Except.ok (0, S') ∧ Kept ws0 S S' ∧
    (∀ i, InSubtree ws0 w i → Clean S'.widgets i) ∧
    (∀ i, ¬ InSubtree ws0 w i → SameFlags S.widgets S'.widgets i)

/-! ## Decision procedures for the hypotheses on concrete arenas -/

/-- Decision procedure for `ValidParents`. -/
def checkValidParents (ws : List Widget) : Bool :=
  ws.all (fun x =>
    match x.parent with
    | some p => decide (p < ws.length)
    | none => true)

/-- Decision procedure for `UpClosed`. -/
def checkUpClosed (ws : List Widget) : Bool :=
  ws.all (fun x =>
    !x.task.for_children ||
      match x.parent with
      | some p => (getW ws p).task.for_children
      | none => true)

/-- Decision procedure for the children links of the whole arena pointing
into the arena and lowering the rank. -/
def checkRanked (ws : List Widget) (rank : Nat → Nat) : Bool :=
  (List.range ws.length).all (fun i =>
    (getW ws i).children.all (fun c => decide (c < ws.length) && decide (rank c < rank i)))

/-- Decision procedure for the flags of the whole arena being closed. -/
def checkFlagsClosed (ws : List Widget) : Bool :=
  (List.range ws.length).all (fun i =>
    (getW ws i).children.all (fun c =>
      !((getW ws c).task.for_self || (getW ws c).task.for_children) ||
        (getW ws i).task.for_children))

/-! ## Concrete inputs -/

/-- Modelled from the spec: values for the constants of the LCUI headers,
which are not part of the sources.  The task kinds are the eighteen kinds of
the spec, numbered so that the style tasks come first (REFRESH_STYLE, then
UPDATE_STYLE, then the property tasks that a style refresh sets), then REFLOW,
which runs last and separately, then the user task; the box levels are
none (0), padding box, border box, graph box in increasing order. -/
def sampleDefs : Defs :=
  { LCUI_WTASK_REFRESH_STYLE := 0, LCUI_WTASK_UPDATE_STYLE := 1, LCUI_WTASK_TITLE := 2,
    LCUI_WTASK_PROPS := 3, LCUI_WTASK_PADDING := 4, LCUI_WTASK_MARGIN := 5,
    LCUI_WTASK_VISIBLE := 6, LCUI_WTASK_DISPLAY := 7, LCUI_WTASK_FLEX := 8,
    LCUI_WTASK_SHADOW := 9, LCUI_WTASK_BORDER := 10, LCUI_WTASK_BACKGROUND := 11,
    LCUI_WTASK_RESIZE := 12, LCUI_WTASK_POSITION := 13, LCUI_WTASK_ZINDEX := 14,
    LCUI_WTASK_OPACITY := 15, LCUI_WTASK_REFLOW := 16, LCUI_WTASK_USER := 17,
    LCUI_WTASK_TOTAL_NUM := 18,
    LCUI_WSTATE_UPDATED := 1, LCUI_WSTATE_LAYOUTED := 2, LCUI_WSTATE_NORMAL := 4,
    LCUI_WSTATE_DELETED := 5,
    SV_NONE := 0, SV_STATIC := 8, SV_ABSOLUTE := 10,
    SV_PADDING_BOX := 5, SV_BORDER_BOX := 6, SV_GRAPH_BOX := 7,
    LCUI_WEVENT_SHOW := 1, LCUI_WEVENT_HIDE := 2, LCUI_WEVENT_TITLE := 3,
    key_width := 1, key_height := 2,
    CLOCKS_PER_SEC := 1000000, LCUI_MAX_FRAMES_PER_SEC := 120 }

/-- An environment in which the other modules change no widget: every call
leaves the arena as it is, allocations succeed, no widget takes part in flex
layout and every widget is in the visible area. -/
def quietEnv : Env :=
  { effect := fun _ ws => ws
    malloc := fun _ => some ⟨0, none, LCUI_WidgetTaskDiffRec.zero, none, 0⟩
    clock := fun n => (n : Int)
    LCUIWidget_GetRoot := 0
    LCUIWidget_ClearTrash := fun _ => 0
    LCUI_GetCachedStyleSheet := fun _ _ => 0
    Widget_IsFlexLayoutStyleWorks := fun _ _ => false
    Widget_InVisibleArea := fun _ _ => true
    Widget_HasAutoStyle := fun _ _ _ => false
    Widget_GetOffset := fun _ _ _ => (0, 0)
    LCUIRectF_IsCoverRect := fun _ _ => true
    LCUIRectF_MergeRect := fun a _ => a
    LCUIRectF_GetOverlayRect := fun a _ => some a
    LCUIRectF_ValidateArea := fun r _ _ => r }

/-- The quiet environment, except that every widget takes part in flex
layout. -/
def flexEnv : Env :=
  { quietEnv with Widget_IsFlexLayoutStyleWorks := fun _ _ => true }

/-- A widget in the normal state, without flags, with the given links; its
inherited style is the one that `quietEnv` resolves. -/
def plainWidget (parent : Option Nat) (children : List Nat) : Widget :=
  { Widget.null with
    state := 4, parent := parent, children := children
    inherited_style := some (StyleRef.cached 0) }

/-- A state around an arena: module state as after the first frame (no
refresh pending, metrics stored), nothing allocated, nothing called. -/
def worldOf (ws : List Widget) : World :=
  { widgets := ws
    self := { max_updates_per_frame := 4, metrics := 0, refresh_all := false,
              handlers := fun _ => none }
    dicts := [], sheets := 0, mallocs := 0, clocks := 0, metrics := 0,
    profile := ⟨0, 0, 0⟩, trace := [] }

/-- A context whose snapshot is all zero and which can render and may add an
invalid area. -/
def plainContext : LCUI_WidgetTaskContextRec :=
  { style_hash := 0, style_cache := none,
    diff := { LCUI_WidgetTaskDiffRec.zero with can_render := true, should_add_invalid_area := true },
    profile := none, owner := 0 }

/-- A root (widget 0) with one child (widget 1) whose padding box is not the
all-zero box of the snapshot of `plainContext`. -/
def paddedChildArena : List Widget :=
  [plainWidget none [1],
   { plainWidget (some 0) [] with
     box := { LCUI_WidgetBoxModelRec.zero with padding := ⟨0, 0, 20, 20⟩ } }]

/-- A root (widget 0) with one child (widget 1) whose outer box is not the
all-zero box of the snapshot of `plainContext`, the padding box being the
same. -/
def marginChildArena : List Widget :=
  [plainWidget none [1],
   { plainWidget (some 0) [] with
     box := { LCUI_WidgetBoxModelRec.zero with outer := ⟨0, 0, 30, 30⟩ } }]

/-- A root (widget 0) with one visible child (widget 1) that completed its
layout and has the given background. -/
def layoutedArena (background : Nat) : List Widget :=
  [plainWidget none [1],
   { plainWidget (some 0) [] with
     computed_style := { LCUI_WidgetStyle.zero with visible := true, background := background } }]

/-- The context of a parent that cannot render. -/
def hiddenParentContext : LCUI_WidgetTaskContextRec :=
  { plainContext with diff := { plainContext.diff with can_render := false } }

/-- The context of the child of `layoutedArena 1` under the given chain of
parent contexts, as Widget_InitDiff and Widget_BeginDiff leave it. -/
def layoutedSnapshot (parent : LCUI_WidgetTaskContext) : LCUI_WidgetTaskContextRec :=
  Widget_BeginDiff sampleDefs (worldOf (layoutedArena 1)) 1
    (Widget_InitDiff sampleDefs (worldOf (layoutedArena 1)) 1 plainContext parent) parent

/-- The state of a result, the state around an empty arena when there is no
result. -/
def okWorld (r : Except Fault (Nat × World)) : World :=
  match r with
  | Except.ok (_, S) => S
  | Except.error _ => worldOf []

/-- The count of a result, if there is one. -/
def okCount (r : Except Fault (Nat × World)) : Option Nat :=
  match r with
  | Except.ok (count, _) => some count
  | Except.error _ => none

/-- A widget in the normal state with `for_self` and the POSITION task set. -/
def pendingWidget (parent : Option Nat) (children : List Nat) : Widget :=
  { plainWidget parent children with
    task := { for_self := true, for_children := false,
              states := fun i => decide (i = 13) } }

/-- A container (widget 0) whose rules cap the children updated per pass at
one, with an allowance of 2048 for the adaptive budget, and three children
(widgets 1, 2 and 3) with pending work. -/
def cappedArena : List Widget :=
  [{ plainWidget none [1, 2, 3] with
     task := { for_self := false, for_children := true, states := fun _ => false }
     rules := some { rules := { only_on_visible := false, first_update_visible_children := false,
                                cache_children_style := false, max_update_children_count := 1,
                                on_update_progress := false },
                     style_cache := none, default_max_update_count := 2048, progress := 0 } },
   pendingWidget (some 0) [], pendingWidget (some 0) [], pendingWidget (some 0) []]

/-- The quiet environment, except that no widget is in the visible area. -/
def offscreenEnv : Env :=
  { quietEnv with Widget_InVisibleArea := fun _ _ => false }

/-- A root (widget 0) whose child (widget 1) updates its children only when
it is visible and has one child (widget 2) with pending work; the
`for_children` flags are set along the chain. -/
def gatedArena : List Widget :=
  [{ plainWidget none [1] with
     task := { for_self := false, for_children := true, states := fun _ => false } },
   { plainWidget (some 0) [2] with
     task := { for_self := false, for_children := true, states := fun _ => false }
     rules := some { rules := { only_on_visible := true, first_update_visible_children := false,
                                cache_children_style := false, max_update_children_count := 0,
                                on_update_progress := false },
                     style_cache := none, default_max_update_count := 2048, progress := 0 } },
   pendingWidget (some 1) []]

/-- The state after LCUIWidget_InitTasks around `paddedChildArena`: the
handlers are installed and a refresh of everything is pending. -/
def startWorld : World := LCUIWidget_InitTasks sampleDefs (worldOf paddedChildArena)

/-! ## Predicates on task records -/

/-- The invariant of the task record of widget `i`: when one of its task
states is set, `for_self` is set. -/
def TaskInvariant (K : Defs) (ws : List Widget) (i : Nat) : Prop :=
  ∀ k, k < K.LCUI_WTASK_TOTAL_NUM → (getW ws i).task.states k = true →
    (getW ws i).task.for_self = true

/-- None of the task states of widget `i` is set. -/
def NoTaskPending (K : Defs) (ws : List Widget) (i : Nat) : Prop :=
  ∀ k, k < K.LCUI_WTASK_TOTAL_NUM → (getW ws i).task.states k = false

/-! ## Predicates on the style resolution -/

/-- The calls that Widget_BeginUpdate makes to other modules:
Widget_GenerateSelfHash and the two ways of selector matching. -/
def isStyleCall : Call → Bool
  | Call.Widget_GenerateSelfHash _ => true
  | Call.LCUI_GetStyleSheet _ _ => true
  | Call.LCUI_GetCachedStyleSheet _ => true
  | _ => false

/-- The calls that Widget_BeginUpdate makes to other modules keep the widgets
of the arena and change nothing of a widget but its hash. -/
def HashOnly (E : Env) : Prop :=
  ∀ c ws, isStyleCall c = true →
    (E.effect c ws).length = ws.length ∧
      ∀ i, getW (E.effect c ws) i = { getW ws i with hash := (getW (E.effect c ws) i).hash }

/-- Relation between two arenas: the task record, the state and the inherited
style of every widget are the same. -/
def HeldKept (ws ws' : List Widget) : Prop :=
  ws'.length = ws.length ∧
    ∀ i, (getW ws' i).task = (getW ws i).task ∧ (getW ws' i).state = (getW ws i).state ∧
      (getW ws' i).inherited_style = (getW ws i).inherited_style

/-- Relation between two arenas: the task record and the state of every
widget are the same. -/
def TasksKept (ws ws' : List Widget) : Prop :=
  ws'.length = ws.length ∧
    ∀ i, (getW ws' i).task = (getW ws i).task ∧ (getW ws' i).state = (getW ws i).state

/-- The state in which Widget_BeginUpdate reads `w->hash` at line 459 when an
ancestor context owns the style cache: the context is allocated and lines
444-446 have generated the hash again if they had to. -/
def atLookup (K : Defs) (E : Env) (S : World) (w : Nat) : World :=
  if (getW S.widgets w).hash ≠ 0 ∧
      (getW S.widgets w).task.states K.LCUI_WTASK_REFRESH_STYLE = true then
    World.call E { S with mallocs := S.mallocs + 1 } (Call.Widget_GenerateSelfHash w)
  else { S with mallocs := S.mallocs + 1 }

/-- The structural hash of `w` that the key of the style cache is made of. -/
def hashAtLookup (K : Defs) (E : Env) (S : World) (w : Nat) : Nat :=
  (getW (atLookup K E S w).widgets w).hash

/-- The number of selector matchings into a new style sheet (LCUI_GetStyleSheet
calls) of a list of calls. -/
def styleSheetCalls (cs : List Call) : Nat :=
  cs.countP (fun c =>
    match c with
    | Call.LCUI_GetStyleSheet _ _ => true
    | _ => false)

/-- The number of Widget_GenerateSelfHash calls of a list of calls. -/
def generateHashCalls (cs : List Call) : Nat :=
  cs.countP (fun c =>
    match c with
    | Call.Widget_GenerateSelfHash _ => true
    | _ => false)

/-! ## Further concrete inputs -/

/-- A single widget without a `runtask` function, with `for_self` and the
user task set. -/
def userTaskArena : List Widget :=
  [{ plainWidget none [] with
     task := { for_self := true, for_children := false,
               states := fun i => decide (i = sampleDefs.LCUI_WTASK_USER) } }]

/-- A single widget with `for_self` set and no task state set. -/
def staleSummaryArena : List Widget :=
  [{ plainWidget none [] with
     task := { for_self := true, for_children := false, states := fun _ => false } }]

/-- A root (widget 0) without flags and a child (widget 1) with pending work,
as after the child was linked under the root. -/
def relinkedArena : List Widget :=
  [plainWidget none [1], pendingWidget (some 0) []]

/-- The context of a parent that can render and whose invalidation level is
the given one. -/
def parentContextAt (level : Int) : LCUI_WidgetTaskContextRec :=
  { plainContext with diff := { plainContext.diff with invalid_box := level } }

/-- A root (widget 0) whose computed style is not visible, with `for_children`
set and nothing pending for itself, and a visible child (widget 1) that has
not completed its layout and has pending work. -/
def hiddenParentArena : List Widget :=
  [{ plainWidget none [1] with
     task := { for_self := false, for_children := true, states := fun _ => false } },
   { pendingWidget (some 0) [] with
     state := sampleDefs.LCUI_WSTATE_UPDATED
     computed_style := { LCUI_WidgetStyle.zero with visible := true } }]

/-- The quiet environment, except that Widget_GenerateSelfHash gives the
widget the hash 100 plus its index. -/
def hashingEnv : Env :=
  { quietEnv with
    effect := fun c ws =>
      match c with
      | Call.Widget_GenerateSelfHash w => updW ws w (fun x => { x with hash := 100 + x.index })
      | _ => ws }

/-- The context of an ancestor that owns the style cache 0, with style hash 3. -/
def cachingContext : LCUI_WidgetTaskContextRec :=
  { plainContext with style_cache := some 0, style_hash := 3 }

/-- A root (widget 0) with two children (widgets 1 and 2) that have the same
hash 7, and a third child (widget 3) without a hash whose style refresh is
pending. -/
def twinsArena : List Widget :=
  [plainWidget none [1, 2, 3],
   { plainWidget (some 0) [] with hash := 7, index := 0 },
   { plainWidget (some 0) [] with hash := 7, index := 1 },
   { plainWidget (some 0) [] with
     hash := 0, index := 2
     task := { for_self := true, for_children := false,
               states := fun i => decide (i = sampleDefs.LCUI_WTASK_REFRESH_STYLE) } }]

/-- A state around `twinsArena` in which the heap holds one style cache, which
is empty. -/
def twinsWorld : World := { worldOf twinsArena with dicts := [[]] }

/-! ## The loop over the children with its counter -/

/-- How the loop of lines 578-623 of Widget_UpdateChildren is left: by the end
of the list, by the `break` of line 604, or by the `break` of line 622 after
the allowance was recomputed; `update_count` and `msec` are the values that
lines 616-618 read and `stored` is the value that `default_max_update_count`
has at line 622. -/
inductive LoopExit where
  | finished
  | capped
  | recomputed (update_count : Nat) (msec : Int) (stored : Nat)
deriving DecidableEq, Repr

/-- The loop of lines 578-623 of Widget_UpdateChildren as `updateChildrenLoop`,
with two more results: the value of `update_count` when the loop is left and
the way it is left. -/
def updateChildrenLoopTraced (K : Defs) (E : Env) (upd : UpdateFn) (w : Nat)
    (ctx : LCUI_WidgetTaskContext) (hasData : Bool) :
    List Nat → World → Nat → Nat → Int → Except Fault (Nat × World × Nat × LoopExit)
  | [], S, total, update_count, _ => Except.ok (total, S, update_count, LoopExit.finished)
  | child :: rest, S, total, update_count, msec =>
    match upd S child ctx with
    | Except.error e => Except.error e
    | Except.ok (count, S1) =>
      let S2 :=
        if (getW S1.widgets child).task.for_self ∨ (getW S1.widgets child).task.for_children then
          S1.onWidgets (fun ws => updW ws w (fun x => x.setForChildren true))
        else S1
      let total1 := total + count
      let S3 := if hasData ∧ count > 0 then S2.onWidgets (fun ws => noteProgress child ws w) else S2
      let update_count1 := if hasData ∧ count > 0 then update_count + 1 else update_count
      match hasData, (getW S3.widgets w).rules with
      | true, some data =>
        if data.rules.max_update_children_count < 0 then
          updateChildrenLoopTraced K E upd w ctx hasData rest S3 total1 update_count1 msec
        else if data.rules.max_update_children_count > 0 ∧
            update_count1 ≥ data.rules.max_update_children_count.toNat then
          Except.ok (total1, S3.onWidgets (fun ws => updW ws w (fun x => x.setForChildren true)),
            update_count1, LoopExit.capped)
        else if update_count1 < data.default_max_update_count then
          updateChildrenLoopTraced K E upd w ctx hasData rest S3 total1 update_count1 msec
        else
          let S4 := S3.onWidgets (fun ws => updW ws w (fun x => x.setForChildren true))
          let (now, S5) := S4.clock E
          let msec1 := now - msec
          if msec1 < 1 then
            let S6 := S5.onWidgets (fun ws =>
              setDefaultMaxUpdateCount ws w (data.default_max_update_count + 128))
            updateChildrenLoopTraced K E upd w ctx hasData rest S6 total1 update_count1 msec1
          else
            let allowance := update_count1 * K.CLOCKS_PER_SEC / S5.self.max_updates_per_frame /
              K.LCUI_MAX_FRAMES_PER_SEC / msec1.toNat
            let allowance1 := if allowance < 1 then 32 else allowance
            Except.ok (total1, S5.onWidgets (fun ws => setDefaultMaxUpdateCount ws w allowance1),
              update_count1, LoopExit.recomputed update_count1 msec1 allowance1)
      | _, _ => updateChildrenLoopTraced K E upd w ctx hasData rest S3 total1 update_count1 msec

/-! ## Predicates on update functions and on states -/

/-- Relation between two states: the module state and the current metrics are
the same. -/
def SelfKept (S S' : World) : Prop := S'.self = S.self ∧ S'.metrics = S.metrics

/-- An update function that reports no work and keeps the module state and
the metrics. -/
def Tame (upd : UpdateFn) : Prop :=
  ∀ S w ctx count S', upd S w ctx = Except.ok (count, S') → count = 0 ∧ SelfKept S S'

/-- The way the loop was left, if it returned. -/
def loopExit (r : Except Fault (Nat × World × Nat × LoopExit)) : Option LoopExit :=
  match r with
  | Except.ok (_, _, _, exit) => some exit
  | Except.error _ => none

/-- The state in which the loop was left, the state around an empty arena when
it did not return. -/
def loopWorld (r : Except Fault (Nat × World × Nat × LoopExit)) : World :=
  match r with
  | Except.ok (_, S, _, _) => S
  | Except.error _ => worldOf []

/-- The value of `update_count` when the loop was left, if it returned. -/
def loopCount (r : Except Fault (Nat × World × Nat × LoopExit)) : Option Nat :=
  match r with
  | Except.ok (_, _, update_count, _) => some update_count
  | Except.error _ => none

/-- The member `default_max_update_count` of the rules data of `w`, if `w` has
rules data. -/
def storedAllowance (ws : List Widget) (w : Nat) : Option Nat :=
  (getW ws w).rules.map (fun data => data.default_max_update_count)

/-! ## Concrete inputs for the adaptive budget -/

/-- The quiet environment with a clock that advances by five ticks per
reading. -/
def tickingEnv : Env :=
  { quietEnv with clock := fun n => 5 * (n : Int) }

/-- A container (widget 0) with rules data that sets no limit of its own
(`max_update_children_count` is 0) and whose allowance is 0, and one child
(widget 1) with pending work. -/
def budgetArena : List Widget :=
  [{ plainWidget none [1] with
     rules := some { rules := { only_on_visible := false, first_update_visible_children := false,
                                cache_children_style := false, max_update_children_count := 0,
                                on_update_progress := false },
                     style_cache := none, default_max_update_count := 0, progress := 0 } },
   pendingWidget (some 0) []]

/-- The state around `budgetArena` when the loop of Widget_UpdateChildren is
entered: the clock was read once, at line 558. -/
def budgetWorld : World := { worldOf budgetArena with clocks := 1 }

/-! ## The frame drivers -/

/-- Lines 715-721 of LCUIWidget_Update, which are also lines 751-757 of
LCUIWidget_UpdateWithProfile: the state in which the driver goes on after the
metrics were compared and the styles refreshed if `refresh_all` is set. -/
def LCUIWidget_Update_begin (K : Defs) (E : Env) (fuel : Nat) (S : World) : Except Fault World :=
  let S1 :=
    if S.metrics ≠ S.self.metrics then { S with self := { S.self with refresh_all := true } }
    else S
  if S1.self.refresh_all then LCUIWidget_RefreshStyle K E fuel S1 else Except.ok S1

/-- The state of a result of a driver without a count, the state around an
empty arena when there is no result. -/
def okState (r : Except Fault World) : World :=
  match r with
  | Except.ok S => S
  | Except.error _ => worldOf []

/-- Whether there is a result. -/
def isOk {α : Type} (r : Except Fault α) : Bool :=
  match r with
  | Except.ok _ => true
  | Except.error _ => false

/-- The state after LCUIWidget_InitTasks around `paddedChildArena` when the
current metrics are not the stored ones. -/
def resizedWorld : World := { startWorld with metrics := 1 }

/-- The calls of Widget_InvalidateArea in a list of calls. -/
def invalidateAreaCalls (cs : List Call) : Nat :=
  cs.countP (fun c => match c with
    | Call.Widget_InvalidateArea _ _ _ => true
    | _ => false)

/-- A single visible root (widget 0) that has not completed its layout, with
`for_self` and the POSITION task set. -/
def freshRootArena : List Widget :=
  [{ pendingWidget none [] with
     state := sampleDefs.LCUI_WSTATE_UPDATED
     computed_style := { LCUI_WidgetStyle.zero with visible := true } }]

/-- The quiet environment, except that an allocated block comes with the flag
`can_render` set; in `quietEnv` it comes with all bytes zero. -/
def usedBlockEnv : Env :=
  { quietEnv with
    malloc := fun _ =>
      some ⟨0, none, { LCUI_WidgetTaskDiffRec.zero with can_render := true }, none, 0⟩ }

/-- The quiet environment, except that every allocation fails. -/
def noMemoryEnv : Env :=
  { quietEnv with malloc := fun _ => none }

/-! ## The visible-first pass, from the words of the specification -/

/-- Whether the border box of `child` overlaps the rectangle in the state `S`
(the test of line 526). -/
def overlapsVisible (E : Env) (rect : LCUI_RectF) (S : World) (child : Nat) : Bool :=
  (E.LCUIRectF_GetOverlayRect rect (getW S.widgets child).box.border).isSome

/-- The update of one child by the pass (lines 532-539): the child is updated
and the container `w` is marked when the child still has pending work. -/
def updateVisibleChild (upd : UpdateFn) (w : Nat) (ctx : LCUI_WidgetTaskContext) (S : World)
    (child : Nat) : Except Fault (Nat × World) :=
  match upd S child ctx with
  | Except.error e => Except.error e
  | Except.ok (count, S1) =>
    Except.ok (count,
      if (getW S1.widgets child).task.for_self ∨ (getW S1.widgets child).task.for_children then
        S1.onWidgets (fun ws => updW ws w (fun x => x.setForChildren true))
      else S1)

/-- Modelled from the spec: a run of consecutive overlapping children.  The
children are updated one after the other as long as each overlaps the
rectangle when the scan reaches it; the scan stops at the first child that
does not, and no later child is updated. -/
def updateRun (E : Env) (upd : UpdateFn) (w : Nat) (ctx : LCUI_WidgetTaskContext)
    (rect : LCUI_RectF) : List Nat → World → Nat → Except Fault (Nat × World)
  | [], S, total => Except.ok (total, S)
  | child :: rest, S, total =>
    if overlapsVisible E rect S child then
      match updateVisibleChild upd w ctx S child with
      | Except.error e => Except.error e
      | Except.ok (count, S1) => updateRun E upd w ctx rect rest S1 (total + count)
    else Except.ok (total, S)

/-- Modelled from the spec: the visible-first pass.  The leading children that
do not overlap the rectangle are skipped, then the run that starts at the
first overlapping child is updated. -/
def updateFirstRun (E : Env) (upd : UpdateFn) (w : Nat) (ctx : LCUI_WidgetTaskContext)
    (rect : LCUI_RectF) (children : List Nat) (S : World) (total : Nat) :
    Except Fault (Nat × World) :=
  updateRun E upd w ctx rect (children.dropWhile (fun c => !overlapsVisible E rect S c)) S total

/-- Modelled from the spec: the first maximal run of consecutive children
whose border box overlaps the rectangle, the boxes being those of the state
`S`. -/
def firstRun (E : Env) (rect : LCUI_RectF) (S : World) (children : List Nat) : List Nat :=
  (children.dropWhile (fun c => !overlapsVisible E rect S c)).takeWhile
    (fun c => overlapsVisible E rect S c)

/-- Modelled from the spec: every child of the list is updated, in order. -/
def updateEach (upd : UpdateFn) (w : Nat) (ctx : LCUI_WidgetTaskContext) :
    List Nat → World → Nat → Except Fault (Nat × World)
  | [], S, total => Except.ok (total, S)
  | child :: rest, S, total =>
    match updateVisibleChild upd w ctx S child with
    | Except.error e => Except.error e
    | Except.ok (count, S1) => updateEach upd w ctx rest S1 (total + count)

/-- An update function that moves no border box. -/
def KeepsBorderBoxes (upd : UpdateFn) : Prop :=
  ∀ S c ctx count S1, upd S c ctx = Except.ok (count, S1) →
    ∀ child, (getW S1.widgets child).box.border = (getW S.widgets child).box.border

/-- The quiet environment, except that a border box overlaps the rectangle
when it is not empty. -/
def clippingEnv : Env :=
  { quietEnv with
    LCUIRectF_GetOverlayRect := fun a b => if 0 < b.width ∧ 0 < b.height then some a else none }

/-- A container (widget 0) with five children with pending work; the border
boxes of the children 2, 3 and 5 are not empty, those of the children 1 and 4
are. -/
def stripArena : List Widget :=
  [{ plainWidget none [1, 2, 3, 4, 5] with
     box := { LCUI_WidgetBoxModelRec.zero with padding := ⟨0, 0, 100, 100⟩ } },
   pendingWidget (some 0) [],
   { pendingWidget (some 0) [] with
     box := { LCUI_WidgetBoxModelRec.zero with border := ⟨0, 0, 10, 10⟩ } },
   { pendingWidget (some 0) [] with
     box := { LCUI_WidgetBoxModelRec.zero with border := ⟨0, 10, 10, 10⟩ } },
   pendingWidget (some 0) [],
   { pendingWidget (some 0) [] with
     box := { LCUI_WidgetBoxModelRec.zero with border := ⟨0, 30, 10, 10⟩ } }]

/-- Relation between two states: every widget has the same box model. -/
def BoxesKept (S S' : World) : Prop :=
  ∀ i, (getW S'.widgets i).box = (getW S.widgets i).box

/-- An update function that changes no box model. -/
def KeepsBoxes (upd : UpdateFn) : Prop :=
  ∀ S c ctx count S1, upd S c ctx = Except.ok (count, S1) → BoxesKept S S1

/-! ## The chain of contexts -/

/-- The widgets for which the contexts of a chain were created, nearest
first. -/
def owners (ctx : LCUI_WidgetTaskContext) : List Nat := ctx.map (fun c => c.owner)

/-- An update function restricted to the chains that satisfy `p`: on any other
chain it does not return. -/
def onChains (p : LCUI_WidgetTaskContext → Bool) (upd : UpdateFn) : UpdateFn :=
  fun S c ctx => if p ctx then upd S c ctx else Except.error Fault.fuel

/-- Widget_UpdateWithContext (lines 671-695) with the function that line 686
reaches for each child, through Widget_UpdateChildren, as a parameter. -/
def Widget_UpdateWithContext_step (K : Defs) (E : Env) (upd : UpdateFn) : UpdateFn :=
  fun S w ctx =>
    if !(getW S.widgets w).task.for_self && !(getW S.widgets w).task.for_children then
      Except.ok (0, S)
    else
      match Widget_BeginUpdate K E S w ctx with
      | (none, _) => Except.error Fault.null
      | (some c0, S1) =>
        let c1 := Widget_InitDiff K S1 w c0 ctx
        let r2 :=
          if (getW S1.widgets w).task.for_self then Widget_UpdateSelf K E S1 w c1 ctx
          else (c1, S1)
        let r3 :=
          if (getW r2.2.widgets w).task.for_children then
            Widget_UpdateChildren K E upd r2.2 w (r2.1 :: ctx)
          else Except.ok (0, r2.2)
        match r3 with
        | Except.error e => Except.error e
        | Except.ok (count, S3) =>
          let S4 := S3.call E (Call.Widget_SortChildrenShow w)
          let S5 :=
            if (getW S4.widgets w).task.states K.LCUI_WTASK_REFLOW then
              (Widget_RunReflowTask E S4 w r2.1).onWidgets (fun ws =>
                updW ws w (fun x => x.setTaskState K.LCUI_WTASK_REFLOW false))
            else S4
          Except.ok (count, Widget_EndUpdate S5 r2.1)

/-- Widget_Update (lines 697-707) with the function called at line 704 as a
parameter. -/
def Widget_Update_step (K : Defs) (E : Env) (upd : UpdateFn) (S : World) (w : Nat) :
    Except Fault (Nat × World) :=
  match Widget_BeginUpdate K E S w [] with
  | (none, _) => Except.error Fault.null
  | (some c0, S1) =>
    let c1 := Widget_InitDiff K S1 w c0 []
    match upd S1 w [c1] with
    | Except.error e => Except.error e
    | Except.ok (count, S2) => Except.ok (count, Widget_EndUpdate S2 c1)

/-- Widget_UpdateWithContext in which every update of a child of a widget `w`
that is updated under the chain `ctx` is restricted to the chains that hold
one more context than `ctx`, created for `w`. -/
def Widget_UpdateWithContext_owned (K : Defs) (E : Env) : Nat → UpdateFn
  | 0 => fun _ _ _ => Except.error Fault.fuel
  | fuel + 1 => fun S w ctx =>
    Widget_UpdateWithContext_step K E
      (onChains (fun chain => decide (owners chain = w :: owners ctx))
        (Widget_UpdateWithContext_owned K E fuel)) S w ctx

/-- Widget_UpdateWithContext in which every update of a child, at every depth,
is restricted to the chains whose nearest style cache is `cache` with the
style hash `h`. -/
def Widget_UpdateWithContext_cached (K : Defs) (E : Env) (cache h : Nat) : Nat → UpdateFn
  | 0 => fun _ _ _ => Except.error Fault.fuel
  | fuel + 1 =>
    Widget_UpdateWithContext_step K E
      (onChains (fun chain => decide (findStyleCache chain = some (cache, h)))
        (Widget_UpdateWithContext_cached K E cache h fuel))

/-- Widget_UpdateWithContext in which every update of a child, at every depth,
is restricted to the chains in which no two contexts were created for the
same widget. -/
def Widget_UpdateWithContext_single (K : Defs) (E : Env) : Nat → UpdateFn
  | 0 => fun _ _ _ => Except.error Fault.fuel
  | fuel + 1 =>
    Widget_UpdateWithContext_step K E
      (onChains (fun chain => decide (owners chain).Nodup)
        (Widget_UpdateWithContext_single K E fuel))

/-- A root (widget 0) with `for_children` set and a child (widget 1) with
pending work. -/
def parentChildArena : List Widget :=
  [{ plainWidget none [1] with
     task := { for_self := false, for_children := true, states := fun _ => false } },
   pendingWidget (some 0) []]

/-- The fault of a run that did not return. -/
def faultOf {α : Type} (r : Except Fault α) : Option Fault :=
  match r with
  | Except.ok _ => none
  | Except.error e => some e

/-- A root (widget 0, hash 5) whose rules ask for a style cache for its
children, with two children (widgets 1 and 3) and a grandchild (widget 2, under
widget 1); the three descendants have the hash 7 and pending work. -/
def cacheArena : List Widget :=
  [{ plainWidget none [1, 3] with
     hash := 5
     task := { for_self := false, for_children := true, states := fun _ => false }
     rules := some { rules := { only_on_visible := false, first_update_visible_children := false,
                                cache_children_style := true, max_update_children_count := 0,
                                on_update_progress := false },
                     style_cache := none, default_max_update_count := 2048, progress := 0 } },
   { pendingWidget (some 0) [2] with
     hash := 7
     task := { for_self := true, for_children := true, states := fun i => decide (i = 13) } },
   { pendingWidget (some 1) [] with hash := 7 },
   { pendingWidget (some 0) [] with hash := 7 }]

/-! ## A frame over a tree with update rules, when nothing is mutated -/

/-- The rules data without the progress index and the allowance of the
adaptive budget. -/
def LCUI_WidgetRulesDataRec.settings (d : LCUI_WidgetRulesDataRec) : LCUI_WidgetRulesDataRec :=
  { d with progress := 0, default_max_update_count := 0 }

/-- The allowance of the adaptive budget of widget `i` is 0. -/
def zeroAllowance (ws : List Widget) (i : Nat) : Bool :=
  match (getW ws i).rules with
  | some data => decide (data.default_max_update_count = 0)
  | none => false

/-- No allowance of the second arena is 0 unless it is 0 in the first one. -/
def AllowanceKept (ws ws1 : List Widget) : Prop :=
  ∀ i, zeroAllowance ws1 i = true → zeroAllowance ws i = true

/-- Relation between two arenas: nothing but task records, and progress indexes
and allowances of the rules data, differs. -/
def FrameKept (ws0 ws : List Widget) : Prop :=
  ws.length = ws0.length ∧
    ∀ i, getW ws i = { getW ws0 i with task := (getW ws i).task, rules := (getW ws i).rules } ∧
      (getW ws i).rules.map (fun d => d.settings) = (getW ws0 i).rules.map (fun d => d.settings)

/-- The gate of lines 559-564 of Widget_UpdateChildren closes for widget `i`:
its rules update the children only when it is visible, and it is outside the
visible area. -/
def offGated (E : Env) (ws : List Widget) (i : Nat) : Bool :=
  match (getW ws i).rules with
  | some data => data.rules.only_on_visible && !E.Widget_InVisibleArea ws i
  | none => false

/-- The widgets that an update of `w` can reach: `w`, and the widgets that an
update of a child of `w` can reach when the gate of `w` is open. -/
inductive Reached (E : Env) (ws : List Widget) : Nat → Nat → Prop where
  | top (w : Nat) : Reached E ws w w
  | step {w c i : Nat} : offGated E ws w = false → c ∈ (getW ws w).children →
      Reached E ws c i → Reached E ws w i

/-- The parent links of the subtree of `w` agree with the children links: a
child of a widget of the subtree has that widget as parent. -/
def ParentsLinked (ws : List Widget) (w : Nat) : Prop :=
  ∀ i c, InSubtree ws w i → c ∈ (getW ws i).children → (getW ws c).parent = some i

/-- No gate is closed in the subtree of `w`. -/
def GateFree (E : Env) (ws : List Widget) (w : Nat) : Prop :=
  ∀ g, InSubtree ws w g → offGated E ws g = false

/-- The first update of the children of widget `i` will stop after one child:
the gate of `i` is open (in the reference arena `ws0`), `for_children` is set,
the rules do not lift the limits and the allowance of the adaptive budget is
0, so that the check of line 607 fails. -/
def zeroPending (E : Env) (ws0 ws : List Widget) (i : Nat) : Bool :=
  !offGated E ws0 i && (getW ws i).task.for_children &&
    match (getW ws i).rules with
    | some data =>
      decide (0 ≤ data.rules.max_update_children_count) &&
        decide (data.default_max_update_count = 0)
    | none => false

/-- The number `lag` does not decrease from a widget that an update of `w` can
reach to its children, and it increases by 1 at least to a child whose first
update of the children will stop after one child. -/
def LagSteps (E : Env) (ws : List Widget) (lag : Nat → Nat) (w : Nat) : Prop :=
  ∀ i c, Reached E ws w i → offGated E ws i = false → c ∈ (getW ws i).children →
    lag i ≤ lag c ∧ (zeroPending E ws ws c = true → lag i + 1 ≤ lag c)

/-- The number `lag i` bounds, for every widget `i` that an update of `w` can
reach, the number of widgets among `i` and its ancestors up to `w` whose first
update of the children will stop after one child: it does not decrease from a
widget to its children, and it counts the widget itself. -/
def LagPlan (E : Env) (ws : List Widget) (lag : Nat → Nat) (w : Nat) : Prop :=
  (zeroPending E ws ws w = true → 1 ≤ lag w) ∧ LagSteps E ws lag w

/-- A flag of widget `i` that is set in the second arena is set in the first
one. -/
def FlagsShrink (ws ws1 : List Widget) (i : Nat) : Prop :=
  ((getW ws1 i).task.for_self = true → (getW ws i).task.for_self = true) ∧
    ((getW ws1 i).task.for_children = true → (getW ws i).task.for_children = true)

/-- The style cache and the style hash that the context of widget `i` has after
lines 430-457 of Widget_BeginUpdate, when the nearest style cache of the chain
is `p`: the one of the chain, or else the one that `i` owns. -/
def contextCache (ws : List Widget) (i : Nat) (p : Option (Nat × Nat)) : Option (Nat × Nat) :=
  match p with
  | some x => some x
  | none =>
    match (getW ws i).rules with
    | some data =>
      if data.rules.cache_children_style then
        data.style_cache.map (fun d => (d, (getW ws i).hash))
      else none
    | none => none

/-- The nearest style cache `q i` of the chain under which each widget `i`
that an update of `w` can reach is updated follows the tree: a child is updated
under the cache of the context of its parent. -/
def CachePlan (E : Env) (ws : List Widget) (q : Nat → Option (Nat × Nat)) (w : Nat) : Prop :=
  ∀ i c, Reached E ws w i → offGated E ws i = false → c ∈ (getW ws i).children →
    q c = contextCache ws i (q i)

/-- Style resolution marks no new task for widget `i` under a chain whose
nearest style cache is `p`: a widget that becomes the owner of a style cache
has one already, and the sheet that lines 458-475 resolve, through the style
cache of the context when there is one and the widget has a hash and through
the global cache otherwise, is the sheet that the widget holds. -/
def StyleHeld (E : Env) (ws : List Widget) (dicts : List (List (Nat × Nat))) (i : Nat)
    (p : Option (Nat × Nat)) : Prop :=
  (∀ data, p = none → (getW ws i).rules = some data →
    data.rules.cache_children_style = true → data.style_cache ≠ none) ∧
  (∀ d h, contextCache ws i p = some (d, h) → (getW ws i).hash ≠ 0 →
    ∃ s, Dict_FetchValue dicts d (styleCacheKey h (getW ws i).hash) = some s ∧
      (getW ws i).inherited_style = some (StyleRef.sheet s)) ∧
  ((contextCache ws i p = none ∨ (getW ws i).hash = 0) →
    ∀ ws1, FrameKept ws ws1 → (getW ws i).inherited_style =
      some (StyleRef.cached (E.LCUI_GetCachedStyleSheet ws1 i)))

/-- The walk over the ancestors of lines 505-514 of Widget_UpdateVisibleChildren
ends within the given number of steps. -/
def ancestorsEnd : Nat → List Widget → Option Nat → Bool
  | 0, _, _ => false
  | _ + 1, _, none => true
  | n + 1, ws, some p => ancestorsEnd n ws (getW ws p).parent

/-- The visible rectangle of lines 498-516 of Widget_UpdateVisibleChildren is
defined for widget `i`: no parent is read where there is none, and the walk
over the ancestors ends. -/
def VisibleRectDefined (K : Defs) (E : Env) (ws : List Widget) (i : Nat) : Prop :=
  ((getW ws i).parent = none →
      ((getW ws i).box.padding.width < 1 →
        ∀ ws1, FrameKept ws ws1 → E.Widget_HasAutoStyle ws1 i K.key_width = false) ∧
      ((getW ws i).box.padding.height < 1 →
        ∀ ws1, FrameKept ws ws1 → E.Widget_HasAutoStyle ws1 i K.key_height = false)) ∧
    ancestorsEnd (ws.length + 1) ws (getW ws i).parent = true

/-- What the update rules of the widgets that an update of `w` can reach must
be like for a pass to return, for the widgets with `for_children` set: whether
a widget that updates its children only when it is visible is in the visible
area does not change with the task records, and where the gate is open, the
visible rectangle of a widget that updates its visible children first is
defined. -/
def RulesReady (K : Defs) (E : Env) (ws : List Widget) (w : Nat) : Prop :=
  ∀ i, Reached E ws w i → (getW ws i).task.for_children = true →
    ∀ data, (getW ws i).rules = some data →
      (data.rules.only_on_visible = true →
        ∀ ws1, FrameKept ws ws1 → E.Widget_InVisibleArea ws1 i = E.Widget_InVisibleArea ws i) ∧
      (offGated E ws i = false → data.rules.first_update_visible_children = true →
        VisibleRectDefined K E ws i)

/-- Style resolution marks no new task in an update of `w` under the plan `q`:
`StyleHeld` for every widget with pending work that the update can reach. -/
def StylesHeld (E : Env) (ws : List Widget) (dicts : List (List (Nat × Nat)))
    (q : Nat → Option (Nat × Nat)) (w : Nat) : Prop :=
  ∀ i, Reached E ws w i → Dirty ws i → StyleHeld E ws dicts i (q i)

/-- What does not change during a frame in which nothing is mutated: the
subtree of `w` in the reference arena `ws0` is a finite tree inside the arena,
and for the widgets that an update of `w` can reach the style caches follow the
tree, style resolution marks no new task, the update rules let a pass return
and `lag` bounds the updates that will stop after one child. -/
def TreeReady (K : Defs) (E : Env) (ws0 : List Widget) (dicts : List (List (Nat × Nat)))
    (rank : Nat → Nat) (q : Nat → Option (Nat × Nat)) (lag : Nat → Nat) (w : Nat) : Prop :=
  IsTreeUnder ws0 rank w ∧ w < ws0.length ∧ CachePlan E ws0 q w ∧
    StylesHeld E ws0 dicts q w ∧ RulesReady K E ws0 w ∧ LagSteps E ws0 lag w

/-- The second arena has no flag set and no allowance at 0 that the first one
has not. -/
def Below (ws ws1 : List Widget) : Prop :=
  (∀ i, FlagsShrink ws ws1 i) ∧ AllowanceKept ws ws1

/-- After `k` passes, every widget that an update of `w` can reach and whose
first update of the children will stop after one child has a lag above `k`. -/
def ZeroBound (E : Env) (ws0 ws : List Widget) (lag : Nat → Nat) (k w : Nat) : Prop :=
  ∀ i, Reached E ws0 w i → zeroPending E ws0 ws i = true → k + 1 ≤ lag i

/-- What pass number `k + 1` of Widget_UpdateWithContext over the subtree of
`w` is ready for, update rules included: no refresh of everything is pending,
the arena differs from the reference arena by task records, progress indexes
and allowances only and has no flag set and no allowance at 0 that the
reference arena has not, the style caches are those of the reference state,
the nearest style cache of the chain is the planned one, the flags of the
subtree are closed and the updates that will stop after one child have a lag
above `k`. -/
def FrameReady (K : Defs) (E : Env) (ws0 : List Widget) (dicts : List (List (Nat × Nat)))
    (rank : Nat → Nat) (q : Nat → Option (Nat × Nat)) (lag : Nat → Nat) (k : Nat) (S : World)
    (w : Nat) (ctx : LCUI_WidgetTaskContext) : Prop :=
  S.self.refresh_all = false ∧ FrameKept ws0 S.widgets ∧ Below ws0 S.widgets ∧
    S.dicts = dicts ∧ findStyleCache ctx = q w ∧ TreeReady K E ws0 dicts rank q lag w ∧
    FlagsClosed ws0 S.widgets w ∧ ZeroBound E ws0 S.widgets lag k w

/-- Relation between two states of a frame in which nothing is mutated: the
module state, the metrics and the style caches are the same, the arena differs
from the reference arena by task records, progress indexes and allowances only
and no allowance became 0. -/
def FrameStep (ws0 : List Widget) (S S1 : World) : Prop :=
  S1.self = S.self ∧ S1.metrics = S.metrics ∧ S1.dicts = S.dicts ∧ FrameKept ws0 S1.widgets ∧
    AllowanceKept S.widgets S1.widgets

/-- How the flags change between two arenas in pass number `k + 1` over the
subtree of `w` when nothing is mutated: no flag is set; the widgets that the
update cannot reach keep their flags; the widgets that it can reach and whose
lag is at most `k` have `for_self` clear, and `for_children` too when no gate
is closed and no lag is above `k` in what the update can reach from them; a
widget whose gate is closed keeps `for_children`; the flags of the subtree are
closed; and the updates that will stop after one child have a lag above
`k + 1`. -/
def FlagsDrained (E : Env) (ws0 ws ws1 : List Widget) (lag : Nat → Nat) (k w : Nat) : Prop :=
  (∀ i, FlagsShrink ws ws1 i) ∧
    (∀ i, ¬ Reached E ws0 w i → SameFlags ws ws1 i) ∧
    (∀ i, Reached E ws0 w i → lag i ≤ k → (getW ws1 i).task.for_self = false) ∧
    (∀ i, Reached E ws0 w i → GateFree E ws0 i → (∀ j, Reached E ws0 i j → lag j ≤ k) →
      Clean ws1 i) ∧
    (∀ g, offGated E ws0 g = true →
      (getW ws1 g).task.for_children = (getW ws g).task.for_children) ∧
    FlagsClosed ws0 ws1 w ∧ ZeroBound E ws0 ws1 lag (k + 1) w

/-- What pass number `k + 1` of Widget_UpdateWithContext over the subtree of
`w` achieves when nothing is mutated, update rules included: it returns 0 and
drains the flags of the widgets it can reach, as far as their lag allows. -/
def FrameSpec (E : Env) (ws0 : List Widget) (lag : Nat → Nat) (k : Nat) (S : World) (w : Nat)
    (r : Except Fault (Nat × World)) : Prop :=
  ∃ S1, r = Except.ok (0, S1) ∧ FrameStep ws0 S S1 ∧
    FlagsDrained E ws0 S.widgets S1.widgets lag k w

/-- The state in which the loops over the children go on after a child was
updated: `for_children` of the parent is set when the child still has pending
work. -/
def afterChild (S1 : World) (w child : Nat) : World :=
  if (getW S1.widgets child).task.for_self = true ∨
      (getW S1.widgets child).task.for_children = true then
    S1.onWidgets (fun ws => updW ws w (fun x => x.setForChildren true))
  else S1

/-- What the update of the children of a widget `w` whose gate is open keeps
(lines 574-632), whatever the allowance is, when nothing is mutated: apart
from `for_children` of `w`, no flag is set; `for_self` of `w` is kept;
`for_children` of `w` ends set when a child still has pending work; the
widgets that the updates of the children cannot reach keep their flags; a
widget whose gate is closed keeps `for_children`; and the flags of the
subtrees of the children are closed. -/
def ChildrenKept (E : Env) (ws0 ws ws1 : List Widget) (w : Nat) : Prop :=
  (∀ i, i ≠ w → FlagsShrink ws ws1 i) ∧
    (getW ws1 w).task.for_self = (getW ws w).task.for_self ∧
    (∀ c ∈ (getW ws0 w).children, Dirty ws1 c → (getW ws1 w).task.for_children = true) ∧
    (∀ i, i ≠ w → (∀ c ∈ (getW ws0 w).children, ¬ Reached E ws0 c i) → SameFlags ws ws1 i) ∧
    (∀ g, offGated E ws0 g = true →
      (getW ws1 g).task.for_children = (getW ws g).task.for_children) ∧
    (∀ c ∈ (getW ws0 w).children, FlagsClosed ws0 ws1 c)

/-- What the update of the children of `w` achieves in pass number `k + 1`
when the loop of lines 578-623 visits every child: `for_children` of `w` ends
clear when no gate is closed and no lag is above `k` in what the updates of
the children can reach; the widgets that they can reach and whose lag is at
most `k` have `for_self` clear, and `for_children` too when no gate is closed
and no lag is above `k` in what the update can reach from them; and the
updates that will stop after one child have a lag above `k + 1`. -/
def ChildrenDrained (E : Env) (ws0 ws1 : List Widget) (lag : Nat → Nat) (k w : Nat) : Prop :=
  ((∀ c ∈ (getW ws0 w).children, GateFree E ws0 c ∧ ∀ j, Reached E ws0 c j → lag j ≤ k) →
      (getW ws1 w).task.for_children = false) ∧
    (∀ c ∈ (getW ws0 w).children, ∀ i, Reached E ws0 c i → lag i ≤ k →
      (getW ws1 i).task.for_self = false) ∧
    (∀ c ∈ (getW ws0 w).children, ∀ i, Reached E ws0 c i → GateFree E ws0 i →
      (∀ j, Reached E ws0 i j → lag j ≤ k) → Clean ws1 i) ∧
    (∀ c ∈ (getW ws0 w).children, ZeroBound E ws0 ws1 lag (k + 1) c)

/-- The loop of lines 578-623 over the children of `w` goes on after a child
that reports no work: the rules lift every limit or the allowance of the
adaptive budget is at least 1. -/
def GoesOn (ws : List Widget) (w : Nat) : Prop :=
  ∀ data, (getW ws w).rules = some data → 0 ≤ data.rules.max_update_children_count →
    1 ≤ data.default_max_update_count

/-- The state after lines 610-620 of Widget_UpdateChildren, reached when the
check of line 607 fails after `child` was updated: `for_children` of `w` is
set, the clock was read and the allowance of the adaptive budget is `v`. -/
def afterBudget (S1 : World) (w child : Nat) (v : Nat) : World :=
  ({ (afterChild S1 w child).onWidgets (fun ws => updW ws w (fun x => x.setForChildren true))
      with clocks := (afterChild S1 w child).clocks + 1 } : World).onWidgets
    (fun ws => setDefaultMaxUpdateCount ws w v)

/-! ### Decision procedures and concrete inputs for the frame over a tree with
update rules -/

/-- Decision procedure for `CachePlan` over the whole arena. -/
def checkCachePlan (ws : List Widget) (q : Nat → Option (Nat × Nat)) : Bool :=
  (List.range ws.length).all (fun i =>
    (getW ws i).children.all (fun c => decide (q c = contextCache ws i (q i))))

/-- Decision procedure for `StyleHeld` over the whole arena, for an environment
whose global cache yields the sheet `sheet` for every widget. -/
def checkStyleHeld (ws : List Widget) (dicts : List (List (Nat × Nat)))
    (q : Nat → Option (Nat × Nat)) (sheet : Nat) : Bool :=
  (List.range ws.length).all (fun i =>
    (match q i, (getW ws i).rules with
      | none, some data => !data.rules.cache_children_style || data.style_cache.isSome
      | _, _ => true) &&
    (match contextCache ws i (q i) with
      | some (d, h) =>
        if (getW ws i).hash = 0 then
          decide ((getW ws i).inherited_style = some (StyleRef.cached sheet))
        else
          match Dict_FetchValue dicts d (styleCacheKey h (getW ws i).hash) with
          | some s => decide ((getW ws i).inherited_style = some (StyleRef.sheet s))
          | none => false
      | none => decide ((getW ws i).inherited_style = some (StyleRef.cached sheet))))

/-- Decision procedure for `RulesReady` over the whole arena, for an
environment in which no widget has an automatic size and the visible area does
not depend on the task records. -/
def checkRulesReady (E : Env) (ws : List Widget) : Bool :=
  (List.range ws.length).all (fun i =>
    match (getW ws i).rules with
    | some data =>
      offGated E ws i || !data.rules.first_update_visible_children ||
        ancestorsEnd (ws.length + 1) ws (getW ws i).parent
    | none => true)

/-- Decision procedure for `LagPlan` and for the bound `bound` on `lag` over
the whole arena. -/
def checkLagPlan (E : Env) (ws : List Widget) (lag : Nat → Nat) (bound : Nat) : Bool :=
  (List.range ws.length).all (fun i =>
    decide (lag i ≤ bound) && (!zeroPending E ws ws i || decide (1 ≤ lag i)) &&
      (offGated E ws i || (getW ws i).children.all (fun c =>
        decide (lag i ≤ lag c) && (!zeroPending E ws ws c || decide (lag i + 1 ≤ lag c)))))

/-- The quiet environment, except that widget 8 is outside the visible area. -/
def sideEnv : Env :=
  { quietEnv with Widget_InVisibleArea := fun _ i => decide (i ≠ 8) }

/-- The rules data of a container before its first update: no style cache yet,
the given rules and the given allowance of the adaptive budget. -/
def rulesData (rules : LCUI_WidgetRulesRec) (allowance : Nat) : LCUI_WidgetRulesDataRec :=
  { rules := rules, style_cache := none, default_max_update_count := allowance, progress := 0 }

/-- A container with `for_children` set and the given rules data. -/
def containerWidget (parent : Option Nat) (children : List Nat)
    (data : LCUI_WidgetRulesDataRec) : Widget :=
  { plainWidget parent children with
    task := { for_self := false, for_children := true, states := fun _ => false }
    rules := some data }

/-- A tree with update rules of every kind, before its first update; every
leaf has pending work and `for_children` is set on every container.  The root
(widget 0) has an allowance of 0 and two children: a leaf (widget 1) and
widget 2, which asks for a style cache for its children, caps the children
updated per pass at one and has an allowance of 0.  The children of widget 2
are a leaf with the hash 7 (widget 3) and widget 4, which updates its children
only when it is visible and has an allowance of 0.  The children of widget 4
are a leaf (widget 5) and widget 6, which updates its visible children first
and lifts every limit.  The children of widget 6 are widget 7, with an
allowance of 0, and widget 8, which updates its children only when it is
visible and has one child (widget 9).  The children of widget 7 are a leaf
(widget 10) and widget 11, with an allowance of 0; the children of widget 11
are a leaf (widget 12) and widget 13, with an allowance of 0 and two leaves
(widgets 14 and 15). -/
def frameArena : List Widget :=
  [containerWidget none [1, 2] (rulesData ⟨false, false, false, 0, false⟩ 0),
   pendingWidget (some 0) [],
   { containerWidget (some 0) [3, 4] (rulesData ⟨false, false, true, 1, true⟩ 0) with hash := 5 },
   { pendingWidget (some 2) [] with hash := 7 },
   containerWidget (some 2) [5, 6] (rulesData ⟨true, false, false, 0, false⟩ 0),
   pendingWidget (some 4) [],
   containerWidget (some 4) [7, 8] (rulesData ⟨false, true, false, -1, false⟩ 0),
   containerWidget (some 6) [10, 11] (rulesData ⟨false, false, false, 0, false⟩ 0),
   containerWidget (some 6) [9] (rulesData ⟨true, false, false, 0, false⟩ 0),
   pendingWidget (some 8) [],
   pendingWidget (some 7) [],
   containerWidget (some 7) [12, 13] (rulesData ⟨false, false, false, 0, false⟩ 0),
   pendingWidget (some 11) [],
   containerWidget (some 11) [14, 15] (rulesData ⟨false, false, false, 0, false⟩ 0),
   pendingWidget (some 13) [],
   pendingWidget (some 13) []]

/-- The state after LCUIWidget_InitTasks around `frameArena`: the handlers are
installed and a refresh of everything is pending. -/
def frameWorld : World := LCUIWidget_InitTasks sampleDefs (worldOf frameArena)

/-- The nearest style cache of the chain under which each widget of
`frameArena` is updated: none for the root and its children, the cache of
widget 2 (dictionary 0, hash 5) below widget 2. -/
def framePlan (i : Nat) : Option (Nat × Nat) := if i < 3 then none else some (0, 5)

/-- A rank for the widgets of `frameArena`: 16 minus the index, which every
children link lowers. -/
def frameRank (i : Nat) : Nat := 16 - i

/-- A lag for the widgets of `frameArena` after the first update: widget 13,
which was not updated yet, will stop its first update of the children after
one child. -/
def frameLag (i : Nat) : Nat := if i < 13 then 0 else 1

/-- A chain of containers with an allowance of 0 for the adaptive budget, the
given number of levels deep: the container of level `k` (widget `2 * k`) has a
leaf without pending work (widget `2 * k + 1`) and the container of the next
level as children, and the last container has a leaf with pending work instead
(widget `2 * levels`); `for_children` is set on every container. -/
def chainArena (levels : Nat) : List Widget :=
  (List.range levels).flatMap (fun k =>
    [containerWidget (if k = 0 then none else some (2 * (k - 1))) [2 * k + 1, 2 * k + 2]
        (rulesData ⟨false, false, false, 0, false⟩ 0),
     plainWidget (some (2 * k)) []]) ++ [pendingWidget (some (2 * (levels - 1))) []]

/-- The plan of `chainArena`: there is no style cache. -/
def chainPlan (_ : Nat) : Option (Nat × Nat) := none

/-- A rank for the widgets of `chainArena 7`: 7 minus the level for a
container and for the last leaf, 0 for the other leaves. -/
def chainRank (i : Nat) : Nat := if i % 2 = 0 then 7 - i / 2 else 0

/-- A lag for the widgets of `chainArena 7` after the first update, which
updated the containers of the levels 0 to 3: the containers of the levels 4, 5
and 6 (widgets 8, 10 and 12) will stop their first update of the children
after one child. -/
def chainLag (i : Nat) : Nat := min 3 ((i - 6) / 2)
/-! # Theorems -/

/-! ## Reading and writing the arena -/

theorem length_updW (ws : List Widget) (i : Nat) (f : Widget → Widget) :
    (updW ws i f).length = ws.length := by
  simp [updW]

theorem getW_updW (ws : List Widget) (i j : Nat) (f : Widget → Widget) :
    getW (updW ws i f) j = if i = j ∧ i < ws.length then f (getW ws i) else getW ws j := by
  simp only [getW, updW, List.getD_eq_getElem?_getD, List.getElem?_set]
  by_cases h : i = j
  · subst h
    by_cases h2 : i < ws.length
    · simp [h2]
    · simp [h2, List.getElem?_eq_none (Nat.le_of_not_lt h2)]
  · simp [h]

theorem getW_updW_same (ws : List Widget) (i : Nat) (f : Widget → Widget) (h : i < ws.length) :
    getW (updW ws i f) i = f (getW ws i) := by
  simp [getW_updW, h]

theorem getW_updW_ne (ws : List Widget) (i j : Nat) (f : Widget → Widget) (h : i ≠ j) :
    getW (updW ws i f) j = getW ws j := by
  simp [getW_updW, h]

theorem getW_of_length_le (ws : List Widget) (i : Nat) (h : ws.length ≤ i) :
    getW ws i = Widget.null := by
  simp [getW, List.getD_eq_getElem?_getD, List.getElem?_eq_none h]

theorem unmarked_le_length (ws : List Widget) : unmarked ws ≤ ws.length :=
  List.countP_le_length _

theorem unmarked_updW (ws : List Widget) (i : Nat) (h : i < ws.length)
    (hf : (getW ws i).task.for_children = false) :
    unmarked (updW ws i (fun w => w.setForChildren true)) + 1 = unmarked ws := by
  have hg : getW ws i = ws[i] := by
    simp [getW, List.getD_eq_getElem?_getD, List.getElem?_eq_getElem h]
  have hf2 : ws[i].task.for_children = false := by rw [← hg]; exact hf
  have hpos : 0 < List.countP (fun w => !w.task.for_children) ws := by
    apply List.countP_pos_iff.mpr
    exact ⟨ws[i], List.getElem_mem _, by simp [hf2]⟩
  unfold unmarked updW
  rw [List.countP_set _ _ _ _ h]
  simp [hf2, Widget.setForChildren]
  omega

/-! ## Propagation of the `for_children` flag -/

theorem MarksOnly_refl (ws : List Widget) : MarksOnly ws ws :=
  ⟨rfl, fun _ => Or.inl rfl⟩

theorem MarksOnly_trans {a b c : List Widget} (h1 : MarksOnly a b) (h2 : MarksOnly b c) :
    MarksOnly a c := by
  refine ⟨h2.1.trans h1.1, fun i => ?_⟩
  rcases h1.2 i with e1 | e1 <;> rcases h2.2 i with e2 | e2
  · left; rw [e2, e1]
  · right; rw [e2, e1]
  · right; rw [e2, e1]
  · right; rw [e2, e1]; rfl

theorem MarksOnly_updW (ws : List Widget) (i : Nat) :
    MarksOnly ws (updW ws i (fun w => w.setForChildren true)) := by
  refine ⟨length_updW _ _ _, fun j => ?_⟩
  rw [getW_updW]
  by_cases h : i = j ∧ i < ws.length
  · right; rw [if_pos h, h.1]
  · left; rw [if_neg h]

theorem markParents_marksOnly : ∀ (n : Nat) (ws : List Widget) (c : Option Nat),
    MarksOnly ws (markParents n ws c)
  | 0, ws, _ => MarksOnly_refl ws
  | _ + 1, ws, none => MarksOnly_refl ws
  | n + 1, ws, some i => by
    unfold markParents
    by_cases h : (getW ws i).task.for_children = true
    · rw [if_pos h]; exact MarksOnly_refl ws
    · rw [if_neg h]
      exact MarksOnly_trans (MarksOnly_updW ws i) (markParents_marksOnly n _ _)

theorem MarksOnly_parent {ws ws' : List Widget} (h : MarksOnly ws ws') (i : Nat) :
    (getW ws' i).parent = (getW ws i).parent := by
  rcases h.2 i with e | e
  · rw [e]
  · rw [e]; rfl

theorem MarksOnly_states {ws ws' : List Widget} (h : MarksOnly ws ws') (i : Nat) :
    (getW ws' i).task.states = (getW ws i).task.states := by
  rcases h.2 i with e | e
  · rw [e]
  · rw [e]; rfl

theorem MarksOnly_for_self {ws ws' : List Widget} (h : MarksOnly ws ws') (i : Nat) :
    (getW ws' i).task.for_self = (getW ws i).task.for_self := by
  rcases h.2 i with e | e
  · rw [e]
  · rw [e]; rfl

theorem MarksOnly_state {ws ws' : List Widget} (h : MarksOnly ws ws') (i : Nat) :
    (getW ws' i).state = (getW ws i).state := by
  rcases h.2 i with e | e
  · rw [e]
  · rw [e]; rfl

theorem MarksOnly_children {ws ws' : List Widget} (h : MarksOnly ws ws') (i : Nat) :
    (getW ws' i).children = (getW ws i).children := by
  rcases h.2 i with e | e
  · rw [e]
  · rw [e]; rfl

theorem MarksOnly_mono {ws ws' : List Widget} (h : MarksOnly ws ws') (i : Nat)
    (hi : (getW ws i).task.for_children = true) : (getW ws' i).task.for_children = true := by
  rcases h.2 i with e | e
  · rw [e]; exact hi
  · rw [e]; rfl

theorem ValidParents_of_marksOnly {ws ws' : List Widget} (h : MarksOnly ws ws')
    (hv : ValidParents ws) : ValidParents ws' := by
  intro i p hp
  rw [MarksOnly_parent h] at hp
  rw [h.1]
  exact hv i p hp

theorem markParents_upClosed : ∀ (n : Nat) (ws : List Widget) (c : Option Nat),
    ValidParents ws → unmarked ws < n → UpClosedBut ws c →
    (∀ p, c = some p → p < ws.length) →
    UpClosed (markParents n ws c) ∧
      ∀ p, c = some p → (getW (markParents n ws c) p).task.for_children = true
  | 0, _, _ => fun _ h _ _ => absurd h (Nat.not_lt_zero _)
  | _ + 1, ws, none => fun _ _ hinv _ => by
    unfold markParents
    refine ⟨fun i p h1 h2 => ?_, fun p hp => by cases hp⟩
    rcases hinv i p h1 h2 with h | h
    · exact h
    · cases h
  | n + 1, ws, some i => fun hv hn hinv hc => by
    unfold markParents
    by_cases h : (getW ws i).task.for_children = true
    · rw [if_pos h]
      refine ⟨fun x p h1 h2 => ?_, fun p hp => ?_⟩
      · rcases hinv x p h1 h2 with h3 | h3
        · exact h3
        · cases h3; exact h
      · cases hp; exact h
    · rw [if_neg h]
      have hi : i < ws.length := hc i rfl
      have hm := MarksOnly_updW ws i
      have hset : (getW (updW ws i (fun w => w.setForChildren true)) i).task.for_children = true := by
        rw [getW_updW_same _ _ _ hi]; rfl
      have hcnt := unmarked_updW ws i hi (by simpa using h)
      have ih := markParents_upClosed n (updW ws i (fun w => w.setForChildren true))
        (getW ws i).parent (ValidParents_of_marksOnly hm hv) (by omega)
        (by
          intro x p h1 h2
          rw [MarksOnly_parent hm] at h2
          by_cases hx : x = i
          · subst hx; right; exact h2
          · rw [getW_updW_ne _ _ _ _ (Ne.symm hx)] at h1
            rcases hinv x p h1 h2 with h3 | h3
            · left; exact MarksOnly_mono hm p h3
            · cases h3; left; exact hset)
        (by
          intro p hp
          rw [length_updW]
          exact hv i p hp)
      refine ⟨ih.1, fun p hp => ?_⟩
      cases hp
      exact MarksOnly_mono (markParents_marksOnly n _ _) i hset

/-! ## Widget_AddTask -/

theorem TasksGrow_refl (ws : List Widget) : TasksGrow ws ws :=
  ⟨rfl, fun _ => ⟨rfl, id, id, fun _ => id⟩⟩

theorem TasksGrow_trans {a b c : List Widget} (h1 : TasksGrow a b) (h2 : TasksGrow b c) :
    TasksGrow a c := by
  refine ⟨h2.1.trans h1.1, fun i => ?_⟩
  obtain ⟨e1, s1, c1, t1⟩ := h1.2 i
  obtain ⟨e2, s2, c2, t2⟩ := h2.2 i
  refine ⟨?_, fun h => s2 (s1 h), fun h => c2 (c1 h), fun k h => t2 k (t1 k h)⟩
  rw [e2, e1]

theorem TasksGrow_of_marksOnly {ws ws' : List Widget} (h : MarksOnly ws ws') :
    TasksGrow ws ws' := by
  refine ⟨h.1, fun i => ?_⟩
  rcases h.2 i with e | e
  · rw [e]; exact ⟨rfl, id, id, fun _ => id⟩
  · rw [e]; exact ⟨rfl, id, fun _ => rfl, fun _ => id⟩

theorem TasksGrow_updW_mark (ws : List Widget) (w task : Nat) :
    TasksGrow ws (updW ws w (fun x => (x.setForSelf true).setTaskState task true)) := by
  refine ⟨length_updW _ _ _, fun i => ?_⟩
  rw [getW_updW]
  by_cases h : w = i ∧ w < ws.length
  · rw [if_pos h, h.1]
    refine ⟨rfl, fun _ => rfl, id, fun k hk => ?_⟩
    simp only [Widget.setTaskState, Widget.setForSelf, setState]
    split
    · rfl
    · exact hk
  · rw [if_neg h]; exact ⟨rfl, id, id, fun _ => id⟩

theorem Widget_AddTask_deleted (K : Defs) (ws : List Widget) (w task : Nat)
    (h : (getW ws w).state = K.LCUI_WSTATE_DELETED) : Widget_AddTask K ws w task = ws := by
  unfold Widget_AddTask
  rw [if_pos h]

theorem Widget_AddTask_live (K : Defs) (ws : List Widget) (w task : Nat)
    (h : (getW ws w).state ≠ K.LCUI_WSTATE_DELETED) :
    Widget_AddTask K ws w task =
      markParents (ws.length + 1) (updW ws w (fun x => (x.setForSelf true).setTaskState task true))
        (getW ws w).parent := by
  unfold Widget_AddTask
  rw [if_neg h]
  simp only [length_updW]
  congr 1
  rw [getW_updW]
  split <;> rfl

theorem Widget_AddTask_tasksGrow (K : Defs) (ws : List Widget) (w task : Nat) :
    TasksGrow ws (Widget_AddTask K ws w task) := by
  by_cases h : (getW ws w).state = K.LCUI_WSTATE_DELETED
  · rw [Widget_AddTask_deleted K ws w task h]; exact TasksGrow_refl ws
  · rw [Widget_AddTask_live K ws w task h]
    exact TasksGrow_trans (TasksGrow_updW_mark ws w task)
      (TasksGrow_of_marksOnly (markParents_marksOnly _ _ _))

/-- Widget_AddTask sets the task state and `for_self` of a widget of the arena
that is not deleted. -/
theorem Widget_AddTask_sets (K : Defs) (ws : List Widget) (w task : Nat) (hw : w < ws.length)
    (h : (getW ws w).state ≠ K.LCUI_WSTATE_DELETED) :
    (getW (Widget_AddTask K ws w task) w).task.states task = true ∧
      (getW (Widget_AddTask K ws w task) w).task.for_self = true := by
  rw [Widget_AddTask_live K ws w task h]
  have hm := markParents_marksOnly (ws.length + 1)
    (updW ws w (fun x => (x.setForSelf true).setTaskState task true)) (getW ws w).parent
  rw [MarksOnly_states hm, MarksOnly_for_self hm, getW_updW_same _ _ _ hw]
  simp [Widget.setTaskState, Widget.setForSelf, setState]

/-- Widget_AddTask leaves alone every task state but the one it sets. -/
theorem Widget_AddTask_states_other (K : Defs) (ws : List Widget) (w task i k : Nat)
    (h : i ≠ w ∨ k ≠ task) :
    (getW (Widget_AddTask K ws w task) i).task.states k = (getW ws i).task.states k := by
  by_cases hd : (getW ws w).state = K.LCUI_WSTATE_DELETED
  · rw [Widget_AddTask_deleted K ws w task hd]
  · rw [Widget_AddTask_live K ws w task hd]
    have hm := markParents_marksOnly (ws.length + 1)
      (updW ws w (fun x => (x.setForSelf true).setTaskState task true)) (getW ws w).parent
    rw [MarksOnly_states hm, getW_updW]
    split
    · next hc =>
      rcases h with h | h
      · exact absurd hc.1.symm h
      · simp [Widget.setTaskState, Widget.setForSelf, setState, h, hc.1]
    · rfl

/-- Widget_AddTask leaves alone `for_self` of every other widget. -/
theorem Widget_AddTask_for_self_other (K : Defs) (ws : List Widget) (w task i : Nat)
    (h : i ≠ w) :
    (getW (Widget_AddTask K ws w task) i).task.for_self = (getW ws i).task.for_self := by
  by_cases hd : (getW ws w).state = K.LCUI_WSTATE_DELETED
  · rw [Widget_AddTask_deleted K ws w task hd]
  · rw [Widget_AddTask_live K ws w task hd]
    have hm := markParents_marksOnly (ws.length + 1)
      (updW ws w (fun x => (x.setForSelf true).setTaskState task true)) (getW ws w).parent
    rw [MarksOnly_for_self hm, getW_updW_ne _ _ _ _ (Ne.symm h)]

/-- C1. Propagation soundness of Widget_AddTask: in an arena whose parent
links are valid and whose `for_children` flags are upward-closed, after
Widget_AddTask on a widget that is not deleted the widget has the task state
and `for_self` set, and every proper ancestor has `for_children` set. -/
theorem Widget_AddTask_propagation (K : Defs) (ws : List Widget) (w kind : Nat)
    (hw : w < ws.length) (hv : ValidParents ws) (hup : UpClosed ws)
    (hlive : (getW ws w).state ≠ K.LCUI_WSTATE_DELETED) :
    (getW (Widget_AddTask K ws w kind) w).task.states kind = true ∧
      (getW (Widget_AddTask K ws w kind) w).task.for_self = true ∧
      ∀ a, IsAncestor ws w a →
        (getW (Widget_AddTask K ws w kind) a).task.for_children = true := by
  obtain ⟨h1, h2⟩ := Widget_AddTask_sets K ws w kind hw hlive
  refine ⟨h1, h2, ?_⟩
  have hg := Widget_AddTask_tasksGrow K ws w kind
  have hpar : ∀ i, (getW (Widget_AddTask K ws w kind) i).parent = (getW ws i).parent := by
    intro i; rw [(hg.2 i).1]
  rw [Widget_AddTask_live K ws w kind hlive] at hpar ⊢
  set ws1 := updW ws w (fun x => (x.setForSelf true).setTaskState kind true) with hws1
  have hfc : ∀ i, (getW ws1 i).task.for_children = (getW ws i).task.for_children := by
    intro i
    rw [hws1, getW_updW]
    split
    · next hc => rw [hc.1]; rfl
    · rfl
  have hp1 : ∀ i, (getW ws1 i).parent = (getW ws i).parent := by
    intro i
    rw [hws1, getW_updW]
    split
    · next hc => rw [hc.1]; rfl
    · rfl
  have hlen : ws1.length = ws.length := length_updW _ _ _
  have hv1 : ValidParents ws1 := by
    intro i p hp
    rw [hp1] at hp
    rw [hlen]; exact hv i p hp
  have key := markParents_upClosed (ws.length + 1) ws1 (getW ws w).parent hv1
    (by have := unmarked_le_length ws1; omega)
    (by
      intro i p hi hp
      rw [hfc] at hi
      rw [hp1] at hp
      left
      rw [hfc]
      exact hup i p hi hp)
    (by
      intro p hp
      rw [hlen]; exact hv w p hp)
  intro a ha
  induction ha with
  | parent hp => exact key.2 _ hp
  | step _ hp ih => exact key.1 _ _ ih (by rw [hpar]; exact hp)

/-- C9. Marking a deleted widget is a no-op: Widget_AddTask on a widget in
the deleted state returns the arena unchanged, so no flag of the widget nor
of any other widget changes. -/
theorem Widget_AddTask_deleted_noop (K : Defs) (ws : List Widget) (w kind : Nat)
    (hdel : (getW ws w).state = K.LCUI_WSTATE_DELETED) :
    Widget_AddTask K ws w kind = ws :=
  Widget_AddTask_deleted K ws w kind hdel

/-! ## Widget_AddTaskForChildren -/

theorem TasksGrow_children {ws ws' : List Widget} (h : TasksGrow ws ws') (i : Nat) :
    (getW ws' i).children = (getW ws i).children := by
  rw [(h.2 i).1]

theorem TasksGrow_state {ws ws' : List Widget} (h : TasksGrow ws ws') (i : Nat) :
    (getW ws' i).state = (getW ws i).state := by
  rw [(h.2 i).1]

theorem TasksGrow_parent {ws ws' : List Widget} (h : TasksGrow ws ws') (i : Nat) :
    (getW ws' i).parent = (getW ws i).parent := by
  rw [(h.2 i).1]

theorem TasksGrow_marked {ws ws' : List Widget} (h : TasksGrow ws ws') {d kind : Nat}
    (hm : Marked ws d kind) : Marked ws' d kind :=
  ⟨(h.2 d).2.2.2 kind hm.1, (h.2 d).2.1 hm.2⟩

theorem IsDescendant_congr {ws ws' : List Widget}
    (h : ∀ i, (getW ws' i).children = (getW ws i).children) {w d : Nat}
    (hd : IsDescendant ws w d) : IsDescendant ws' w d := by
  induction hd with
  | child hc => exact IsDescendant.child (by rw [h]; exact hc)
  | step _ hc ih => exact IsDescendant.step ih (by rw [h]; exact hc)

theorem IsDescendant_of_child {ws : List Widget} {w c d : Nat}
    (hc : c ∈ (getW ws w).children) (hd : IsDescendant ws c d) : IsDescendant ws w d := by
  induction hd with
  | child h => exact IsDescendant.step (IsDescendant.child hc) h
  | step _ h ih => exact IsDescendant.step ih h

theorem IsDescendant_cases_top {ws : List Widget} {w d : Nat} (hd : IsDescendant ws w d) :
    ∃ c, c ∈ (getW ws w).children ∧ (d = c ∨ IsDescendant ws c d) := by
  induction hd with
  | child h => exact ⟨_, h, Or.inl rfl⟩
  | step _ h ih =>
    obtain ⟨c, hc, hcd⟩ := ih
    refine ⟨c, hc, Or.inr ?_⟩
    rcases hcd with e | e
    · subst e; exact IsDescendant.child h
    · exact IsDescendant.step e h

theorem IsTreeUnder_rank_lt {ws : List Widget} {rank : Nat → Nat} {w d : Nat}
    (ht : IsTreeUnder ws rank w) (hd : IsDescendant ws w d) : rank d < rank w := by
  induction hd with
  | child h => exact (ht w _ (Or.inl rfl) h).2
  | step hd h ih => exact Nat.lt_trans (ht _ _ (Or.inr hd) h).2 ih

theorem IsTreeUnder_child {ws : List Widget} {rank : Nat → Nat} {w c : Nat}
    (ht : IsTreeUnder ws rank w) (hc : c ∈ (getW ws w).children) : IsTreeUnder ws rank c := by
  intro i x hi hx
  refine ht i x (Or.inr ?_) hx
  rcases hi with e | e
  · subst e; exact IsDescendant.child hc
  · exact IsDescendant_of_child hc e

theorem IsTreeUnder_congr {ws ws' : List Widget} {rank : Nat → Nat} {w : Nat}
    (hlen : ws'.length = ws.length)
    (h : ∀ i, (getW ws' i).children = (getW ws i).children)
    (ht : IsTreeUnder ws rank w) : IsTreeUnder ws' rank w := by
  intro i x hi hx
  rw [hlen]
  rw [h] at hx
  refine ht i x ?_ hx
  rcases hi with e | e
  · exact Or.inl e
  · exact Or.inr (IsDescendant_congr (fun j => (h j).symm) e)

theorem SameOwnTasks_trans {a b c : List Widget} {i : Nat} (h1 : SameOwnTasks a b i)
    (h2 : SameOwnTasks b c i) : SameOwnTasks a c i :=
  ⟨h2.1.trans h1.1, h2.2.trans h1.2⟩

theorem Widget_AddTask_sameOwnTasks (K : Defs) (ws : List Widget) (w task i : Nat)
    (h : i ≠ w) : SameOwnTasks ws (Widget_AddTask K ws w task) i :=
  ⟨funext fun k => Widget_AddTask_states_other K ws w task i k (Or.inl h),
    Widget_AddTask_for_self_other K ws w task i h⟩


theorem addTaskForChildrenLoop_spec (K : Defs) (kind : Nat) (rank : Nat → Nat) (fuel : Nat)
    (ih : ∀ ws w, IsTreeUnder ws rank w → rank w < fuel →
      AddTaskForChildrenSpec K kind ws w (Widget_AddTaskForChildren K fuel ws w kind))
    (ws : List Widget) (w : Nat) (ht : IsTreeUnder ws rank w) (hfuel : rank w < fuel + 1) :
    ∀ (cs : List Nat) (wsT : List Widget), TasksGrow ws wsT →
      (∀ c ∈ cs, c ∈ (getW ws w).children) →
      ∃ ws', addTaskForChildrenLoop K
          (fun ws2 child => Widget_AddTaskForChildren K fuel ws2 child kind) kind cs wsT = some ws' ∧
        TasksGrow wsT ws' ∧
        (∀ c ∈ cs, ∀ d, (d = c ∨ IsDescendant ws c d) →
          (getW ws d).state ≠ K.LCUI_WSTATE_DELETED → Marked ws' d kind) ∧
        (∀ i, (∀ c ∈ cs, i ≠ c ∧ ¬ IsDescendant ws c i) → SameOwnTasks wsT ws' i)
  | [], wsT, _, _ =>
    ⟨wsT, rfl, TasksGrow_refl wsT, fun _ hc => absurd hc (List.not_mem_nil _),
      fun _ _ => ⟨rfl, rfl⟩⟩
  | c :: rest, wsT, hg, hcs => by
    have hc : c ∈ (getW ws w).children := hcs c (List.mem_cons_self _ _)
    have hcr := ht w c (Or.inl rfl) hc
    -- the call of Widget_AddTask on the child
    have hgA := Widget_AddTask_tasksGrow K wsT c kind
    have hgA0 : TasksGrow ws (Widget_AddTask K wsT c kind) := TasksGrow_trans hg hgA
    -- the recursive call on the child
    have htA : IsTreeUnder (Widget_AddTask K wsT c kind) rank c :=
      IsTreeUnder_congr hgA0.1 (TasksGrow_children hgA0) (IsTreeUnder_child ht hc)
    obtain ⟨wsB, hB, hgB, hmB, hsB, _⟩ := ih (Widget_AddTask K wsT c kind) c htA (by omega)
    -- the rest of the loop
    obtain ⟨wsC, hC, hgC, hmC, hsC⟩ := addTaskForChildrenLoop_spec K kind rank fuel ih ws w ht hfuel
      rest wsB (TasksGrow_trans hgA0 hgB) (fun x hx => hcs x (List.mem_cons_of_mem _ hx))
    refine ⟨wsC, ?_, TasksGrow_trans hgA (TasksGrow_trans hgB hgC), ?_, ?_⟩
    · simp only [addTaskForChildrenLoop, hB]
      exact hC
    · intro x hx d hd hlive
      rcases List.mem_cons.mp hx with e | e
      · subst e
        apply TasksGrow_marked hgC
        rcases hd with e | e
        · subst e
          apply TasksGrow_marked hgB
          have hl : (getW wsT d).state ≠ K.LCUI_WSTATE_DELETED := by rw [TasksGrow_state hg]; exact hlive
          exact Widget_AddTask_sets K wsT d kind (by rw [hg.1]; exact hcr.1) hl
        · apply hmB d (IsDescendant_congr (fun j => (TasksGrow_children hgA0 j)) e)
          rw [TasksGrow_state hgA0]; exact hlive
      · exact hmC x e d hd hlive
    · intro i hi
      have h1 := hi c (List.mem_cons_self _ _)
      have sA := Widget_AddTask_sameOwnTasks K wsT c kind i h1.1
      have sB := hsB i (fun hd => h1.2 (IsDescendant_congr (fun j => (TasksGrow_children hgA0 j).symm) hd))
      have sC := hsC i (fun x hx => hi x (List.mem_cons_of_mem _ hx))
      exact SameOwnTasks_trans sA (SameOwnTasks_trans sB sC)

theorem Widget_AddTaskForChildren_spec (K : Defs) (kind : Nat) (rank : Nat → Nat) :
    ∀ (fuel : Nat) (ws : List Widget) (w : Nat), IsTreeUnder ws rank w → rank w < fuel →
      AddTaskForChildrenSpec K kind ws w (Widget_AddTaskForChildren K fuel ws w kind)
  | 0, _, _, _, h => absurd h (Nat.not_lt_zero _)
  | fuel + 1, ws, w, ht, hfuel => by
    have hm := MarksOnly_updW ws w
    have hg1 := TasksGrow_of_marksOnly hm
    have hch : (getW (updW ws w (fun x => x.setForChildren true)) w).children =
        (getW ws w).children := MarksOnly_children hm w
    obtain ⟨ws', hr, hg, hmk, hs⟩ := addTaskForChildrenLoop_spec K kind rank fuel
      (Widget_AddTaskForChildren_spec K kind rank fuel) ws w ht hfuel
      (getW ws w).children (updW ws w (fun x => x.setForChildren true)) hg1 (fun _ h => h)
    refine ⟨ws', ?_, TasksGrow_trans hg1 hg, ?_, ?_, ?_⟩
    · simp only [Widget_AddTaskForChildren, hch]
      exact hr
    · intro d hd hlive
      obtain ⟨c, hc, hcd⟩ := IsDescendant_cases_top hd
      exact hmk c hc d hcd hlive
    · intro i hi
      have h1 : SameOwnTasks ws (updW ws w (fun x => x.setForChildren true)) i :=
        ⟨MarksOnly_states hm i, MarksOnly_for_self hm i⟩
      refine SameOwnTasks_trans h1 (hs i (fun c hc => ⟨?_, ?_⟩))
      · intro e; subst e; exact hi (IsDescendant.child hc)
      · intro hd; exact hi (IsDescendant_of_child hc hd)
    · intro hw
      apply (hg.2 w).2.2.1
      rw [getW_updW_same _ _ _ hw]; rfl

/-- C10. Subtree marking: when the widgets under `w` form a finite tree,
Widget_AddTaskForChildren returns as soon as the bound on the recursion depth
exceeds the rank of `w`; afterwards every proper descendant of `w` that is
not deleted has the task state and `for_self` set, `w` has `for_children` set
(also when it has no children), and the task states and `for_self` of `w`
itself are unchanged. -/
theorem Widget_AddTaskForChildren_marks_subtree (K : Defs) (ws : List Widget) (w kind : Nat)
    (rank : Nat → Nat) (hw : w < ws.length) (htree : IsTreeUnder ws rank w)
    (fuel : Nat) (hfuel : rank w < fuel) :
    ∃ ws', Widget_AddTaskForChildren K fuel ws w kind = some ws' ∧
      (∀ d, IsDescendant ws w d → (getW ws d).state ≠ K.LCUI_WSTATE_DELETED →
        (getW ws' d).task.states kind = true ∧ (getW ws' d).task.for_self = true) ∧
      (getW ws' w).task.for_children = true ∧
      (getW ws' w).task.states kind = (getW ws w).task.states kind ∧
      (getW ws' w).task.for_self = (getW ws w).task.for_self := by
  obtain ⟨ws', hr, _, hmk, hs, hfc⟩ := Widget_AddTaskForChildren_spec K kind rank fuel ws w htree hfuel
  have hself := hs w (fun hd => Nat.lt_irrefl _ (IsTreeUnder_rank_lt htree hd))
  exact ⟨ws', hr, hmk, hfc hw, by rw [hself.1], hself.2⟩

/-! ## Widget_UpdateWithContext on a widget without pending work -/

/-- C3. Minimality: on a widget whose `for_self` and `for_children` flags are
clear, Widget_UpdateWithContext returns 0 and leaves the whole state as it
was: no context is allocated, no style is resolved, no call of another module
is recorded and no widget changes. -/
theorem Widget_UpdateWithContext_idle (K : Defs) (E : Env) (fuel : Nat) (S : World) (w : Nat)
    (ctx : LCUI_WidgetTaskContext) (hself : (getW S.widgets w).task.for_self = false)
    (hchildren : (getW S.widgets w).task.for_children = false) :
    Widget_UpdateWithContext K E (fuel + 1) S w ctx = Except.ok (0, S) := by
  simp [Widget_UpdateWithContext, hself, hchildren]

/-! ## Widget_EndDiff -/

@[simp] theorem World.onWidgets_widgets (S : World) (f : List Widget → List Widget) :
    (S.onWidgets f).widgets = f S.widgets := rfl

@[simp] theorem World.onWidgets_trace (S : World) (f : List Widget → List Widget) :
    (S.onWidgets f).trace = S.trace := rfl

@[simp] theorem World.onWidgets_self (S : World) (f : List Widget → List Widget) :
    (S.onWidgets f).self = S.self := rfl

@[simp] theorem World.call_widgets (E : Env) (S : World) (c : Call) :
    (S.call E c).widgets = E.effect c S.widgets := rfl

@[simp] theorem World.call_trace (E : Env) (S : World) (c : Call) :
    (S.call E c).trace = S.trace ++ [c] := rfl

@[simp] theorem World.call_self (E : Env) (S : World) (c : Call) :
    (S.call E c).self = S.self := rfl

theorem Widget_EndDiff_unfold (K : Defs) (E : Env) (S : World) (w : Nat)
    (ctx : LCUI_WidgetTaskContextRec) (hcan : ctx.diff.can_render = true) :
    Widget_EndDiff K E S w ctx =
      if !(diffAfterLayoutChecks K E S w ctx).should_add_invalid_area then
        (0, { ctx with diff := diffAfterLayoutChecks K E S w ctx }, afterLayoutChecks K E S w ctx)
      else
        match Widget_EndDiff_level K (getW (afterLayoutChecks K E S w ctx).widgets w).computed_style
            (diffAfterLayoutChecks K E S w ctx) with
        | none =>
          (0, { ctx with diff := diffAfterLayoutChecks K E S w ctx }, afterLayoutChecks K E S w ctx)
        | some d6 =>
          ((Widget_EndDiff_emit K E (afterLayoutChecks K E S w ctx) w d6).1, { ctx with diff := d6 },
            (Widget_EndDiff_emit K E (afterLayoutChecks K E S w ctx) w d6).2) := by
  simp only [Widget_EndDiff, hcan, afterLayoutChecks, diffAfterLayoutChecks, atCompare,
    diffAtCompare]
  rfl

theorem contentBoxLoop_tasksGrow (K : Defs) : ∀ (cs : List Nat) (ws : List Widget),
    TasksGrow ws (cs.foldl (fun acc child =>
      Widget_AddTask K (Widget_AddTask K acc child K.LCUI_WTASK_POSITION) child
        K.LCUI_WTASK_RESIZE) ws)
  | [], ws => TasksGrow_refl ws
  | c :: rest, ws => by
    simp only [List.foldl_cons]
    exact TasksGrow_trans (TasksGrow_trans (Widget_AddTask_tasksGrow K ws c _)
      (Widget_AddTask_tasksGrow K _ c _)) (contentBoxLoop_tasksGrow K rest _)

theorem contentBoxLoop_sets (K : Defs) : ∀ (cs : List Nat) (ws : List Widget) (c : Nat),
    c ∈ cs → c < ws.length → (getW ws c).state ≠ K.LCUI_WSTATE_DELETED →
    (getW (cs.foldl (fun acc child =>
      Widget_AddTask K (Widget_AddTask K acc child K.LCUI_WTASK_POSITION) child
        K.LCUI_WTASK_RESIZE) ws) c).task.states K.LCUI_WTASK_POSITION = true ∧
    (getW (cs.foldl (fun acc child =>
      Widget_AddTask K (Widget_AddTask K acc child K.LCUI_WTASK_POSITION) child
        K.LCUI_WTASK_RESIZE) ws) c).task.states K.LCUI_WTASK_RESIZE = true
  | [], _, _, h, _, _ => absurd h (List.not_mem_nil _)
  | x :: rest, ws, c, h, hc, hlive => by
    simp only [List.foldl_cons]
    have g1 := Widget_AddTask_tasksGrow K ws x K.LCUI_WTASK_POSITION
    have g2 := Widget_AddTask_tasksGrow K (Widget_AddTask K ws x K.LCUI_WTASK_POSITION) x
      K.LCUI_WTASK_RESIZE
    have g12 := TasksGrow_trans g1 g2
    rcases List.mem_cons.mp h with e | e
    · subst e
      have s1 := (Widget_AddTask_sets K ws c K.LCUI_WTASK_POSITION hc hlive).1
      have s2 := (Widget_AddTask_sets K (Widget_AddTask K ws c K.LCUI_WTASK_POSITION) c
        K.LCUI_WTASK_RESIZE (by rw [g1.1]; exact hc) (by rw [TasksGrow_state g1]; exact hlive)).1
      have g3 := contentBoxLoop_tasksGrow K rest
        (Widget_AddTask K (Widget_AddTask K ws c K.LCUI_WTASK_POSITION) c K.LCUI_WTASK_RESIZE)
      exact ⟨(g3.2 c).2.2.2 _ ((g2.2 c).2.2.2 _ s1), (g3.2 c).2.2.2 _ s2⟩
    · exact contentBoxLoop_sets K rest _ c e (by rw [g12.1]; exact hc)
        (by rw [TasksGrow_state g12]; exact hlive)

theorem contentBoxLoop_states_other (K : Defs) (k : Nat) (h1 : k ≠ K.LCUI_WTASK_POSITION)
    (h2 : k ≠ K.LCUI_WTASK_RESIZE) : ∀ (cs : List Nat) (ws : List Widget) (i : Nat),
    (getW (cs.foldl (fun acc child =>
      Widget_AddTask K (Widget_AddTask K acc child K.LCUI_WTASK_POSITION) child
        K.LCUI_WTASK_RESIZE) ws) i).task.states k = (getW ws i).task.states k
  | [], _, _ => rfl
  | x :: rest, ws, i => by
    simp only [List.foldl_cons]
    rw [contentBoxLoop_states_other K k h1 h2 rest,
      Widget_AddTask_states_other K _ x _ i k (Or.inr h2),
      Widget_AddTask_states_other K _ x _ i k (Or.inr h1)]

theorem Widget_OnUpdateContentBox_tasksGrow (K : Defs) (ws : List Widget) (w : Nat) :
    TasksGrow ws (Widget_OnUpdateContentBox K ws w) :=
  contentBoxLoop_tasksGrow K _ ws

theorem Widget_AddReflowTask_tasksGrow (K : Defs) (E : Env) (ws : List Widget) (w : Option Nat) :
    TasksGrow ws (Widget_AddReflowTask K E ws w) := by
  unfold Widget_AddReflowTask
  cases w with
  | none => exact TasksGrow_refl ws
  | some i =>
    simp only
    refine TasksGrow_trans ?_ (Widget_AddTask_tasksGrow K _ i _)
    split
    · split
      · exact Widget_AddTask_tasksGrow K ws _ _
      · exact TasksGrow_refl ws
    · exact TasksGrow_refl ws

theorem Widget_AddReflowTask_sets (K : Defs) (E : Env) (ws : List Widget) (w : Nat)
    (hw : w < ws.length) (hlive : (getW ws w).state ≠ K.LCUI_WSTATE_DELETED) :
    (getW (Widget_AddReflowTask K E ws (some w)) w).task.states K.LCUI_WTASK_REFLOW = true := by
  unfold Widget_AddReflowTask
  simp only
  have key : ∀ ws1, TasksGrow ws ws1 →
      (getW (Widget_AddTask K ws1 w K.LCUI_WTASK_REFLOW) w).task.states K.LCUI_WTASK_REFLOW
        = true := fun ws1 g =>
    (Widget_AddTask_sets K ws1 w _ (by rw [g.1]; exact hw) (by rw [TasksGrow_state g]; exact hlive)).1
  split
  · split
    · exact key _ (Widget_AddTask_tasksGrow K ws _ _)
    · exact key _ (TasksGrow_refl ws)
  · exact key _ (TasksGrow_refl ws)

/-- Widget_AddReflowTask changes the REFLOW state of no widget other than its
argument and, when the argument takes part in flex layout, the parent of the
argument; it changes no other task state. -/
theorem Widget_AddReflowTask_states_other (K : Defs) (E : Env) (ws : List Widget) (w : Option Nat)
    (i k : Nat)
    (h : k ≠ K.LCUI_WTASK_REFLOW ∨ (w ≠ some i ∧
      ∀ x, w = some x → (getW ws x).parent = some i → E.Widget_IsFlexLayoutStyleWorks ws x = false)) :
    (getW (Widget_AddReflowTask K E ws w) i).task.states k = (getW ws i).task.states k := by
  unfold Widget_AddReflowTask
  cases w with
  | none => rfl
  | some x =>
    simp only
    have hx : i ≠ x ∨ k ≠ K.LCUI_WTASK_REFLOW := by
      rcases h with h | h
      · exact Or.inr h
      · left; intro e; exact h.1 (by rw [e])
    rw [Widget_AddTask_states_other K _ x _ i k hx]
    split
    · next p hp =>
      split
      · next hf =>
        apply Widget_AddTask_states_other
        rcases h with h | h
        · exact Or.inr h
        · left; intro e
          subst e
          have := h.2 x rfl hp
          rw [this] at hf
          cases hf
      · rfl
    · rfl

theorem WorldGrow_refl (S : World) : WorldGrow S S := ⟨TasksGrow_refl _, rfl⟩

theorem WorldGrow_trans {a b c : World} (h1 : WorldGrow a b) (h2 : WorldGrow b c) :
    WorldGrow a c := ⟨TasksGrow_trans h1.1 h2.1, h2.2.trans h1.2⟩

theorem WorldGrow_grow (S : World) (f : List Widget → List Widget)
    (h : ∀ ws, TasksGrow ws (f ws)) : WorldGrow S (S.onWidgets f) := ⟨h _, rfl⟩

theorem WorldGrow_reflow (K : Defs) (E : Env) (S : World) (w : Nat) :
    WorldGrow S (S.onWidgets (fun ws => Widget_AddReflowTask K E ws (some w))) :=
  WorldGrow_grow S _ (fun ws => Widget_AddReflowTask_tasksGrow K E ws _)

theorem WorldGrow_reflowParent (K : Defs) (E : Env) (S : World) (w : Nat) :
    WorldGrow S (S.onWidgets (fun ws => Widget_AddReflowTask K E ws (getW ws w).parent)) :=
  WorldGrow_grow S _ (fun ws => Widget_AddReflowTask_tasksGrow K E ws _)

theorem Widget_EndDiff_geometry_tasksGrow (K : Defs) (E : Env) (S : World) (w : Nat)
    (d : LCUI_WidgetTaskDiffRec) : WorldGrow S (Widget_EndDiff_geometry K E S w d).2 := by
  unfold Widget_EndDiff_geometry
  simp only
  split
  · exact WorldGrow_grow S _ (fun ws => TasksGrow_trans (Widget_OnUpdateContentBox_tasksGrow K ws w)
      (Widget_AddReflowTask_tasksGrow K E _ _))
  · split
    · exact WorldGrow_reflowParent K E S w
    · split <;> exact WorldGrow_refl S

theorem Widget_EndDiff_flex_tasksGrow (K : Defs) (E : Env) (S : World) (w : Nat)
    (d : LCUI_WidgetTaskDiffRec) : WorldGrow S (Widget_EndDiff_flex K E S w d) := by
  unfold Widget_EndDiff_flex
  split
  · simp only
    split
    · split
      · exact WorldGrow_trans (WorldGrow_reflow K E S w) (WorldGrow_reflowParent K E _ w)
      · exact WorldGrow_reflow K E S w
    · split
      · exact WorldGrow_reflowParent K E S w
      · exact WorldGrow_refl S
  · exact WorldGrow_refl S

theorem Widget_EndDiff_flex_same (K : Defs) (E : Env) (S : World) (w : Nat)
    (d : LCUI_WidgetTaskDiffRec) (h : d.flex = (getW S.widgets w).computed_style.flex) :
    Widget_EndDiff_flex K E S w d = S := by
  unfold Widget_EndDiff_flex
  simp [h]

theorem Widget_EndDiff_display_tasksGrow (K : Defs) (E : Env) (S : World) (w : Nat)
    (d : LCUI_WidgetTaskDiffRec) : WorldGrow S (Widget_EndDiff_display K E S w d).2 := by
  unfold Widget_EndDiff_display
  simp only
  split
  · split
    · split
      · exact WorldGrow_trans (WorldGrow_reflowParent K E S w) (WorldGrow_reflow K E _ w)
      · exact WorldGrow_reflowParent K E S w
    · split
      · exact WorldGrow_reflow K E S w
      · exact WorldGrow_refl S
  · split
    · split
      · exact WorldGrow_trans (WorldGrow_reflow K E S w) (WorldGrow_reflowParent K E _ w)
      · exact WorldGrow_reflowParent K E S w
    · exact WorldGrow_refl S

theorem Widget_EndDiff_display_same (K : Defs) (E : Env) (S : World) (w : Nat)
    (d : LCUI_WidgetTaskDiffRec) (h1 : d.display = (getW S.widgets w).computed_style.display)
    (h2 : d.position = (getW S.widgets w).computed_style.position) :
    Widget_EndDiff_display K E S w d = (d, S) := by
  unfold Widget_EndDiff_display
  simp [h1, h2]

theorem Widget_EndDiff_emit_pending (K : Defs) (E : Env) (S : World) (w : Nat)
    (d : LCUI_WidgetTaskDiffRec)
    (h : (getW S.widgets w).task.states K.LCUI_WTASK_REFLOW = true) :
    Widget_EndDiff_emit K E S w d = (0, S) := by
  unfold Widget_EndDiff_emit
  simp [h]

/-- The layout related checks of Widget_EndDiff only add task flags to the
state in which the boxes are compared. -/
theorem afterLayoutChecks_tasksGrow (K : Defs) (E : Env) (S : World) (w : Nat)
    (ctx : LCUI_WidgetTaskContextRec) :
    TasksGrow (Widget_EndDiff_geometry K E (atCompare K E S w ctx) w
        (diffAtCompare K E S w ctx)).2.widgets (afterLayoutChecks K E S w ctx).widgets := by
  unfold afterLayoutChecks
  exact (WorldGrow_trans (Widget_EndDiff_flex_tasksGrow K E _ w _)
    (Widget_EndDiff_display_tasksGrow K E _ w _)).1

/-- C4. A padding change schedules the reflow of the widget and the
recomputation of its children: when the widget can render, is not deleted and
its padding box, as recomputed by lines 330-331, differs from the one of the
snapshot, then after Widget_EndDiff the REFLOW task is set on the widget and
the POSITION and RESIZE tasks are set on every direct child that is not
deleted. -/
theorem Widget_EndDiff_padding_change (K : Defs) (E : Env) (S : World) (w : Nat)
    (ctx : LCUI_WidgetTaskContextRec) (hcan : ctx.diff.can_render = true)
    (hw : w < (atCompare K E S w ctx).widgets.length)
    (hlive : (getW (atCompare K E S w ctx).widgets w).state ≠ K.LCUI_WSTATE_DELETED)
    (hpad : ctx.diff.box.padding ≠ (getW (atCompare K E S w ctx).widgets w).box.padding) :
    (getW (Widget_EndDiff K E S w ctx).2.2.widgets w).task.states K.LCUI_WTASK_REFLOW = true ∧
      ∀ c, c ∈ (getW (atCompare K E S w ctx).widgets w).children →
        c < (atCompare K E S w ctx).widgets.length →
        (getW (atCompare K E S w ctx).widgets c).state ≠ K.LCUI_WSTATE_DELETED →
        (getW (Widget_EndDiff K E S w ctx).2.2.widgets c).task.states K.LCUI_WTASK_POSITION = true ∧
        (getW (Widget_EndDiff K E S w ctx).2.2.widgets c).task.states K.LCUI_WTASK_RESIZE = true := by
  have hbox : (diffAtCompare K E S w ctx).box = ctx.diff.box := by
    unfold diffAtCompare Widget_EndDiff_visibility
    simp only
    split <;> rfl
  -- the state after the comparison of the padding boxes
  have hgeo : (Widget_EndDiff_geometry K E (atCompare K E S w ctx) w
      (diffAtCompare K E S w ctx)).2.widgets =
      Widget_AddReflowTask K E
        (Widget_OnUpdateContentBox K (atCompare K E S w ctx).widgets w) (some w) := by
    unfold Widget_EndDiff_geometry
    simp [hbox, hpad]
  have g1 := Widget_OnUpdateContentBox_tasksGrow K (atCompare K E S w ctx).widgets w
  have g2 := Widget_AddReflowTask_tasksGrow K E
    (Widget_OnUpdateContentBox K (atCompare K E S w ctx).widgets w) (some w)
  have g3 := afterLayoutChecks_tasksGrow K E S w ctx
  rw [hgeo] at g3
  have hreflow : (getW (afterLayoutChecks K E S w ctx).widgets w).task.states
      K.LCUI_WTASK_REFLOW = true :=
    (g3.2 w).2.2.2 _ (Widget_AddReflowTask_sets K E _ w (by rw [g1.1]; exact hw)
      (by rw [TasksGrow_state g1]; exact hlive))
  -- no painter call follows: the reflow is pending
  have hfinal : (Widget_EndDiff K E S w ctx).2.2 = afterLayoutChecks K E S w ctx := by
    rw [Widget_EndDiff_unfold K E S w ctx hcan]
    split
    · rfl
    · split
      · rfl
      · rw [Widget_EndDiff_emit_pending K E _ w _ hreflow]
  rw [hfinal]
  refine ⟨hreflow, fun c hc hclen hclive => ?_⟩
  have hs := contentBoxLoop_sets K _ (atCompare K E S w ctx).widgets c hc hclen hclive
  exact ⟨(g3.2 c).2.2.2 _ ((g2.2 c).2.2.2 _ hs.1), (g3.2 c).2.2.2 _ ((g2.2 c).2.2.2 _ hs.2)⟩

theorem Widget_EndDiff_emit_tasks (K : Defs) (E : Env) (hP : PainterKeepsTasks E) (S : World)
    (w : Nat) (d : LCUI_WidgetTaskDiffRec) (i : Nat) :
    (getW (Widget_EndDiff_emit K E S w d).2.widgets i).task = (getW S.widgets i).task := by
  unfold Widget_EndDiff_emit
  split
  · rfl
  · simp only
    generalize hS1e : (if d.invalid_box ≥ K.SV_BORDER_BOX then
      S.call E (Call.Widget_UpdateCanvasBox w) else S) = S1
    have hS1 : ∀ j, (getW S1.widgets j).task = (getW S.widgets j).task := by
      intro j
      rw [← hS1e]
      split
      · exact (hP S.widgets j).1 w
      · rfl
    cases (getW S1.widgets w).parent with
    | none =>
      simp only [World.call_widgets]
      rw [(hP _ i).2, hS1]
    | some p =>
      simp only
      cases E.LCUIRectF_IsCoverRect d.box.canvas (getW S1.widgets w).box.canvas with
      | false =>
        simp only [Bool.not_false, ↓reduceIte, World.call_widgets]
        rw [(hP _ i).2, (hP _ i).2, hS1]
      | true =>
        simp only [Bool.not_true, Bool.false_eq_true, ↓reduceIte, World.call_widgets]
        rw [(hP _ i).2, hS1]

/-- With a painter that leaves task records alone, the task records after
Widget_EndDiff are those after its layout related checks. -/
theorem Widget_EndDiff_tasks (K : Defs) (E : Env) (hP : PainterKeepsTasks E) (S : World)
    (w : Nat) (ctx : LCUI_WidgetTaskContextRec) (hcan : ctx.diff.can_render = true) (i : Nat) :
    (getW (Widget_EndDiff K E S w ctx).2.2.widgets i).task =
      (getW (afterLayoutChecks K E S w ctx).widgets i).task := by
  rw [Widget_EndDiff_unfold K E S w ctx hcan]
  split
  · rfl
  · split
    · rfl
    · exact Widget_EndDiff_emit_tasks K E hP _ w _ i

theorem diffAtCompare_fields (K : Defs) (E : Env) (S : World) (w : Nat)
    (ctx : LCUI_WidgetTaskContextRec) :
    (diffAtCompare K E S w ctx).box = ctx.diff.box ∧
      (diffAtCompare K E S w ctx).flex = ctx.diff.flex ∧
      (diffAtCompare K E S w ctx).display = ctx.diff.display ∧
      (diffAtCompare K E S w ctx).position = ctx.diff.position := by
  unfold diffAtCompare Widget_EndDiff_visibility
  simp only
  split <;> exact ⟨rfl, rfl, rfl, rfl⟩

theorem Widget_EndDiff_geometry_fields (K : Defs) (E : Env) (S : World) (w : Nat)
    (d : LCUI_WidgetTaskDiffRec) :
    (Widget_EndDiff_geometry K E S w d).1.flex = d.flex ∧
      (Widget_EndDiff_geometry K E S w d).1.display = d.display ∧
      (Widget_EndDiff_geometry K E S w d).1.position = d.position := by
  unfold Widget_EndDiff_geometry
  simp only
  split
  · exact ⟨rfl, rfl, rfl⟩
  · split
    · exact ⟨rfl, rfl, rfl⟩
    · split <;> exact ⟨rfl, rfl, rfl⟩

/-- When the flex properties, the display and the position mode are those of
the snapshot, the layout related checks of Widget_EndDiff end with the
comparison of the boxes. -/
theorem afterLayoutChecks_only_geometry (K : Defs) (E : Env) (S : World) (w : Nat)
    (ctx : LCUI_WidgetTaskContextRec)
    (hflex : ctx.diff.flex = (getW (atCompare K E S w ctx).widgets w).computed_style.flex)
    (hdisplay : ctx.diff.display =
      (getW (atCompare K E S w ctx).widgets w).computed_style.display)
    (hposition : ctx.diff.position =
      (getW (atCompare K E S w ctx).widgets w).computed_style.position) :
    afterLayoutChecks K E S w ctx =
      (Widget_EndDiff_geometry K E (atCompare K E S w ctx) w (diffAtCompare K E S w ctx)).2 := by
  have hd := diffAtCompare_fields K E S w ctx
  have hg := Widget_EndDiff_geometry_fields K E (atCompare K E S w ctx) w
    (diffAtCompare K E S w ctx)
  have hgrow := (Widget_EndDiff_geometry_tasksGrow K E (atCompare K E S w ctx) w
    (diffAtCompare K E S w ctx)).1
  have hstyle : (getW (Widget_EndDiff_geometry K E (atCompare K E S w ctx) w
      (diffAtCompare K E S w ctx)).2.widgets w).computed_style =
      (getW (atCompare K E S w ctx).widgets w).computed_style := by
    rw [(hgrow.2 w).1]
  unfold afterLayoutChecks
  simp only
  rw [Widget_EndDiff_flex_same K E _ w _ (by rw [hg.1, hd.2.1, hstyle]; exact hflex),
    Widget_EndDiff_display_same K E _ w _ (by rw [hg.2.1, hd.2.2.1, hstyle]; exact hdisplay)
      (by rw [hg.2.2, hd.2.2.2, hstyle]; exact hposition)]

/-- When the calls made before the boxes are compared leave task records
alone, the task records at the comparison are those at the entry of
Widget_EndDiff. -/
theorem atCompare_tasks (K : Defs) (E : Env) (hB : BoxUpdateKeepsTasks E) (S : World) (w : Nat)
    (ctx : LCUI_WidgetTaskContextRec) (i : Nat) :
    (getW (atCompare K E S w ctx).widgets i).task = (getW S.widgets i).task := by
  unfold atCompare Widget_EndDiff_boxes Widget_EndDiff_visibility
  simp only [World.call_widgets]
  rw [(hB _ i).2.2, (hB _ i).2.1]
  split
  · simp only [World.call_widgets]
    rw [(hB _ i).1]
  · rfl

/-- C5, amended. A padding change does not schedule the reflow of the parent
of a widget that takes no part in flex layout: when the padding box of the
widget `w`, as recomputed by lines 330-331, differs from the one of the
snapshot, the display, the position mode and the flex properties are those of
the snapshot and Widget_IsFlexLayoutStyleWorks is false for `w`, the REFLOW
state of the parent `p` of `w` after Widget_EndDiff is what it was before the
call, whether `w` can render or not.  The box update and the painter are
assumed to leave task records alone, the flex test to ignore task flags, and
REFLOW to differ from POSITION and RESIZE. -/
theorem Widget_EndDiff_padding_keeps_parent (K : Defs) (E : Env) (S : World) (w p : Nat)
    (ctx : LCUI_WidgetTaskContextRec) (hB : BoxUpdateKeepsTasks E) (hP : PainterKeepsTasks E)
    (hF : FlexIgnoresTasks E)
    (hposk : K.LCUI_WTASK_REFLOW ≠ K.LCUI_WTASK_POSITION)
    (hresk : K.LCUI_WTASK_REFLOW ≠ K.LCUI_WTASK_RESIZE)
    (hparent : (getW (atCompare K E S w ctx).widgets w).parent = some p) (hpw : p ≠ w)
    (hpad : ctx.diff.box.padding ≠ (getW (atCompare K E S w ctx).widgets w).box.padding)
    (hflex : ctx.diff.flex = (getW (atCompare K E S w ctx).widgets w).computed_style.flex)
    (hdisplay : ctx.diff.display =
      (getW (atCompare K E S w ctx).widgets w).computed_style.display)
    (hposition : ctx.diff.position =
      (getW (atCompare K E S w ctx).widgets w).computed_style.position)
    (hnoflex : E.Widget_IsFlexLayoutStyleWorks (atCompare K E S w ctx).widgets w = false) :
    (getW (Widget_EndDiff K E S w ctx).2.2.widgets p).task.states K.LCUI_WTASK_REFLOW =
      (getW S.widgets p).task.states K.LCUI_WTASK_REFLOW := by
  cases hcan : ctx.diff.can_render with
  | false =>
    unfold Widget_EndDiff
    simp only [hcan, Bool.not_false, ↓reduceIte]
  | true =>
    rw [← atCompare_tasks K E hB S w ctx p, Widget_EndDiff_tasks K E hP S w ctx hcan p,
      afterLayoutChecks_only_geometry K E S w ctx hflex hdisplay hposition]
    have hbox := (diffAtCompare_fields K E S w ctx).1
    unfold Widget_EndDiff_geometry
    simp only [hbox, hpad, ne_eq, not_false_eq_true, ↓reduceIte, World.onWidgets_widgets]
    have g1 := Widget_OnUpdateContentBox_tasksGrow K (atCompare K E S w ctx).widgets w
    rw [Widget_AddReflowTask_states_other K E _ (some w) p _ (Or.inr ⟨?_, ?_⟩)]
    · exact contentBoxLoop_states_other K _ hposk hresk _ _ p
    · intro e; cases e; exact hpw rfl
    · intro x hx _
      cases hx
      rw [hF _ _ w g1]; exact hnoflex

/-- C6. An outer box change schedules the reflow of the parent only: when the
widget `w` can render, its padding box, as recomputed by lines 330-331, is the
one of the snapshot but its outer box is not, and the display, the position
mode and the flex properties are those of the snapshot, then after
Widget_EndDiff the REFLOW task is set on the parent `p` of `w`, which is not
deleted, and the REFLOW state of `w` is what it was before the call.  The
links form a tree (`p` is neither `w` nor a child of `w`), and the box update
and the painter are assumed to leave task records alone. -/
theorem Widget_EndDiff_outer_change (K : Defs) (E : Env) (S : World) (w p : Nat)
    (ctx : LCUI_WidgetTaskContextRec) (hB : BoxUpdateKeepsTasks E) (hP : PainterKeepsTasks E)
    (hcan : ctx.diff.can_render = true)
    (hparent : (getW (atCompare K E S w ctx).widgets w).parent = some p)
    (hp : p < (atCompare K E S w ctx).widgets.length)
    (hplive : (getW (atCompare K E S w ctx).widgets p).state ≠ K.LCUI_WSTATE_DELETED)
    (hpw : p ≠ w) (hgp : (getW (atCompare K E S w ctx).widgets p).parent ≠ some w)
    (hpad : ctx.diff.box.padding = (getW (atCompare K E S w ctx).widgets w).box.padding)
    (houter : ctx.diff.box.outer ≠ (getW (atCompare K E S w ctx).widgets w).box.outer)
    (hflex : ctx.diff.flex = (getW (atCompare K E S w ctx).widgets w).computed_style.flex)
    (hdisplay : ctx.diff.display =
      (getW (atCompare K E S w ctx).widgets w).computed_style.display)
    (hposition : ctx.diff.position =
      (getW (atCompare K E S w ctx).widgets w).computed_style.position) :
    (getW (Widget_EndDiff K E S w ctx).2.2.widgets p).task.states K.LCUI_WTASK_REFLOW = true ∧
      (getW (Widget_EndDiff K E S w ctx).2.2.widgets w).task.states K.LCUI_WTASK_REFLOW =
        (getW S.widgets w).task.states K.LCUI_WTASK_REFLOW := by
  rw [← atCompare_tasks K E hB S w ctx w, Widget_EndDiff_tasks K E hP S w ctx hcan p,
    Widget_EndDiff_tasks K E hP S w ctx hcan w,
    afterLayoutChecks_only_geometry K E S w ctx hflex hdisplay hposition]
  have hbox := (diffAtCompare_fields K E S w ctx).1
  unfold Widget_EndDiff_geometry
  simp only [hbox, hpad, houter, ne_eq, not_true_eq_false, not_false_eq_true, ↓reduceIte,
    World.onWidgets_widgets, hparent]
  refine ⟨Widget_AddReflowTask_sets K E _ p hp hplive, ?_⟩
  apply Widget_AddReflowTask_states_other
  right
  refine ⟨fun e => ?_, fun x hx hxp => ?_⟩
  · cases e; exact hpw rfl
  · cases hx; exact absurd hxp hgp

/-- The flags that Widget_InitDiff and Widget_BeginDiff leave in the context
of a widget that completed its layout, when no refresh of everything is
pending, the level starts at none and the widget can render: it may add an
invalid area. -/
theorem Widget_BeginDiff_flags (K : Defs) (hK : BoxLevelsOrdered K) (S0 : World) (w : Nat)
    (c0 : LCUI_WidgetTaskContextRec) (parent : LCUI_WidgetTaskContext)
    (hrefresh : S0.self.refresh_all = false)
    (hnone : (Widget_InitDiff K S0 w c0 parent).diff.invalid_box = 0)
    (hrender : (Widget_InitDiff K S0 w c0 parent).diff.can_render = true) :
    (Widget_BeginDiff K S0 w (Widget_InitDiff K S0 w c0 parent) parent).diff.invalid_box = 0 ∧
      (Widget_BeginDiff K S0 w (Widget_InitDiff K S0 w c0 parent) parent).diff.can_render = true ∧
      (Widget_BeginDiff K S0 w (Widget_InitDiff K S0 w c0 parent)
        parent).diff.should_add_invalid_area = true := by
  have hG : K.SV_GRAPH_BOX ≠ 0 := by
    have := hK.1; have := hK.2.1; have := hK.2.2; omega
  have hadd : (Widget_InitDiff K S0 w c0 parent).diff.should_add_invalid_area = true := by
    revert hnone hrender
    unfold Widget_InitDiff Widget_InitDiff_eligible
    simp only [hrefresh]
    cases parent with
    | nil => intro _ _; rfl
    | cons p rest =>
      simp only
      split
      · intro _ h; cases h
      · split
        · intro h _; exact absurd h hG
        · intro _ _; rfl
  simp only [Widget_BeginDiff, hrefresh]
  exact ⟨hnone, hrender, hadd⟩

theorem atCompare_trace (K : Defs) (E : Env) (S : World) (w : Nat)
    (ctx : LCUI_WidgetTaskContextRec)
    (hvisible : ctx.diff.visible = (getW S.widgets w).computed_style.visible) :
    (atCompare K E S w ctx).trace =
      S.trace ++ [Call.Widget_UpdateBoxSize w, Call.Widget_UpdateBoxPosition w] ∧
    diffAtCompare K E S w ctx =
      { ctx.diff with can_render := (getW S.widgets w).computed_style.visible } := by
  unfold atCompare diffAtCompare Widget_EndDiff_visibility Widget_EndDiff_boxes
  simp [hvisible]

theorem Widget_EndDiff_emit_levels (K : Defs) (E : Env) (S : World) (w : Nat)
    (d : LCUI_WidgetTaskDiffRec) :
    ∃ cs, (Widget_EndDiff_emit K E S w d).2.trace = S.trace ++ cs ∧
      ∀ l ∈ invalidationLevels cs, l = K.SV_PADDING_BOX ∨ l = d.invalid_box := by
  unfold Widget_EndDiff_emit
  split
  · exact ⟨[], by simp, by simp [invalidationLevels]⟩
  · simp only
    generalize hS1e : (if d.invalid_box ≥ K.SV_BORDER_BOX then
      S.call E (Call.Widget_UpdateCanvasBox w) else S) = S1
    have hS1 : ∃ cs1, S1.trace = S.trace ++ cs1 ∧ invalidationLevels cs1 = [] := by
      rw [← hS1e]
      split
      · exact ⟨[Call.Widget_UpdateCanvasBox w], rfl, rfl⟩
      · exact ⟨[], by simp, rfl⟩
    obtain ⟨cs1, ht1, hl1⟩ := hS1
    have happ : ∀ a b : List Call, invalidationLevels (a ++ b) =
        invalidationLevels a ++ invalidationLevels b := by
      intro a b; simp [invalidationLevels, List.filterMap_append]
    cases (getW S1.widgets w).parent with
    | none =>
      refine ⟨cs1 ++ [Call.Widget_InvalidateArea w none d.invalid_box], ?_, ?_⟩
      · simp [ht1]
      · intro l hl
        rw [happ, hl1] at hl
        simp [invalidationLevels] at hl
        exact Or.inr hl
    | some p =>
      simp only
      cases E.LCUIRectF_IsCoverRect d.box.canvas (getW S1.widgets w).box.canvas with
      | false =>
        refine ⟨cs1 ++ [Call.Widget_InvalidateArea p (some d.box.canvas) K.SV_PADDING_BOX,
          Call.Widget_InvalidateArea w none d.invalid_box], ?_, ?_⟩
        · simp [ht1]
        · intro l hl
          rw [happ, hl1] at hl
          simp [invalidationLevels] at hl
          exact hl
      | true =>
        refine ⟨cs1 ++ [Call.Widget_InvalidateArea p
          (some (E.LCUIRectF_MergeRect d.box.canvas (getW S1.widgets w).box.canvas))
          K.SV_PADDING_BOX], ?_, ?_⟩
        · simp [ht1]
        · intro l hl
          rw [happ, hl1] at hl
          simp [invalidationLevels] at hl
          exact Or.inl hl

/-- Widget_EndDiff on a widget that can render and may add an invalid area,
whose level starts at none and of which only the background differs from the
snapshot. -/
theorem Widget_EndDiff_background_only (K : Defs) (hK : BoxLevelsOrdered K) (E : Env) (S : World)
    (w : Nat) (ctx : LCUI_WidgetTaskContextRec)
    (hnone : ctx.diff.invalid_box = 0) (hcan : ctx.diff.can_render = true)
    (hadd : ctx.diff.should_add_invalid_area = true)
    (hvisible : ctx.diff.visible = (getW S.widgets w).computed_style.visible)
    (hbox : ctx.diff.box.padding = (getW (atCompare K E S w ctx).widgets w).box.padding ∧
      ctx.diff.box.outer = (getW (atCompare K E S w ctx).widgets w).box.outer ∧
      ctx.diff.box.canvas = (getW (atCompare K E S w ctx).widgets w).box.canvas)
    (hstyle : ctx.diff.flex = (getW (atCompare K E S w ctx).widgets w).computed_style.flex ∧
      ctx.diff.display = (getW (atCompare K E S w ctx).widgets w).computed_style.display ∧
      ctx.diff.position = (getW (atCompare K E S w ctx).widgets w).computed_style.position ∧
      ctx.diff.z_index = (getW (atCompare K E S w ctx).widgets w).computed_style.z_index ∧
      ctx.diff.shadow = (getW (atCompare K E S w ctx).widgets w).computed_style.shadow ∧
      ctx.diff.border = (getW (atCompare K E S w ctx).widgets w).computed_style.border)
    (hbackground : ctx.diff.background ≠
      (getW (atCompare K E S w ctx).widgets w).computed_style.background) :
    (Widget_EndDiff K E S w ctx).2.1.diff.invalid_box = K.SV_BORDER_BOX ∧
      (Widget_EndDiff K E S w ctx).2.2 =
        (Widget_EndDiff_emit K E (atCompare K E S w ctx) w
          { ctx.diff with can_render := (getW S.widgets w).computed_style.visible
                          invalid_box := K.SV_BORDER_BOX }).2 := by
  have hG : K.SV_GRAPH_BOX ≠ 0 ∧ K.SV_BORDER_BOX ≠ 0 := by
    have := hK.1; have := hK.2.1; have := hK.2.2; constructor <;> omega
  obtain ⟨hflex, hdisplay, hposition, hz, hshadow, hborder⟩ := hstyle
  have hat := (atCompare_trace K E S w ctx hvisible).2
  have hgeo : Widget_EndDiff_geometry K E (atCompare K E S w ctx) w (diffAtCompare K E S w ctx) =
      (diffAtCompare K E S w ctx, atCompare K E S w ctx) := by
    unfold Widget_EndDiff_geometry
    simp [hat, hbox.1, hbox.2.1, hbox.2.2]
  have hafter : afterLayoutChecks K E S w ctx = atCompare K E S w ctx := by
    rw [afterLayoutChecks_only_geometry K E S w ctx hflex hdisplay hposition, hgeo]
  have hdafter : diffAfterLayoutChecks K E S w ctx = diffAtCompare K E S w ctx := by
    unfold diffAfterLayoutChecks
    simp only [hgeo]
    rw [Widget_EndDiff_flex_same K E _ w _ (by rw [hat]; exact hflex),
      Widget_EndDiff_display_same K E _ w _ (by rw [hat]; exact hdisplay)
        (by rw [hat]; exact hposition)]
  have hlevel : Widget_EndDiff_level K (getW (atCompare K E S w ctx).widgets w).computed_style
      (diffAtCompare K E S w ctx) =
      some { ctx.diff with can_render := (getW S.widgets w).computed_style.visible
                           invalid_box := K.SV_BORDER_BOX } := by
    unfold Widget_EndDiff_level
    simp [hat, hnone, hz, hshadow, hborder, hbackground, Ne.symm hG.1, Ne.symm hG.2]
  rw [Widget_EndDiff_unfold K E S w ctx hcan, hafter, hdafter]
  have hadd2 : (diffAtCompare K E S w ctx).should_add_invalid_area = true := by
    rw [hat]; exact hadd
  simp only [hadd2, Bool.not_true, Bool.false_eq_true, ↓reduceIte, hlevel]
  trivial

/-- C7, amended. Invalidation containment: for a widget whose context was
initialised by Widget_InitDiff with refresh-all clear, starts at level none
and can render (its parent context, if any, can render), and of which only
the background differs between the snapshot taken by Widget_BeginDiff and the
state after the handlers, the level computed by Widget_EndDiff is the border
box, not the graph box, and every Widget_InvalidateArea call it makes is at a
level not above the border box. -/
theorem Widget_EndDiff_background_level (K : Defs) (hK : BoxLevelsOrdered K) (E : Env)
    (S0 S : World) (w : Nat) (c0 : LCUI_WidgetTaskContextRec) (parent : LCUI_WidgetTaskContext)
    (ctx : LCUI_WidgetTaskContextRec)
    (hrefresh : S0.self.refresh_all = false)
    (hnone : (Widget_InitDiff K S0 w c0 parent).diff.invalid_box = 0)
    (hrender : (Widget_InitDiff K S0 w c0 parent).diff.can_render = true)
    (hctx : ctx = Widget_BeginDiff K S0 w (Widget_InitDiff K S0 w c0 parent) parent)
    (hvisible : ctx.diff.visible = (getW S.widgets w).computed_style.visible)
    (hbox : ctx.diff.box.padding = (getW (atCompare K E S w ctx).widgets w).box.padding ∧
      ctx.diff.box.outer = (getW (atCompare K E S w ctx).widgets w).box.outer ∧
      ctx.diff.box.canvas = (getW (atCompare K E S w ctx).widgets w).box.canvas)
    (hstyle : ctx.diff.flex = (getW (atCompare K E S w ctx).widgets w).computed_style.flex ∧
      ctx.diff.display = (getW (atCompare K E S w ctx).widgets w).computed_style.display ∧
      ctx.diff.position = (getW (atCompare K E S w ctx).widgets w).computed_style.position ∧
      ctx.diff.z_index = (getW (atCompare K E S w ctx).widgets w).computed_style.z_index ∧
      ctx.diff.shadow = (getW (atCompare K E S w ctx).widgets w).computed_style.shadow ∧
      ctx.diff.border = (getW (atCompare K E S w ctx).widgets w).computed_style.border)
    (hbackground : ctx.diff.background ≠
      (getW (atCompare K E S w ctx).widgets w).computed_style.background) :
    (Widget_EndDiff K E S w ctx).2.1.diff.invalid_box = K.SV_BORDER_BOX ∧
      (Widget_EndDiff K E S w ctx).2.1.diff.invalid_box ≠ K.SV_GRAPH_BOX ∧
      ∀ l ∈ invalidationLevels (callsSince S (Widget_EndDiff K E S w ctx).2.2),
        l ≤ K.SV_BORDER_BOX := by
  have hflags := Widget_BeginDiff_flags K hK S0 w c0 parent hrefresh hnone hrender
  rw [← hctx] at hflags
  obtain ⟨h1, h2⟩ := Widget_EndDiff_background_only K hK E S w ctx hflags.1 hflags.2.1
    hflags.2.2 hvisible hbox hstyle hbackground
  refine ⟨h1, ?_, ?_⟩
  · rw [h1]; exact ne_of_lt hK.2.2
  · rw [h2]
    obtain ⟨cs, hcs, hl⟩ := Widget_EndDiff_emit_levels K E (atCompare K E S w ctx) w
      { ctx.diff with can_render := (getW S.widgets w).computed_style.visible
                      invalid_box := K.SV_BORDER_BOX }
    have htrace := (atCompare_trace K E S w ctx hvisible).1
    intro l hmem
    unfold callsSince at hmem
    rw [hcs, htrace, List.append_assoc, List.drop_left] at hmem
    have happ : invalidationLevels
        ([Call.Widget_UpdateBoxSize w, Call.Widget_UpdateBoxPosition w] ++ cs) =
        invalidationLevels cs := by
      simp [invalidationLevels]
    rw [happ] at hmem
    rcases hl l hmem with e | e
    · rw [e]; exact le_of_lt hK.2.1
    · rw [e]

/-! ## A pass over a tree when nothing is mutated -/

theorem updW_self (ws : List Widget) (i : Nat) (f : Widget → Widget)
    (h : f (getW ws i) = getW ws i) : updW ws i f = ws := by
  unfold updW
  rw [h]
  apply List.ext_getElem?
  intro j
  rw [List.getElem?_set]
  by_cases hij : i = j
  · subst hij
    by_cases hi : i < ws.length
    · simp [hi, getW, List.getD_eq_getElem?_getD, List.getElem?_eq_getElem hi]
    · simp [hi, List.getElem?_eq_none (Nat.le_of_not_lt hi)]
  · simp [hij]

theorem Quiet_call_widgets (E : Env) (hq : Quiet E) (S : World) (c : Call) :
    (S.call E c).widgets = S.widgets := hq.1 c S.widgets

theorem findStyleCache_none : ∀ (ctx : LCUI_WidgetTaskContext),
    (∀ c ∈ ctx, c.style_cache = none) → findStyleCache ctx = none
  | [], _ => rfl
  | p :: rest, h => by
    unfold findStyleCache
    rw [h p (List.mem_cons_self _ _)]
    exact findStyleCache_none rest (fun c hc => h c (List.mem_cons_of_mem _ hc))

theorem Widget_BeginUpdate_quiet (K : Defs) (E : Env) (hq : Quiet E) (S : World) (w : Nat)
    (ctx : LCUI_WidgetTaskContext) (hchain : ∀ c ∈ ctx, c.style_cache = none)
    (hrules : (getW S.widgets w).rules = none)
    (hstyle : (getW S.widgets w).inherited_style =
      some (StyleRef.cached (E.LCUI_GetCachedStyleSheet S.widgets w))) :
    ∃ c S', Widget_BeginUpdate K E S w ctx = (some c, S') ∧ c.style_cache = none ∧
      S'.widgets = S.widgets ∧ S'.self = S.self ∧ S'.metrics = S.metrics := by
  obtain ⟨block, hblock⟩ := Option.isSome_iff_exists.mp (hq.2 S.mallocs)
  unfold Widget_BeginUpdate
  simp only [hblock, findStyleCache_none ctx hchain]
  -- the hash may be generated again: the arena is the same
  generalize hS1 : (if (getW S.widgets w).hash ≠ 0 ∧
      (getW S.widgets w).task.states K.LCUI_WTASK_REFRESH_STYLE = true then
      World.call E { S with mallocs := S.mallocs + 1 } (Call.Widget_GenerateSelfHash w)
    else { S with mallocs := S.mallocs + 1 }) = S1
  have h1 : S1.widgets = S.widgets ∧ S1.self = S.self ∧ S1.metrics = S.metrics := by
    rw [← hS1]
    split
    · exact ⟨hq.1 _ _, rfl, rfl⟩
    · exact ⟨rfl, rfl, rfl⟩
  have hown : ∀ c : LCUI_WidgetTaskContextRec, c.style_cache = none →
      Widget_BeginUpdate_own E S1 w c = (c, S1) := by
    intro c hc
    unfold Widget_BeginUpdate_own
    rw [hc, h1.1, hrules]
  have hres : ∀ c : LCUI_WidgetTaskContextRec, c.style_cache = none →
      (Widget_BeginUpdate_resolve E S1 w c).widgets = S.widgets ∧
      (Widget_BeginUpdate_resolve E S1 w c).self = S.self ∧
      (Widget_BeginUpdate_resolve E S1 w c).metrics = S.metrics := by
    intro c hc
    unfold Widget_BeginUpdate_resolve
    rw [hc]
    simp only [World.onWidgets_widgets, World.call_widgets, hq.1, World.onWidgets_self,
      World.call_self]
    refine ⟨?_, h1.2.1, h1.2.2⟩
    rw [h1.1]
    exact updW_self _ _ _ (by rw [← hstyle])
  rw [hown _ rfl]
  dsimp only
  rw [if_neg (by rw [(hres _ rfl).1, h1.1]; exact fun h => h rfl)]
  exact ⟨_, _, rfl, rfl, (hres _ rfl).1, (hres _ rfl).2.1, (hres _ rfl).2.2⟩

@[simp] theorem World.onWidgets_metrics (S : World) (f : List Widget → List Widget) :
    (S.onWidgets f).metrics = S.metrics := rfl

@[simp] theorem World.call_metrics (E : Env) (S : World) (c : Call) :
    (S.call E c).metrics = S.metrics := rfl

theorem Widget_EndDiff_emit_quiet (K : Defs) (E : Env) (hq : Quiet E) (S : World) (w : Nat)
    (d : LCUI_WidgetTaskDiffRec) :
    (Widget_EndDiff_emit K E S w d).2.widgets = S.widgets ∧
      (Widget_EndDiff_emit K E S w d).2.self = S.self ∧
      (Widget_EndDiff_emit K E S w d).2.metrics = S.metrics := by
  unfold Widget_EndDiff_emit
  split
  · exact ⟨rfl, rfl, rfl⟩
  · simp only
    generalize hS1e : (if d.invalid_box ≥ K.SV_BORDER_BOX then
      S.call E (Call.Widget_UpdateCanvasBox w) else S) = S1
    have hS1 : S1.widgets = S.widgets ∧ S1.self = S.self ∧ S1.metrics = S.metrics := by
      rw [← hS1e]
      split
      · exact ⟨hq.1 _ _, rfl, rfl⟩
      · exact ⟨rfl, rfl, rfl⟩
    cases (getW S1.widgets w).parent with
    | none =>
      simp only [World.call_widgets, World.call_self, World.call_metrics, hq.1]
      exact hS1
    | some p =>
      simp only
      cases E.LCUIRectF_IsCoverRect d.box.canvas (getW S1.widgets w).box.canvas with
      | false =>
        simp only [Bool.not_false, ↓reduceIte, World.call_widgets, World.call_self,
          World.call_metrics, hq.1]
        exact hS1
      | true =>
        simp only [Bool.not_true, Bool.false_eq_true, ↓reduceIte, World.call_widgets,
          World.call_self, World.call_metrics, hq.1]
        exact hS1

theorem atCompare_quiet (K : Defs) (E : Env) (hq : Quiet E) (S : World) (w : Nat)
    (ctx : LCUI_WidgetTaskContextRec) :
    (atCompare K E S w ctx).widgets = S.widgets ∧ (atCompare K E S w ctx).self = S.self ∧
      (atCompare K E S w ctx).metrics = S.metrics := by
  unfold atCompare Widget_EndDiff_boxes Widget_EndDiff_visibility
  simp only
  split
  · simp only [World.call_widgets, World.call_self, World.call_metrics, hq.1]
    exact ⟨trivial, trivial, trivial⟩
  · simp only [World.call_widgets, World.call_self, World.call_metrics, hq.1]
    exact ⟨trivial, trivial, trivial⟩

/-- When nothing is mutated and the snapshot holds the current boxes, flex
properties, display and position mode, Widget_EndDiff changes no widget. -/
theorem Widget_EndDiff_quiet (K : Defs) (E : Env) (hq : Quiet E) (S : World) (w : Nat)
    (ctx : LCUI_WidgetTaskContextRec) (hbox : ctx.diff.box = (getW S.widgets w).box)
    (hflex : ctx.diff.flex = (getW S.widgets w).computed_style.flex)
    (hdisplay : ctx.diff.display = (getW S.widgets w).computed_style.display)
    (hposition : ctx.diff.position = (getW S.widgets w).computed_style.position) :
    (Widget_EndDiff K E S w ctx).2.2.widgets = S.widgets ∧
      (Widget_EndDiff K E S w ctx).2.2.self = S.self ∧
      (Widget_EndDiff K E S w ctx).2.2.metrics = S.metrics ∧
      (Widget_EndDiff K E S w ctx).2.1.style_cache = ctx.style_cache := by
  by_cases hcan : ctx.diff.can_render = true
  · have hat := atCompare_quiet K E hq S w ctx
    have hgeo : Widget_EndDiff_geometry K E (atCompare K E S w ctx) w
        (diffAtCompare K E S w ctx) = (diffAtCompare K E S w ctx, atCompare K E S w ctx) := by
      unfold Widget_EndDiff_geometry
      simp [(diffAtCompare_fields K E S w ctx).1, hat.1, hbox]
    have hafter : afterLayoutChecks K E S w ctx = atCompare K E S w ctx := by
      rw [afterLayoutChecks_only_geometry K E S w ctx (by rw [hat.1]; exact hflex)
        (by rw [hat.1]; exact hdisplay) (by rw [hat.1]; exact hposition), hgeo]
    rw [Widget_EndDiff_unfold K E S w ctx hcan, hafter]
    split
    · exact ⟨hat.1, hat.2.1, hat.2.2, rfl⟩
    · split
      · exact ⟨hat.1, hat.2.1, hat.2.2, rfl⟩
      · have he := Widget_EndDiff_emit_quiet K E hq (atCompare K E S w ctx) w ‹_›
        exact ⟨he.1.trans hat.1, he.2.1.trans hat.2.1, he.2.2.trans hat.2.2, rfl⟩
  · unfold Widget_EndDiff
    simp [hcan]

theorem StatesOnly_refl (ws : List Widget) : StatesOnly ws ws :=
  ⟨rfl, fun _ => rfl⟩

theorem StatesOnly_trans {a b c : List Widget} (h1 : StatesOnly a b) (h2 : StatesOnly b c) :
    StatesOnly a c := by
  refine ⟨h2.1.trans h1.1, fun i => ?_⟩
  rw [h2.2 i, h1.2 i]

theorem StatesOnly_updW (ws : List Widget) (w : Nat) (f : Widget → Widget)
    (hf : ∀ x, f x = { x with task := { x.task with states := (f x).task.states } }) :
    StatesOnly ws (updW ws w f) := by
  refine ⟨length_updW _ _ _, fun i => ?_⟩
  rw [getW_updW]
  split
  · next h => rw [← h.1]; exact hf _
  · rfl

theorem StatesOnly_setTaskState (ws : List Widget) (w k : Nat) (v : Bool) :
    StatesOnly ws (updW ws w (fun x => x.setTaskState k v)) :=
  StatesOnly_updW ws w _ (fun _ => rfl)

theorem StatesOnly_flags {ws ws' : List Widget} (h : StatesOnly ws ws') (i : Nat) :
    SameFlags ws ws' i := by
  unfold SameFlags
  rw [h.2 i]
  exact ⟨rfl, rfl⟩

theorem StatesOnly_body {ws ws' : List Widget} (h : StatesOnly ws ws') : BodyKept ws ws' := by
  refine ⟨h.1, fun i => ?_⟩
  rw [h.2 i]

theorem BodyKept_refl (ws : List Widget) : BodyKept ws ws := ⟨rfl, fun _ => rfl⟩

theorem BodyKept_trans {a b c : List Widget} (h1 : BodyKept a b) (h2 : BodyKept b c) :
    BodyKept a c := by
  refine ⟨h2.1.trans h1.1, fun i => ?_⟩
  rw [h2.2 i, h1.2 i]

theorem QuietStep_refl (S : World) : QuietStep S S := ⟨rfl, rfl, StatesOnly_refl _⟩

theorem QuietStep_trans {a b c : World} (h1 : QuietStep a b) (h2 : QuietStep b c) :
    QuietStep a c :=
  ⟨h2.1.trans h1.1, h2.2.1.trans h1.2.1, StatesOnly_trans h1.2.2 h2.2.2⟩

theorem QuietStep_call (E : Env) (hq : Quiet E) (S : World) (c : Call) :
    QuietStep S (S.call E c) := by
  refine ⟨rfl, rfl, ?_⟩
  rw [World.call_widgets, hq.1]
  exact StatesOnly_refl _

theorem QuietStep_states (S : World) (f : List Widget → List Widget)
    (h : StatesOnly S.widgets (f S.widgets)) : QuietStep S (S.onWidgets f) :=
  ⟨rfl, rfl, h⟩

theorem runHandler_quiet (K : Defs) (E : Env) (hq : Quiet E) (S : World) (h : Handler)
    (w : Nat) : QuietStep S (runHandler K E S h w) := by
  cases h with
  | compute fn => exact QuietStep_call E hq S _
  | Widget_OnUpdateStyle => exact QuietStep_call E hq S _
  | Widget_OnSetTitle => exact QuietStep_call E hq S _
  | Widget_OnRefreshStyle =>
    exact QuietStep_trans (QuietStep_call E hq S _)
      (QuietStep_states _ _ (StatesOnly_updW _ w _ (fun _ => rfl)))

theorem Widget_UpdateSelf_task_quiet (K : Defs) (E : Env) (hq : Quiet E) (w : Nat) (S : World)
    (i : Nat) : QuietStep S (Widget_UpdateSelf_task K E w S i) := by
  unfold Widget_UpdateSelf_task
  split
  · simp only
    have h1 : QuietStep S (S.onWidgets (fun ws => updW ws w (fun x => x.setTaskState i false))) :=
      QuietStep_states _ _ (StatesOnly_setTaskState _ w i false)
    split
    · exact QuietStep_trans h1 (runHandler_quiet K E hq _ _ w)
    · exact h1
  · exact QuietStep_refl S

theorem Widget_UpdateSelf_loop_quiet (K : Defs) (E : Env) (hq : Quiet E) (w : Nat) :
    ∀ (l : List Nat) (S : World), QuietStep S (l.foldl (Widget_UpdateSelf_task K E w) S)
  | [], S => QuietStep_refl S
  | i :: rest, S => by
    simp only [List.foldl_cons]
    exact QuietStep_trans (Widget_UpdateSelf_task_quiet K E hq w S i)
      (Widget_UpdateSelf_loop_quiet K E hq w rest _)

/-- Widget_UpdateSelf when nothing is mutated and no refresh of everything is
pending: the module state is kept, nothing but task records changes, `for_self`
of the widget is cleared, and the other `for_self` flags and all the
`for_children` flags are kept. -/
theorem Widget_UpdateSelf_quiet (K : Defs) (E : Env) (hq : Quiet E) (S : World) (w : Nat)
    (ctx : LCUI_WidgetTaskContextRec) (parent : LCUI_WidgetTaskContext)
    (hrefresh : S.self.refresh_all = false) :
    (Widget_UpdateSelf K E S w ctx parent).2.self = S.self ∧
      (Widget_UpdateSelf K E S w ctx parent).2.metrics = S.metrics ∧
      BodyKept S.widgets (Widget_UpdateSelf K E S w ctx parent).2.widgets ∧
      (Widget_UpdateSelf K E S w ctx parent).1.style_cache = ctx.style_cache ∧
      (getW (Widget_UpdateSelf K E S w ctx parent).2.widgets w).task.for_self = false ∧
      ∀ i, (getW (Widget_UpdateSelf K E S w ctx parent).2.widgets i).task.for_children =
          (getW S.widgets i).task.for_children ∧
        (i ≠ w → (getW (Widget_UpdateSelf K E S w ctx parent).2.widgets i).task.for_self =
          (getW S.widgets i).task.for_self) := by
  -- the user task
  generalize hS1 : (if (getW S.widgets w).task.states K.LCUI_WTASK_USER = true ∧
      (getW S.widgets w).has_runtask = true then
      (S.onWidgets (fun ws => updW ws w (fun x =>
        x.setTaskState K.LCUI_WTASK_USER false))).call E (Call.runtask w) else S) = S1
  have h1 : QuietStep S S1 := by
    rw [← hS1]
    split
    · exact QuietStep_trans (QuietStep_states _ _ (StatesOnly_setTaskState _ w _ false))
        (QuietStep_call E hq _ _)
    · exact QuietStep_refl S
  -- the handlers
  generalize hS3 : (List.range K.LCUI_WTASK_REFLOW).foldl (Widget_UpdateSelf_task K E w)
    (S1.onWidgets (fun ws => updW ws w (fun x => x.setForSelf false))) = S3
  have h3 : QuietStep (S1.onWidgets (fun ws => updW ws w (fun x => x.setForSelf false))) S3 := by
    rw [← hS3]; exact Widget_UpdateSelf_loop_quiet K E hq w _ _
  have hw3 : ∀ i, getW S3.widgets i =
      { getW S.widgets i with task :=
        { for_self := if w = i ∧ w < S.widgets.length then false
            else (getW S.widgets i).task.for_self
          for_children := (getW S.widgets i).task.for_children
          states := (getW S3.widgets i).task.states } } := by
    intro i
    rw [h3.2.2.2 i, World.onWidgets_widgets, getW_updW, h1.2.2.1]
    split
    · next h => rw [← h.1, h1.2.2.2 w]; rfl
    · rw [h1.2.2.2 i]
  -- the end of the diff
  have hsnap : (Widget_BeginDiff K S w ctx parent).diff.box = (getW S3.widgets w).box ∧
      (Widget_BeginDiff K S w ctx parent).diff.flex = (getW S3.widgets w).computed_style.flex ∧
      (Widget_BeginDiff K S w ctx parent).diff.display =
        (getW S3.widgets w).computed_style.display ∧
      (Widget_BeginDiff K S w ctx parent).diff.position =
        (getW S3.widgets w).computed_style.position ∧
      (Widget_BeginDiff K S w ctx parent).style_cache = ctx.style_cache := by
    rw [hw3 w]
    simp only [Widget_BeginDiff, hrefresh]
    exact ⟨rfl, rfl, rfl, rfl, rfl⟩
  have hend := Widget_EndDiff_quiet K E hq S3 w (Widget_BeginDiff K S w ctx parent)
    hsnap.1 hsnap.2.1 hsnap.2.2.1 hsnap.2.2.2.1
  have hres : Widget_UpdateSelf K E S w ctx parent =
      ((Widget_EndDiff K E S3 w (Widget_BeginDiff K S w ctx parent)).2.1,
        (Widget_EndDiff K E S3 w (Widget_BeginDiff K S w ctx parent)).2.2.call E
          (Call.Widget_AddState w K.LCUI_WSTATE_UPDATED)) := by
    unfold Widget_UpdateSelf
    simp only [hS1, hS3]
  rw [hres]
  simp only [World.call_widgets, World.call_self, World.call_metrics, hq.1, hend.1]
  refine ⟨hend.2.1.trans (h3.1.trans h1.1), hend.2.2.1.trans (h3.2.1.trans h1.2.1), ?_,
    hend.2.2.2.trans hsnap.2.2.2.2, ?_, ?_⟩
  · refine ⟨?_, fun i => ?_⟩
    · rw [h3.2.2.1, World.onWidgets_widgets, length_updW, h1.2.2.1]
    · rw [hw3 i]
  · rw [hw3 w]
    by_cases h : w < S.widgets.length
    · simp [h]
    · simp [h, getW_of_length_le S.widgets w (Nat.le_of_not_lt h), Widget.null]
  · intro i
    rw [hw3 i]
    refine ⟨rfl, fun hne => ?_⟩
    simp [Ne.symm hne]

theorem InSubtree_child {ws : List Widget} {w c i : Nat} (hc : c ∈ (getW ws w).children)
    (hi : InSubtree ws c i) : IsDescendant ws w i := by
  rcases hi with e | e
  · subst e; exact IsDescendant.child hc
  · exact IsDescendant_of_child hc e

theorem InSubtree_step {ws : List Widget} {w i d : Nat} (hi : InSubtree ws w i)
    (hd : d ∈ (getW ws i).children) : InSubtree ws w d := by
  rcases hi with e | e
  · subst e; exact Or.inr (IsDescendant.child hd)
  · exact Or.inr (IsDescendant.step e hd)

theorem IsDescendant_trans {ws : List Widget} {w c d : Nat} (h1 : IsDescendant ws w c)
    (h2 : IsDescendant ws c d) : IsDescendant ws w d := by
  induction h2 with
  | child h => exact IsDescendant.step h1 h
  | step _ h ih => exact IsDescendant.step ih h

theorem not_inSubtree_above {ws : List Widget} {rank : Nat → Nat} {w c : Nat}
    (ht : IsTreeUnder ws rank w) (hc : IsDescendant ws w c) : ¬ InSubtree ws c w := by
  intro h
  have h1 := IsTreeUnder_rank_lt ht hc
  rcases h with e | e
  · rw [e] at h1; exact Nat.lt_irrefl _ h1
  · have h2 := IsTreeUnder_rank_lt ht (IsDescendant_trans hc e)
    exact Nat.lt_irrefl _ h2

theorem Clean_of_not_dirty {ws : List Widget} {i : Nat} (h : ¬ Dirty ws i) : Clean ws i := by
  unfold Dirty at h
  unfold Clean
  cases h1 : (getW ws i).task.for_self <;> cases h2 : (getW ws i).task.for_children <;>
    simp_all

theorem not_dirty_of_clean {ws : List Widget} {i : Nat} (h : Clean ws i) : ¬ Dirty ws i := by
  intro hd
  rcases hd with e | e
  · rw [h.1] at e; cases e
  · rw [h.2] at e; cases e

theorem Clean_of_sameFlags {ws ws' : List Widget} {i : Nat} (h : SameFlags ws ws' i)
    (hc : Clean ws i) : Clean ws' i :=
  ⟨h.1.trans hc.1, h.2.trans hc.2⟩

theorem Dirty_of_sameFlags {ws ws' : List Widget} {i : Nat} (h : SameFlags ws ws' i)
    (hd : Dirty ws' i) : Dirty ws i := by
  rcases hd with e | e
  · exact Or.inl (h.1 ▸ e)
  · exact Or.inr (h.2 ▸ e)

/-- In a subtree whose flags are closed and whose root has `for_children`
clear, no proper descendant has pending work. -/
theorem clean_of_flagsClosed {ws0 ws : List Widget} {w : Nat} (hcl : FlagsClosed ws0 ws w)
    (hw : (getW ws w).task.for_children = false) :
    ∀ d, IsDescendant ws0 w d → Clean ws d := by
  intro d hd
  induction hd with
  | child h =>
    apply Clean_of_not_dirty
    intro hdirty
    have := hcl w _ (Or.inl rfl) h hdirty
    rw [hw] at this; cases this
  | step hc h ih =>
    apply Clean_of_not_dirty
    intro hdirty
    have := hcl _ _ (Or.inr hc) h hdirty
    rw [ih.2] at this; cases this

/-- Closed flags stay closed when a pass cleans the subtree of `c` and keeps
the flags outside of it. -/
theorem FlagsClosed_after_pass {ws0 ws ws' : List Widget} {x c : Nat}
    (hcl : FlagsClosed ws0 ws x) (hclean : ∀ i, InSubtree ws0 c i → Clean ws' i)
    (hsame : ∀ i, ¬ InSubtree ws0 c i → SameFlags ws ws' i) : FlagsClosed ws0 ws' x := by
  intro i d hi hd hdirty
  have hdc : ¬ InSubtree ws0 c d := fun h => not_dirty_of_clean (hclean d h) hdirty
  have hic : ¬ InSubtree ws0 c i := fun h => hdc (InSubtree_step h hd)
  rw [(hsame i hic).2]
  exact hcl i d hi hd (Dirty_of_sameFlags (hsame d hdc) hdirty)

/-- Closed flags of a subtree are closed in the subtree of a child, also after
flags outside that subtree changed. -/
theorem FlagsClosed_child {ws0 ws ws' : List Widget} {w c : Nat}
    (hcl : FlagsClosed ws0 ws w) (hc : c ∈ (getW ws0 w).children)
    (hsame : ∀ i, InSubtree ws0 c i → SameFlags ws ws' i) : FlagsClosed ws0 ws' c := by
  intro i d hi hd hdirty
  rw [(hsame i hi).2]
  exact hcl i d (Or.inr (InSubtree_child hc hi)) hd
    (Dirty_of_sameFlags (hsame d (InSubtree_step hi hd)) hdirty)

theorem BodyKept_fields {ws0 ws : List Widget} (h : BodyKept ws0 ws) (i : Nat) :
    (getW ws i).children = (getW ws0 i).children ∧ (getW ws i).rules = (getW ws0 i).rules ∧
      (getW ws i).inherited_style = (getW ws0 i).inherited_style := by
  rw [h.2 i]
  exact ⟨rfl, rfl, rfl⟩

theorem SameFlags_trans {a b c : List Widget} {i : Nat} (h1 : SameFlags a b i)
    (h2 : SameFlags b c i) : SameFlags a c i :=
  ⟨h2.1.trans h1.1, h2.2.trans h1.2⟩

theorem updateChildrenLoop_quiet (K : Defs) (E : Env) (ws0 : List Widget) (rank : Nat → Nat)
    (fuel : Nat) (w : Nat) (ctx : LCUI_WidgetTaskContext)
    (ih : ∀ S c, PassReady E ws0 rank S c ctx → rank c < fuel →
      PassSpec ws0 S c (Widget_UpdateWithContext K E fuel S c ctx))
    (hchain : ∀ c ∈ ctx, c.style_cache = none) (hstyles : StylesResolved E ws0)
    (htree : IsTreeUnder ws0 rank w) (hnorules : NoRulesUnder ws0 w) (hfuel : rank w < fuel + 1)
    (msec : Int) :
    ∀ (cs : List Nat) (St : World), (∀ c ∈ cs, c ∈ (getW ws0 w).children) →
      St.self.refresh_all = false → BodyKept ws0 St.widgets →
      (∀ c ∈ cs, FlagsClosed ws0 St.widgets c) →
      ∃ S', updateChildrenLoop K E (Widget_UpdateWithContext K E fuel) w ctx false cs St 0 0 msec =
          Except.ok (0, S') ∧ Kept ws0 St S' ∧
        (∀ i, Clean St.widgets i → Clean S'.widgets i) ∧
        (∀ c ∈ cs, ∀ i, InSubtree ws0 c i → Clean S'.widgets i) ∧
        (∀ i, (∀ c ∈ cs, ¬ InSubtree ws0 c i) → SameFlags St.widgets S'.widgets i)
  | [], St, _, _, hbody, _ =>
    ⟨St, rfl, ⟨rfl, rfl, hbody⟩, fun _ h => h, fun _ hc => absurd hc (List.not_mem_nil _),
      fun _ _ => ⟨rfl, rfl⟩⟩
  | c :: rest, St, hcs, hrefresh, hbody, hcl => by
    have hc : c ∈ (getW ws0 w).children := hcs c (List.mem_cons_self _ _)
    have hcr := htree w c (Or.inl rfl) hc
    have hready : PassReady E ws0 rank St c ctx :=
      ⟨hrefresh, hbody, hchain, hstyles, IsTreeUnder_child htree hc, hcr.1,
        fun i hi => hnorules i (Or.inr (InSubtree_child hc hi)), hcl c (List.mem_cons_self _ _)⟩
    obtain ⟨S1, hr1, hk1, hclean1, hsame1⟩ := ih St c hready (by omega)
    have hcc : Clean S1.widgets c := hclean1 c (Or.inl rfl)
    obtain ⟨S', hr', hk', hkeep', hclean', hsame'⟩ :=
      updateChildrenLoop_quiet K E ws0 rank fuel w ctx ih hchain hstyles htree hnorules hfuel msec
        rest S1 (fun x hx => hcs x (List.mem_cons_of_mem _ hx)) (hk1.1 ▸ hrefresh) hk1.2.2
        (fun x hx => FlagsClosed_after_pass (hcl x (List.mem_cons_of_mem _ hx)) hclean1 hsame1)
    have hpass : ∀ i, Clean St.widgets i → Clean S1.widgets i := by
      intro i hi
      by_cases hin : InSubtree ws0 c i
      · exact hclean1 i hin
      · exact Clean_of_sameFlags (hsame1 i hin) hi
    refine ⟨S', ?_, ⟨hk'.1.trans hk1.1, hk'.2.1.trans hk1.2.1, hk'.2.2⟩,
      fun i hi => hkeep' i (hpass i hi), ?_, ?_⟩
    · simp only [updateChildrenLoop, hr1, hcc.1, hcc.2]
      simpa using hr'
    · intro x hx i hi
      rcases List.mem_cons.mp hx with e | e
      · subst e; exact hkeep' i (hclean1 i hi)
      · exact hclean' x e i hi
    · intro i hi
      exact SameFlags_trans (hsame1 i (hi c (List.mem_cons_self _ _)))
        (hsame' i (fun x hx => hi x (List.mem_cons_of_mem _ hx)))

/-- A pass of Widget_UpdateWithContext over a finite tree without update
rules, when nothing is mutated: it returns 0 and leaves the subtree without
pending work. -/
theorem Widget_UpdateWithContext_quiet (K : Defs) (E : Env) (hq : Quiet E) (ws0 : List Widget)
    (rank : Nat → Nat) :
    ∀ (fuel : Nat) (ctx : LCUI_WidgetTaskContext) (S : World) (w : Nat),
      PassReady E ws0 rank S w ctx → rank w < fuel →
      PassSpec ws0 S w (Widget_UpdateWithContext K E fuel S w ctx)
  | 0, _, _, _, _, h => absurd h (Nat.not_lt_zero _)
  | fuel + 1, ctx, S, w, hready, hfuel => by
    obtain ⟨hrefresh, hbody, hchain, hstyles, htree, hw, hnorules, hcl⟩ := hready
    have hwS : w < S.widgets.length := by rw [hbody.1]; exact hw
    by_cases hidle : (getW S.widgets w).task.for_self = false ∧
        (getW S.widgets w).task.for_children = false
    · -- nothing is pending
      refine ⟨S, ?_, ⟨rfl, rfl, hbody⟩, ?_, fun _ _ => ⟨rfl, rfl⟩⟩
      · simp [Widget_UpdateWithContext, hidle.1, hidle.2]
      · intro i hi
        rcases hi with e | e
        · subst e; exact hidle
        · exact clean_of_flagsClosed hcl hidle.2 i e
    · -- the widget is updated
      have hfields := BodyKept_fields hbody w
      obtain ⟨c0, S1, hbegin, hc0, hw1, hs1, hm1⟩ := Widget_BeginUpdate_quiet K E hq S w ctx hchain
        (by rw [hfields.2.1]; exact hnorules w (Or.inl rfl))
        (by rw [hfields.2.2]; exact hstyles S.widgets w hw)
      have hrefresh1 : S1.self.refresh_all = false := by rw [hs1]; exact hrefresh
      -- the widget itself
      generalize hr2 : (if (getW S1.widgets w).task.for_self = true then
        Widget_UpdateSelf K E S1 w (Widget_InitDiff K S1 w c0 ctx) ctx
        else (Widget_InitDiff K S1 w c0 ctx, S1)) = r2
      have h2 : r2.2.self = S.self ∧ r2.2.metrics = S.metrics ∧ BodyKept S.widgets r2.2.widgets ∧
          r2.1.style_cache = none ∧ (getW r2.2.widgets w).task.for_self = false ∧
          ∀ i, (getW r2.2.widgets i).task.for_children = (getW S.widgets i).task.for_children ∧
            (i ≠ w → (getW r2.2.widgets i).task.for_self = (getW S.widgets i).task.for_self) := by
        have hinit : (Widget_InitDiff K S1 w c0 ctx).style_cache = none := by
          unfold Widget_InitDiff
          cases ctx with
          | nil => exact hc0
          | cons p rest =>
            simp only
            split
            · exact hc0
            · split <;> exact hc0
        rw [← hr2]
        split
        · have h := Widget_UpdateSelf_quiet K E hq S1 w (Widget_InitDiff K S1 w c0 ctx) ctx
            hrefresh1
          rw [hw1] at h
          exact ⟨h.1.trans hs1, h.2.1.trans hm1, h.2.2.1, h.2.2.2.1.trans hinit, h.2.2.2.2.1,
            h.2.2.2.2.2⟩
        · next hns =>
          rw [hw1] at hns
          refine ⟨hs1, hm1, ?_, hinit, ?_, fun i => ?_⟩
          · show BodyKept S.widgets S1.widgets
            rw [hw1]; exact BodyKept_refl _
          · show (getW S1.widgets w).task.for_self = false
            rw [hw1]; simpa using hns
          · show (getW S1.widgets i).task.for_children = _ ∧ _
            rw [hw1]; exact ⟨rfl, fun _ => rfl⟩
      obtain ⟨h2self, h2metrics, h2body, h2cache, h2fs, h2flags⟩ := h2
      have h2body0 : BodyKept ws0 r2.2.widgets := BodyKept_trans hbody h2body
      have hchain2 : ∀ c ∈ r2.1 :: ctx, c.style_cache = none := by
        intro c hc
        rcases List.mem_cons.mp hc with e | e
        · rw [e]; exact h2cache
        · exact hchain c e
      have hsame2 : ∀ i, i ≠ w → SameFlags S.widgets r2.2.widgets i :=
        fun i hi => ⟨(h2flags i).2 hi, (h2flags i).1⟩
      have hne : ∀ c i, c ∈ (getW ws0 w).children → InSubtree ws0 c i → i ≠ w := by
        intro c i hc hi e
        subst e
        exact not_inSubtree_above htree (IsDescendant.child hc) hi
      -- the children
      generalize hr3 : (if (getW r2.2.widgets w).task.for_children = true then
        Widget_UpdateChildren K E (Widget_UpdateWithContext K E fuel) r2.2 w (r2.1 :: ctx)
        else Except.ok (0, r2.2)) = r3
      have h3 : ∃ S3, r3 = Except.ok (0, S3) ∧ Kept ws0 S S3 ∧
          (∀ i, InSubtree ws0 w i → Clean S3.widgets i) ∧
          (∀ i, ¬ InSubtree ws0 w i → SameFlags S.widgets S3.widgets i) := by
        rw [← hr3]
        by_cases hfc : (getW r2.2.widgets w).task.for_children = true
        · rw [if_pos hfc]
          have hrules2 : (getW r2.2.widgets w).rules = none := by
            rw [(BodyKept_fields h2body0 w).2.1]; exact hnorules w (Or.inl rfl)
          have hkids2 : (getW r2.2.widgets w).children = (getW ws0 w).children :=
            (BodyKept_fields h2body0 w).1
          -- the state in which the loop starts
          have hlen2 : w < r2.2.widgets.length := by rw [h2body0.1]; exact hw
          have hstart : ∀ i, getW (updW r2.2.widgets w (fun x => x.setForChildren false)) i =
              if w = i then (getW r2.2.widgets i).setForChildren false
              else getW r2.2.widgets i := by
            intro i
            rw [getW_updW]
            by_cases e : w = i
            · subst e; simp [hlen2]
            · simp [e]
          have hsameSt : ∀ i, i ≠ w → SameFlags S.widgets
              (updW r2.2.widgets w (fun x => x.setForChildren false)) i := by
            intro i hi
            unfold SameFlags
            rw [hstart i, if_neg (Ne.symm hi)]
            exact hsame2 i hi
          obtain ⟨S3, hl, hk, hkeep, hclean, hsame⟩ := updateChildrenLoop_quiet K E ws0 rank fuel
            w (r2.1 :: ctx)
            (fun S c hr hf => Widget_UpdateWithContext_quiet K E hq ws0 rank fuel (r2.1 :: ctx)
              S c hr hf)
            hchain2 hstyles htree hnorules hfuel 0 (getW ws0 w).children
            (r2.2.onWidgets (fun ws => updW ws w (fun x => x.setForChildren false)))
            (fun _ h => h) (by rw [World.onWidgets_self, h2self]; exact hrefresh)
            (by
              refine ⟨by rw [World.onWidgets_widgets, length_updW]; exact h2body0.1, fun i => ?_⟩
              rw [World.onWidgets_widgets, hstart i]
              split
              · rw [h2body0.2 i]; rfl
              · exact h2body0.2 i)
            (fun c hc => FlagsClosed_child hcl hc (fun i hi => hsameSt i (hne c i hc hi)))
          refine ⟨S3, ?_, ⟨hk.1.trans h2self, hk.2.1.trans h2metrics, hk.2.2⟩, ?_, ?_⟩
          · simp only [Widget_UpdateChildren, hfc, hrules2, hkids2, Widget_UpdateChildren_pass,
              Bool.not_true, Bool.false_eq_true, ↓reduceIte, hl, Widget_UpdateChildren_finish]
          · intro i hi
            rcases hi with e | e
            · subst e
              apply hkeep
              rw [Clean, World.onWidgets_widgets, hstart i, if_pos rfl]
              exact ⟨h2fs, rfl⟩
            · obtain ⟨c, hc, hcd⟩ := IsDescendant_cases_top e
              exact hclean c hc i hcd
          · intro i hi
            have hiw : i ≠ w := fun e => hi (Or.inl e)
            exact SameFlags_trans (hsameSt i hiw)
              (hsame i (fun c hc hin => hi (Or.inr (InSubtree_child hc hin))))
        · rw [if_neg hfc]
          have hfc2 : (getW r2.2.widgets w).task.for_children = false := by simpa using hfc
          refine ⟨r2.2, rfl, ⟨h2self, h2metrics, h2body0⟩, ?_, fun i hi => hsame2 i
            (fun e => hi (Or.inl e))⟩
          intro i hi
          rcases hi with e | e
          · subst e; exact ⟨h2fs, hfc2⟩
          · have hclS := clean_of_flagsClosed hcl (by rw [← (h2flags w).1]; exact hfc2) i e
            have hiw : i ≠ w := by
              intro e2
              subst e2
              exact Nat.lt_irrefl _ (IsTreeUnder_rank_lt htree e)
            exact Clean_of_sameFlags (hsame2 i hiw) hclS
      obtain ⟨S3, hr3ok, hk3, hclean3, hsame3⟩ := h3
      -- the end: the children are sorted and a pending reflow runs
      generalize hS5 : (if (getW (S3.call E (Call.Widget_SortChildrenShow w)).widgets
          w).task.states K.LCUI_WTASK_REFLOW = true then
        (Widget_RunReflowTask E (S3.call E (Call.Widget_SortChildrenShow w)) w r2.1).onWidgets
          (fun ws => updW ws w (fun x => x.setTaskState K.LCUI_WTASK_REFLOW false))
        else S3.call E (Call.Widget_SortChildrenShow w)) = S5
      have h5 : QuietStep S3 S5 := by
        rw [← hS5]
        split
        · exact QuietStep_trans (QuietStep_call E hq S3 _)
            (QuietStep_trans (QuietStep_call E hq _ _)
              (QuietStep_states _ _ (StatesOnly_setTaskState _ w _ false)))
        · exact QuietStep_call E hq S3 _
      refine ⟨S5, ?_, ⟨h5.1.trans hk3.1, h5.2.1.trans hk3.2.1,
        BodyKept_trans hk3.2.2 (StatesOnly_body h5.2.2)⟩, ?_, ?_⟩
      · have hnot : (!(getW S.widgets w).task.for_self && !(getW S.widgets w).task.for_children)
            = false := by
          cases h1 : (getW S.widgets w).task.for_self <;>
            cases h2 : (getW S.widgets w).task.for_children <;> simp_all
        simp only [Widget_UpdateWithContext, hnot, Bool.false_eq_true, ↓reduceIte, hbegin, hr2,
          hr3, hr3ok, hS5, Widget_EndUpdate]
      · intro i hi
        exact Clean_of_sameFlags (StatesOnly_flags h5.2.2 i) (hclean3 i hi)
      · intro i hi
        exact SameFlags_trans (hsame3 i hi) (StatesOnly_flags h5.2.2 i)

theorem Widget_InitDiff_style_cache (K : Defs) (S : World) (w : Nat)
    (c : LCUI_WidgetTaskContextRec) (parent : LCUI_WidgetTaskContext) :
    (Widget_InitDiff K S w c parent).style_cache = c.style_cache := by
  unfold Widget_InitDiff
  cases parent with
  | nil => rfl
  | cons p rest =>
    simp only
    split
    · rfl
    · split <;> rfl

/-- Widget_Update over a finite tree without update rules, when nothing is
mutated. -/
theorem Widget_Update_quiet (K : Defs) (E : Env) (hq : Quiet E) (ws0 : List Widget)
    (rank : Nat → Nat) (fuel : Nat) (S : World) (w : Nat)
    (hready : PassReady E ws0 rank S w []) (hfuel : rank w < fuel) :
    PassSpec ws0 S w (Widget_Update K E fuel S w) := by
  obtain ⟨hrefresh, hbody, _, hstyles, htree, hw, hnorules, hcl⟩ := hready
  have hfields := BodyKept_fields hbody w
  obtain ⟨c0, S1, hbegin, hc0, hw1, hs1, hm1⟩ := Widget_BeginUpdate_quiet K E hq S w []
    (fun _ h => absurd h (List.not_mem_nil _))
    (by rw [hfields.2.1]; exact hnorules w (Or.inl rfl))
    (by rw [hfields.2.2]; exact hstyles S.widgets w hw)
  have hready1 : PassReady E ws0 rank S1 w [Widget_InitDiff K S1 w c0 []] := by
    refine ⟨by rw [hs1]; exact hrefresh, by rw [hw1]; exact hbody, ?_, hstyles, htree, hw,
      hnorules, by rw [hw1]; exact hcl⟩
    intro c hc
    rw [List.mem_singleton.mp hc, Widget_InitDiff_style_cache]
    exact hc0
  obtain ⟨S2, hr, hk, hclean, hsame⟩ := Widget_UpdateWithContext_quiet K E hq ws0 rank fuel _
    S1 w hready1 hfuel
  refine ⟨S2, ?_, ⟨hk.1.trans hs1, hk.2.1.trans hm1, hk.2.2⟩, hclean, ?_⟩
  · simp only [Widget_Update, hbegin, hr, Widget_EndUpdate]
  · intro i hi
    have := hsame i hi
    rw [hw1] at this
    exact this

/-- LCUIWidget_Update leaves no refresh of everything pending and stores the
current metrics. -/
theorem LCUIWidget_Update_commits (K : Defs) (E : Env) (fuel : Nat) (S0 S1 : World) (c1 : Nat)
    (h : LCUIWidget_Update K E fuel S0 = Except.ok (c1, S1)) :
    S1.self.refresh_all = false ∧ S1.self.metrics = S1.metrics := by
  unfold LCUIWidget_Update at h
  simp only at h
  split at h
  · cases h
  · split at h
    · cases h
    · injection h with h
      injection h with _ h
      rw [← h]
      exact ⟨rfl, rfl⟩

/-! ## Widget_UpdateTaskStatus -/

theorem Widget_UpdateTaskStatus_idle (K : Defs) (ws : List Widget) (w : Nat)
    (h : NoTaskPending K ws w) : Widget_UpdateTaskStatus K ws w = ws := by
  unfold Widget_UpdateTaskStatus
  rw [if_neg]
  intro hany
  rw [List.any_eq_true] at hany
  obtain ⟨k, hk, hs⟩ := hany
  rw [h k (List.mem_range.mp hk)] at hs
  cases hs

theorem Widget_UpdateTaskStatus_pending (K : Defs) (ws : List Widget) (w : Nat)
    (h : ¬ NoTaskPending K ws w) :
    Widget_UpdateTaskStatus K ws w =
      markParents (ws.length + 1) (updW ws w (fun x => x.setForSelf true)) (some w) := by
  unfold Widget_UpdateTaskStatus
  rw [if_pos]
  · simp only [length_updW]
  rw [List.any_eq_true]
  unfold NoTaskPending at h
  push_neg at h
  obtain ⟨k, hk, hs⟩ := h
  exact ⟨k, List.mem_range.mpr hk, by simpa using hs⟩

theorem updW_setForSelf_fields (ws : List Widget) (w i : Nat) :
    (getW (updW ws w (fun x => x.setForSelf true)) i).task.for_children =
        (getW ws i).task.for_children ∧
      (getW (updW ws w (fun x => x.setForSelf true)) i).parent = (getW ws i).parent ∧
      (getW (updW ws w (fun x => x.setForSelf true)) i).task.states =
        (getW ws i).task.states := by
  rw [getW_updW]
  split
  · next hc => rw [hc.1]; exact ⟨rfl, rfl, rfl⟩
  · exact ⟨rfl, rfl, rfl⟩

/-- C12, amended. Summary recomputation with no pending bits changes nothing:
when none of the task states of `w` is set, Widget_UpdateTaskStatus returns
at line 181 and the arena is the same, so `for_self` of `w` is what it was
before the call, false or true. -/
theorem Widget_UpdateTaskStatus_no_pending (K : Defs) (ws : List Widget) (w : Nat)
    (hnone : NoTaskPending K ws w) :
    Widget_UpdateTaskStatus K ws w = ws ∧
      (getW (Widget_UpdateTaskStatus K ws w) w).task.for_self = (getW ws w).task.for_self := by
  rw [Widget_UpdateTaskStatus_idle K ws w hnone]
  exact ⟨rfl, rfl⟩

/-- C13, amended. Summary recomputation only raises `for_children`:
Widget_UpdateTaskStatus never clears a `for_children` flag and changes no task
state; when no task state of `w` is set every `for_children` flag is kept;
when one is set and `w` is a widget of the arena, `for_children` is set on `w`
itself and, in an arena with valid parent links and upward-closed flags, on
every proper ancestor of `w`. -/
theorem Widget_UpdateTaskStatus_raises_for_children (K : Defs) (ws : List Widget) (w : Nat) :
    (∀ i, (getW ws i).task.for_children = true →
        (getW (Widget_UpdateTaskStatus K ws w) i).task.for_children = true) ∧
      (∀ i, (getW (Widget_UpdateTaskStatus K ws w) i).task.states = (getW ws i).task.states) ∧
      (NoTaskPending K ws w → ∀ i,
        (getW (Widget_UpdateTaskStatus K ws w) i).task.for_children =
          (getW ws i).task.for_children) ∧
      (¬ NoTaskPending K ws w → w < ws.length →
        (getW (Widget_UpdateTaskStatus K ws w) w).task.for_children = true ∧
          (ValidParents ws → UpClosed ws → ∀ a, IsAncestor ws w a →
            (getW (Widget_UpdateTaskStatus K ws w) a).task.for_children = true)) := by
  by_cases hnone : NoTaskPending K ws w
  · rw [Widget_UpdateTaskStatus_idle K ws w hnone]
    exact ⟨fun _ h => h, fun _ => rfl, fun _ _ => rfl, fun h => absurd hnone h⟩
  · rw [Widget_UpdateTaskStatus_pending K ws w hnone]
    have hm := markParents_marksOnly (ws.length + 1) (updW ws w (fun x => x.setForSelf true))
      (some w)
    refine ⟨fun i hi => ?_, fun i => ?_, fun h => absurd h hnone, fun _ hw => ?_⟩
    · exact MarksOnly_mono hm i (by rw [(updW_setForSelf_fields ws w i).1]; exact hi)
    · rw [MarksOnly_states hm, (updW_setForSelf_fields ws w i).2.2]
    · have hlen : (updW ws w (fun x => x.setForSelf true)).length = ws.length :=
        length_updW _ _ _
      have key : ValidParents ws → UpClosed ws →
          UpClosed (markParents (ws.length + 1) (updW ws w (fun x => x.setForSelf true))
            (some w)) := by
        intro hv hup
        refine (markParents_upClosed (ws.length + 1) _ (some w) ?_ ?_ ?_ ?_).1
        · intro i p hp
          rw [(updW_setForSelf_fields ws w i).2.1] at hp
          rw [hlen]; exact hv i p hp
        · have := unmarked_le_length (updW ws w (fun x => x.setForSelf true))
          omega
        · intro i p hi hp
          rw [(updW_setForSelf_fields ws w i).1] at hi
          rw [(updW_setForSelf_fields ws w i).2.1] at hp
          left
          rw [(updW_setForSelf_fields ws w p).1]
          exact hup i p hi hp
        · intro p hp
          cases hp
          rw [hlen]; exact hw
      have hself : (getW (markParents (ws.length + 1)
          (updW ws w (fun x => x.setForSelf true)) (some w)) w).task.for_children = true := by
        unfold markParents
        split
        · next h => exact h
        · refine MarksOnly_mono (markParents_marksOnly _ _ _) w ?_
          rw [getW_updW_same _ _ _ (by rw [hlen]; exact hw)]
          rfl
      refine ⟨hself, fun hv hup a ha => ?_⟩
      have hpar : ∀ i, (getW (markParents (ws.length + 1)
          (updW ws w (fun x => x.setForSelf true)) (some w)) i).parent = (getW ws i).parent := by
        intro i
        rw [MarksOnly_parent hm, (updW_setForSelf_fields ws w i).2.1]
      induction ha with
      | parent hp => exact key hv hup w _ hself (by rw [hpar]; exact hp)
      | step _ hp ih => exact key hv hup _ _ ih (by rw [hpar]; exact hp)

/-! ## Widget_InitDiff -/

/-- C14, amended. Eligibility to emit an own invalidation region:
Widget_InitDiff sets `should_add_invalid_area` exactly when there is no parent
context, or the parent context can render and its invalidation level is below
the padding box level; under a parent context that can render and is at the
padding box level or above, the widget is not eligible and its level is the
graph box. -/
theorem Widget_InitDiff_eligibility (K : Defs) (S : World) (w : Nat)
    (ctx : LCUI_WidgetTaskContextRec) (parent : LCUI_WidgetTaskContext) :
    ((Widget_InitDiff K S w ctx parent).diff.should_add_invalid_area = true ↔
        (parent = [] ∨ ∃ p rest, parent = p :: rest ∧ p.diff.can_render = true ∧
          p.diff.invalid_box < K.SV_PADDING_BOX)) ∧
      (∀ p rest, parent = p :: rest → p.diff.can_render = true →
        K.SV_PADDING_BOX ≤ p.diff.invalid_box →
        (Widget_InitDiff K S w ctx parent).diff.should_add_invalid_area = false ∧
          (Widget_InitDiff K S w ctx parent).diff.invalid_box = K.SV_GRAPH_BOX) := by
  cases parent with
  | nil =>
    refine ⟨⟨fun _ => Or.inl rfl, fun _ => rfl⟩, fun p rest h => by cases h⟩
  | cons q rest =>
    by_cases hcan : q.diff.can_render = true
    · by_cases hlevel : q.diff.invalid_box ≥ K.SV_PADDING_BOX
      · have hval : (Widget_InitDiff K S w ctx (q :: rest)).diff.should_add_invalid_area = false ∧
            (Widget_InitDiff K S w ctx (q :: rest)).diff.invalid_box = K.SV_GRAPH_BOX := by
          unfold Widget_InitDiff
          simp [hcan, hlevel]
        refine ⟨⟨fun h => ?_, fun h => ?_⟩, fun _ _ _ _ _ => hval⟩
        · rw [hval.1] at h
          cases h
        · rcases h with h | ⟨p, r, hp, _, hlt⟩
          · cases h
          · cases hp
            omega
      · have hval : (Widget_InitDiff K S w ctx (q :: rest)).diff.should_add_invalid_area = true := by
          unfold Widget_InitDiff
          simp only [hcan, Bool.not_true, Bool.false_eq_true, ↓reduceIte, hlevel]
          rfl
        refine ⟨⟨fun _ => Or.inr ⟨q, rest, rfl, hcan, by omega⟩, fun _ => hval⟩, ?_⟩
        intro p r hp _ hle
        cases hp
        exact absurd hle hlevel
    · have hcan2 : q.diff.can_render = false := by simpa using hcan
      have hval : (Widget_InitDiff K S w ctx (q :: rest)).diff.should_add_invalid_area = false := by
        unfold Widget_InitDiff
        simp only [hcan2, Bool.not_false, ↓reduceIte]
      refine ⟨⟨fun h => ?_, fun h => ?_⟩, fun p r hp hc _ => ?_⟩
      · rw [hval] at h
        cases h
      · rcases h with h | ⟨p, r, hp, hc, _⟩
        · cases h
        · cases hp
          exact absurd hc hcan
      · cases hp
        exact absurd hc hcan

/-! ## Widget_EndDiff with a pending reflow -/

/-- Up to the comparison of the boxes Widget_EndDiff makes no
Widget_InvalidateArea call. -/
theorem atCompare_calls (K : Defs) (E : Env) (S : World) (w : Nat)
    (ctx : LCUI_WidgetTaskContextRec) :
    ∃ cs, (atCompare K E S w ctx).trace = S.trace ++ cs ∧ invalidationLevels cs = [] := by
  unfold atCompare Widget_EndDiff_boxes Widget_EndDiff_visibility
  simp only
  split
  · exact ⟨[Call.Widget_PostSurfaceEvent w
        (if (getW S.widgets w).computed_style.visible = true then K.LCUI_WEVENT_SHOW
          else K.LCUI_WEVENT_HIDE) true,
      Call.Widget_UpdateBoxSize w, Call.Widget_UpdateBoxPosition w],
      by simp [World.call], rfl⟩
  · exact ⟨[Call.Widget_UpdateBoxSize w, Call.Widget_UpdateBoxPosition w],
      by simp [World.call], rfl⟩

/-- The layout related checks of Widget_EndDiff call no other module. -/
theorem afterLayoutChecks_worldGrow (K : Defs) (E : Env) (S : World) (w : Nat)
    (ctx : LCUI_WidgetTaskContextRec) :
    WorldGrow (atCompare K E S w ctx) (afterLayoutChecks K E S w ctx) := by
  unfold afterLayoutChecks
  exact WorldGrow_trans (Widget_EndDiff_geometry_tasksGrow K E _ w _)
    (WorldGrow_trans (Widget_EndDiff_flex_tasksGrow K E _ w _)
      (Widget_EndDiff_display_tasksGrow K E _ w _))

/-- After a padding box change was detected on a widget of the arena that is
not deleted, its REFLOW task is set when the layout related checks end. -/
theorem afterLayoutChecks_padding_reflow (K : Defs) (E : Env) (S : World) (w : Nat)
    (ctx : LCUI_WidgetTaskContextRec)
    (hw : w < (atCompare K E S w ctx).widgets.length)
    (hlive : (getW (atCompare K E S w ctx).widgets w).state ≠ K.LCUI_WSTATE_DELETED)
    (hpad : ctx.diff.box.padding ≠ (getW (atCompare K E S w ctx).widgets w).box.padding) :
    (getW (afterLayoutChecks K E S w ctx).widgets w).task.states K.LCUI_WTASK_REFLOW = true := by
  have hbox := (diffAtCompare_fields K E S w ctx).1
  have hgeo : (Widget_EndDiff_geometry K E (atCompare K E S w ctx) w
      (diffAtCompare K E S w ctx)).2.widgets =
      Widget_AddReflowTask K E
        (Widget_OnUpdateContentBox K (atCompare K E S w ctx).widgets w) (some w) := by
    unfold Widget_EndDiff_geometry
    simp [hbox, hpad]
  have g1 := Widget_OnUpdateContentBox_tasksGrow K (atCompare K E S w ctx).widgets w
  have g3 := afterLayoutChecks_tasksGrow K E S w ctx
  rw [hgeo] at g3
  exact (g3.2 w).2.2.2 _ (Widget_AddReflowTask_sets K E _ w (by rw [g1.1]; exact hw)
    (by rw [TasksGrow_state g1]; exact hlive))

/-- C16. A pending reflow defers the repaint region: when the REFLOW task of
`w` is set as Widget_EndDiff reaches its emission step (the state after the
layout related checks), and in particular when a padding box change was
detected in the same call on a widget of the arena that is not deleted,
Widget_EndDiff returns 0 and none of the calls it makes is a
Widget_InvalidateArea call. -/
theorem Widget_EndDiff_reflow_defers (K : Defs) (E : Env) (S : World) (w : Nat)
    (ctx : LCUI_WidgetTaskContextRec)
    (h : (getW (afterLayoutChecks K E S w ctx).widgets w).task.states K.LCUI_WTASK_REFLOW = true ∨
      (ctx.diff.box.padding ≠ (getW (atCompare K E S w ctx).widgets w).box.padding ∧
        w < (atCompare K E S w ctx).widgets.length ∧
        (getW (atCompare K E S w ctx).widgets w).state ≠ K.LCUI_WSTATE_DELETED)) :
    (Widget_EndDiff K E S w ctx).1 = 0 ∧
      invalidationLevels (callsSince S (Widget_EndDiff K E S w ctx).2.2) = [] := by
  cases hcan : ctx.diff.can_render with
  | false =>
    unfold Widget_EndDiff
    simp only [hcan, Bool.not_false, ↓reduceIte]
    refine ⟨trivial, ?_⟩
    unfold callsSince
    rw [List.drop_length]
    rfl
  | true =>
    have hreflow : (getW (afterLayoutChecks K E S w ctx).widgets w).task.states
        K.LCUI_WTASK_REFLOW = true := by
      rcases h with h | ⟨hpad, hw, hlive⟩
      · exact h
      · exact afterLayoutChecks_padding_reflow K E S w ctx hw hlive hpad
    have hres : (Widget_EndDiff K E S w ctx).1 = 0 ∧
        (Widget_EndDiff K E S w ctx).2.2 = afterLayoutChecks K E S w ctx := by
      rw [Widget_EndDiff_unfold K E S w ctx hcan]
      split
      · exact ⟨rfl, rfl⟩
      · split
        · exact ⟨rfl, rfl⟩
        · rw [Widget_EndDiff_emit_pending K E _ w _ hreflow]
          exact ⟨rfl, rfl⟩
    refine ⟨hres.1, ?_⟩
    obtain ⟨cs, hcs, hl⟩ := atCompare_calls K E S w ctx
    unfold callsSince
    rw [hres.2, (afterLayoutChecks_worldGrow K E S w ctx).2, hcs, List.drop_left]
    exact hl

/-! ## Widget_UpdateWithContext on concrete arenas -/

/-- Without a parent context Widget_InitDiff leaves a context that can
render. -/
theorem Widget_InitDiff_root_can_render (K : Defs) (S : World) (w : Nat)
    (ctx : LCUI_WidgetTaskContextRec) :
    (Widget_InitDiff K S w ctx []).diff.can_render = true := by
  unfold Widget_InitDiff Widget_InitDiff_eligible
  simp only
  split <;> rfl

/-- Under a parent context that can render Widget_InitDiff leaves a context
that can render. -/
theorem Widget_InitDiff_can_render (K : Defs) (S : World) (w : Nat)
    (ctx p : LCUI_WidgetTaskContextRec) (rest : LCUI_WidgetTaskContext)
    (hp : p.diff.can_render = true) :
    (Widget_InitDiff K S w ctx (p :: rest)).diff.can_render = true := by
  unfold Widget_InitDiff Widget_InitDiff_eligible
  simp only [hp, Bool.not_true, Bool.false_eq_true, ↓reduceIte]
  split
  · rfl
  · split <;> rfl

/-- C15. The diff snapshot of a widget can render under a parent whose
computed style is not visible: the root of `hiddenParentArena` is not visible
and has nothing pending for itself, so Widget_UpdateWithContext on it does not
call Widget_UpdateSelf and its context keeps the `can_render` that
Widget_InitDiff set, whatever the state of the widgets is; the context of its
child, initialised under that context, can render, and the Widget_EndDiff of
the child hands an invalid area of the root to the painter. -/
theorem Widget_UpdateWithContext_renders_under_hidden_parent :
    (getW hiddenParentArena 1).parent = some 0 ∧
      (getW hiddenParentArena 0).computed_style.visible = false ∧
      (∀ (S1 S2 : World) (c p : LCUI_WidgetTaskContextRec),
        (Widget_InitDiff sampleDefs S2 1 c [Widget_InitDiff sampleDefs S1 0 p []]).diff.can_render =
          true) ∧
      okCount (Widget_UpdateWithContext sampleDefs quietEnv 2 (worldOf hiddenParentArena) 0 []) =
        some 0 ∧
      (okWorld (Widget_UpdateWithContext sampleDefs quietEnv 2 (worldOf hiddenParentArena) 0
        [])).trace =
        [Call.LCUI_GetCachedStyleSheet 0, Call.LCUI_GetCachedStyleSheet 1,
          Call.Widget_UpdateBoxSize 1, Call.Widget_UpdateBoxPosition 1,
          Call.Widget_UpdateCanvasBox 1,
          Call.Widget_InvalidateArea 0 (some ⟨0, 0, 0, 0⟩) sampleDefs.SV_PADDING_BOX,
          Call.Widget_AddState 1 sampleDefs.LCUI_WSTATE_UPDATED,
          Call.Widget_SortChildrenShow 1, Call.Widget_SortChildrenShow 0] := by
  exact ⟨rfl, rfl, fun _ _ c p => Widget_InitDiff_can_render _ _ _ _ _ _
    (Widget_InitDiff_root_can_render _ _ _ _), by decide!, by decide!⟩

/-! ## Widget_BeginUpdate -/

theorem HeldKept_refl (ws : List Widget) : HeldKept ws ws := ⟨rfl, fun _ => ⟨rfl, rfl, rfl⟩⟩

theorem HeldKept_trans {a b c : List Widget} (h1 : HeldKept a b) (h2 : HeldKept b c) :
    HeldKept a c :=
  ⟨h2.1.trans h1.1, fun i =>
    ⟨(h2.2 i).1.trans (h1.2 i).1, (h2.2 i).2.1.trans (h1.2 i).2.1,
      (h2.2 i).2.2.trans (h1.2 i).2.2⟩⟩

theorem HeldKept_call (E : Env) (hE : HashOnly E) (c : Call) (hc : isStyleCall c = true)
    (ws : List Widget) : HeldKept ws (E.effect c ws) := by
  refine ⟨(hE c ws hc).1, fun i => ?_⟩
  rw [(hE c ws hc).2 i]
  exact ⟨rfl, rfl, rfl⟩

theorem HeldKept_updW (ws : List Widget) (w : Nat) (f : Widget → Widget)
    (hf : ∀ x, (f x).task = x.task ∧ (f x).state = x.state ∧
      (f x).inherited_style = x.inherited_style) : HeldKept ws (updW ws w f) := by
  refine ⟨length_updW _ _ _, fun i => ?_⟩
  rw [getW_updW]
  split
  · next h => rw [← h.1]; exact hf _
  · exact ⟨rfl, rfl, rfl⟩

theorem TasksKept_of_heldKept {a b : List Widget} (h : HeldKept a b) : TasksKept a b :=
  ⟨h.1, fun i => ⟨(h.2 i).1, (h.2 i).2.1⟩⟩

theorem TasksKept_trans {a b c : List Widget} (h1 : TasksKept a b) (h2 : TasksKept b c) :
    TasksKept a c :=
  ⟨h2.1.trans h1.1, fun i => ⟨(h2.2 i).1.trans (h1.2 i).1, (h2.2 i).2.trans (h1.2 i).2⟩⟩

theorem TasksKept_updW (ws : List Widget) (w : Nat) (f : Widget → Widget)
    (hf : ∀ x, (f x).task = x.task ∧ (f x).state = x.state) : TasksKept ws (updW ws w f) := by
  refine ⟨length_updW _ _ _, fun i => ?_⟩
  rw [getW_updW]
  split
  · next h => rw [← h.1]; exact hf _
  · exact ⟨rfl, rfl⟩

/-- Lines 447-457 of Widget_BeginUpdate keep task records, states and
inherited styles. -/
theorem Widget_BeginUpdate_own_kept (E : Env) (hE : HashOnly E) (S : World) (w : Nat)
    (c : LCUI_WidgetTaskContextRec) :
    HeldKept S.widgets (Widget_BeginUpdate_own E S w c).2.widgets := by
  unfold Widget_BeginUpdate_own
  split
  · next data _ _ =>
    split
    · simp only [World.call_widgets]
      refine HeldKept_trans ?_ (HeldKept_call E hE (Call.Widget_GenerateSelfHash w) rfl _)
      split
      · exact HeldKept_refl _
      · dsimp only
        apply HeldKept_updW
        intro x
        exact ⟨rfl, rfl, rfl⟩
    · exact HeldKept_refl _
  · exact HeldKept_refl _

/-- Lines 458-475 of Widget_BeginUpdate keep task records and states. -/
theorem Widget_BeginUpdate_resolve_kept (E : Env) (hE : HashOnly E) (S : World) (w : Nat)
    (c : LCUI_WidgetTaskContextRec) :
    TasksKept S.widgets (Widget_BeginUpdate_resolve E S w c).widgets := by
  have hglobal : ∀ style : Option StyleRef, TasksKept S.widgets
      ((S.call E (Call.LCUI_GetCachedStyleSheet w)).onWidgets (fun ws => updW ws w (fun x =>
        { x with inherited_style := style }))).widgets := by
    intro style
    simp only [World.onWidgets_widgets, World.call_widgets]
    exact TasksKept_trans
      (TasksKept_of_heldKept (HeldKept_call E hE (Call.LCUI_GetCachedStyleSheet w) rfl _))
      (TasksKept_updW _ _ _ (fun _ => ⟨rfl, rfl⟩))
  unfold Widget_BeginUpdate_resolve
  split
  · split
    · simp only
      split
      · simp only [World.onWidgets_widgets]
        apply TasksKept_updW
        intro x
        exact ⟨rfl, rfl⟩
      · simp only [World.onWidgets_widgets, World.call_widgets]
        exact TasksKept_trans
          (TasksKept_of_heldKept (HeldKept_call E hE (Call.LCUI_GetStyleSheet w S.sheets) rfl _))
          (TasksKept_updW _ _ _ (fun _ => ⟨rfl, rfl⟩))
    · exact hglobal _
  · exact hglobal _

/-- Widget_BeginUpdate when the allocation of the context succeeds, in terms
of its steps: the context `c2` of lines 430-443, the state `atLookup` after
lines 444-446, lines 447-457, the resolution of lines 458-475 and the test of
line 476. -/
theorem Widget_BeginUpdate_unfold (K : Defs) (E : Env) (S : World) (w : Nat)
    (ctx : LCUI_WidgetTaskContext) (block : LCUI_WidgetTaskContextRec)
    (hm : E.malloc S.mallocs = some block) :
    ∃ c2 : LCUI_WidgetTaskContextRec,
      (∀ cache h, findStyleCache ctx = some (cache, h) →
        c2.style_cache = some cache ∧ c2.style_hash = h) ∧
      (findStyleCache ctx = none → c2.style_cache = none) ∧
      Widget_BeginUpdate K E S w ctx =
        (some (Widget_BeginUpdate_own E (atLookup K E S w) w c2).1,
          if (getW (Widget_BeginUpdate_resolve E (Widget_BeginUpdate_own E (atLookup K E S w) w c2).2
              w (Widget_BeginUpdate_own E (atLookup K E S w) w c2).1).widgets w).inherited_style ≠
              (getW (Widget_BeginUpdate_own E (atLookup K E S w) w c2).2.widgets w).inherited_style
          then
            (Widget_BeginUpdate_resolve E (Widget_BeginUpdate_own E (atLookup K E S w) w c2).2 w
              (Widget_BeginUpdate_own E (atLookup K E S w) w c2).1).onWidgets
                (fun ws => Widget_AddTask K ws w K.LCUI_WTASK_REFRESH_STYLE)
          else
            Widget_BeginUpdate_resolve E (Widget_BeginUpdate_own E (atLookup K E S w) w c2).2 w
              (Widget_BeginUpdate_own E (atLookup K E S w) w c2).1) := by
  unfold Widget_BeginUpdate atLookup
  simp only [hm]
  refine ⟨_, ?_, ?_, rfl⟩
  · intro cache h hc
    rw [hc]
    exact ⟨rfl, rfl⟩
  · intro hc
    rw [hc]

/-- The state in which the hash is read differs from the state at entry by
hashes only, as far as the widgets are concerned. -/
theorem atLookup_kept (K : Defs) (E : Env) (hE : HashOnly E) (S : World) (w : Nat) :
    HeldKept S.widgets (atLookup K E S w).widgets := by
  unfold atLookup
  split
  · exact HeldKept_call E hE (Call.Widget_GenerateSelfHash w) rfl _
  · exact HeldKept_refl _

/-- C18. Style refresh is triggered by identity change only: for a widget
`w` of the arena that is not deleted, the REFRESH_STYLE task of `w` is set
after Widget_BeginUpdate exactly when it was set before or the inherited style
that `w` holds after the call is not the one it held before; when the
inherited style is the same, the whole task record of `w` is the same.  The
calls to other modules are assumed to change nothing but hashes. -/
theorem Widget_BeginUpdate_refresh_iff (K : Defs) (E : Env) (hE : HashOnly E) (S : World)
    (w : Nat) (ctx : LCUI_WidgetTaskContext) (hw : w < S.widgets.length)
    (hlive : (getW S.widgets w).state ≠ K.LCUI_WSTATE_DELETED) :
    ((getW (Widget_BeginUpdate K E S w ctx).2.widgets w).task.states K.LCUI_WTASK_REFRESH_STYLE =
          true ↔
        ((getW S.widgets w).task.states K.LCUI_WTASK_REFRESH_STYLE = true ∨
          (getW (Widget_BeginUpdate K E S w ctx).2.widgets w).inherited_style ≠
            (getW S.widgets w).inherited_style)) ∧
      ((getW (Widget_BeginUpdate K E S w ctx).2.widgets w).inherited_style =
          (getW S.widgets w).inherited_style →
        (getW (Widget_BeginUpdate K E S w ctx).2.widgets w).task = (getW S.widgets w).task) := by
  cases hm : E.malloc S.mallocs with
  | none =>
    have hres : (Widget_BeginUpdate K E S w ctx).2.widgets = S.widgets := by
      unfold Widget_BeginUpdate
      simp only [hm]
    rw [hres]
    exact ⟨⟨fun h => Or.inl h, fun h => h.elim id (fun h => absurd rfl h)⟩, fun _ => rfl⟩
  | some block =>
    obtain ⟨c2, -, -, hun⟩ := Widget_BeginUpdate_unfold K E S w ctx block hm
    rw [hun]
    generalize hown : Widget_BeginUpdate_own E (atLookup K E S w) w c2 = own
    have h2 : HeldKept S.widgets own.2.widgets := by
      rw [← hown]
      exact HeldKept_trans (atLookup_kept K E hE S w) (Widget_BeginUpdate_own_kept E hE _ w c2)
    generalize hS3 : Widget_BeginUpdate_resolve E own.2 w own.1 = S3
    have h3 : TasksKept S.widgets S3.widgets := by
      rw [← hS3]
      exact TasksKept_trans (TasksKept_of_heldKept h2) (Widget_BeginUpdate_resolve_kept E hE _ w _)
    dsimp only
    rw [(h2.2 w).2.2]
    by_cases hsame : (getW S3.widgets w).inherited_style = (getW S.widgets w).inherited_style
    · rw [if_neg (fun h => h hsame), (h3.2 w).1]
      exact ⟨⟨fun h => Or.inl h, fun h => h.elim id (fun h => absurd hsame h)⟩, fun _ => rfl⟩
    · rw [if_pos hsame]
      simp only [World.onWidgets_widgets]
      have hg := Widget_AddTask_tasksGrow K S3.widgets w K.LCUI_WTASK_REFRESH_STYLE
      have hset := Widget_AddTask_sets K S3.widgets w K.LCUI_WTASK_REFRESH_STYLE
        (by rw [h3.1]; exact hw) (by rw [(h3.2 w).2]; exact hlive)
      have hstyle : (getW (Widget_AddTask K S3.widgets w K.LCUI_WTASK_REFRESH_STYLE)
          w).inherited_style = (getW S3.widgets w).inherited_style := by
        rw [(hg.2 w).1]
      rw [hstyle]
      exact ⟨⟨fun _ => Or.inr hsame, fun _ => hset.1⟩, fun h => absurd h hsame⟩

/-! ## The style cache -/

theorem styleCacheKey_eq (h k : Nat) : styleCacheKey h k = (h * 33 + k) % 2 ^ 32 := by
  unfold styleCacheKey
  rw [Nat.shiftLeft_eq]
  norm_num
  omega

theorem Dict_FetchValue_Dict_Add (dicts : List (List (Nat × Nat))) (d key val : Nat)
    (hd : d < dicts.length) (hnone : Dict_FetchValue dicts d key = none) :
    Dict_FetchValue (Dict_Add dicts d key val) d key = some val := by
  unfold Dict_FetchValue at hnone ⊢
  unfold Dict_Add
  rw [Option.map_eq_none'] at hnone
  have hget : (dicts.set d (dicts.getD d [] ++ [(key, val)])).getD d [] =
      dicts.getD d [] ++ [(key, val)] := by
    simp [List.getD_eq_getElem?_getD, hd]
  rw [hget, List.find?_append, hnone]
  simp

/-- Lines 447-457 of Widget_BeginUpdate do nothing under a context that has a
style cache. -/
theorem Widget_BeginUpdate_own_cached (E : Env) (S : World) (w : Nat)
    (c : LCUI_WidgetTaskContextRec) (cache : Nat) (hc : c.style_cache = some cache) :
    Widget_BeginUpdate_own E S w c = (c, S) := by
  unfold Widget_BeginUpdate_own
  rw [hc]

/-- The resolution of lines 458-475 when the style cache holds a sheet under
the key of the widget. -/
theorem Widget_BeginUpdate_resolve_hit (E : Env) (S : World) (w : Nat)
    (c : LCUI_WidgetTaskContextRec) (cache s : Nat) (hc : c.style_cache = some cache)
    (hhash : (getW S.widgets w).hash ≠ 0)
    (hfetch : Dict_FetchValue S.dicts cache
      (styleCacheKey c.style_hash (getW S.widgets w).hash) = some s) :
    Widget_BeginUpdate_resolve E S w c =
      S.onWidgets (fun ws => updW ws w (fun x =>
        { x with inherited_style := some (StyleRef.sheet s) })) := by
  unfold Widget_BeginUpdate_resolve
  simp only [hc, hhash, ne_eq, not_false_eq_true, ↓reduceIte, hfetch]

/-- The resolution of lines 458-475 when the style cache holds no sheet under
the key of the widget. -/
theorem Widget_BeginUpdate_resolve_miss (E : Env) (S : World) (w : Nat)
    (c : LCUI_WidgetTaskContextRec) (cache : Nat) (hc : c.style_cache = some cache)
    (hhash : (getW S.widgets w).hash ≠ 0)
    (hfetch : Dict_FetchValue S.dicts cache
      (styleCacheKey c.style_hash (getW S.widgets w).hash) = none) :
    (Widget_BeginUpdate_resolve E S w c).widgets =
        updW (E.effect (Call.LCUI_GetStyleSheet w S.sheets) S.widgets) w (fun x =>
          { x with inherited_style := some (StyleRef.sheet S.sheets) }) ∧
      (Widget_BeginUpdate_resolve E S w c).dicts =
        Dict_Add S.dicts cache (styleCacheKey c.style_hash (getW S.widgets w).hash) S.sheets ∧
      (Widget_BeginUpdate_resolve E S w c).trace =
        S.trace ++ [Call.LCUI_GetStyleSheet w S.sheets] := by
  unfold Widget_BeginUpdate_resolve
  simp only [hc, hhash, ne_eq, not_false_eq_true, ↓reduceIte, hfetch]
  exact ⟨rfl, rfl, rfl⟩

/-- What lines 444-446 leave of the state: the dictionaries and the number of
style sheets are kept and no selector matching is done. -/
theorem atLookup_calls (K : Defs) (E : Env) (S : World) (w : Nat) :
    (atLookup K E S w).dicts = S.dicts ∧ (atLookup K E S w).sheets = S.sheets ∧
      ∃ cs, (atLookup K E S w).trace = S.trace ++ cs ∧ styleSheetCalls cs = 0 ∧
        generateHashCalls cs =
          if (getW S.widgets w).hash ≠ 0 ∧
            (getW S.widgets w).task.states K.LCUI_WTASK_REFRESH_STYLE = true then 1 else 0 := by
  unfold atLookup
  split
  · exact ⟨rfl, rfl, [Call.Widget_GenerateSelfHash w], rfl, rfl, rfl⟩
  · exact ⟨rfl, rfl, [], by simp, rfl, rfl⟩

theorem hash_ne_zero_lt (ws : List Widget) (w : Nat) (h : (getW ws w).hash ≠ 0) :
    w < ws.length := by
  by_contra hlt
  rw [getW_of_length_le ws w (Nat.le_of_not_lt hlt)] at h
  exact h rfl

/-- Widget_BeginUpdate under an ancestor context that owns a style cache which
holds a sheet under the key of the widget: the widget gets that sheet, the
dictionaries are kept and no selector matching is done. -/
theorem Widget_BeginUpdate_hit (K : Defs) (E : Env) (S : World) (w : Nat)
    (ctx : LCUI_WidgetTaskContext) (cache h s : Nat)
    (hctx : findStyleCache ctx = some (cache, h))
    (hm : (E.malloc S.mallocs).isSome = true) (hhash : hashAtLookup K E S w ≠ 0)
    (hfetch : Dict_FetchValue S.dicts cache (styleCacheKey h (hashAtLookup K E S w)) = some s) :
    (getW (Widget_BeginUpdate K E S w ctx).2.widgets w).inherited_style =
        some (StyleRef.sheet s) ∧
      (Widget_BeginUpdate K E S w ctx).2.dicts = S.dicts ∧
      styleSheetCalls (callsSince S (Widget_BeginUpdate K E S w ctx).2) = 0 := by
  obtain ⟨block, hblock⟩ := Option.isSome_iff_exists.mp hm
  obtain ⟨c2, hc2, -, hun⟩ := Widget_BeginUpdate_unfold K E S w ctx block hblock
  obtain ⟨hcache2, hhash2⟩ := hc2 cache h hctx
  obtain ⟨hd, -, cs, htrace, hcs, -⟩ := atLookup_calls K E S w
  have hres := Widget_BeginUpdate_resolve_hit E (atLookup K E S w) w c2 cache s hcache2 hhash
    (by rw [hhash2, hd]; exact hfetch)
  rw [hun, Widget_BeginUpdate_own_cached E _ w c2 cache hcache2]
  dsimp only
  rw [hres]
  have hw : w < (atLookup K E S w).widgets.length := hash_ne_zero_lt _ _ hhash
  have hstyle : (getW (updW (atLookup K E S w).widgets w (fun x =>
      { x with inherited_style := some (StyleRef.sheet s) })) w).inherited_style =
      some (StyleRef.sheet s) := by
    rw [getW_updW_same _ _ _ hw]
  split
  · simp only [World.onWidgets_widgets, World.onWidgets_trace]
    refine ⟨?_, hd, ?_⟩
    · rw [((Widget_AddTask_tasksGrow K _ w K.LCUI_WTASK_REFRESH_STYLE).2 w).1]
      exact hstyle
    · unfold callsSince
      simp only [World.onWidgets_trace]
      rw [htrace, List.drop_left]
      exact hcs
  · simp only [World.onWidgets_widgets, World.onWidgets_trace]
    refine ⟨hstyle, hd, ?_⟩
    unfold callsSince
    simp only [World.onWidgets_trace]
    rw [htrace, List.drop_left]
    exact hcs

/-- Widget_BeginUpdate under an ancestor context that owns a style cache which
holds no sheet under the key of the widget: the widget gets a new sheet, which
the cache holds afterwards under that key, and selector matching is done
once. -/
theorem Widget_BeginUpdate_miss (K : Defs) (E : Env) (hE : HashOnly E) (S : World) (w : Nat)
    (ctx : LCUI_WidgetTaskContext) (cache h : Nat)
    (hctx : findStyleCache ctx = some (cache, h)) (hcache : cache < S.dicts.length)
    (hm : (E.malloc S.mallocs).isSome = true) (hhash : hashAtLookup K E S w ≠ 0)
    (hfetch : Dict_FetchValue S.dicts cache (styleCacheKey h (hashAtLookup K E S w)) = none) :
    (getW (Widget_BeginUpdate K E S w ctx).2.widgets w).inherited_style =
        some (StyleRef.sheet S.sheets) ∧
      Dict_FetchValue (Widget_BeginUpdate K E S w ctx).2.dicts cache
        (styleCacheKey h (hashAtLookup K E S w)) = some S.sheets ∧
      styleSheetCalls (callsSince S (Widget_BeginUpdate K E S w ctx).2) = 1 := by
  obtain ⟨block, hblock⟩ := Option.isSome_iff_exists.mp hm
  obtain ⟨c2, hc2, -, hun⟩ := Widget_BeginUpdate_unfold K E S w ctx block hblock
  obtain ⟨hcache2, hhash2⟩ := hc2 cache h hctx
  obtain ⟨hd, hsheets, cs, htrace, hcs, -⟩ := atLookup_calls K E S w
  obtain ⟨hwid, hdict, htr⟩ := Widget_BeginUpdate_resolve_miss E (atLookup K E S w) w c2 cache
    hcache2 hhash (by rw [hhash2, hd]; exact hfetch)
  rw [hun, Widget_BeginUpdate_own_cached E _ w c2 cache hcache2]
  dsimp only
  generalize Widget_BeginUpdate_resolve E (atLookup K E S w) w c2 = R at hwid hdict htr ⊢
  have hw : w < (E.effect (Call.LCUI_GetStyleSheet w (atLookup K E S w).sheets)
      (atLookup K E S w).widgets).length := by
    rw [(hE (Call.LCUI_GetStyleSheet w (atLookup K E S w).sheets) _ rfl).1]
    exact hash_ne_zero_lt _ _ hhash
  have hstyle : (getW R.widgets w).inherited_style = some (StyleRef.sheet S.sheets) := by
    rw [hwid, getW_updW_same _ _ _ hw, hsheets]
  have hfetch2 : Dict_FetchValue R.dicts cache (styleCacheKey h (hashAtLookup K E S w)) =
      some S.sheets := by
    rw [hdict, hhash2, hd, hsheets]
    exact Dict_FetchValue_Dict_Add _ _ _ _ hcache hfetch
  have hcalls : styleSheetCalls (callsSince S R) = 1 := by
    unfold callsSince
    rw [htr, htrace, List.append_assoc, List.drop_left]
    unfold styleSheetCalls at hcs ⊢
    rw [List.countP_append, hcs]
    rfl
  split
  · simp only [World.onWidgets_widgets]
    refine ⟨?_, hfetch2, hcalls⟩
    rw [((Widget_AddTask_tasksGrow K _ w K.LCUI_WTASK_REFRESH_STYLE).2 w).1]
    exact hstyle
  · exact ⟨hstyle, hfetch2, hcalls⟩

/-- C17. Cache hit stability: under an ancestor context that owns the style
cache `cache` with style hash `h`, Widget_BeginUpdate gives a widget `w1` with
a non-zero hash a style sheet `s` that the cache holds afterwards under the
key of the widget, with at most one selector matching; and in every state in
which the cache holds `s` under that key (the state after the first call is
one), Widget_BeginUpdate gives every widget `w2` with the same hash under the
same ancestor the same sheet `s`, without selector matching.  Context
allocation is assumed to succeed and the calls to other modules to change
nothing but hashes. -/
theorem Widget_BeginUpdate_cache_hit_stability (K : Defs) (E : Env) (hE : HashOnly E)
    (S : World) (w1 : Nat) (ctx1 : LCUI_WidgetTaskContext) (cache h : Nat)
    (hctx1 : findStyleCache ctx1 = some (cache, h)) (hcache : cache < S.dicts.length)
    (hm1 : (E.malloc S.mallocs).isSome = true) (hhash1 : hashAtLookup K E S w1 ≠ 0) :
    ∃ s, (getW (Widget_BeginUpdate K E S w1 ctx1).2.widgets w1).inherited_style =
        some (StyleRef.sheet s) ∧
      Dict_FetchValue (Widget_BeginUpdate K E S w1 ctx1).2.dicts cache
        (styleCacheKey h (hashAtLookup K E S w1)) = some s ∧
      styleSheetCalls (callsSince S (Widget_BeginUpdate K E S w1 ctx1).2) ≤ 1 ∧
      ∀ (S' : World) (w2 : Nat) (ctx2 : LCUI_WidgetTaskContext),
        findStyleCache ctx2 = some (cache, h) → (E.malloc S'.mallocs).isSome = true →
        hashAtLookup K E S' w2 = hashAtLookup K E S w1 →
        Dict_FetchValue S'.dicts cache (styleCacheKey h (hashAtLookup K E S w1)) = some s →
        (getW (Widget_BeginUpdate K E S' w2 ctx2).2.widgets w2).inherited_style =
            some (StyleRef.sheet s) ∧
          styleSheetCalls (callsSince S' (Widget_BeginUpdate K E S' w2 ctx2).2) = 0 := by
  have hsecond : ∀ s (S' : World) (w2 : Nat) (ctx2 : LCUI_WidgetTaskContext),
      findStyleCache ctx2 = some (cache, h) → (E.malloc S'.mallocs).isSome = true →
      hashAtLookup K E S' w2 = hashAtLookup K E S w1 →
      Dict_FetchValue S'.dicts cache (styleCacheKey h (hashAtLookup K E S w1)) = some s →
      (getW (Widget_BeginUpdate K E S' w2 ctx2).2.widgets w2).inherited_style =
          some (StyleRef.sheet s) ∧
        styleSheetCalls (callsSince S' (Widget_BeginUpdate K E S' w2 ctx2).2) = 0 := by
    intro s S' w2 ctx2 hctx2 hm2 hhash2 hfetch2
    have hhit := Widget_BeginUpdate_hit K E S' w2 ctx2 cache h s hctx2 hm2
      (by rw [hhash2]; exact hhash1) (by rw [hhash2]; exact hfetch2)
    exact ⟨hhit.1, hhit.2.2⟩
  cases hfetch : Dict_FetchValue S.dicts cache (styleCacheKey h (hashAtLookup K E S w1)) with
  | some s =>
    have hhit := Widget_BeginUpdate_hit K E S w1 ctx1 cache h s hctx1 hm1 hhash1 hfetch
    refine ⟨s, hhit.1, ?_, ?_, hsecond s⟩
    · rw [hhit.2.1]; exact hfetch
    · rw [hhit.2.2]; exact Nat.zero_le _
  | none =>
    have hmiss := Widget_BeginUpdate_miss K E hE S w1 ctx1 cache h hctx1 hcache hm1 hhash1 hfetch
    exact ⟨S.sheets, hmiss.1, hmiss.2.1, le_of_eq hmiss.2.2, hsecond S.sheets⟩

/-- C19. Style cache key recurrence: the key of line 461 is
`(h * 33 + k) mod 2^32` for every style hash `h` and widget hash `k`, and it
is the key under which Widget_BeginUpdate looks up and inserts: under an
ancestor context that owns the style cache with style hash `h`, a widget with
the non-zero hash `k` gets the sheet that the cache holds under
`(h * 33 + k) mod 2^32` when there is one, and otherwise a new sheet, which
the cache holds afterwards under `(h * 33 + k) mod 2^32`. -/
theorem Widget_BeginUpdate_cache_key (K : Defs) (E : Env) (hE : HashOnly E) (S : World)
    (w : Nat) (ctx : LCUI_WidgetTaskContext) (cache h : Nat)
    (hctx : findStyleCache ctx = some (cache, h)) (hcache : cache < S.dicts.length)
    (hm : (E.malloc S.mallocs).isSome = true) (hhash : hashAtLookup K E S w ≠ 0) :
    (∀ a b, styleCacheKey a b = (a * 33 + b) % 2 ^ 32) ∧
      (∀ s, Dict_FetchValue S.dicts cache ((h * 33 + hashAtLookup K E S w) % 2 ^ 32) = some s →
        (getW (Widget_BeginUpdate K E S w ctx).2.widgets w).inherited_style =
            some (StyleRef.sheet s) ∧
          (Widget_BeginUpdate K E S w ctx).2.dicts = S.dicts) ∧
      (Dict_FetchValue S.dicts cache ((h * 33 + hashAtLookup K E S w) % 2 ^ 32) = none →
        (getW (Widget_BeginUpdate K E S w ctx).2.widgets w).inherited_style =
            some (StyleRef.sheet S.sheets) ∧
          Dict_FetchValue (Widget_BeginUpdate K E S w ctx).2.dicts cache
            ((h * 33 + hashAtLookup K E S w) % 2 ^ 32) = some S.sheets) := by
  refine ⟨styleCacheKey_eq, fun s hfetch => ?_, fun hfetch => ?_⟩
  · rw [← styleCacheKey_eq] at hfetch
    have hhit := Widget_BeginUpdate_hit K E S w ctx cache h s hctx hm hhash hfetch
    exact ⟨hhit.1, hhit.2.1⟩
  · rw [← styleCacheKey_eq] at hfetch ⊢
    have hmiss := Widget_BeginUpdate_miss K E hE S w ctx cache h hctx hcache hm hhash hfetch
    exact ⟨hmiss.1, hmiss.2.1⟩

/-- The resolution of lines 458-475 does not generate a hash. -/
theorem Widget_BeginUpdate_resolve_calls (E : Env) (S : World) (w : Nat)
    (c : LCUI_WidgetTaskContextRec) :
    ∃ cs, (Widget_BeginUpdate_resolve E S w c).trace = S.trace ++ cs ∧
      generateHashCalls cs = 0 := by
  unfold Widget_BeginUpdate_resolve
  split
  · split
    · simp only
      split
      · exact ⟨[], by simp, rfl⟩
      · exact ⟨[Call.LCUI_GetStyleSheet w S.sheets], rfl, rfl⟩
    · exact ⟨[Call.LCUI_GetCachedStyleSheet w], rfl, rfl⟩
  · exact ⟨[Call.LCUI_GetCachedStyleSheet w], rfl, rfl⟩

/-- The resolution of lines 458-475 for a widget without a hash goes through
the global cache of style sheets. -/
theorem Widget_BeginUpdate_resolve_global (E : Env) (S : World) (w : Nat)
    (c : LCUI_WidgetTaskContextRec) (hhash : (getW S.widgets w).hash = 0) :
    (Widget_BeginUpdate_resolve E S w c).trace = S.trace ++ [Call.LCUI_GetCachedStyleSheet w] ∧
      (Widget_BeginUpdate_resolve E S w c).dicts = S.dicts := by
  unfold Widget_BeginUpdate_resolve
  split
  · simp only [hhash, ne_eq, not_true_eq_false, ↓reduceIte]
    exact ⟨rfl, rfl⟩
  · exact ⟨rfl, rfl⟩

/-- C20, amended. Structural hash under a style-caching ancestor: under an
ancestor context that owns a style cache, Widget_BeginUpdate generates the
hash of the widget again exactly when the hash is not zero and the style
refresh task is pending (one Widget_GenerateSelfHash call, none otherwise); a
widget whose hash is zero gets no hash and is resolved through the global
cache of style sheets, the only call being LCUI_GetCachedStyleSheet, and the
style caches are left as they are.  Context allocation is assumed to
succeed. -/
theorem Widget_BeginUpdate_hash_regeneration (K : Defs) (E : Env) (S : World) (w : Nat)
    (ctx : LCUI_WidgetTaskContext) (cache h : Nat)
    (hctx : findStyleCache ctx = some (cache, h))
    (hm : (E.malloc S.mallocs).isSome = true) :
    generateHashCalls (callsSince S (Widget_BeginUpdate K E S w ctx).2) =
        (if (getW S.widgets w).hash ≠ 0 ∧
          (getW S.widgets w).task.states K.LCUI_WTASK_REFRESH_STYLE = true then 1 else 0) ∧
      ((getW S.widgets w).hash = 0 →
        callsSince S (Widget_BeginUpdate K E S w ctx).2 = [Call.LCUI_GetCachedStyleSheet w] ∧
          (Widget_BeginUpdate K E S w ctx).2.dicts = S.dicts) := by
  obtain ⟨block, hblock⟩ := Option.isSome_iff_exists.mp hm
  obtain ⟨c2, hc2, -, hun⟩ := Widget_BeginUpdate_unfold K E S w ctx block hblock
  obtain ⟨hcache2, -⟩ := hc2 cache h hctx
  obtain ⟨hd, -, cs, htrace, -, hcs⟩ := atLookup_calls K E S w
  obtain ⟨cs2, htrace2, hcs2⟩ := Widget_BeginUpdate_resolve_calls E (atLookup K E S w) w c2
  have hfinal : (Widget_BeginUpdate K E S w ctx).2.trace =
        (Widget_BeginUpdate_resolve E (atLookup K E S w) w c2).trace ∧
      (Widget_BeginUpdate K E S w ctx).2.dicts =
        (Widget_BeginUpdate_resolve E (atLookup K E S w) w c2).dicts := by
    rw [hun, Widget_BeginUpdate_own_cached E _ w c2 cache hcache2]
    dsimp only
    split
    · exact ⟨rfl, rfl⟩
    · exact ⟨rfl, rfl⟩
  refine ⟨?_, fun hzero => ?_⟩
  · unfold callsSince
    rw [hfinal.1, htrace2, htrace, List.append_assoc, List.drop_left]
    unfold generateHashCalls at hcs hcs2 ⊢
    rw [List.countP_append, hcs, hcs2, Nat.add_zero]
  · have hat : atLookup K E S w = { S with mallocs := S.mallocs + 1 } := by
      unfold atLookup
      rw [if_neg (fun hc => hc.1 hzero)]
    have hglobal := Widget_BeginUpdate_resolve_global E (atLookup K E S w) w c2
      (by rw [hat]; exact hzero)
    refine ⟨?_, ?_⟩
    · unfold callsSince
      rw [hfinal.1, hglobal.1, hat]
      exact List.drop_left _ _
    · rw [hfinal.2, hglobal.2, hat]

/-! ## The states that Widget_UpdateSelf does not reach -/

/-- One iteration of the loop of Widget_UpdateSelf below REFLOW keeps the
task states from REFLOW on, when nothing is mutated. -/
theorem Widget_UpdateSelf_task_keeps (K : Defs) (E : Env) (hq : Quiet E) (w : Nat) (S : World)
    (i k j : Nat) (hi : i < K.LCUI_WTASK_REFLOW) (hk : K.LCUI_WTASK_REFLOW ≤ k)
    (hus : K.LCUI_WTASK_UPDATE_STYLE < K.LCUI_WTASK_REFLOW) :
    (getW (Widget_UpdateSelf_task K E w S i).widgets j).task.states k =
      (getW S.widgets j).task.states k := by
  have hclear : (getW (updW S.widgets w (fun x => x.setTaskState i false)) j).task.states k =
      (getW S.widgets j).task.states k := by
    rw [getW_updW]
    split
    · next h =>
      rw [← h.1]
      simp only [Widget.setTaskState, setState]
      rw [if_neg (by omega)]
    · rfl
  unfold Widget_UpdateSelf_task
  split
  · simp only
    split
    · next h _ =>
      cases h with
      | compute fn => simp only [runHandler, World.call_widgets, hq.1]; exact hclear
      | Widget_OnUpdateStyle =>
        simp only [runHandler, Widget_OnUpdateStyle, World.call_widgets, hq.1]; exact hclear
      | Widget_OnSetTitle =>
        simp only [runHandler, Widget_OnSetTitle, World.call_widgets, hq.1]; exact hclear
      | Widget_OnRefreshStyle =>
        simp only [runHandler, Widget_OnRefreshStyle, World.onWidgets_widgets,
          World.call_widgets, hq.1]
        rw [getW_updW]
        split
        · next h =>
          have e := h.1
          subst e
          simp only [refreshStates]
          rw [if_neg (by omega), if_neg (by omega)]
          exact hclear
        · exact hclear
    · exact hclear
  · rfl

/-- The loop of Widget_UpdateSelf keeps the task states from REFLOW on, when
nothing is mutated. -/
theorem Widget_UpdateSelf_loop_keeps (K : Defs) (E : Env) (hq : Quiet E) (w k j : Nat)
    (hk : K.LCUI_WTASK_REFLOW ≤ k) (hus : K.LCUI_WTASK_UPDATE_STYLE < K.LCUI_WTASK_REFLOW) :
    ∀ (l : List Nat) (S : World), (∀ i ∈ l, i < K.LCUI_WTASK_REFLOW) →
      (getW (l.foldl (Widget_UpdateSelf_task K E w) S).widgets j).task.states k =
        (getW S.widgets j).task.states k
  | [], _, _ => rfl
  | i :: rest, S, hl => by
    simp only [List.foldl_cons]
    rw [Widget_UpdateSelf_loop_keeps K E hq w k j hk hus rest _
      (fun x hx => hl x (List.mem_cons_of_mem _ hx)),
      Widget_UpdateSelf_task_keeps K E hq w S i k j (hl i (List.mem_cons_self _ _)) hk hus]

/-- When nothing is mutated Widget_EndDiff only adds task flags. -/
theorem Widget_EndDiff_quiet_grow (K : Defs) (E : Env) (hq : Quiet E) (S : World) (w : Nat)
    (ctx : LCUI_WidgetTaskContextRec) :
    TasksGrow S.widgets (Widget_EndDiff K E S w ctx).2.2.widgets := by
  by_cases hcan : ctx.diff.can_render = true
  · have hgrow : TasksGrow S.widgets (afterLayoutChecks K E S w ctx).widgets := by
      have h := (afterLayoutChecks_worldGrow K E S w ctx).1
      rw [(atCompare_quiet K E hq S w ctx).1] at h
      exact h
    rw [Widget_EndDiff_unfold K E S w ctx hcan]
    split
    · exact hgrow
    · split
      · exact hgrow
      · dsimp only
        rw [(Widget_EndDiff_emit_quiet K E hq _ w _).1]
        exact hgrow
  · unfold Widget_EndDiff
    simp only [hcan, Bool.not_false, ↓reduceIte]
    exact TasksGrow_refl _

/-- When nothing is mutated, a task state from REFLOW on that is set when
Widget_UpdateSelf is entered is still set when it returns, unless it is the
user task of a widget with a `runtask` function. -/
theorem Widget_UpdateSelf_keeps_pending (K : Defs) (E : Env) (hq : Quiet E) (S : World)
    (w : Nat) (ctx : LCUI_WidgetTaskContextRec) (parent : LCUI_WidgetTaskContext) (k : Nat)
    (hk : K.LCUI_WTASK_REFLOW ≤ k) (hus : K.LCUI_WTASK_UPDATE_STYLE < K.LCUI_WTASK_REFLOW)
    (hkeep : k ≠ K.LCUI_WTASK_USER ∨ (getW S.widgets w).has_runtask = false)
    (hset : (getW S.widgets w).task.states k = true) :
    (getW (Widget_UpdateSelf K E S w ctx parent).2.widgets w).task.states k = true := by
  generalize hS1 : (if (getW S.widgets w).task.states K.LCUI_WTASK_USER = true ∧
      (getW S.widgets w).has_runtask = true then
      (S.onWidgets (fun ws => updW ws w (fun x =>
        x.setTaskState K.LCUI_WTASK_USER false))).call E (Call.runtask w) else S) = S1
  have h1 : (getW S1.widgets w).task.states k = true := by
    rw [← hS1]
    split
    · next hc =>
      simp only [World.call_widgets, hq.1, World.onWidgets_widgets]
      rw [getW_updW]
      split
      · simp only [Widget.setTaskState, setState]
        rw [if_neg]
        · exact hset
        · rcases hkeep with h | h
          · exact h
          · rw [hc.2] at h; cases h
      · exact hset
    · exact hset
  have h2 : (getW (S1.onWidgets (fun ws => updW ws w (fun x => x.setForSelf false))).widgets
      w).task.states k = true := by
    rw [World.onWidgets_widgets, getW_updW]
    split
    · exact h1
    · exact h1
  have h3 := Widget_UpdateSelf_loop_keeps K E hq w k w hk hus (List.range K.LCUI_WTASK_REFLOW)
    (S1.onWidgets (fun ws => updW ws w (fun x => x.setForSelf false)))
    (fun i hi => List.mem_range.mp hi)
  rw [h2] at h3
  have h4 := Widget_EndDiff_quiet_grow K E hq
    ((List.range K.LCUI_WTASK_REFLOW).foldl (Widget_UpdateSelf_task K E w)
      (S1.onWidgets (fun ws => updW ws w (fun x => x.setForSelf false)))) w
    (Widget_BeginDiff K S w ctx parent)
  have hres : (Widget_UpdateSelf K E S w ctx parent).2.widgets =
      (Widget_EndDiff K E ((List.range K.LCUI_WTASK_REFLOW).foldl (Widget_UpdateSelf_task K E w)
        (S1.onWidgets (fun ws => updW ws w (fun x => x.setForSelf false)))) w
        (Widget_BeginDiff K S w ctx parent)).2.2.widgets := by
    unfold Widget_UpdateSelf
    simp only [hS1, World.call_widgets, hq.1]
  rw [hres]
  exact (h4.2 w).2.2.2 k h3

/-- C11. The invariant of the task record is not kept when a user task is
pending on a widget without a `runtask` function.  Let the user task be
numbered after REFLOW, as the separate handling of both by lines 642-645 and
689-692 supposes, let nothing be mutated by the other modules and no refresh
of everything be pending, and let `w` be a widget without update rules whose
style is resolved, with `for_self` set (so that the invariant holds),
`for_children` clear and the user task set.  Then Widget_UpdateWithContext
returns 0 and afterwards the user task of `w` is still set while `for_self` is
clear: line 643 clears the user task only for a widget with a `runtask`
function, line 646 clears `for_self` and the loop of line 647 stops below
REFLOW. -/
theorem Widget_UpdateWithContext_leaks_user_task (K : Defs) (E : Env) (hq : Quiet E)
    (fuel : Nat) (S : World) (w : Nat) (ctx : LCUI_WidgetTaskContext)
    (hus : K.LCUI_WTASK_UPDATE_STYLE < K.LCUI_WTASK_REFLOW)
    (hru : K.LCUI_WTASK_REFLOW < K.LCUI_WTASK_USER)
    (hut : K.LCUI_WTASK_USER < K.LCUI_WTASK_TOTAL_NUM)
    (hrefresh : S.self.refresh_all = false)
    (hchain : ∀ c ∈ ctx, c.style_cache = none)
    (hrules : (getW S.widgets w).rules = none)
    (hstyle : (getW S.widgets w).inherited_style =
      some (StyleRef.cached (E.LCUI_GetCachedStyleSheet S.widgets w)))
    (hself : (getW S.widgets w).task.for_self = true)
    (hchildren : (getW S.widgets w).task.for_children = false)
    (huser : (getW S.widgets w).task.states K.LCUI_WTASK_USER = true)
    (hrun : (getW S.widgets w).has_runtask = false) :
    TaskInvariant K S.widgets w ∧
      ∃ S', Widget_UpdateWithContext K E (fuel + 1) S w ctx = Except.ok (0, S') ∧
        (getW S'.widgets w).task.states K.LCUI_WTASK_USER = true ∧
        (getW S'.widgets w).task.for_self = false ∧
        ¬ TaskInvariant K S'.widgets w := by
  refine ⟨fun _ _ _ => hself, ?_⟩
  obtain ⟨c0, S1, hbegin, -, hw1, hs1, -⟩ := Widget_BeginUpdate_quiet K E hq S w ctx hchain
    hrules hstyle
  have hrefresh1 : S1.self.refresh_all = false := by rw [hs1]; exact hrefresh
  have hself1 : (getW S1.widgets w).task.for_self = true := by rw [hw1]; exact hself
  have hq2 := Widget_UpdateSelf_quiet K E hq S1 w (Widget_InitDiff K S1 w c0 ctx) ctx hrefresh1
  have hk2 := Widget_UpdateSelf_keeps_pending K E hq S1 w (Widget_InitDiff K S1 w c0 ctx) ctx
    K.LCUI_WTASK_USER (le_of_lt hru) hus (Or.inr (by rw [hw1]; exact hrun))
    (by rw [hw1]; exact huser)
  generalize hr2 : Widget_UpdateSelf K E S1 w (Widget_InitDiff K S1 w c0 ctx) ctx = r2
    at hq2 hk2
  have hfc2 : (getW r2.2.widgets w).task.for_children = false := by
    rw [(hq2.2.2.2.2.2 w).1, hw1]; exact hchildren
  -- the end: the children are sorted and a pending reflow runs
  generalize hS5 : (if (getW (r2.2.call E (Call.Widget_SortChildrenShow w)).widgets
      w).task.states K.LCUI_WTASK_REFLOW = true then
    (Widget_RunReflowTask E (r2.2.call E (Call.Widget_SortChildrenShow w)) w r2.1).onWidgets
      (fun ws => updW ws w (fun x => x.setTaskState K.LCUI_WTASK_REFLOW false))
    else r2.2.call E (Call.Widget_SortChildrenShow w)) = S5
  have h5 : (getW S5.widgets w).task.states K.LCUI_WTASK_USER = true ∧
      (getW S5.widgets w).task.for_self = false := by
    rw [← hS5]
    split
    · simp only [Widget_RunReflowTask, World.onWidgets_widgets, World.call_widgets, hq.1]
      rw [getW_updW]
      split
      · simp only [Widget.setTaskState, setState]
        rw [if_neg (by omega)]
        exact ⟨hk2, hq2.2.2.2.2.1⟩
      · exact ⟨hk2, hq2.2.2.2.2.1⟩
    · simp only [World.call_widgets, hq.1]
      exact ⟨hk2, hq2.2.2.2.2.1⟩
  refine ⟨S5, ?_, h5.1, h5.2, fun hinv => ?_⟩
  · have hnot : (!(getW S.widgets w).task.for_self && !(getW S.widgets w).task.for_children)
        = false := by
      rw [hself, hchildren]; rfl
    simp only [Widget_UpdateWithContext, hnot, Bool.false_eq_true, ↓reduceIte, hbegin, hself1,
      hr2, hfc2, hS5, Widget_EndUpdate]
  · have h := hinv K.LCUI_WTASK_USER hut h5.1
    rw [h5.2] at h
    cases h

/-! ## The loop over the children with its counter -/

set_option maxHeartbeats 4000000 in
/-- The loop with its counter returns what the loop returns. -/
theorem updateChildrenLoopTraced_erase (K : Defs) (E : Env) (upd : UpdateFn) (w : Nat)
    (ctx : LCUI_WidgetTaskContext) (hasData : Bool) :
    ∀ (children : List Nat) (S : World) (total update_count : Nat) (msec : Int),
      updateChildrenLoop K E upd w ctx hasData children S total update_count msec =
        (updateChildrenLoopTraced K E upd w ctx hasData children S total update_count msec).map
          (fun r => (r.1, r.2.1))
  | [], _, _, _, _ => rfl
  | child :: rest, S, total, update_count, msec => by
    unfold updateChildrenLoop updateChildrenLoopTraced
    cases hupd : upd S child ctx with
    | error e => rfl
    | ok r =>
      obtain ⟨count, S1⟩ := r
      simp only
      repeat' split
      all_goals first
        | rfl
        | exact updateChildrenLoopTraced_erase K E upd w ctx _ rest _ _ _ _

theorem SelfKept_refl (S : World) : SelfKept S S := ⟨rfl, rfl⟩

theorem SelfKept_trans {a b c : World} (h1 : SelfKept a b) (h2 : SelfKept b c) : SelfKept a c :=
  ⟨h2.1.trans h1.1, h2.2.trans h1.2⟩

/-- When the loop is left through the `break` of line 622, the counter that
was read is the one the loop is left with, a full tick has elapsed, and the
value stored is the quotient of lines 616-618, or 32 when the quotient is
zero. -/
theorem updateChildrenLoopTraced_recomputed (K : Defs) (E : Env) (upd : UpdateFn) (w : Nat)
    (ctx : LCUI_WidgetTaskContext) (hasData : Bool) :
    ∀ (children : List Nat) (S : World) (total update_count : Nat) (msec : Int)
      (t : Nat) (S' : World) (uc u : Nat) (e : Int) (v : Nat),
      updateChildrenLoopTraced K E upd w ctx hasData children S total update_count msec =
        Except.ok (t, S', uc, LoopExit.recomputed u e v) →
      u = uc ∧ 1 ≤ e ∧
        v = (if u * K.CLOCKS_PER_SEC / S'.self.max_updates_per_frame /
              K.LCUI_MAX_FRAMES_PER_SEC / e.toNat < 1 then 32
            else u * K.CLOCKS_PER_SEC / S'.self.max_updates_per_frame /
              K.LCUI_MAX_FRAMES_PER_SEC / e.toNat)
  | [], _, _, _, _, _, _, _, _, _, _ => by
    intro h
    simp [updateChildrenLoopTraced] at h
  | child :: rest, S, total, update_count, msec, t, S', uc, u, e, v => by
    intro h
    unfold updateChildrenLoopTraced at h
    cases hupd : upd S child ctx with
    | error err => rw [hupd] at h; cases h
    | ok r =>
      obtain ⟨count, S1⟩ := r
      rw [hupd] at h
      simp only at h
      repeat' split at h
      all_goals first
        | exact updateChildrenLoopTraced_recomputed K E upd w ctx _ rest _ _ _ _ _ _ _ _ _ _ h
        | (simp only [Except.ok.injEq, Prod.mk.injEq, reduceCtorEq, and_false] at h
           done)
        | (simp only [Except.ok.injEq, Prod.mk.injEq, LoopExit.recomputed.injEq] at h
           obtain ⟨-, rfl, rfl, rfl, rfl, rfl⟩ := h
           refine ⟨rfl, by omega, ?_⟩
           simp only [World.onWidgets_self]
           split <;> first | rfl | contradiction)

/-- With an update function that reports no work, the loop returns the total
and the counter it was entered with, and keeps the module state. -/
theorem updateChildrenLoopTraced_tame (K : Defs) (E : Env) (upd : UpdateFn) (hT : Tame upd)
    (w : Nat) (ctx : LCUI_WidgetTaskContext) (hasData : Bool) :
    ∀ (children : List Nat) (S : World) (total update_count : Nat) (msec : Int)
      (t : Nat) (S' : World) (uc : Nat) (exit : LoopExit),
      updateChildrenLoopTraced K E upd w ctx hasData children S total update_count msec =
        Except.ok (t, S', uc, exit) →
      t = total ∧ SelfKept S S' ∧ uc = update_count
  | [], _, _, _, _, _, _, _, _ => by
    intro h
    simp only [updateChildrenLoopTraced, Except.ok.injEq, Prod.mk.injEq] at h
    obtain ⟨rfl, rfl, rfl, -⟩ := h
    exact ⟨rfl, SelfKept_refl _, rfl⟩
  | child :: rest, S, total, update_count, msec, t, S', uc, exit => by
    intro h
    unfold updateChildrenLoopTraced at h
    cases hupd : upd S child ctx with
    | error err => rw [hupd] at h; cases h
    | ok r =>
      obtain ⟨count, S1⟩ := r
      rw [hupd] at h
      obtain ⟨hc, hk⟩ := hT _ _ _ _ _ hupd
      subst hc
      simp only [Nat.add_zero, gt_iff_lt, Nat.lt_irrefl, and_false, ↓reduceIte] at h
      repeat' split at h
      all_goals first
        | exact (fun hh => ⟨hh.1, SelfKept_trans (SelfKept_trans hk ⟨rfl, rfl⟩) hh.2.1, hh.2.2⟩)
            (updateChildrenLoopTraced_tame K E upd hT w ctx _ rest _ _ _ _ _ _ _ _ h)
        | (simp only [Except.ok.injEq, Prod.mk.injEq] at h
           obtain ⟨rfl, rfl, rfl, -⟩ := h
           exact ⟨rfl, SelfKept_trans hk ⟨rfl, rfl⟩, rfl⟩)

/-- With an update function that reports no work, the loop over the children
returns the total it was entered with and keeps the module state. -/
theorem updateChildrenLoop_tame (K : Defs) (E : Env) (upd : UpdateFn) (hT : Tame upd)
    (w : Nat) (ctx : LCUI_WidgetTaskContext) (hasData : Bool) (children : List Nat) (S : World)
    (total update_count : Nat) (msec : Int) (t : Nat) (S' : World)
    (h : updateChildrenLoop K E upd w ctx hasData children S total update_count msec =
      Except.ok (t, S')) : t = total ∧ SelfKept S S' := by
  rw [updateChildrenLoopTraced_erase] at h
  cases hr : updateChildrenLoopTraced K E upd w ctx hasData children S total update_count msec with
  | error err => rw [hr] at h; cases h
  | ok r =>
    obtain ⟨t1, S1, uc, exit⟩ := r
    rw [hr] at h
    simp only [Except.map, Except.ok.injEq, Prod.mk.injEq] at h
    obtain ⟨rfl, rfl⟩ := h
    have := updateChildrenLoopTraced_tame K E upd hT w ctx hasData children S total update_count
      msec _ _ _ _ hr
    exact ⟨this.1, this.2.1⟩

/-- With an update function that reports no work, the loop over the visible
children returns the total it was entered with and keeps the module state. -/
theorem updateVisibleChildrenLoop_tame (E : Env) (upd : UpdateFn) (hT : Tame upd) (w : Nat)
    (ctx : LCUI_WidgetTaskContext) (rect : LCUI_RectF) :
    ∀ (children : List Nat) (S : World) (total : Nat) (found : Bool) (t : Nat) (S' : World),
      updateVisibleChildrenLoop E upd w ctx rect children S total found = Except.ok (t, S') →
      t = total ∧ SelfKept S S'
  | [], _, _, _, _, _ => by
    intro h
    simp only [updateVisibleChildrenLoop, Except.ok.injEq, Prod.mk.injEq] at h
    obtain ⟨rfl, rfl⟩ := h
    exact ⟨rfl, SelfKept_refl _⟩
  | child :: rest, S, total, found, t, S' => by
    intro h
    unfold updateVisibleChildrenLoop at h
    split at h
    · split at h
      · simp only [Except.ok.injEq, Prod.mk.injEq] at h
        obtain ⟨rfl, rfl⟩ := h
        exact ⟨rfl, SelfKept_refl _⟩
      · exact updateVisibleChildrenLoop_tame E upd hT w ctx rect rest _ _ _ _ _ h
    · cases hupd : upd S child ctx with
      | error err => rw [hupd] at h; cases h
      | ok r =>
        obtain ⟨count, S1⟩ := r
        rw [hupd] at h
        obtain ⟨hc, hk⟩ := hT _ _ _ _ _ hupd
        subst hc
        simp only [Nat.add_zero] at h
        obtain ⟨h1, h2⟩ := updateVisibleChildrenLoop_tame E upd hT w ctx rect rest _ _ _ _ _ h
        refine ⟨h1, SelfKept_trans (SelfKept_trans hk ?_) h2⟩
        split <;> exact ⟨rfl, rfl⟩

/-- With an update function that reports no work, Widget_UpdateVisibleChildren
returns 0 and keeps the module state. -/
theorem Widget_UpdateVisibleChildren_tame (K : Defs) (E : Env) (upd : UpdateFn) (hT : Tame upd)
    (S : World) (w : Nat) (ctx : LCUI_WidgetTaskContext) (t : Nat) (S' : World)
    (h : Widget_UpdateVisibleChildren K E upd S w ctx = Except.ok (t, S')) :
    t = 0 ∧ SelfKept S S' := by
  unfold Widget_UpdateVisibleChildren at h
  simp only at h
  split at h
  · cases h
  · split at h
    · cases h
    · split at h
      · simp only [Except.ok.injEq, Prod.mk.injEq] at h
        obtain ⟨rfl, rfl⟩ := h
        exact ⟨rfl, SelfKept_refl _⟩
      · exact updateVisibleChildrenLoop_tame E upd hT w ctx _ _ _ _ _ _ _ h

theorem Widget_UpdateChildren_finish_selfKept (E : Env) (S : World) (w : Nat) (hasData : Bool) :
    SelfKept S (Widget_UpdateChildren_finish E S w hasData) := by
  unfold Widget_UpdateChildren_finish
  split
  · dsimp only
    have h1 : ∀ (S1 : World), SelfKept S S1 →
        SelfKept S (match (getW S1.widgets w).rules with
          | some data1 =>
            if data1.rules.on_update_progress then
              S1.call E (Call.on_update_progress w data1.progress)
            else S1
          | none => S1) := by
      intro S1 h
      split
      · split
        · exact SelfKept_trans h ⟨rfl, rfl⟩
        · exact h
      · exact h
    apply h1
    split <;> exact ⟨rfl, rfl⟩
  · exact ⟨rfl, rfl⟩

/-- With an update function that reports no work, the general pass over the
children returns the total it was entered with, or 0, and keeps the module
state. -/
theorem Widget_UpdateChildren_pass_tame (K : Defs) (E : Env) (upd : UpdateFn) (hT : Tame upd)
    (S : World) (w : Nat) (ctx : LCUI_WidgetTaskContext) (hasData : Bool) (node : List Nat)
    (total : Nat) (msec : Int) (t : Nat) (S' : World)
    (h : Widget_UpdateChildren_pass K E upd S w ctx hasData node total msec = Except.ok (t, S')) :
    (t = total ∨ t = 0) ∧ SelfKept S S' := by
  unfold Widget_UpdateChildren_pass at h
  split at h
  · simp only [Except.ok.injEq, Prod.mk.injEq] at h
    obtain ⟨rfl, rfl⟩ := h
    exact ⟨Or.inr rfl, SelfKept_refl _⟩
  · simp only at h
    split at h
    · cases h
    · next t1 S2 hloop =>
      simp only [Except.ok.injEq, Prod.mk.injEq] at h
      obtain ⟨rfl, rfl⟩ := h
      obtain ⟨h1, h2⟩ := updateChildrenLoop_tame K E upd hT w ctx hasData node _ total 0 msec _ _
        hloop
      exact ⟨Or.inl h1, SelfKept_trans (SelfKept_trans ⟨rfl, rfl⟩ h2)
        (Widget_UpdateChildren_finish_selfKept E _ w hasData)⟩

/-- With an update function that reports no work, Widget_UpdateChildren
returns 0 and keeps the module state. -/
theorem Widget_UpdateChildren_tame (K : Defs) (E : Env) (upd : UpdateFn) (hT : Tame upd)
    (S : World) (w : Nat) (ctx : LCUI_WidgetTaskContext) (t : Nat) (S' : World)
    (h : Widget_UpdateChildren K E upd S w ctx = Except.ok (t, S')) :
    t = 0 ∧ SelfKept S S' := by
  unfold Widget_UpdateChildren at h
  split at h
  · simp only [Except.ok.injEq, Prod.mk.injEq] at h
    obtain ⟨rfl, rfl⟩ := h
    exact ⟨rfl, SelfKept_refl _⟩
  · simp only at h
    split at h
    · obtain ⟨h1, h2⟩ := Widget_UpdateChildren_pass_tame K E upd hT _ w ctx _ _ _ _ _ _ h
      exact ⟨h1.elim id id, h2⟩
    · split at h
      · simp only [Except.ok.injEq, Prod.mk.injEq] at h
        obtain ⟨rfl, rfl⟩ := h
        exact ⟨rfl, ⟨rfl, rfl⟩⟩
      · split at h
        · split at h
          · cases h
          · next t1 S2 hvis =>
            obtain ⟨hv1, hv2⟩ := Widget_UpdateVisibleChildren_tame K E upd hT _ w ctx _ _ hvis
            subst hv1
            obtain ⟨h1, h2⟩ := Widget_UpdateChildren_pass_tame K E upd hT _ w ctx _ _ _ _ _ _ h
            exact ⟨h1.elim id id, SelfKept_trans (SelfKept_trans ⟨rfl, rfl⟩ hv2) h2⟩
        · obtain ⟨h1, h2⟩ := Widget_UpdateChildren_pass_tame K E upd hT _ w ctx _ _ _ _ _ _ h
          exact ⟨h1.elim id id, SelfKept_trans ⟨rfl, rfl⟩ h2⟩

/-! ### The module state through the update of one widget -/

theorem Widget_BeginUpdate_own_selfKept (E : Env) (S : World) (w : Nat)
    (c : LCUI_WidgetTaskContextRec) : SelfKept S (Widget_BeginUpdate_own E S w c).2 := by
  unfold Widget_BeginUpdate_own
  split
  · split
    · dsimp only
      split <;> exact ⟨rfl, rfl⟩
    · exact ⟨rfl, rfl⟩
  · exact ⟨rfl, rfl⟩

theorem Widget_BeginUpdate_resolve_selfKept (E : Env) (S : World) (w : Nat)
    (c : LCUI_WidgetTaskContextRec) : SelfKept S (Widget_BeginUpdate_resolve E S w c) := by
  unfold Widget_BeginUpdate_resolve
  split
  · split
    · dsimp only
      split <;> exact ⟨rfl, rfl⟩
    · exact ⟨rfl, rfl⟩
  · exact ⟨rfl, rfl⟩

/-- Widget_BeginUpdate keeps the module state and the metrics. -/
theorem Widget_BeginUpdate_selfKept (K : Defs) (E : Env) (S : World) (w : Nat)
    (ctx : LCUI_WidgetTaskContext) : SelfKept S (Widget_BeginUpdate K E S w ctx).2 := by
  cases hm : E.malloc S.mallocs with
  | none =>
    unfold Widget_BeginUpdate
    simp only [hm]
    exact ⟨rfl, rfl⟩
  | some block =>
    obtain ⟨c2, -, -, heq⟩ := Widget_BeginUpdate_unfold K E S w ctx block hm
    rw [heq]
    have h0 : SelfKept S (atLookup K E S w) := by
      unfold atLookup
      split <;> exact ⟨rfl, rfl⟩
    have h1 := Widget_BeginUpdate_own_selfKept E (atLookup K E S w) w c2
    have h2 := Widget_BeginUpdate_resolve_selfKept E
      (Widget_BeginUpdate_own E (atLookup K E S w) w c2).2 w
      (Widget_BeginUpdate_own E (atLookup K E S w) w c2).1
    dsimp only
    split
    · exact SelfKept_trans (SelfKept_trans (SelfKept_trans h0 h1) h2) ⟨rfl, rfl⟩
    · exact SelfKept_trans (SelfKept_trans h0 h1) h2

theorem Widget_EndDiff_visibility_selfKept (K : Defs) (E : Env) (S : World) (w : Nat)
    (d : LCUI_WidgetTaskDiffRec) : SelfKept S (Widget_EndDiff_visibility K E S w d).2 := by
  unfold Widget_EndDiff_visibility
  dsimp only
  split <;> exact ⟨rfl, rfl⟩

theorem Widget_EndDiff_geometry_selfKept (K : Defs) (E : Env) (S : World) (w : Nat)
    (d : LCUI_WidgetTaskDiffRec) : SelfKept S (Widget_EndDiff_geometry K E S w d).2 := by
  unfold Widget_EndDiff_geometry
  dsimp only
  repeat' split
  all_goals exact ⟨rfl, rfl⟩

theorem Widget_EndDiff_flex_selfKept (K : Defs) (E : Env) (S : World) (w : Nat)
    (d : LCUI_WidgetTaskDiffRec) : SelfKept S (Widget_EndDiff_flex K E S w d) := by
  unfold Widget_EndDiff_flex
  dsimp only
  repeat' split
  all_goals exact ⟨rfl, rfl⟩

theorem Widget_EndDiff_display_selfKept (K : Defs) (E : Env) (S : World) (w : Nat)
    (d : LCUI_WidgetTaskDiffRec) : SelfKept S (Widget_EndDiff_display K E S w d).2 := by
  unfold Widget_EndDiff_display
  dsimp only
  repeat' split
  all_goals exact ⟨rfl, rfl⟩

theorem Widget_EndDiff_emit_selfKept (K : Defs) (E : Env) (S : World) (w : Nat)
    (d : LCUI_WidgetTaskDiffRec) : SelfKept S (Widget_EndDiff_emit K E S w d).2 := by
  unfold Widget_EndDiff_emit
  dsimp only
  repeat' split
  all_goals exact ⟨rfl, rfl⟩

theorem afterLayoutChecks_selfKept (K : Defs) (E : Env) (S : World) (w : Nat)
    (ctx : LCUI_WidgetTaskContextRec) : SelfKept S (afterLayoutChecks K E S w ctx) := by
  have h1 : SelfKept S (atCompare K E S w ctx) := by
    unfold atCompare Widget_EndDiff_boxes
    exact SelfKept_trans (Widget_EndDiff_visibility_selfKept K E S w ctx.diff) ⟨rfl, rfl⟩
  have h2 := Widget_EndDiff_geometry_selfKept K E (atCompare K E S w ctx) w
    (diffAtCompare K E S w ctx)
  have h3 := Widget_EndDiff_flex_selfKept K E
    (Widget_EndDiff_geometry K E (atCompare K E S w ctx) w (diffAtCompare K E S w ctx)).2 w
    (Widget_EndDiff_geometry K E (atCompare K E S w ctx) w (diffAtCompare K E S w ctx)).1
  have h4 := Widget_EndDiff_display_selfKept K E
    (Widget_EndDiff_flex K E
      (Widget_EndDiff_geometry K E (atCompare K E S w ctx) w (diffAtCompare K E S w ctx)).2 w
      (Widget_EndDiff_geometry K E (atCompare K E S w ctx) w (diffAtCompare K E S w ctx)).1) w
    (Widget_EndDiff_geometry K E (atCompare K E S w ctx) w (diffAtCompare K E S w ctx)).1
  exact SelfKept_trans (SelfKept_trans (SelfKept_trans h1 h2) h3) h4

/-- Widget_EndDiff keeps the module state and the metrics. -/
theorem Widget_EndDiff_selfKept (K : Defs) (E : Env) (S : World) (w : Nat)
    (ctx : LCUI_WidgetTaskContextRec) : SelfKept S (Widget_EndDiff K E S w ctx).2.2 := by
  cases hcan : ctx.diff.can_render with
  | false =>
    unfold Widget_EndDiff
    simp only [hcan]
    exact ⟨rfl, rfl⟩
  | true =>
    rw [Widget_EndDiff_unfold K E S w ctx hcan]
    have h1 := afterLayoutChecks_selfKept K E S w ctx
    split
    · exact h1
    · split
      · exact h1
      · exact SelfKept_trans h1 (Widget_EndDiff_emit_selfKept K E _ w _)

theorem runHandler_selfKept (K : Defs) (E : Env) (S : World) (h : Handler) (w : Nat) :
    SelfKept S (runHandler K E S h w) := by
  cases h <;> exact ⟨rfl, rfl⟩

theorem Widget_UpdateSelf_task_selfKept (K : Defs) (E : Env) (w : Nat) (S : World) (i : Nat) :
    SelfKept S (Widget_UpdateSelf_task K E w S i) := by
  unfold Widget_UpdateSelf_task
  split
  · dsimp only
    split
    · exact SelfKept_trans ⟨rfl, rfl⟩ (runHandler_selfKept K E _ _ w)
    · exact ⟨rfl, rfl⟩
  · exact ⟨rfl, rfl⟩

theorem Widget_UpdateSelf_loop_selfKept (K : Defs) (E : Env) (w : Nat) :
    ∀ (l : List Nat) (S : World), SelfKept S (l.foldl (Widget_UpdateSelf_task K E w) S)
  | [], S => SelfKept_refl S
  | i :: rest, S => by
    simp only [List.foldl_cons]
    exact SelfKept_trans (Widget_UpdateSelf_task_selfKept K E w S i)
      (Widget_UpdateSelf_loop_selfKept K E w rest _)

/-- Widget_UpdateSelf keeps the module state and the metrics. -/
theorem Widget_UpdateSelf_selfKept (K : Defs) (E : Env) (S : World) (w : Nat)
    (ctx : LCUI_WidgetTaskContextRec) (parent : LCUI_WidgetTaskContext) :
    SelfKept S (Widget_UpdateSelf K E S w ctx parent).2 := by
  unfold Widget_UpdateSelf
  dsimp only
  refine SelfKept_trans (SelfKept_trans (SelfKept_trans (b := (if
      (getW S.widgets w).task.states K.LCUI_WTASK_USER = true ∧ (getW S.widgets w).has_runtask = true
    then (S.onWidgets (fun ws =>
      updW ws w (fun x => x.setTaskState K.LCUI_WTASK_USER false))).call E (Call.runtask w)
    else S).onWidgets (fun ws => updW ws w (fun x => x.setForSelf false))) ?_
    (Widget_UpdateSelf_loop_selfKept K E w _ _)) (Widget_EndDiff_selfKept K E _ w _)) ⟨rfl, rfl⟩
  split <;> exact ⟨rfl, rfl⟩

/-- Widget_UpdateWithContext reports no work and keeps the module state, for
every environment and every bound of the recursion. -/
theorem Widget_UpdateWithContext_tame (K : Defs) (E : Env) :
    ∀ fuel : Nat, Tame (Widget_UpdateWithContext K E fuel)
  | 0 => by
    intro S w ctx count S' h
    simp [Widget_UpdateWithContext] at h
  | fuel + 1 => by
    intro S w ctx count S' h
    unfold Widget_UpdateWithContext at h
    split at h
    · simp only [Except.ok.injEq, Prod.mk.injEq] at h
      obtain ⟨rfl, rfl⟩ := h
      exact ⟨rfl, SelfKept_refl _⟩
    · split at h
      · cases h
      · next c0 S1 hb =>
        have hS1 : SelfKept S S1 := by
          have := Widget_BeginUpdate_selfKept K E S w ctx
          rw [hb] at this
          exact this
        dsimp only at h
        generalize hg : (if (getW S1.widgets w).task.for_self = true then
            Widget_UpdateSelf K E S1 w (Widget_InitDiff K S1 w c0 ctx) ctx
            else (Widget_InitDiff K S1 w c0 ctx, S1)) = r2 at h
        have hr2 : SelfKept S1 r2.2 := by
          rw [← hg]
          split
          · exact Widget_UpdateSelf_selfKept K E S1 w _ ctx
          · exact SelfKept_refl _
        split at h
        · cases h
        · next count1 S3 hr3 =>
          simp only [Except.ok.injEq, Prod.mk.injEq] at h
          obtain ⟨rfl, rfl⟩ := h
          have h3 : count1 = 0 ∧ SelfKept r2.2 S3 := by
            split at hr3
            · exact Widget_UpdateChildren_tame K E _ (Widget_UpdateWithContext_tame K E fuel)
                _ w _ _ _ hr3
            · simp only [Except.ok.injEq, Prod.mk.injEq] at hr3
              obtain ⟨rfl, rfl⟩ := hr3
              exact ⟨rfl, SelfKept_refl _⟩
          refine ⟨h3.1, SelfKept_trans (SelfKept_trans (SelfKept_trans hS1 hr2) h3.2) ?_⟩
          unfold Widget_EndUpdate Widget_RunReflowTask
          split <;> exact ⟨rfl, rfl⟩

/-- Widget_Update reports no work and keeps the module state. -/
theorem Widget_Update_tame (K : Defs) (E : Env) (fuel : Nat) (S : World) (w : Nat)
    (count : Nat) (S' : World) (h : Widget_Update K E fuel S w = Except.ok (count, S')) :
    count = 0 ∧ SelfKept S S' := by
  unfold Widget_Update at h
  split at h
  · cases h
  · next c0 S1 hb =>
    have hS1 : SelfKept S S1 := by
      have := Widget_BeginUpdate_selfKept K E S w []
      rw [hb] at this
      exact this
    dsimp only at h
    split at h
    · cases h
    · next count1 S2 hu =>
      simp only [Except.ok.injEq, Prod.mk.injEq] at h
      obtain ⟨rfl, rfl⟩ := h
      obtain ⟨h1, h2⟩ := Widget_UpdateWithContext_tame K E fuel _ _ _ _ _ hu
      exact ⟨h1, SelfKept_trans hS1 h2⟩

/-- The passes of the frame driver report no work and keep the module state. -/
theorem updatePasses_tame (K : Defs) (E : Env) (fuel : Nat) (root : Nat) :
    ∀ (n : Nat) (S : World) (count : Nat) (c : Nat) (S' : World),
      updatePasses K E fuel root n S count = Except.ok (c, S') → c = count ∧ SelfKept S S'
  | 0, _, _, _, _ => by
    intro h
    simp only [updatePasses, Except.ok.injEq, Prod.mk.injEq] at h
    obtain ⟨rfl, rfl⟩ := h
    exact ⟨rfl, SelfKept_refl _⟩
  | n + 1, S, count, c, S' => by
    intro h
    unfold updatePasses at h
    split at h
    · cases h
    · next c1 S1 hu =>
      obtain ⟨h1, h2⟩ := Widget_Update_tame K E fuel S root _ _ hu
      subst h1
      obtain ⟨h3, h4⟩ := updatePasses_tame K E fuel root n _ _ _ _ h
      exact ⟨h3, SelfKept_trans h2 h4⟩

/-- LCUIWidget_RefreshStyle keeps the module state and the metrics. -/
theorem LCUIWidget_RefreshStyle_selfKept (K : Defs) (E : Env) (fuel : Nat) (S S' : World)
    (h : LCUIWidget_RefreshStyle K E fuel S = Except.ok S') : SelfKept S S' := by
  unfold LCUIWidget_RefreshStyle at h
  dsimp only at h
  split at h
  · cases h
  · simp only [Except.ok.injEq] at h
    subst h
    exact ⟨rfl, rfl⟩

/-! ### The adaptive budget (lines 607-622) -/

theorem rules_some_lt (ws : List Widget) (w : Nat) (data : LCUI_WidgetRulesDataRec)
    (h : (getW ws w).rules = some data) : w < ws.length := by
  by_contra hlt
  rw [getW_of_length_le ws w (Nat.le_of_not_lt hlt)] at h
  cases h

/-- The allowance that line 616 or line 620 assigns is the one that the rules
data holds when the loop is left. -/
theorem recompute_stored (E : Env) (S : World) (w : Nat) (v : Nat)
    (data : LCUI_WidgetRulesDataRec) (h : (getW S.widgets w).rules = some data) :
    storedAllowance ((World.clock E (S.onWidgets (fun ws =>
      updW ws w (fun x => x.setForChildren true)))).2.onWidgets (fun ws =>
        setDefaultMaxUpdateCount ws w v)).widgets w = some v := by
  have hw := rules_some_lt _ _ _ h
  unfold storedAllowance setDefaultMaxUpdateCount World.clock
  simp only [World.onWidgets_widgets]
  rw [getW_updW_same _ _ _ (by rw [length_updW]; exact hw), getW_updW_same _ _ _ hw]
  have : ((getW S.widgets w).setForChildren true).rules = some data := h
  rw [this]
  rfl

set_option maxHeartbeats 4000000 in
/-- When the loop is left after the allowance was recomputed, the rules data
of the container holds the recomputed allowance. -/
theorem updateChildrenLoopTraced_stored (K : Defs) (E : Env) (upd : UpdateFn) (w : Nat)
    (ctx : LCUI_WidgetTaskContext) (hasData : Bool) :
    ∀ (children : List Nat) (S : World) (total update_count : Nat) (msec : Int)
      (t : Nat) (S' : World) (uc : Nat) (u : Nat) (e : Int) (v : Nat),
      updateChildrenLoopTraced K E upd w ctx hasData children S total update_count msec =
        Except.ok (t, S', uc, LoopExit.recomputed u e v) →
      storedAllowance S'.widgets w = some v
  | [], _, _, _, _, _, _, _, _, _, _ => by
    intro h
    simp [updateChildrenLoopTraced] at h
  | child :: rest, S, total, update_count, msec, t, S', uc, u, e, v => by
    intro h
    unfold updateChildrenLoopTraced at h
    cases hupd : upd S child ctx with
    | error err => rw [hupd] at h; cases h
    | ok r =>
      obtain ⟨count, S1⟩ := r
      rw [hupd] at h
      simp only at h
      by_cases hc : count > 0 <;>
      by_cases hd : (getW S1.widgets child).task.for_self = true ∨
        (getW S1.widgets child).task.for_children = true <;>
      cases hasData <;>
      simp only [hc, hd, and_true, and_false, if_true, if_false, Bool.false_eq_true,
        false_and] at h <;>
      repeat' split at h
      all_goals first
        | exact updateChildrenLoopTraced_stored K E upd w ctx _ rest _ _ _ _ _ _ _ _ _ _ h
        | (simp only [Except.ok.injEq, Prod.mk.injEq, reduceCtorEq, and_false] at h
           done)
        | (simp only [Except.ok.injEq, Prod.mk.injEq, LoopExit.recomputed.injEq] at h
           obtain ⟨-, rfl, -, -, -, rfl⟩ := h
           exact recompute_stored E _ w _ _ (by assumption))

/-- C21. Adaptive budget formula: whenever the loop of Widget_UpdateChildren
(lines 578-623) is left at line 622 after the allowance was recomputed, for
every update function, container, child list and state, with `u` the value
of `update_count` and `e` the elapsed ticks that lines 616-618 read, at least
one tick has elapsed and the allowance that the successive divisions of lines
616-618 compute is the single quotient
`u * CLOCKS_PER_SEC / (max_updates_per_frame * LCUI_MAX_FRAMES_PER_SEC * e)`
rounded down (the division of the natural numbers): the value stored in
`default_max_update_count` is that quotient, or 32 when the quotient is below
1.  Overflow is left out, as in the claim; the divisors are positive in the C
program and the division of the model gives 0 for a divisor 0. -/
theorem Widget_UpdateChildren_budget_formula (K : Defs) (E : Env) (upd : UpdateFn) (w : Nat)
    (ctx : LCUI_WidgetTaskContext) (hasData : Bool) (children : List Nat) (S : World)
    (total update_count : Nat) (msec : Int) (u : Nat) (e : Int) (v : Nat)
    (h : loopExit (updateChildrenLoopTraced K E upd w ctx hasData children S total update_count
      msec) = some (LoopExit.recomputed u e v)) :
    1 ≤ e ∧
      u * K.CLOCKS_PER_SEC /
          (loopWorld (updateChildrenLoopTraced K E upd w ctx hasData children S total
            update_count msec)).self.max_updates_per_frame /
          K.LCUI_MAX_FRAMES_PER_SEC / e.toNat =
        u * K.CLOCKS_PER_SEC /
          ((loopWorld (updateChildrenLoopTraced K E upd w ctx hasData children S total
            update_count msec)).self.max_updates_per_frame *
            K.LCUI_MAX_FRAMES_PER_SEC * e.toNat) ∧
      v = (if u * K.CLOCKS_PER_SEC /
            ((loopWorld (updateChildrenLoopTraced K E upd w ctx hasData children S total
              update_count msec)).self.max_updates_per_frame *
              K.LCUI_MAX_FRAMES_PER_SEC * e.toNat) < 1 then 32
          else u * K.CLOCKS_PER_SEC /
            ((loopWorld (updateChildrenLoopTraced K E upd w ctx hasData children S total
              update_count msec)).self.max_updates_per_frame *
              K.LCUI_MAX_FRAMES_PER_SEC * e.toNat)) ∧
      storedAllowance (loopWorld (updateChildrenLoopTraced K E upd w ctx hasData children S total
        update_count msec)).widgets w = some v := by
  cases hr : updateChildrenLoopTraced K E upd w ctx hasData children S total update_count msec with
  | error err => rw [hr] at h; cases h
  | ok r =>
    obtain ⟨t, S', uc, exit⟩ := r
    rw [hr] at h
    simp only [loopExit, Option.some.injEq] at h
    subst h
    obtain ⟨-, he, hv⟩ := updateChildrenLoopTraced_recomputed K E upd w ctx hasData children S
      total update_count msec _ _ _ _ _ _ hr
    have hs := updateChildrenLoopTraced_stored K E upd w ctx hasData children S
      total update_count msec _ _ _ _ _ _ hr
    simp only [loopWorld]
    have hq : u * K.CLOCKS_PER_SEC / S'.self.max_updates_per_frame /
        K.LCUI_MAX_FRAMES_PER_SEC / e.toNat =
        u * K.CLOCKS_PER_SEC /
          (S'.self.max_updates_per_frame * K.LCUI_MAX_FRAMES_PER_SEC * e.toNat) := by
      rw [Nat.div_div_eq_div_mul, Nat.div_div_eq_div_mul, Nat.mul_assoc]
    rw [hq] at hv
    exact ⟨he, hq, hv, hs⟩

/-- C22. Adaptive budget floor: whenever the loop of Widget_UpdateChildren,
entered with `update_count` 0 as Widget_UpdateChildren enters it and updating
the children with Widget_UpdateWithContext, is left at line 622 after the
allowance was recomputed, at least one tick has elapsed, `update_count` is
still 0 and the allowance stored in `default_max_update_count` is 32, which
is at least 32.  (Line 619 replaces only a quotient below 1; as
Widget_UpdateWithContext reports 0 for every child, the quotient is the
quotient of 0.) -/
theorem Widget_UpdateChildren_budget_floor (K : Defs) (E : Env) (fuel : Nat) (w : Nat)
    (ctx : LCUI_WidgetTaskContext) (hasData : Bool) (children : List Nat) (S : World)
    (total : Nat) (msec : Int) (u : Nat) (e : Int) (v : Nat)
    (h : loopExit (updateChildrenLoopTraced K E (Widget_UpdateWithContext K E fuel) w ctx hasData
      children S total 0 msec) = some (LoopExit.recomputed u e v)) :
    1 ≤ e ∧ u = 0 ∧ 32 ≤ v ∧ v = 32 ∧
      storedAllowance (loopWorld (updateChildrenLoopTraced K E (Widget_UpdateWithContext K E fuel)
        w ctx hasData children S total 0 msec)).widgets w = some 32 := by
  cases hr : updateChildrenLoopTraced K E (Widget_UpdateWithContext K E fuel) w ctx hasData
      children S total 0 msec with
  | error err => rw [hr] at h; cases h
  | ok r =>
    obtain ⟨t, S', uc, exit⟩ := r
    rw [hr] at h
    simp only [loopExit, Option.some.injEq] at h
    subst h
    obtain ⟨hu, he, hv⟩ := updateChildrenLoopTraced_recomputed K E _ w ctx hasData children S
      total 0 msec _ _ _ _ _ _ hr
    have hs := updateChildrenLoopTraced_stored K E _ w ctx hasData children S
      total 0 msec _ _ _ _ _ _ hr
    obtain ⟨-, -, huc⟩ := updateChildrenLoopTraced_tame K E _ (Widget_UpdateWithContext_tame K E fuel)
      w ctx hasData children S total 0 msec _ _ _ _ hr
    have hu0 : u = 0 := hu.trans huc
    subst hu0
    simp only [Nat.zero_mul, Nat.zero_div, Nat.lt_one_iff, ↓reduceIte] at hv
    subst hv
    exact ⟨he, rfl, Nat.le_refl _, rfl, hs⟩

/-- C28. The reported work count is always zero: for every environment, every
bound on the depth, every state and every context chain, a result of
Widget_UpdateWithContext is 0, and so is a result of Widget_UpdateChildren and
of Widget_UpdateVisibleChildren that update the children with it, of
Widget_Update and of LCUIWidget_Update; the counter `update_count` of the loop
of Widget_UpdateChildren, which starts at 0, is 0 when the loop is left, in
whichever way.  That results exist is the last part: over a finite tree
without update rules whose depth the bound exceeds, when the other modules
change no widget, Widget_UpdateWithContext and Widget_Update return, with the
count 0. -/
theorem Widget_UpdateWithContext_reports_zero (K : Defs) (E : Env) (fuel : Nat) :
    (∀ S w ctx count S',
      Widget_UpdateWithContext K E fuel S w ctx = Except.ok (count, S') → count = 0) ∧
    (∀ S w ctx count S',
      Widget_UpdateChildren K E (Widget_UpdateWithContext K E fuel) S w ctx =
        Except.ok (count, S') → count = 0) ∧
    (∀ S w ctx count S',
      Widget_UpdateVisibleChildren K E (Widget_UpdateWithContext K E fuel) S w ctx =
        Except.ok (count, S') → count = 0) ∧
    (∀ S w count S', Widget_Update K E fuel S w = Except.ok (count, S') → count = 0) ∧
    (∀ S count S', LCUIWidget_Update K E fuel S = Except.ok (count, S') → count = 0) ∧
    (∀ w ctx hasData children S total msec update_count,
      loopCount (updateChildrenLoopTraced K E (Widget_UpdateWithContext K E fuel) w ctx hasData
        children S total 0 msec) = some update_count → update_count = 0) ∧
    (Quiet E → ∀ ws0 rank S w ctx, PassReady E ws0 rank S w ctx → rank w < fuel →
      ∃ S', Widget_UpdateWithContext K E fuel S w ctx = Except.ok (0, S')) ∧
    (Quiet E → ∀ ws0 rank S w, PassReady E ws0 rank S w [] → rank w < fuel →
      ∃ S', Widget_Update K E fuel S w = Except.ok (0, S')) := by
  have hT := Widget_UpdateWithContext_tame K E fuel
  refine ⟨fun S w ctx count S' h => (hT S w ctx count S' h).1,
    fun S w ctx count S' h => (Widget_UpdateChildren_tame K E _ hT S w ctx count S' h).1,
    fun S w ctx count S' h => (Widget_UpdateVisibleChildren_tame K E _ hT S w ctx count S' h).1,
    fun S w count S' h => (Widget_Update_tame K E fuel S w count S' h).1, ?_, ?_, ?_, ?_⟩
  · intro S count S' h
    unfold LCUIWidget_Update at h
    simp only at h
    split at h
    · cases h
    · split at h
      · cases h
      · next c S3 hp =>
        simp only [Except.ok.injEq, Prod.mk.injEq] at h
        rw [← h.1]
        exact (updatePasses_tame K E fuel _ 4 _ 0 _ _ hp).1
  · intro w ctx hasData children S total msec update_count h
    cases hr : updateChildrenLoopTraced K E (Widget_UpdateWithContext K E fuel) w ctx hasData
        children S total 0 msec with
    | error err => rw [hr] at h; cases h
    | ok r =>
      obtain ⟨t, S', uc, exit⟩ := r
      rw [hr] at h
      simp only [loopCount, Option.some.injEq] at h
      subst h
      exact (updateChildrenLoopTraced_tame K E _ hT w ctx hasData children S total 0 msec _ _ _ _
        hr).2.2
  · intro hq ws0 rank S w ctx hready hfuel
    obtain ⟨S', hr, -⟩ := Widget_UpdateWithContext_quiet K E hq ws0 rank fuel ctx S w hready hfuel
    exact ⟨S', hr⟩
  · intro hq ws0 rank S w hready hfuel
    obtain ⟨S', hr, -⟩ := Widget_Update_quiet K E hq ws0 rank fuel S w hready hfuel
    exact ⟨S', hr⟩

/-! ### The frame drivers (lines 709-770) -/

theorem refreshIfPending_selfKept (K : Defs) (E : Env) (fuel : Nat) (S2 S3 : World)
    (h : (if S2.self.refresh_all = true then LCUIWidget_RefreshStyle K E fuel S2
      else Except.ok S2) = Except.ok S3) : SelfKept S2 S3 := by
  split at h
  · exact LCUIWidget_RefreshStyle_selfKept K E fuel S2 S3 h
  · simp only [Except.ok.injEq] at h
    subst h
    exact SelfKept_refl _

/-- The state in which the passes start: `refresh_all` is set if it was set or
the metrics differ from the stored ones, and the stored metrics are kept. -/
theorem LCUIWidget_Update_begin_self (K : Defs) (E : Env) (fuel : Nat) (S S2 : World)
    (h : LCUIWidget_Update_begin K E fuel S = Except.ok S2) :
    S2.self = (if S.metrics ≠ S.self.metrics then { S.self with refresh_all := true }
      else S.self) ∧ S2.metrics = S.metrics := by
  unfold LCUIWidget_Update_begin at h
  have hk := refreshIfPending_selfKept K E fuel _ S2 h
  refine ⟨?_, ?_⟩
  · rw [hk.1]
    split <;> rfl
  · rw [hk.2]
    split <;> rfl

/-- LCUIWidget_Update is its first part, four passes and the commit of lines
727-730. -/
theorem LCUIWidget_Update_unfold (K : Defs) (E : Env) (fuel : Nat) (S : World) (count : Nat)
    (S' : World) (h : LCUIWidget_Update K E fuel S = Except.ok (count, S')) :
    ∃ S2 S3, LCUIWidget_Update_begin K E fuel S = Except.ok S2 ∧
      updatePasses K E fuel E.LCUIWidget_GetRoot 4 S2 0 = Except.ok (count, S3) ∧
      S'.self = { S3.self with metrics := S3.metrics, refresh_all := false } ∧
      S'.metrics = S3.metrics := by
  unfold LCUIWidget_Update at h
  simp only at h
  split at h
  · cases h
  · next S2 h2 =>
    split at h
    · cases h
    · next c S3 h3 =>
      simp only [Except.ok.injEq, Prod.mk.injEq] at h
      obtain ⟨rfl, rfl⟩ := h
      exact ⟨S2, S3, h2, h3, rfl, rfl⟩

/-- C23. Frame driver commits refresh state at the end of the cycle: for
every state, environment and bound on the depth, whenever LCUIWidget_Update
returns, (1) in the state in which the passes start `refresh_all` is set if
the current metrics differ from the stored snapshot (it is set exactly when
it was set before or they differ) and the snapshot is still the old one,
(2) the module state, with `refresh_all` and the snapshot, is the same after
each number of Widget_Update passes as when the passes start, (3) in the
state returned `refresh_all` is false and the stored snapshot is the current
metrics, and (4) the first part of an immediately following LCUIWidget_Update
under the same metrics changes nothing: it does not call
LCUIWidget_RefreshStyle and its passes start in the state returned, with
`refresh_all` false. -/
theorem LCUIWidget_Update_commits_at_end (K : Defs) (E : Env) (fuel : Nat) (S : World)
    (count : Nat) (S' : World) (h : LCUIWidget_Update K E fuel S = Except.ok (count, S')) :
    ∃ S2 S3, LCUIWidget_Update_begin K E fuel S = Except.ok S2 ∧
      updatePasses K E fuel E.LCUIWidget_GetRoot 4 S2 0 = Except.ok (count, S3) ∧
      (S.metrics ≠ S.self.metrics → S2.self.refresh_all = true) ∧
      S2.self.refresh_all = (S.self.refresh_all || decide (S.metrics ≠ S.self.metrics)) ∧
      S2.self.metrics = S.self.metrics ∧
      (∀ n c Sn, updatePasses K E fuel E.LCUIWidget_GetRoot n S2 0 = Except.ok (c, Sn) →
        Sn.self = S2.self ∧ Sn.self.refresh_all = S2.self.refresh_all ∧
          Sn.metrics = S.metrics) ∧
      S'.self.refresh_all = false ∧ S'.self.metrics = S'.metrics ∧ S'.metrics = S.metrics ∧
      LCUIWidget_Update_begin K E fuel S' = Except.ok S' := by
  obtain ⟨S2, S3, h2, h3, hself, hmetrics⟩ := LCUIWidget_Update_unfold K E fuel S count S' h
  obtain ⟨hs2, hm2⟩ := LCUIWidget_Update_begin_self K E fuel S S2 h2
  have hk3 := (updatePasses_tame K E fuel _ 4 S2 0 _ _ h3).2
  have hfalse : S'.self.refresh_all = false := by rw [hself]
  have hstored : S'.self.metrics = S'.metrics := by rw [hself, hmetrics]
  refine ⟨S2, S3, h2, h3, ?_, ?_, ?_, ?_, hfalse, hstored, ?_, ?_⟩
  · intro hne
    rw [hs2, if_pos hne]
  · rw [hs2]
    by_cases hne : S.metrics ≠ S.self.metrics
    · simp [hne]
    · simp [hne]
  · rw [hs2]
    split <;> rfl
  · intro n c Sn hn
    have hk := (updatePasses_tame K E fuel _ n S2 0 _ _ hn).2
    exact ⟨hk.1, by rw [hk.1], by rw [hk.2, hm2]⟩
  · rw [hmetrics, hk3.2, hm2]
  · unfold LCUIWidget_Update_begin
    simp only [hstored, ne_eq, not_true_eq_false, if_false, hfalse, Bool.false_eq_true]

/-- Widget_BeginUpdate leaves the diff of the new context as the allocation
returned it. -/
theorem Widget_BeginUpdate_diff (K : Defs) (E : Env) (S : World) (w : Nat)
    (ctx : LCUI_WidgetTaskContext) (block : LCUI_WidgetTaskContextRec)
    (hm : E.malloc S.mallocs = some block) :
    ∃ c0, (Widget_BeginUpdate K E S w ctx).1 = some c0 ∧ c0.diff = block.diff ∧ c0.owner = w := by
  have hown : ∀ (S1 : World) (c : LCUI_WidgetTaskContextRec),
      (Widget_BeginUpdate_own E S1 w c).1.diff = c.diff ∧
      (Widget_BeginUpdate_own E S1 w c).1.owner = c.owner := by
    intro S1 c
    unfold Widget_BeginUpdate_own
    split
    · split
      · exact ⟨rfl, rfl⟩
      · exact ⟨rfl, rfl⟩
    · exact ⟨rfl, rfl⟩
  unfold Widget_BeginUpdate
  simp only [hm]
  refine ⟨_, rfl, ?_, ?_⟩
  · rw [(hown _ _).1]
    split <;> rfl
  · rw [(hown _ _).2]
    split <;> rfl

/-- Widget_UpdateWithProfile keeps the module state and the metrics. -/
theorem Widget_UpdateWithProfile_selfKept (K : Defs) (E : Env) (fuel : Nat) (S : World) (w : Nat)
    (S' : World) (h : Widget_UpdateWithProfile K E fuel S w = Except.ok S') : SelfKept S S' := by
  unfold Widget_UpdateWithProfile at h
  split at h
  · cases h
  · next c0 S1 hb =>
    have hS1 : SelfKept S S1 := by
      have := Widget_BeginUpdate_selfKept K E S w []
      rw [hb] at this
      exact this
    dsimp only at h
    split at h
    · cases h
    · next count1 S2 hu =>
      simp only [Except.ok.injEq] at h
      subst h
      exact SelfKept_trans hS1 (Widget_UpdateWithContext_tame K E fuel _ _ _ _ _ hu).2

theorem profilePasses_selfKept (K : Defs) (E : Env) (fuel : Nat) (root : Nat) :
    ∀ (n : Nat) (S S' : World), profilePasses K E fuel root n S = Except.ok S' → SelfKept S S'
  | 0, _, _ => by
    intro h
    simp only [profilePasses, Except.ok.injEq] at h
    subst h
    exact SelfKept_refl _
  | n + 1, S, S' => by
    intro h
    unfold profilePasses at h
    split at h
    · cases h
    · next S1 hu =>
      exact SelfKept_trans (Widget_UpdateWithProfile_selfKept K E fuel S root S1 hu)
        (profilePasses_selfKept K E fuel root n S1 S' h)

/-- C30. The profiling frame driver does not leave the scheduler state of the
plain one: whenever LCUIWidget_UpdateWithProfile returns, `refresh_all` is
set if it was set before or the metrics differed from the stored snapshot,
and the stored snapshot is the one stored before, so that after a change of
the metrics `refresh_all` is true and the snapshot is not the current
metrics; and the root context that Widget_UpdateWithProfile hands to
Widget_UpdateWithContext has the diff, with its flags, that the allocation
returned: Widget_InitDiff is not run on it. -/
theorem LCUIWidget_UpdateWithProfile_leaves_refresh_pending (K : Defs) (E : Env) (fuel : Nat) :
    (∀ S S', LCUIWidget_UpdateWithProfile K E fuel S = Except.ok S' →
      S'.self.refresh_all = (S.self.refresh_all || decide (S.metrics ≠ S.self.metrics)) ∧
      S'.self.metrics = S.self.metrics ∧ S'.metrics = S.metrics ∧
      (S.metrics ≠ S.self.metrics →
        S'.self.refresh_all = true ∧ S'.self.metrics ≠ S'.metrics)) ∧
    (∀ S w block, E.malloc S.mallocs = some block →
      ∃ c0 S1, Widget_BeginUpdate K E S w [] = (some c0, S1) ∧ c0.diff = block.diff ∧
        Widget_UpdateWithProfile K E fuel S w =
          (Widget_UpdateWithContext K E fuel S1 w [{ c0 with profile := some 0 }]).map
            (fun r => r.2)) := by
  constructor
  · intro S S' h
    have hmain : S'.self = (if S.metrics ≠ S.self.metrics then
        { S.self with refresh_all := true } else S.self) ∧ S'.metrics = S.metrics := by
      unfold LCUIWidget_UpdateWithProfile at h
      simp only at h
      split at h
      · cases h
      · next S3 h3 =>
        split at h
        · cases h
        · next S4 h4 =>
          split at h
          · cases h
          · next S5 h5 =>
            simp only [Except.ok.injEq] at h
            subst h
            have e5 := profilePasses_selfKept K E fuel _ 4 S4 S5 h5
            have e4 := refreshIfPending_selfKept K E fuel S3 S4 h4
            have e3 := refreshIfPending_selfKept K E fuel _ S3 h3
            constructor
            · show S5.self = _
              rw [e5.1, e4.1, e3.1]
              by_cases hne : S.metrics ≠ S.self.metrics
              · rw [if_pos hne, if_pos (by exact hne)]
                rfl
              · rw [if_neg hne, if_neg (by exact hne)]
                rfl
            · show S5.metrics = _
              rw [e5.2, e4.2, e3.2]
              by_cases hne : S.metrics ≠ S.self.metrics
              · rw [if_pos (by exact hne)]
                rfl
              · rw [if_neg (by exact hne)]
                rfl
    obtain ⟨hs, hm⟩ := hmain
    have hr : S'.self.refresh_all =
        (S.self.refresh_all || decide (S.metrics ≠ S.self.metrics)) := by
      rw [hs]
      by_cases hne : S.metrics ≠ S.self.metrics
      · simp [hne]
      · simp [hne]
    have hsm : S'.self.metrics = S.self.metrics := by
      rw [hs]
      split <;> rfl
    refine ⟨hr, hsm, hm, ?_⟩
    intro hne
    refine ⟨?_, ?_⟩
    · rw [hr]
      simp [hne]
    · rw [hsm, hm]
      exact fun e => hne e.symm
  · intro S w block hm
    obtain ⟨c0, hc0, hdiff, -⟩ := Widget_BeginUpdate_diff K E S w [] block hm
    refine ⟨c0, (Widget_BeginUpdate K E S w []).2, ?_, hdiff, ?_⟩
    · rw [← hc0]
    · unfold Widget_UpdateWithProfile
      have hb : Widget_BeginUpdate K E S w [] = (some c0, (Widget_BeginUpdate K E S w []).2) := by
        rw [← hc0]
      rw [hb]
      dsimp only
      cases Widget_UpdateWithContext K E fuel (Widget_BeginUpdate K E S w []).2 w
        [{ c0 with profile := some 0 }] with
      | error e => rfl
      | ok r => rfl

theorem ok_of_isOk (r : Except Fault World) (h : isOk r = true) : r = Except.ok (okState r) := by
  cases r with
  | error e => cases h
  | ok S => rfl

/-! ### Allocation failure and the visibility gate -/

/-- C25. Context allocation failure: when the allocation of Widget_BeginUpdate
fails, Widget_BeginUpdate returns no context (line 428), and then
Widget_UpdateWithContext on a widget with pending work and Widget_Update on
any widget do not return: the next statement, Widget_InitDiff (line 251),
writes through the NULL pointer. -/
theorem Widget_UpdateWithContext_null_context (K : Defs) (E : Env) (fuel : Nat) (S : World)
    (w : Nat) (ctx : LCUI_WidgetTaskContext) (hm : E.malloc S.mallocs = none) :
    (Widget_BeginUpdate K E S w ctx).1 = none ∧
    (((getW S.widgets w).task.for_self = true ∨ (getW S.widgets w).task.for_children = true) →
      Widget_UpdateWithContext K E (fuel + 1) S w ctx = Except.error Fault.null) ∧
    Widget_Update K E fuel S w = Except.error Fault.null := by
  have hb : ∀ chain, Widget_BeginUpdate K E S w chain =
      (none, { S with mallocs := S.mallocs + 1 }) := by
    intro chain
    unfold Widget_BeginUpdate
    simp only [hm]
  refine ⟨by rw [hb], ?_, ?_⟩
  · intro hp
    unfold Widget_UpdateWithContext
    rw [hb]
    rcases hp with hp | hp <;> simp [hp]
  · unfold Widget_Update
    rw [hb]

/-- C26. Visibility gate: for every container `w` with `for_children` set
whose rules request `only_on_visible` and which is not in the visible area,
and for every function that would update a child, Widget_UpdateChildren
returns 0 in a state that differs from the state at entry only by the clock
reading of line 558: the widgets, with `for_children` of `w` and the task
record of every child, are the same and no call was made. -/
theorem Widget_UpdateChildren_visibility_gate (K : Defs) (E : Env) (upd : UpdateFn) (S : World)
    (w : Nat) (ctx : LCUI_WidgetTaskContext) (data : LCUI_WidgetRulesDataRec)
    (hfc : (getW S.widgets w).task.for_children = true)
    (hrules : (getW S.widgets w).rules = some data)
    (hvis : data.rules.only_on_visible = true)
    (hout : E.Widget_InVisibleArea S.widgets w = false) :
    Widget_UpdateChildren K E upd S w ctx = Except.ok (0, { S with clocks := S.clocks + 1 }) ∧
      (okWorld (Widget_UpdateChildren K E upd S w ctx)).widgets = S.widgets ∧
      (okWorld (Widget_UpdateChildren K E upd S w ctx)).trace = S.trace ∧
      (getW (okWorld (Widget_UpdateChildren K E upd S w ctx)).widgets w).task.for_children =
        true ∧
      ∀ child ∈ (getW S.widgets w).children,
        (getW (okWorld (Widget_UpdateChildren K E upd S w ctx)).widgets child).task =
          (getW S.widgets child).task := by
  have h : Widget_UpdateChildren K E upd S w ctx =
      Except.ok (0, { S with clocks := S.clocks + 1 }) := by
    unfold Widget_UpdateChildren
    simp only [hfc, hrules, World.clock, hvis, hout]
    rfl
  rw [h]
  exact ⟨rfl, rfl, rfl, hfc, fun _ _ => rfl⟩

/-! ### The box models when the other modules change no widget -/

theorem BoxesKept_refl (S : World) : BoxesKept S S := fun _ => rfl

theorem BoxesKept_trans {a b c : World} (h1 : BoxesKept a b) (h2 : BoxesKept b c) :
    BoxesKept a c := fun i => (h2 i).trans (h1 i)

theorem box_updW (ws : List Widget) (w : Nat) (f : Widget → Widget)
    (hf : ∀ x, (f x).box = x.box) (i : Nat) : (getW (updW ws w f) i).box = (getW ws i).box := by
  rw [getW_updW]
  split
  · next h => rw [hf, h.1]
  · rfl

theorem box_setForChildren (ws : List Widget) (w : Nat) (b : Bool) (i : Nat) :
    (getW (updW ws w (fun x => x.setForChildren b)) i).box = (getW ws i).box := by
  apply box_updW
  intro x
  rfl

theorem box_setForSelf (ws : List Widget) (w : Nat) (b : Bool) (i : Nat) :
    (getW (updW ws w (fun x => x.setForSelf b)) i).box = (getW ws i).box := by
  apply box_updW
  intro x
  rfl

theorem box_setTaskState (ws : List Widget) (w k : Nat) (b : Bool) (i : Nat) :
    (getW (updW ws w (fun x => x.setTaskState k b)) i).box = (getW ws i).box := by
  apply box_updW
  intro x
  rfl

theorem box_noteProgress (child : Nat) (ws : List Widget) (w : Nat) (i : Nat) :
    (getW (noteProgress child ws w) i).box = (getW ws i).box := by
  unfold noteProgress
  apply box_updW
  intro x
  split <;> rfl

theorem box_setDefaultMaxUpdateCount (ws : List Widget) (w v : Nat) (i : Nat) :
    (getW (setDefaultMaxUpdateCount ws w v) i).box = (getW ws i).box := by
  unfold setDefaultMaxUpdateCount
  apply box_updW
  intro x
  split <;> rfl

theorem box_of_tasksGrow {ws ws' : List Widget} (h : TasksGrow ws ws') (i : Nat) :
    (getW ws' i).box = (getW ws i).box := by
  have h1 := (h.2 i).1
  rw [h1]

theorem box_Widget_AddTask (K : Defs) (ws : List Widget) (w k : Nat) (i : Nat) :
    (getW (Widget_AddTask K ws w k) i).box = (getW ws i).box :=
  box_of_tasksGrow (Widget_AddTask_tasksGrow K ws w k) i

theorem box_Widget_AddReflowTask (K : Defs) (E : Env) (ws : List Widget) (w : Option Nat)
    (i : Nat) : (getW (Widget_AddReflowTask K E ws w) i).box = (getW ws i).box :=
  box_of_tasksGrow (Widget_AddReflowTask_tasksGrow K E ws w) i

theorem box_Widget_OnUpdateContentBox (K : Defs) (ws : List Widget) (w : Nat) (i : Nat) :
    (getW (Widget_OnUpdateContentBox K ws w) i).box = (getW ws i).box :=
  box_of_tasksGrow (Widget_OnUpdateContentBox_tasksGrow K ws w) i

theorem BoxesKept_call (E : Env) (hq : Quiet E) (S : World) (c : Call) :
    BoxesKept S (S.call E c) := by
  intro i
  rw [World.call_widgets, hq.1]

theorem Widget_BeginUpdate_own_boxes (E : Env) (hq : Quiet E) (S : World) (w : Nat)
    (c : LCUI_WidgetTaskContextRec) : BoxesKept S (Widget_BeginUpdate_own E S w c).2 := by
  unfold Widget_BeginUpdate_own
  split
  · split
    · dsimp only
      refine BoxesKept_trans ?_ (BoxesKept_call E hq _ _)
      split
      · exact BoxesKept_refl _
      · intro i
        dsimp only
        apply box_updW
        intro x
        rfl
    · exact BoxesKept_refl _
  · exact BoxesKept_refl _

theorem Widget_BeginUpdate_resolve_boxes (E : Env) (hq : Quiet E) (S : World) (w : Nat)
    (c : LCUI_WidgetTaskContextRec) : BoxesKept S (Widget_BeginUpdate_resolve E S w c) := by
  have hstyle : ∀ (S1 : World) (style : Option StyleRef), BoxesKept S1
      (S1.onWidgets (fun ws => updW ws w (fun x => { x with inherited_style := style }))) := by
    intro S1 style i
    rw [World.onWidgets_widgets]
    apply box_updW
    intro x
    rfl
  unfold Widget_BeginUpdate_resolve
  split
  · split
    · dsimp only
      split
      · exact hstyle _ _
      · refine BoxesKept_trans ?_ (hstyle _ _)
        intro i
        show (getW (E.effect _ S.widgets) i).box = _
        rw [hq.1]
    · exact BoxesKept_trans (BoxesKept_call E hq _ _) (hstyle _ _)
  · exact BoxesKept_trans (BoxesKept_call E hq _ _) (hstyle _ _)

/-- Widget_BeginUpdate changes no box model when the other modules change no
widget. -/
theorem Widget_BeginUpdate_boxes (K : Defs) (E : Env) (hq : Quiet E) (S : World) (w : Nat)
    (ctx : LCUI_WidgetTaskContext) : BoxesKept S (Widget_BeginUpdate K E S w ctx).2 := by
  cases hm : E.malloc S.mallocs with
  | none =>
    unfold Widget_BeginUpdate
    simp only [hm]
    exact BoxesKept_refl _
  | some block =>
    obtain ⟨c2, -, -, heq⟩ := Widget_BeginUpdate_unfold K E S w ctx block hm
    rw [heq]
    have h0 : BoxesKept S (atLookup K E S w) := by
      unfold atLookup
      split
      · intro i
        rw [World.call_widgets, hq.1]
      · exact BoxesKept_refl _
    have h1 := Widget_BeginUpdate_own_boxes E hq (atLookup K E S w) w c2
    have h2 := Widget_BeginUpdate_resolve_boxes E hq
      (Widget_BeginUpdate_own E (atLookup K E S w) w c2).2 w
      (Widget_BeginUpdate_own E (atLookup K E S w) w c2).1
    dsimp only
    split
    · refine BoxesKept_trans (BoxesKept_trans (BoxesKept_trans h0 h1) h2) ?_
      intro i
      rw [World.onWidgets_widgets, box_Widget_AddTask]
    · exact BoxesKept_trans (BoxesKept_trans h0 h1) h2

theorem Widget_EndDiff_visibility_boxes (K : Defs) (E : Env) (hq : Quiet E) (S : World) (w : Nat)
    (d : LCUI_WidgetTaskDiffRec) : BoxesKept S (Widget_EndDiff_visibility K E S w d).2 := by
  unfold Widget_EndDiff_visibility
  dsimp only
  split
  · exact BoxesKept_call E hq _ _
  · exact BoxesKept_refl _

theorem Widget_EndDiff_geometry_boxes (K : Defs) (E : Env) (S : World) (w : Nat)
    (d : LCUI_WidgetTaskDiffRec) : BoxesKept S (Widget_EndDiff_geometry K E S w d).2 := by
  unfold Widget_EndDiff_geometry
  dsimp only
  repeat' split
  all_goals
    intro i
    first
      | rfl
      | simp only [World.onWidgets_widgets, box_Widget_AddReflowTask,
          box_Widget_OnUpdateContentBox]

theorem Widget_EndDiff_flex_boxes (K : Defs) (E : Env) (S : World) (w : Nat)
    (d : LCUI_WidgetTaskDiffRec) : BoxesKept S (Widget_EndDiff_flex K E S w d) := by
  unfold Widget_EndDiff_flex
  dsimp only
  repeat' split
  all_goals
    intro i
    first
      | rfl
      | simp only [World.onWidgets_widgets, box_Widget_AddReflowTask]

theorem Widget_EndDiff_display_boxes (K : Defs) (E : Env) (S : World) (w : Nat)
    (d : LCUI_WidgetTaskDiffRec) : BoxesKept S (Widget_EndDiff_display K E S w d).2 := by
  unfold Widget_EndDiff_display
  dsimp only
  repeat' split
  all_goals
    intro i
    first
      | rfl
      | simp only [World.onWidgets_widgets, box_Widget_AddReflowTask]

theorem Widget_EndDiff_emit_boxes (K : Defs) (E : Env) (hq : Quiet E) (S : World) (w : Nat)
    (d : LCUI_WidgetTaskDiffRec) : BoxesKept S (Widget_EndDiff_emit K E S w d).2 := by
  unfold Widget_EndDiff_emit
  dsimp only
  repeat' split
  all_goals
    intro i
    first
      | rfl
      | simp only [World.call_widgets, hq.1]

theorem afterLayoutChecks_boxes (K : Defs) (E : Env) (hq : Quiet E) (S : World) (w : Nat)
    (ctx : LCUI_WidgetTaskContextRec) : BoxesKept S (afterLayoutChecks K E S w ctx) := by
  have h1 : BoxesKept S (atCompare K E S w ctx) := by
    unfold atCompare Widget_EndDiff_boxes
    exact BoxesKept_trans (BoxesKept_trans (Widget_EndDiff_visibility_boxes K E hq S w ctx.diff)
      (BoxesKept_call E hq _ _)) (BoxesKept_call E hq _ _)
  have h2 := Widget_EndDiff_geometry_boxes K E (atCompare K E S w ctx) w
    (diffAtCompare K E S w ctx)
  have h3 := Widget_EndDiff_flex_boxes K E
    (Widget_EndDiff_geometry K E (atCompare K E S w ctx) w (diffAtCompare K E S w ctx)).2 w
    (Widget_EndDiff_geometry K E (atCompare K E S w ctx) w (diffAtCompare K E S w ctx)).1
  have h4 := Widget_EndDiff_display_boxes K E
    (Widget_EndDiff_flex K E
      (Widget_EndDiff_geometry K E (atCompare K E S w ctx) w (diffAtCompare K E S w ctx)).2 w
      (Widget_EndDiff_geometry K E (atCompare K E S w ctx) w (diffAtCompare K E S w ctx)).1) w
    (Widget_EndDiff_geometry K E (atCompare K E S w ctx) w (diffAtCompare K E S w ctx)).1
  exact BoxesKept_trans (BoxesKept_trans (BoxesKept_trans h1 h2) h3) h4

/-- Widget_EndDiff changes no box model when the other modules change no
widget. -/
theorem Widget_EndDiff_boxes_kept (K : Defs) (E : Env) (hq : Quiet E) (S : World) (w : Nat)
    (ctx : LCUI_WidgetTaskContextRec) : BoxesKept S (Widget_EndDiff K E S w ctx).2.2 := by
  cases hcan : ctx.diff.can_render with
  | false =>
    unfold Widget_EndDiff
    simp only [hcan]
    exact BoxesKept_refl _
  | true =>
    rw [Widget_EndDiff_unfold K E S w ctx hcan]
    have h1 := afterLayoutChecks_boxes K E hq S w ctx
    split
    · exact h1
    · split
      · exact h1
      · exact BoxesKept_trans h1 (Widget_EndDiff_emit_boxes K E hq _ w _)

theorem runHandler_boxes (K : Defs) (E : Env) (hq : Quiet E) (S : World) (h : Handler)
    (w : Nat) : BoxesKept S (runHandler K E S h w) := by
  cases h with
  | compute fn => exact BoxesKept_call E hq _ _
  | Widget_OnUpdateStyle => exact BoxesKept_call E hq _ _
  | Widget_OnRefreshStyle =>
    intro i
    simp only [runHandler, Widget_OnRefreshStyle, World.onWidgets_widgets, World.call_widgets,
      hq.1]
    apply box_updW
    intro x
    rfl
  | Widget_OnSetTitle => exact BoxesKept_call E hq _ _

theorem Widget_UpdateSelf_task_boxes (K : Defs) (E : Env) (hq : Quiet E) (w : Nat) (S : World)
    (i : Nat) : BoxesKept S (Widget_UpdateSelf_task K E w S i) := by
  unfold Widget_UpdateSelf_task
  split
  · dsimp only
    have h1 : BoxesKept S (S.onWidgets (fun ws => updW ws w (fun x => x.setTaskState i false))) :=
      fun j => box_setTaskState _ _ _ _ j
    split
    · exact BoxesKept_trans h1 (runHandler_boxes K E hq _ _ w)
    · exact h1
  · exact BoxesKept_refl _

theorem Widget_UpdateSelf_loop_boxes (K : Defs) (E : Env) (hq : Quiet E) (w : Nat) :
    ∀ (l : List Nat) (S : World), BoxesKept S (l.foldl (Widget_UpdateSelf_task K E w) S)
  | [], S => BoxesKept_refl S
  | i :: rest, S => by
    simp only [List.foldl_cons]
    exact BoxesKept_trans (Widget_UpdateSelf_task_boxes K E hq w S i)
      (Widget_UpdateSelf_loop_boxes K E hq w rest _)

/-- Widget_UpdateSelf changes no box model when the other modules change no
widget. -/
theorem Widget_UpdateSelf_boxes (K : Defs) (E : Env) (hq : Quiet E) (S : World) (w : Nat)
    (ctx : LCUI_WidgetTaskContextRec) (parent : LCUI_WidgetTaskContext) :
    BoxesKept S (Widget_UpdateSelf K E S w ctx parent).2 := by
  unfold Widget_UpdateSelf
  dsimp only
  refine BoxesKept_trans (BoxesKept_trans (BoxesKept_trans (b := (if
      (getW S.widgets w).task.states K.LCUI_WTASK_USER = true ∧ (getW S.widgets w).has_runtask = true
    then (S.onWidgets (fun ws =>
      updW ws w (fun x => x.setTaskState K.LCUI_WTASK_USER false))).call E (Call.runtask w)
    else S).onWidgets (fun ws => updW ws w (fun x => x.setForSelf false))) ?_
    (Widget_UpdateSelf_loop_boxes K E hq w _ _)) (Widget_EndDiff_boxes_kept K E hq _ w _))
    (BoxesKept_call E hq _ _)
  intro i
  rw [World.onWidgets_widgets, box_setForSelf]
  split
  · rw [World.call_widgets, hq.1, World.onWidgets_widgets, box_setTaskState]
  · rfl

set_option maxHeartbeats 4000000 in
/-- With an update function that changes no box model, the loop over the
children changes none. -/
theorem updateChildrenLoop_boxes (K : Defs) (E : Env) (upd : UpdateFn) (hk : KeepsBoxes upd)
    (w : Nat) (ctx : LCUI_WidgetTaskContext) (hasData : Bool) :
    ∀ (children : List Nat) (S : World) (total update_count : Nat) (msec : Int)
      (t : Nat) (S' : World),
      updateChildrenLoop K E upd w ctx hasData children S total update_count msec =
        Except.ok (t, S') → BoxesKept S S'
  | [], _, _, _, _, _, _ => by
    intro h
    simp only [updateChildrenLoop, Except.ok.injEq, Prod.mk.injEq] at h
    obtain ⟨-, rfl⟩ := h
    exact BoxesKept_refl _
  | child :: rest, S, total, update_count, msec, t, S' => by
    intro h
    unfold updateChildrenLoop at h
    cases hupd : upd S child ctx with
    | error err => rw [hupd] at h; cases h
    | ok r =>
      obtain ⟨count, S1⟩ := r
      rw [hupd] at h
      have h1 := hk _ _ _ _ _ hupd
      simp only at h
      repeat' split at h
      all_goals first
        | exact BoxesKept_trans (BoxesKept_trans h1 (fun i => by
              first
                | rfl
                | simp only [World.onWidgets_widgets, World.clock, box_setForChildren,
                    box_noteProgress, box_setDefaultMaxUpdateCount]))
            (updateChildrenLoop_boxes K E upd hk w ctx _ rest _ _ _ _ _ _ h)
        | (simp only [Except.ok.injEq, Prod.mk.injEq] at h
           obtain ⟨-, rfl⟩ := h
           refine BoxesKept_trans h1 (fun i => ?_)
           first
             | rfl
             | simp only [World.onWidgets_widgets, World.clock, box_setForChildren,
                 box_noteProgress, box_setDefaultMaxUpdateCount])

/-- With an update function that changes no box model, the loop over the
visible children changes none. -/
theorem updateVisibleChildrenLoop_boxes (E : Env) (upd : UpdateFn) (hk : KeepsBoxes upd) (w : Nat)
    (ctx : LCUI_WidgetTaskContext) (rect : LCUI_RectF) :
    ∀ (children : List Nat) (S : World) (total : Nat) (found : Bool) (t : Nat) (S' : World),
      updateVisibleChildrenLoop E upd w ctx rect children S total found = Except.ok (t, S') →
      BoxesKept S S'
  | [], _, _, _, _, _ => by
    intro h
    simp only [updateVisibleChildrenLoop, Except.ok.injEq, Prod.mk.injEq] at h
    obtain ⟨-, rfl⟩ := h
    exact BoxesKept_refl _
  | child :: rest, S, total, found, t, S' => by
    intro h
    unfold updateVisibleChildrenLoop at h
    split at h
    · split at h
      · simp only [Except.ok.injEq, Prod.mk.injEq] at h
        obtain ⟨-, rfl⟩ := h
        exact BoxesKept_refl _
      · exact updateVisibleChildrenLoop_boxes E upd hk w ctx rect rest _ _ _ _ _ h
    · cases hupd : upd S child ctx with
      | error err => rw [hupd] at h; cases h
      | ok r =>
        obtain ⟨count, S1⟩ := r
        rw [hupd] at h
        have h1 := hk _ _ _ _ _ hupd
        simp only at h
        refine BoxesKept_trans (BoxesKept_trans h1 ?_)
          (updateVisibleChildrenLoop_boxes E upd hk w ctx rect rest _ _ _ _ _ h)
        intro i
        split
        · rw [World.onWidgets_widgets, box_setForChildren]
        · rfl

theorem Widget_UpdateVisibleChildren_boxes (K : Defs) (E : Env) (upd : UpdateFn)
    (hk : KeepsBoxes upd) (S : World) (w : Nat) (ctx : LCUI_WidgetTaskContext) (t : Nat)
    (S' : World) (h : Widget_UpdateVisibleChildren K E upd S w ctx = Except.ok (t, S')) :
    BoxesKept S S' := by
  unfold Widget_UpdateVisibleChildren at h
  simp only at h
  split at h
  · cases h
  · split at h
    · cases h
    · split at h
      · simp only [Except.ok.injEq, Prod.mk.injEq] at h
        obtain ⟨-, rfl⟩ := h
        exact BoxesKept_refl _
      · exact updateVisibleChildrenLoop_boxes E upd hk w ctx _ _ _ _ _ _ _ h

theorem Widget_UpdateChildren_finish_boxes (E : Env) (hq : Quiet E) (S : World) (w : Nat)
    (hasData : Bool) : BoxesKept S (Widget_UpdateChildren_finish E S w hasData) := by
  unfold Widget_UpdateChildren_finish
  split
  · dsimp only
    have h1 : ∀ (S1 : World), BoxesKept S S1 →
        BoxesKept S (match (getW S1.widgets w).rules with
          | some data1 =>
            if data1.rules.on_update_progress then
              S1.call E (Call.on_update_progress w data1.progress)
            else S1
          | none => S1) := by
      intro S1 h
      split
      · split
        · exact BoxesKept_trans h (BoxesKept_call E hq _ _)
        · exact h
      · exact h
    apply h1
    split
    · intro i
      rw [World.onWidgets_widgets]
      apply box_updW
      intro x
      rfl
    · exact BoxesKept_refl _
  · exact BoxesKept_refl _

theorem Widget_UpdateChildren_pass_boxes (K : Defs) (E : Env) (hq : Quiet E) (upd : UpdateFn)
    (hk : KeepsBoxes upd) (S : World) (w : Nat) (ctx : LCUI_WidgetTaskContext) (hasData : Bool)
    (node : List Nat) (total : Nat) (msec : Int) (t : Nat) (S' : World)
    (h : Widget_UpdateChildren_pass K E upd S w ctx hasData node total msec = Except.ok (t, S')) :
    BoxesKept S S' := by
  unfold Widget_UpdateChildren_pass at h
  split at h
  · simp only [Except.ok.injEq, Prod.mk.injEq] at h
    obtain ⟨-, rfl⟩ := h
    exact BoxesKept_refl _
  · simp only at h
    split at h
    · cases h
    · next t1 S2 hloop =>
      simp only [Except.ok.injEq, Prod.mk.injEq] at h
      obtain ⟨-, rfl⟩ := h
      have h2 := updateChildrenLoop_boxes K E upd hk w ctx hasData node _ total 0 msec _ _ hloop
      refine BoxesKept_trans (BoxesKept_trans ?_ h2)
        (Widget_UpdateChildren_finish_boxes E hq _ w hasData)
      intro i
      rw [World.onWidgets_widgets, box_setForChildren]

/-- With an update function that changes no box model, Widget_UpdateChildren
changes none when the other modules change no widget. -/
theorem Widget_UpdateChildren_boxes (K : Defs) (E : Env) (hq : Quiet E) (upd : UpdateFn)
    (hk : KeepsBoxes upd) (S : World) (w : Nat) (ctx : LCUI_WidgetTaskContext) (t : Nat)
    (S' : World) (h : Widget_UpdateChildren K E upd S w ctx = Except.ok (t, S')) :
    BoxesKept S S' := by
  unfold Widget_UpdateChildren at h
  split at h
  · simp only [Except.ok.injEq, Prod.mk.injEq] at h
    obtain ⟨-, rfl⟩ := h
    exact BoxesKept_refl _
  · simp only at h
    split at h
    · exact Widget_UpdateChildren_pass_boxes K E hq upd hk _ w ctx _ _ _ _ _ _ h
    · split at h
      · simp only [Except.ok.injEq, Prod.mk.injEq] at h
        obtain ⟨-, rfl⟩ := h
        exact fun _ => rfl
      · split at h
        · split at h
          · cases h
          · next t1 S2 hvis =>
            have hv := Widget_UpdateVisibleChildren_boxes K E upd hk _ w ctx _ _ hvis
            have hp := Widget_UpdateChildren_pass_boxes K E hq upd hk _ w ctx _ _ _ _ _ _ h
            exact BoxesKept_trans (BoxesKept_trans (fun _ => rfl) hv) hp
        · have hp := Widget_UpdateChildren_pass_boxes K E hq upd hk _ w ctx _ _ _ _ _ _ h
          exact BoxesKept_trans (fun _ => rfl) hp

/-- Widget_UpdateWithContext changes no box model when the other modules
change no widget. -/
theorem Widget_UpdateWithContext_boxes (K : Defs) (E : Env) (hq : Quiet E) :
    ∀ fuel : Nat, KeepsBoxes (Widget_UpdateWithContext K E fuel)
  | 0 => by
    intro S w ctx count S' h
    simp [Widget_UpdateWithContext] at h
  | fuel + 1 => by
    intro S w ctx count S' h
    unfold Widget_UpdateWithContext at h
    split at h
    · simp only [Except.ok.injEq, Prod.mk.injEq] at h
      obtain ⟨-, rfl⟩ := h
      exact BoxesKept_refl _
    · split at h
      · cases h
      · next c0 S1 hb =>
        have hS1 : BoxesKept S S1 := by
          have := Widget_BeginUpdate_boxes K E hq S w ctx
          rw [hb] at this
          exact this
        dsimp only at h
        generalize hg : (if (getW S1.widgets w).task.for_self = true then
            Widget_UpdateSelf K E S1 w (Widget_InitDiff K S1 w c0 ctx) ctx
            else (Widget_InitDiff K S1 w c0 ctx, S1)) = r2 at h
        have hr2 : BoxesKept S1 r2.2 := by
          rw [← hg]
          split
          · exact Widget_UpdateSelf_boxes K E hq S1 w _ ctx
          · exact BoxesKept_refl _
        split at h
        · cases h
        · next count1 S3 hr3 =>
          simp only [Except.ok.injEq, Prod.mk.injEq] at h
          obtain ⟨-, rfl⟩ := h
          have h3 : BoxesKept r2.2 S3 := by
            split at hr3
            · exact Widget_UpdateChildren_boxes K E hq _ (Widget_UpdateWithContext_boxes K E hq fuel)
                _ w _ _ _ hr3
            · simp only [Except.ok.injEq, Prod.mk.injEq] at hr3
              obtain ⟨-, rfl⟩ := hr3
              exact BoxesKept_refl _
          refine BoxesKept_trans (BoxesKept_trans (BoxesKept_trans hS1 hr2) h3) ?_
          unfold Widget_EndUpdate Widget_RunReflowTask
          intro i
          split
          · rw [World.onWidgets_widgets, box_setTaskState, World.call_widgets, hq.1,
              World.call_widgets, hq.1]
          · rw [World.call_widgets, hq.1]

/-- Widget_UpdateWithContext moves no border box when the other modules change
no widget. -/
theorem Widget_UpdateWithContext_keepsBorderBoxes (K : Defs) (E : Env) (hq : Quiet E)
    (fuel : Nat) : KeepsBorderBoxes (Widget_UpdateWithContext K E fuel) :=
  fun S c ctx count S1 h child =>
    congrArg LCUI_WidgetBoxModelRec.border
      (Widget_UpdateWithContext_boxes K E hq fuel S c ctx count S1 h child)

/-! ### The visible-first pass (lines 489-542) -/

/-- Once an overlapping child was found, the loop of lines 523-540 is a run:
it stops at the first child that does not overlap. -/
theorem updateVisibleChildrenLoop_found (E : Env) (upd : UpdateFn) (w : Nat)
    (ctx : LCUI_WidgetTaskContext) (rect : LCUI_RectF) :
    ∀ (children : List Nat) (S : World) (total : Nat),
      updateVisibleChildrenLoop E upd w ctx rect children S total true =
        updateRun E upd w ctx rect children S total
  | [], _, _ => rfl
  | child :: rest, S, total => by
    unfold updateVisibleChildrenLoop updateRun overlapsVisible updateVisibleChild
    cases hov : E.LCUIRectF_GetOverlayRect rect (getW S.widgets child).box.border with
    | none => simp
    | some r =>
      simp only [Option.isSome_some, if_true]
      cases hupd : upd S child ctx with
      | error e => rfl
      | ok p =>
        obtain ⟨count, S1⟩ := p
        simp only
        exact updateVisibleChildrenLoop_found E upd w ctx rect rest _ _

/-- The loop of lines 523-540, entered with `found` false, skips the leading
children that do not overlap and then is a run. -/
theorem updateVisibleChildrenLoop_firstRun (E : Env) (upd : UpdateFn) (w : Nat)
    (ctx : LCUI_WidgetTaskContext) (rect : LCUI_RectF) :
    ∀ (children : List Nat) (S : World) (total : Nat),
      updateVisibleChildrenLoop E upd w ctx rect children S total false =
        updateFirstRun E upd w ctx rect children S total
  | [], _, _ => rfl
  | child :: rest, S, total => by
    cases hov : E.LCUIRectF_GetOverlayRect rect (getW S.widgets child).box.border with
    | none =>
      have h1 : updateVisibleChildrenLoop E upd w ctx rect (child :: rest) S total false =
          updateVisibleChildrenLoop E upd w ctx rect rest S total false := by
        rw [updateVisibleChildrenLoop]
        simp [hov]
      have h2 : updateFirstRun E upd w ctx rect (child :: rest) S total =
          updateFirstRun E upd w ctx rect rest S total := by
        unfold updateFirstRun
        rw [List.dropWhile_cons_of_pos]
        simp [overlapsVisible, hov]
      rw [h1, h2]
      exact updateVisibleChildrenLoop_firstRun E upd w ctx rect rest S total
    | some r =>
      have h2 : updateFirstRun E upd w ctx rect (child :: rest) S total =
          updateRun E upd w ctx rect (child :: rest) S total := by
        unfold updateFirstRun
        rw [List.dropWhile_cons_of_neg]
        simp [overlapsVisible, hov]
      rw [h2]
      unfold updateVisibleChildrenLoop updateRun overlapsVisible updateVisibleChild
      simp only [hov, Option.isSome_some, if_true]
      cases hupd : upd S child ctx with
      | error e => rfl
      | ok p =>
        obtain ⟨count, S1⟩ := p
        simp only
        exact updateVisibleChildrenLoop_found E upd w ctx rect rest _ _

/-- The update of one child by the pass moves no border box when the update
function moves none. -/
theorem updateVisibleChild_boxes (upd : UpdateFn) (hk : KeepsBorderBoxes upd) (w : Nat)
    (ctx : LCUI_WidgetTaskContext) (S : World) (child : Nat) (count : Nat) (S1 : World)
    (h : updateVisibleChild upd w ctx S child = Except.ok (count, S1)) :
    ∀ c, (getW S1.widgets c).box.border = (getW S.widgets c).box.border := by
  unfold updateVisibleChild at h
  cases hupd : upd S child ctx with
  | error e => rw [hupd] at h; cases h
  | ok p =>
    obtain ⟨count1, S2⟩ := p
    rw [hupd] at h
    simp only [Except.ok.injEq, Prod.mk.injEq] at h
    obtain ⟨-, rfl⟩ := h
    intro c
    rw [← hk S child ctx count1 S2 hupd c]
    split
    · simp only [World.onWidgets_widgets, getW_updW]
      split
      · next hc => rw [hc.1]; rfl
      · rfl
    · rfl

/-- When no border box moves, a run updates the children up to the first one
that does not overlap in the state at entry. -/
theorem updateRun_stable (E : Env) (upd : UpdateFn) (hk : KeepsBorderBoxes upd) (w : Nat)
    (ctx : LCUI_WidgetTaskContext) (rect : LCUI_RectF) (S0 : World) :
    ∀ (children : List Nat) (S : World) (total : Nat),
      (∀ c, (getW S.widgets c).box.border = (getW S0.widgets c).box.border) →
      updateRun E upd w ctx rect children S total =
        updateEach upd w ctx (children.takeWhile (fun c => overlapsVisible E rect S0 c)) S total
  | [], _, _, _ => rfl
  | child :: rest, S, total, hS => by
    have hov : overlapsVisible E rect S child = overlapsVisible E rect S0 child := by
      unfold overlapsVisible
      rw [hS child]
    unfold updateRun
    rw [hov]
    cases h0 : overlapsVisible E rect S0 child with
    | false =>
      rw [List.takeWhile_cons_of_neg (by simp [h0])]
      rfl
    | true =>
      rw [List.takeWhile_cons_of_pos (by simp [h0])]
      unfold updateEach
      simp only [if_true]
      cases h1 : updateVisibleChild upd w ctx S child with
      | error e => rfl
      | ok p =>
        obtain ⟨count, S1⟩ := p
        simp only
        exact updateRun_stable E upd hk w ctx rect S0 rest S1 _
          (fun c => (updateVisibleChild_boxes upd hk w ctx S child count S1 h1 c).trans (hS c))

/-- C27. Visible-first pass updates one contiguous run: for every update
function, child list, state and visible rectangle, the loop of lines 523-540
of Widget_UpdateVisibleChildren, entered with `found` false, skips the leading
children that do not overlap the rectangle and then updates the children one
after the other until it reaches one that does not overlap, where it stops, so
that no later child is updated (each child is tested when the scan reaches
it); entered with `found` true it is such a run.  When the update function
moves no border box, the children updated are exactly the first maximal run
of consecutive children whose border box overlaps the rectangle in the state
at entry, in order; this is the case of Widget_UpdateWithContext when the other
modules change no widget.  Widget_UpdateVisibleChildren either stops before the loop
(a NULL parent is read, the walk over the ancestors does not end, or the
widget is outside the visible rectangle, in which case 0 is returned and the
state kept) or is this pass over the children of the widget for a rectangle
that does not depend on the update function. -/
theorem Widget_UpdateVisibleChildren_first_run (K : Defs) (E : Env) (w : Nat)
    (ctx : LCUI_WidgetTaskContext) :
    (∀ upd rect children S total,
      updateVisibleChildrenLoop E upd w ctx rect children S total false =
        updateFirstRun E upd w ctx rect children S total) ∧
    (∀ upd rect children S total,
      updateVisibleChildrenLoop E upd w ctx rect children S total true =
        updateRun E upd w ctx rect children S total) ∧
    (∀ upd rect children S total, KeepsBorderBoxes upd →
      updateVisibleChildrenLoop E upd w ctx rect children S total false =
        updateEach upd w ctx (firstRun E rect S children) S total) ∧
    (Quiet E → ∀ fuel rect children S total,
      updateVisibleChildrenLoop E (Widget_UpdateWithContext K E fuel) w ctx rect children S total
          false =
        updateEach (Widget_UpdateWithContext K E fuel) w ctx (firstRun E rect S children) S
          total) ∧
    (∀ S, (∃ e, ∀ upd, Widget_UpdateVisibleChildren K E upd S w ctx = Except.error e) ∨
      (∀ upd, Widget_UpdateVisibleChildren K E upd S w ctx = Except.ok (0, S)) ∨
      (∃ rect, ∀ upd, Widget_UpdateVisibleChildren K E upd S w ctx =
        updateFirstRun E upd w ctx rect (getW S.widgets w).children S 0)) := by
  refine ⟨fun upd rect children S total =>
      updateVisibleChildrenLoop_firstRun E upd w ctx rect children S total,
    fun upd rect children S total =>
      updateVisibleChildrenLoop_found E upd w ctx rect children S total, ?_, ?_, ?_⟩
  · intro upd rect children S total hk
    rw [updateVisibleChildrenLoop_firstRun]
    unfold updateFirstRun firstRun
    exact updateRun_stable E upd hk w ctx rect S _ S total (fun _ => rfl)
  · intro hq fuel rect children S total
    rw [updateVisibleChildrenLoop_firstRun]
    unfold updateFirstRun firstRun
    exact updateRun_stable E _ (Widget_UpdateWithContext_keepsBorderBoxes K E hq fuel) w ctx rect
      S _ S total (fun _ => rfl)
  · intro S
    unfold Widget_UpdateVisibleChildren
    simp only
    split
    · exact Or.inl ⟨Fault.null, fun _ => rfl⟩
    · split
      · next e _ => exact Or.inl ⟨e, fun _ => rfl⟩
      · split
        · exact Or.inr (Or.inl (fun _ => rfl))
        · exact Or.inr (Or.inr ⟨_, fun upd =>
            updateVisibleChildrenLoop_firstRun E upd w ctx _ _ S 0⟩)

/-! ### The chain of contexts -/

theorem Widget_UpdateWithContext_succ (K : Defs) (E : Env) (fuel : Nat) :
    Widget_UpdateWithContext K E (fuel + 1) =
      Widget_UpdateWithContext_step K E (Widget_UpdateWithContext K E fuel) := rfl

theorem Widget_Update_eq_step (K : Defs) (E : Env) (fuel : Nat) (S : World) (w : Nat) :
    Widget_Update K E fuel S w =
      Widget_Update_step K E (Widget_UpdateWithContext K E fuel) S w := rfl

set_option maxHeartbeats 4000000 in
/-- The loop over the children calls the update function on the chain it was
given only. -/
theorem updateChildrenLoop_congr (K : Defs) (E : Env) (upd1 upd2 : UpdateFn) (w : Nat)
    (ctx : LCUI_WidgetTaskContext) (hasData : Bool)
    (h : ∀ S c, upd1 S c ctx = upd2 S c ctx) :
    ∀ (children : List Nat) (S : World) (total update_count : Nat) (msec : Int),
      updateChildrenLoop K E upd1 w ctx hasData children S total update_count msec =
        updateChildrenLoop K E upd2 w ctx hasData children S total update_count msec
  | [], _, _, _, _ => rfl
  | child :: rest, S, total, update_count, msec => by
    unfold updateChildrenLoop
    rw [h S child]
    cases hupd : upd2 S child ctx with
    | error e => rfl
    | ok r =>
      obtain ⟨count, S1⟩ := r
      simp only
      repeat' split
      all_goals first
        | rfl
        | exact updateChildrenLoop_congr K E upd1 upd2 w ctx _ h rest _ _ _ _

theorem updateVisibleChildrenLoop_congr (E : Env) (upd1 upd2 : UpdateFn) (w : Nat)
    (ctx : LCUI_WidgetTaskContext) (rect : LCUI_RectF)
    (h : ∀ S c, upd1 S c ctx = upd2 S c ctx) :
    ∀ (children : List Nat) (S : World) (total : Nat) (found : Bool),
      updateVisibleChildrenLoop E upd1 w ctx rect children S total found =
        updateVisibleChildrenLoop E upd2 w ctx rect children S total found
  | [], _, _, _ => rfl
  | child :: rest, S, total, found => by
    unfold updateVisibleChildrenLoop
    rw [h S child]
    split
    · split
      · rfl
      · exact updateVisibleChildrenLoop_congr E upd1 upd2 w ctx rect h rest _ _ _
    · cases hupd : upd2 S child ctx with
      | error e => rfl
      | ok r =>
        obtain ⟨count, S1⟩ := r
        simp only
        exact updateVisibleChildrenLoop_congr E upd1 upd2 w ctx rect h rest _ _ _

/-- Widget_UpdateChildren calls the update function on the chain it was given
only. -/
theorem Widget_UpdateChildren_congr (K : Defs) (E : Env) (upd1 upd2 : UpdateFn) (w : Nat)
    (ctx : LCUI_WidgetTaskContext) (h : ∀ S c, upd1 S c ctx = upd2 S c ctx) (S : World) :
    Widget_UpdateChildren K E upd1 S w ctx = Widget_UpdateChildren K E upd2 S w ctx := by
  have hpass : ∀ S hasData node total msec,
      Widget_UpdateChildren_pass K E upd1 S w ctx hasData node total msec =
        Widget_UpdateChildren_pass K E upd2 S w ctx hasData node total msec := by
    intro S hasData node total msec
    unfold Widget_UpdateChildren_pass
    simp only [updateChildrenLoop_congr K E upd1 upd2 w ctx hasData h]
  have hvis : Widget_UpdateVisibleChildren K E upd1 (S.clock E).2 w ctx =
      Widget_UpdateVisibleChildren K E upd2 (S.clock E).2 w ctx := by
    unfold Widget_UpdateVisibleChildren
    simp only [updateVisibleChildrenLoop_congr E upd1 upd2 w ctx _ h]
  unfold Widget_UpdateChildren
  simp only [hpass, hvis]

/-- Widget_InitDiff keeps the members of the context other than the diff. -/
theorem Widget_InitDiff_fields (K : Defs) (S : World) (w : Nat) (c : LCUI_WidgetTaskContextRec)
    (parent : LCUI_WidgetTaskContext) :
    (Widget_InitDiff K S w c parent).owner = c.owner ∧
      (Widget_InitDiff K S w c parent).style_cache = c.style_cache ∧
      (Widget_InitDiff K S w c parent).style_hash = c.style_hash := by
  unfold Widget_InitDiff
  dsimp only
  repeat' split
  all_goals exact ⟨rfl, rfl, rfl⟩

/-- Widget_UpdateSelf keeps the members of the context other than the diff. -/
theorem Widget_UpdateSelf_fields (K : Defs) (E : Env) (S : World) (w : Nat)
    (c : LCUI_WidgetTaskContextRec) (parent : LCUI_WidgetTaskContext) :
    (Widget_UpdateSelf K E S w c parent).1.owner = c.owner ∧
      (Widget_UpdateSelf K E S w c parent).1.style_cache = c.style_cache ∧
      (Widget_UpdateSelf K E S w c parent).1.style_hash = c.style_hash := by
  have hbegin : (Widget_BeginDiff K S w c parent).owner = c.owner ∧
      (Widget_BeginDiff K S w c parent).style_cache = c.style_cache ∧
      (Widget_BeginDiff K S w c parent).style_hash = c.style_hash := by
    unfold Widget_BeginDiff
    split
    · exact Widget_InitDiff_fields K S w _ parent
    · exact ⟨rfl, rfl, rfl⟩
  have hend : ∀ (S1 : World) (c1 : LCUI_WidgetTaskContextRec),
      (Widget_EndDiff K E S1 w c1).2.1.owner = c1.owner ∧
      (Widget_EndDiff K E S1 w c1).2.1.style_cache = c1.style_cache ∧
      (Widget_EndDiff K E S1 w c1).2.1.style_hash = c1.style_hash := by
    intro S1 c1
    cases hcan : c1.diff.can_render with
    | false =>
      unfold Widget_EndDiff
      simp only [hcan]
      exact ⟨rfl, rfl, rfl⟩
    | true =>
      rw [Widget_EndDiff_unfold K E S1 w c1 hcan]
      repeat' split
      all_goals exact ⟨rfl, rfl, rfl⟩
  unfold Widget_UpdateSelf
  dsimp only
  obtain ⟨h1, h2, h3⟩ := hend
    ((List.range K.LCUI_WTASK_REFLOW).foldl (Widget_UpdateSelf_task K E w)
      ((if (getW S.widgets w).task.states K.LCUI_WTASK_USER = true ∧
          (getW S.widgets w).has_runtask = true then
        (S.onWidgets (fun ws =>
          updW ws w (fun x => x.setTaskState K.LCUI_WTASK_USER false))).call E (Call.runtask w)
        else S).onWidgets (fun ws => updW ws w (fun x => x.setForSelf false))))
    (Widget_BeginDiff K S w c parent)
  exact ⟨h1.trans hbegin.1, h2.trans hbegin.2.1, h3.trans hbegin.2.2⟩

/-- The children of a widget are updated under the chain that holds one more
context, the one that Widget_BeginUpdate returned for the widget up to its
diff: restricting the update of the children to the chains that satisfy a
property of such chains changes nothing. -/
theorem Widget_UpdateWithContext_step_chain (K : Defs) (E : Env) (upd : UpdateFn) (S : World)
    (w : Nat) (ctx : LCUI_WidgetTaskContext) (p : LCUI_WidgetTaskContext → Bool)
    (hp : ∀ c0 S1 c, Widget_BeginUpdate K E S w ctx = (some c0, S1) → c.owner = c0.owner →
      c.style_cache = c0.style_cache → c.style_hash = c0.style_hash → p (c :: ctx) = true) :
    Widget_UpdateWithContext_step K E upd S w ctx =
      Widget_UpdateWithContext_step K E (onChains p upd) S w ctx := by
  unfold Widget_UpdateWithContext_step
  split
  · rfl
  · split
    · rfl
    · next c0 S1 hb =>
      dsimp only
      have hr2 : p ((if (getW S1.widgets w).task.for_self = true then
          Widget_UpdateSelf K E S1 w (Widget_InitDiff K S1 w c0 ctx) ctx
          else (Widget_InitDiff K S1 w c0 ctx, S1)).1 :: ctx) = true := by
        have hi := Widget_InitDiff_fields K S1 w c0 ctx
        split
        · have hu := Widget_UpdateSelf_fields K E S1 w (Widget_InitDiff K S1 w c0 ctx) ctx
          exact hp c0 S1 _ hb (hu.1.trans hi.1) (hu.2.1.trans hi.2.1) (hu.2.2.trans hi.2.2)
        · exact hp c0 S1 _ hb hi.1 hi.2.1 hi.2.2
      rw [Widget_UpdateChildren_congr K E upd (onChains p upd) w _
        (fun S c => by unfold onChains; rw [hr2]; rfl)]

/-- The context that Widget_BeginUpdate returns was created for the widget. -/
theorem Widget_BeginUpdate_owner (K : Defs) (E : Env) (S : World) (w : Nat)
    (ctx : LCUI_WidgetTaskContext) (c0 : LCUI_WidgetTaskContextRec) (S1 : World)
    (hb : Widget_BeginUpdate K E S w ctx = (some c0, S1)) : c0.owner = w := by
  cases hm : E.malloc S.mallocs with
  | none =>
    unfold Widget_BeginUpdate at hb
    simp [hm] at hb
  | some block =>
    obtain ⟨c, hc, -, ho⟩ := Widget_BeginUpdate_diff K E S w ctx block hm
    rw [hb] at hc
    simp only [Option.some.injEq] at hc
    rw [hc]
    exact ho

/-- Every update of a child that Widget_UpdateWithContext makes for a widget
`w` under the chain `ctx` is made under a chain that holds one more context,
created for `w`. -/
theorem Widget_UpdateWithContext_eq_owned (K : Defs) (E : Env) :
    ∀ fuel : Nat, Widget_UpdateWithContext K E fuel = Widget_UpdateWithContext_owned K E fuel
  | 0 => rfl
  | fuel + 1 => by
    funext S w ctx
    rw [Widget_UpdateWithContext_succ, Widget_UpdateWithContext_eq_owned K E fuel]
    exact Widget_UpdateWithContext_step_chain K E _ S w ctx _ (fun c0 S1 c hb ho _ _ => by
      simp only [owners, List.map_cons, decide_eq_true_eq]
      rw [ho, Widget_BeginUpdate_owner K E S w ctx c0 S1 hb])

/-- C24, amended. One more context per call: for every environment and bound on
the depth, (1) the context that Widget_BeginUpdate returns for a widget is
created for that widget; (2) Widget_Update(w) calls Widget_UpdateWithContext
under a chain of exactly one context, created for `w`; (3) every update of a
child that Widget_UpdateWithContext makes, at every depth, for a widget `v`
under a chain `ctx`, is made under the chain that holds the contexts of `ctx`
and before them exactly one more context, created for `v`.  Restricting the
calls to such chains changes no result.  So the chain under which the children
of `w` are updated during Widget_Update(w) holds two contexts created for `w`,
and below it each widget on the path adds one. -/
theorem Widget_Update_context_chain (K : Defs) (E : Env) (fuel : Nat) :
    (∀ S w ctx c0 S1, Widget_BeginUpdate K E S w ctx = (some c0, S1) → c0.owner = w) ∧
    (∀ S w, Widget_Update K E fuel S w =
      Widget_Update_step K E (onChains (fun chain => decide (owners chain = [w]))
        (Widget_UpdateWithContext K E fuel)) S w) ∧
    Widget_UpdateWithContext K E fuel = Widget_UpdateWithContext_owned K E fuel ∧
    (∀ S w ctx, Widget_UpdateWithContext K E (fuel + 1) S w ctx =
      Widget_UpdateWithContext_step K E
        (onChains (fun chain => decide (owners chain = w :: owners ctx))
          (Widget_UpdateWithContext K E fuel)) S w ctx) := by
  refine ⟨fun S w ctx c0 S1 hb => Widget_BeginUpdate_owner K E S w ctx c0 S1 hb, ?_,
    Widget_UpdateWithContext_eq_owned K E fuel, ?_⟩
  · intro S w
    rw [Widget_Update_eq_step]
    unfold Widget_Update_step
    split
    · rfl
    · next c0 S1 hb =>
      have ho : decide (owners [Widget_InitDiff K S1 w c0 []] = [w]) = true := by
        simp only [owners, List.map_cons, List.map_nil, decide_eq_true_eq]
        rw [(Widget_InitDiff_fields K S1 w c0 []).1, Widget_BeginUpdate_owner K E S w [] c0 S1 hb]
      simp only [onChains, ho, if_true]
  · intro S w ctx
    rw [Widget_UpdateWithContext_succ]
    exact Widget_UpdateWithContext_step_chain K E _ S w ctx _ (fun c0 S1 c hb ho _ _ => by
      simp only [owners, List.map_cons, decide_eq_true_eq]
      rw [ho, Widget_BeginUpdate_owner K E S w ctx c0 S1 hb])

/-! ### The style cache along the chain -/

/-- Under a chain whose nearest style cache is `cache` with the style hash
`h`, the context that Widget_BeginUpdate returns has that cache and that
hash. -/
theorem Widget_BeginUpdate_cached_fields (K : Defs) (E : Env) (S : World) (w : Nat)
    (ctx : LCUI_WidgetTaskContext) (cache h : Nat) (c0 : LCUI_WidgetTaskContextRec) (S1 : World)
    (hctx : findStyleCache ctx = some (cache, h))
    (hb : Widget_BeginUpdate K E S w ctx = (some c0, S1)) :
    c0.style_cache = some cache ∧ c0.style_hash = h := by
  cases hm : E.malloc S.mallocs with
  | none =>
    unfold Widget_BeginUpdate at hb
    simp [hm] at hb
  | some block =>
    obtain ⟨c2, hc2, -, heq⟩ := Widget_BeginUpdate_unfold K E S w ctx block hm
    obtain ⟨h1, h2⟩ := hc2 cache h hctx
    rw [heq, Widget_BeginUpdate_own_cached E _ w c2 cache h1] at hb
    simp only [Prod.mk.injEq, Option.some.injEq] at hb
    rw [← hb.1]
    exact ⟨h1, h2⟩

theorem findStyleCache_cons_cached (c : LCUI_WidgetTaskContextRec) (ctx : LCUI_WidgetTaskContext)
    (cache : Nat) (hc : c.style_cache = some cache) :
    findStyleCache (c :: ctx) = some (cache, c.style_hash) := by
  unfold findStyleCache
  rw [hc]

/-- When the context that Widget_BeginUpdate returns for a widget has the style
cache `cache` with the style hash `h`, every widget below it, at every depth,
is updated under a chain whose nearest style cache is `cache` with the style
hash `h`. -/
theorem Widget_UpdateWithContext_eq_cached (K : Defs) (E : Env) (cache h : Nat) :
    ∀ (fuel : Nat) (S : World) (w : Nat) (ctx : LCUI_WidgetTaskContext),
      (∀ c0 S1, Widget_BeginUpdate K E S w ctx = (some c0, S1) →
        c0.style_cache = some cache ∧ c0.style_hash = h) →
      Widget_UpdateWithContext K E fuel S w ctx =
        Widget_UpdateWithContext_cached K E cache h fuel S w ctx
  | 0, _, _, _, _ => rfl
  | fuel + 1, S, w, ctx, hfields => by
    rw [Widget_UpdateWithContext_succ]
    have hstep := Widget_UpdateWithContext_step_chain K E (Widget_UpdateWithContext K E fuel) S w
      ctx (fun chain => decide (findStyleCache chain = some (cache, h)))
      (fun c0 S1 c hb _ hc hh => by
        obtain ⟨h1, h2⟩ := hfields c0 S1 hb
        simp only [decide_eq_true_eq]
        rw [findStyleCache_cons_cached c ctx cache (hc.trans h1), hh, h2])
    rw [hstep]
    have hfun : onChains (fun chain => decide (findStyleCache chain = some (cache, h)))
        (Widget_UpdateWithContext K E fuel) =
        onChains (fun chain => decide (findStyleCache chain = some (cache, h)))
          (Widget_UpdateWithContext_cached K E cache h fuel) := by
      funext S2 c chain
      unfold onChains
      split
      · next hp =>
        simp only [decide_eq_true_eq] at hp
        exact Widget_UpdateWithContext_eq_cached K E cache h fuel S2 c chain
          (fun c0 S1 hb => Widget_BeginUpdate_cached_fields K E S2 c chain cache h c0 S1 hp hb)
      · rfl
    rw [hfun]
    rfl

/-- Lines 447-457 of Widget_BeginUpdate for a context without a style cache and
a widget whose rules ask for one: the style hash of the context is the hash of
the widget after line 454 and the style cache is the one of its rules data. -/
theorem Widget_BeginUpdate_own_owner (E : Env) (S : World) (w : Nat)
    (c : LCUI_WidgetTaskContextRec) (data : LCUI_WidgetRulesDataRec)
    (hc : c.style_cache = none) (hrules : (getW S.widgets w).rules = some data)
    (hcc : data.rules.cache_children_style = true) :
    (Widget_BeginUpdate_own E S w c).1.style_hash =
        (getW (Widget_BeginUpdate_own E S w c).2.widgets w).hash ∧
      (Widget_BeginUpdate_own E S w c).1.style_cache =
        (getW (Widget_BeginUpdate_own E S w c).2.widgets w).rules.bind (fun d => d.style_cache) ∧
      (Widget_BeginUpdate_own E S w c).2.widgets =
        E.effect (Call.Widget_GenerateSelfHash w)
          (match data.style_cache with
            | some _ => S.widgets
            | none => updW S.widgets w (fun x =>
                { x with rules := some { data with style_cache := some S.dicts.length } })) := by
  refine ⟨?_, ?_, ?_⟩
  · unfold Widget_BeginUpdate_own
    rw [hc, hrules]
    simp only [hcc, if_true]
  · unfold Widget_BeginUpdate_own
    rw [hc, hrules]
    simp only [hcc, if_true]
  · unfold Widget_BeginUpdate_own
    rw [hc, hrules]
    simp only [hcc, if_true]
    cases data.style_cache <;> rfl

/-- The owner of a style cache, when the other modules change no widget: under
a chain without a style cache, the context that Widget_BeginUpdate returns for
a widget whose rules ask for a style cache has the hash of the widget as style
hash and the style cache of its rules data, which is created if there is
none. -/
theorem Widget_BeginUpdate_owner_quiet (K : Defs) (E : Env) (hq : Quiet E) (S : World) (o : Nat)
    (ctx : LCUI_WidgetTaskContext) (data : LCUI_WidgetRulesDataRec)
    (hctx : findStyleCache ctx = none) (hrules : (getW S.widgets o).rules = some data)
    (hcc : data.rules.cache_children_style = true) :
    ∃ c0 S1, Widget_BeginUpdate K E S o ctx = (some c0, S1) ∧
      c0.style_cache = some (data.style_cache.getD S.dicts.length) ∧
      c0.style_hash = (getW S.widgets o).hash := by
  obtain ⟨block, hblock⟩ := Option.isSome_iff_exists.mp (hq.2 S.mallocs)
  obtain ⟨c2, -, hnone, heq⟩ := Widget_BeginUpdate_unfold K E S o ctx block hblock
  have hc2 := hnone hctx
  have hat : (atLookup K E S o).widgets = S.widgets := by
    unfold atLookup
    split
    · exact hq.1 _ _
    · rfl
  have hatd : (atLookup K E S o).dicts = S.dicts := (atLookup_calls K E S o).1
  have hw : o < S.widgets.length := rules_some_lt _ _ _ hrules
  obtain ⟨h1, h2, h3⟩ := Widget_BeginUpdate_own_owner E (atLookup K E S o) o c2 data hc2
    (by rw [hat]; exact hrules) hcc
  rw [hq.1, hat, hatd] at h3
  refine ⟨_, _, heq, ?_, ?_⟩
  · rw [h2, h3]
    cases hsc : data.style_cache with
    | some d =>
      simp only [hrules, Option.bind_some, hsc, Option.getD_some]
      exact hsc
    | none =>
      simp only [getW_updW_same _ _ _ hw, Option.bind_some, Option.getD_none]
      rfl
  · rw [h1, h3]
    cases hsc : data.style_cache with
    | some d => simp only
    | none =>
      simp only [getW_updW_same _ _ _ hw]

/-- C29. Cache key ignores intermediate ancestors.  (1) When lines 447-457 make
a widget the owner of the style cache, the style hash of its context is the
hash of the widget as line 454 left it.  (2) When the other modules change no
widget, the context of a widget whose rules ask for a style cache, under a
chain without one, has the style cache of the widget and the hash of the
widget as style hash, and every widget below it, at every depth, is updated
under a chain whose nearest style cache is that cache with that hash.
(3) Under a chain whose nearest style cache is `cache` with the style hash `h`,
the new context has `cache` and `h` whatever the widget and the contexts in
between are, the chain extended by a context with these members is again such
a chain, and every widget below, at every depth, is updated under such a
chain.  (4) Under such a chain a widget with the non-zero hash `k` gets the
sheet that the cache holds afterwards under `(h * 33 + k) mod 2^32`, and every
widget with the same hash, under any chain with the same nearest cache and
hash, in a state in which the cache holds that entry, gets the same sheet
without selector matching. -/
theorem Widget_BeginUpdate_inherits_owner_hash (K : Defs) (E : Env) :
    (∀ S o c data, c.style_cache = none → (getW S.widgets o).rules = some data →
      data.rules.cache_children_style = true →
      (Widget_BeginUpdate_own E S o c).1.style_hash =
        (getW (Widget_BeginUpdate_own E S o c).2.widgets o).hash) ∧
    (Quiet E → ∀ S o ctx data, findStyleCache ctx = none →
      (getW S.widgets o).rules = some data → data.rules.cache_children_style = true →
      ∃ c0 S1 cache, Widget_BeginUpdate K E S o ctx = (some c0, S1) ∧
        c0.style_cache = some cache ∧ c0.style_hash = (getW S.widgets o).hash ∧
        ∀ fuel, Widget_UpdateWithContext K E fuel S o ctx =
          Widget_UpdateWithContext_cached K E cache (getW S.widgets o).hash fuel S o ctx) ∧
    (∀ S v ctx cache h, findStyleCache ctx = some (cache, h) →
      (∀ c0 S1, Widget_BeginUpdate K E S v ctx = (some c0, S1) →
        c0.style_cache = some cache ∧ c0.style_hash = h ∧
        ∀ c, c.style_cache = c0.style_cache → c.style_hash = c0.style_hash →
          findStyleCache (c :: ctx) = some (cache, h)) ∧
      ∀ fuel, Widget_UpdateWithContext K E fuel S v ctx =
        Widget_UpdateWithContext_cached K E cache h fuel S v ctx) ∧
    (HashOnly E → ∀ S w1 ctx1 cache h, findStyleCache ctx1 = some (cache, h) →
      cache < S.dicts.length → (E.malloc S.mallocs).isSome = true →
      hashAtLookup K E S w1 ≠ 0 →
      ∃ s, (getW (Widget_BeginUpdate K E S w1 ctx1).2.widgets w1).inherited_style =
          some (StyleRef.sheet s) ∧
        Dict_FetchValue (Widget_BeginUpdate K E S w1 ctx1).2.dicts cache
          ((h * 33 + hashAtLookup K E S w1) % 2 ^ 32) = some s ∧
        ∀ S2 w2 ctx2, findStyleCache ctx2 = some (cache, h) →
          (E.malloc S2.mallocs).isSome = true →
          hashAtLookup K E S2 w2 = hashAtLookup K E S w1 →
          Dict_FetchValue S2.dicts cache ((h * 33 + hashAtLookup K E S w1) % 2 ^ 32) = some s →
          (getW (Widget_BeginUpdate K E S2 w2 ctx2).2.widgets w2).inherited_style =
              some (StyleRef.sheet s) ∧
            styleSheetCalls (callsSince S2 (Widget_BeginUpdate K E S2 w2 ctx2).2) = 0) := by
  refine ⟨?_, ?_, ?_, ?_⟩
  · intro S o c data hc hrules hcc
    exact (Widget_BeginUpdate_own_owner E S o c data hc hrules hcc).1
  · intro hq S o ctx data hctx hrules hcc
    obtain ⟨c0, S1, hb, h1, h2⟩ := Widget_BeginUpdate_owner_quiet K E hq S o ctx data hctx hrules
      hcc
    refine ⟨c0, S1, _, hb, h1, h2, fun fuel => ?_⟩
    apply Widget_UpdateWithContext_eq_cached
    intro c0' S1' hb'
    rw [hb] at hb'
    simp only [Prod.mk.injEq, Option.some.injEq] at hb'
    rw [← hb'.1]
    exact ⟨h1, h2⟩
  · intro S v ctx cache h hctx
    refine ⟨fun c0 S1 hb => ?_, fun fuel => ?_⟩
    · obtain ⟨h1, h2⟩ := Widget_BeginUpdate_cached_fields K E S v ctx cache h c0 S1 hctx hb
      refine ⟨h1, h2, fun c hc hh => ?_⟩
      rw [findStyleCache_cons_cached c ctx cache (hc.trans h1), hh, h2]
    · exact Widget_UpdateWithContext_eq_cached K E cache h fuel S v ctx
        (fun c0 S1 hb => Widget_BeginUpdate_cached_fields K E S v ctx cache h c0 S1 hctx hb)
  · intro hE S w1 ctx1 cache h hctx1 hcache hm1 hhash1
    have hsecond : ∀ s (S2 : World) (w2 : Nat) (ctx2 : LCUI_WidgetTaskContext),
        findStyleCache ctx2 = some (cache, h) → (E.malloc S2.mallocs).isSome = true →
        hashAtLookup K E S2 w2 = hashAtLookup K E S w1 →
        Dict_FetchValue S2.dicts cache ((h * 33 + hashAtLookup K E S w1) % 2 ^ 32) = some s →
        (getW (Widget_BeginUpdate K E S2 w2 ctx2).2.widgets w2).inherited_style =
            some (StyleRef.sheet s) ∧
          styleSheetCalls (callsSince S2 (Widget_BeginUpdate K E S2 w2 ctx2).2) = 0 := by
      intro s S2 w2 ctx2 hctx2 hm2 hhash2 hfetch2
      rw [← styleCacheKey_eq] at hfetch2
      have hhit := Widget_BeginUpdate_hit K E S2 w2 ctx2 cache h s hctx2 hm2
        (by rw [hhash2]; exact hhash1) (by rw [hhash2]; exact hfetch2)
      exact ⟨hhit.1, hhit.2.2⟩
    cases hfetch : Dict_FetchValue S.dicts cache (styleCacheKey h (hashAtLookup K E S w1)) with
    | some s =>
      have hhit := Widget_BeginUpdate_hit K E S w1 ctx1 cache h s hctx1 hm1 hhash1 hfetch
      refine ⟨s, hhit.1, ?_, hsecond s⟩
      rw [hhit.2.1, ← styleCacheKey_eq]
      exact hfetch
    | none =>
      have hmiss := Widget_BeginUpdate_miss K E hE S w1 ctx1 cache h hctx1 hcache hm1 hhash1
        hfetch
      refine ⟨S.sheets, hmiss.1, ?_, hsecond S.sheets⟩
      rw [← styleCacheKey_eq]
      exact hmiss.2.1

/-! ### A frame over a tree with update rules, when nothing is mutated -/

theorem FrameKept_refl (ws : List Widget) : FrameKept ws ws :=
  ⟨rfl, fun _ => ⟨rfl, rfl⟩⟩

theorem FrameKept_fields {ws0 ws : List Widget} (h : FrameKept ws0 ws) (i : Nat) :
    (getW ws i).children = (getW ws0 i).children ∧ (getW ws i).parent = (getW ws0 i).parent ∧
      (getW ws i).hash = (getW ws0 i).hash ∧
      (getW ws i).inherited_style = (getW ws0 i).inherited_style ∧
      (getW ws i).box = (getW ws0 i).box := by
  rw [(h.2 i).1]
  exact ⟨rfl, rfl, rfl, rfl, rfl⟩

theorem FrameKept_rules {ws0 ws : List Widget} (h : FrameKept ws0 ws) (i : Nat) :
    ((getW ws0 i).rules = none → (getW ws i).rules = none) ∧
      ∀ data0, (getW ws0 i).rules = some data0 →
        ∃ data, (getW ws i).rules = some data ∧ data.rules = data0.rules ∧
          data.style_cache = data0.style_cache := by
  have h2 := (h.2 i).2
  constructor
  · intro h0
    rw [h0] at h2
    cases hr : (getW ws i).rules with
    | none => rfl
    | some d => rw [hr] at h2; cases h2
  · intro data0 h0
    rw [h0] at h2
    cases hr : (getW ws i).rules with
    | none => rw [hr] at h2; cases h2
    | some d =>
      rw [hr] at h2
      simp only [Option.map_some', Option.some.injEq, LCUI_WidgetRulesDataRec.settings,
        LCUI_WidgetRulesDataRec.mk.injEq] at h2
      exact ⟨d, rfl, h2.1, h2.2.1⟩

/-- The rules of a widget of an arena of the frame are those of the reference
arena, up to the progress index and the allowance. -/
theorem FrameKept_rules_back {ws0 ws : List Widget} (h : FrameKept ws0 ws) (i : Nat)
    (data : LCUI_WidgetRulesDataRec) (hd : (getW ws i).rules = some data) :
    ∃ data0, (getW ws0 i).rules = some data0 ∧ data.rules = data0.rules ∧
      data.style_cache = data0.style_cache := by
  cases h0 : (getW ws0 i).rules with
  | none => rw [(FrameKept_rules h i).1 h0] at hd; cases hd
  | some data0 =>
    obtain ⟨data1, hd1, e1, e2⟩ := (FrameKept_rules h i).2 data0 h0
    rw [hd1] at hd
    simp only [Option.some.injEq] at hd
    subst hd
    exact ⟨data0, rfl, e1, e2⟩

theorem AllowanceKept_refl (ws : List Widget) : AllowanceKept ws ws := fun _ h => h

theorem AllowanceKept_trans {a b c : List Widget} (h1 : AllowanceKept a b)
    (h2 : AllowanceKept b c) : AllowanceKept a c := fun i h => h1 i (h2 i h)

theorem AllowanceKept_of_rules {ws ws1 : List Widget}
    (h : ∀ i, (getW ws1 i).rules = (getW ws i).rules) : AllowanceKept ws ws1 := by
  intro i hz
  unfold zeroAllowance at hz ⊢
  rw [← h i]
  exact hz

theorem AllowanceKept_body {ws ws1 : List Widget} (h : BodyKept ws ws1) :
    AllowanceKept ws ws1 :=
  AllowanceKept_of_rules (fun i => (BodyKept_fields h i).2.1)

theorem Below_refl (ws : List Widget) : Below ws ws :=
  ⟨fun _ => ⟨fun h => h, fun h => h⟩, AllowanceKept_refl ws⟩

/-- An arena that differs from another one by task records only, where the
other one differs from the reference arena by task records and progress
indexes only. -/
theorem FrameKept_body {ws0 ws ws' : List Widget} (h1 : FrameKept ws0 ws)
    (h2 : BodyKept ws ws') : FrameKept ws0 ws' := by
  refine ⟨h2.1.trans h1.1, fun i => ?_⟩
  have e2 := h2.2 i
  have e1 := (h1.2 i).1
  have hrules : (getW ws' i).rules = (getW ws i).rules := by rw [e2]
  refine ⟨?_, by rw [hrules]; exact (h1.2 i).2⟩
  rw [e2, e1]

theorem FrameStep_refl (ws0 : List Widget) (S : World) (h : FrameKept ws0 S.widgets) :
    FrameStep ws0 S S := ⟨rfl, rfl, rfl, h, AllowanceKept_refl _⟩

theorem FrameStep_trans {ws0 : List Widget} {a b c : World} (h1 : FrameStep ws0 a b)
    (h2 : FrameStep ws0 b c) : FrameStep ws0 a c :=
  ⟨h2.1.trans h1.1, h2.2.1.trans h1.2.1, h2.2.2.1.trans h1.2.2.1, h2.2.2.2.1,
    AllowanceKept_trans h1.2.2.2.2 h2.2.2.2.2⟩

theorem findStyleCache_cons_none (c : LCUI_WidgetTaskContextRec) (ctx : LCUI_WidgetTaskContext)
    (hc : c.style_cache = none) : findStyleCache (c :: ctx) = findStyleCache ctx := by
  conv_lhs => unfold findStyleCache
  rw [hc]

theorem atLookup_quiet (K : Defs) (E : Env) (hq : Quiet E) (S : World) (w : Nat) :
    (atLookup K E S w).widgets = S.widgets ∧ (atLookup K E S w).self = S.self ∧
      (atLookup K E S w).metrics = S.metrics ∧ (atLookup K E S w).dicts = S.dicts := by
  unfold atLookup
  split
  · exact ⟨hq.1 _ _, rfl, rfl, rfl⟩
  · exact ⟨rfl, rfl, rfl, rfl⟩

/-- Lines 447-457 of Widget_BeginUpdate for the owner of a style cache that
exists already, when nothing is mutated. -/
theorem Widget_BeginUpdate_own_quiet (E : Env) (hq : Quiet E) (S : World) (w : Nat)
    (c : LCUI_WidgetTaskContextRec) (p : Option (Nat × Nat))
    (hc : c.style_cache = p.map (fun x => x.1)) (hh : ∀ d h, p = some (d, h) → c.style_hash = h)
    (hown : ∀ data, p = none → (getW S.widgets w).rules = some data →
      data.rules.cache_children_style = true → data.style_cache ≠ none) :
    (Widget_BeginUpdate_own E S w c).2.widgets = S.widgets ∧
      (Widget_BeginUpdate_own E S w c).2.self = S.self ∧
      (Widget_BeginUpdate_own E S w c).2.metrics = S.metrics ∧
      (Widget_BeginUpdate_own E S w c).2.dicts = S.dicts ∧
      (Widget_BeginUpdate_own E S w c).1.style_cache =
        (contextCache S.widgets w p).map (fun x => x.1) ∧
      (∀ d h, contextCache S.widgets w p = some (d, h) →
        (Widget_BeginUpdate_own E S w c).1.style_hash = h) ∧
      (Widget_BeginUpdate_own E S w c).1.owner = c.owner := by
  cases p with
  | some x =>
    obtain ⟨d, h⟩ := x
    have hc1 : c.style_cache = some d := hc
    rw [Widget_BeginUpdate_own_cached E S w c d hc1]
    refine ⟨rfl, rfl, rfl, rfl, hc1, fun d1 h1 e => ?_, rfl⟩
    simp only [contextCache, Option.some.injEq, Prod.mk.injEq] at e
    rw [← e.2]
    exact hh d h rfl
  | none =>
    have hc1 : c.style_cache = none := hc
    cases hr : (getW S.widgets w).rules with
    | none =>
      have : Widget_BeginUpdate_own E S w c = (c, S) := by
        unfold Widget_BeginUpdate_own
        rw [hc1, hr]
      rw [this]
      refine ⟨rfl, rfl, rfl, rfl, ?_, fun d1 h1 e => ?_, rfl⟩
      · simp only [contextCache, hr, Option.map_none']
        exact hc1
      · simp [contextCache, hr] at e
    | some data =>
      cases hcc : data.rules.cache_children_style with
      | false =>
        have : Widget_BeginUpdate_own E S w c = (c, S) := by
          unfold Widget_BeginUpdate_own
          rw [hc1, hr]
          simp [hcc]
        rw [this]
        refine ⟨rfl, rfl, rfl, rfl, ?_, fun d1 h1 e => ?_, rfl⟩
        · simp only [contextCache, hr, hcc, Bool.false_eq_true, if_false, Option.map_none']
          exact hc1
        · simp [contextCache, hr, hcc] at e
      | true =>
        obtain ⟨d, hd⟩ := Option.ne_none_iff_exists'.mp (hown data rfl hr hcc)
        have : Widget_BeginUpdate_own E S w c =
            ({ c with style_hash := (getW S.widgets w).hash, style_cache := some d },
              S.call E (Call.Widget_GenerateSelfHash w)) := by
          unfold Widget_BeginUpdate_own
          rw [hc1, hr]
          simp only [hcc, if_true, World.call_widgets, hq.1, hr, Option.some_bind, hd]
        rw [this]
        refine ⟨hq.1 _ _, rfl, rfl, rfl, ?_, fun d1 h1 e => ?_, rfl⟩
        · simp only [contextCache, hr, hcc, if_true, hd, Option.map_some']
        · simp only [contextCache, hr, hcc, if_true, hd, Option.map_some', Option.some.injEq,
            Prod.mk.injEq] at e
          exact e.2

/-- The resolution of lines 458-475 when the sheet resolved is the sheet held
and nothing is mutated: no widget changes. -/
theorem Widget_BeginUpdate_resolve_quiet (E : Env) (hq : Quiet E) (S : World) (w : Nat)
    (c : LCUI_WidgetTaskContextRec)
    (hhit : ∀ d, c.style_cache = some d → (getW S.widgets w).hash ≠ 0 →
      ∃ s, Dict_FetchValue S.dicts d (styleCacheKey c.style_hash (getW S.widgets w).hash) =
          some s ∧ (getW S.widgets w).inherited_style = some (StyleRef.sheet s))
    (hglobal : (c.style_cache = none ∨ (getW S.widgets w).hash = 0) →
      (getW S.widgets w).inherited_style =
        some (StyleRef.cached (E.LCUI_GetCachedStyleSheet S.widgets w))) :
    (Widget_BeginUpdate_resolve E S w c).widgets = S.widgets ∧
      (Widget_BeginUpdate_resolve E S w c).self = S.self ∧
      (Widget_BeginUpdate_resolve E S w c).metrics = S.metrics ∧
      (Widget_BeginUpdate_resolve E S w c).dicts = S.dicts := by
  have hset : ∀ (style : Option StyleRef), (getW S.widgets w).inherited_style = style →
      updW S.widgets w (fun x => { x with inherited_style := style }) = S.widgets := by
    intro style hs
    apply updW_self
    rw [← hs]
  have hg : ∀ (style : Option StyleRef), (getW S.widgets w).inherited_style = style →
      ((S.call E (Call.LCUI_GetCachedStyleSheet w)).onWidgets (fun ws => updW ws w (fun x =>
        { x with inherited_style := style }))).widgets = S.widgets := by
    intro style hs
    rw [World.onWidgets_widgets, World.call_widgets, hq.1]
    exact hset _ hs
  unfold Widget_BeginUpdate_resolve
  cases hc : c.style_cache with
  | none =>
    simp only
    exact ⟨hg _ (hglobal (Or.inl hc)), rfl, rfl, rfl⟩
  | some d =>
    simp only
    by_cases hh : (getW S.widgets w).hash = 0
    · rw [if_neg (by simpa using hh)]
      exact ⟨hg _ (hglobal (Or.inr hh)), rfl, rfl, rfl⟩
    · rw [if_pos hh]
      obtain ⟨s, hf, hs⟩ := hhit d hc hh
      simp only [hf]
      exact ⟨by rw [World.onWidgets_widgets]; exact hset _ hs, rfl, rfl, rfl⟩

/-- Widget_BeginUpdate when nothing is mutated and style resolution marks no
new task: the widgets, the module state and the style caches are kept, and the
context has the style cache that the plan gives. -/
theorem Widget_BeginUpdate_settled (K : Defs) (E : Env) (hq : Quiet E) (ws0 : List Widget)
    (S : World) (w : Nat) (ctx : LCUI_WidgetTaskContext) (p : Option (Nat × Nat))
    (hkept : FrameKept ws0 S.widgets) (hctx : findStyleCache ctx = p)
    (hheld : StyleHeld E ws0 S.dicts w p) :
    ∃ c S', Widget_BeginUpdate K E S w ctx = (some c, S') ∧ c.owner = w ∧
      (∀ c1 : LCUI_WidgetTaskContextRec, c1.style_cache = c.style_cache →
        c1.style_hash = c.style_hash → findStyleCache (c1 :: ctx) = contextCache ws0 w p) ∧
      S'.widgets = S.widgets ∧ S'.self = S.self ∧ S'.metrics = S.metrics ∧
      S'.dicts = S.dicts := by
  obtain ⟨block, hblock⟩ := Option.isSome_iff_exists.mp (hq.2 S.mallocs)
  obtain ⟨c2, hsome, hnone, heq⟩ := Widget_BeginUpdate_unfold K E S w ctx block hblock
  obtain ⟨hat1, hat2, hat3, hat4⟩ := atLookup_quiet K E hq S w
  have hf := FrameKept_fields hkept w
  have hcc : contextCache S.widgets w p = contextCache ws0 w p := by
    unfold contextCache
    cases p with
    | some x => rfl
    | none =>
      simp only
      rw [hf.2.2.1]
      cases h0 : (getW ws0 w).rules with
      | none => rw [(FrameKept_rules hkept w).1 h0]
      | some data0 =>
        obtain ⟨data, hd, h1, h2⟩ := (FrameKept_rules hkept w).2 data0 h0
        rw [hd]
        simp only [h1, h2]
  have hc2 : c2.style_cache = p.map (fun x => x.1) := by
    cases p with
    | none => exact hnone hctx
    | some x => exact (hsome x.1 x.2 hctx).1
  have hh2 : ∀ d h, p = some (d, h) → c2.style_hash = h := by
    intro d h e
    subst e
    exact (hsome d h hctx).2
  have hownS : ∀ data, p = none → (getW (atLookup K E S w).widgets w).rules = some data →
      data.rules.cache_children_style = true → data.style_cache ≠ none := by
    intro data hp hr hcs
    rw [hat1] at hr
    cases h0 : (getW ws0 w).rules with
    | none => rw [(FrameKept_rules hkept w).1 h0] at hr; cases hr
    | some data0 =>
      obtain ⟨data1, hd, h1, h2⟩ := (FrameKept_rules hkept w).2 data0 h0
      rw [hd] at hr
      simp only [Option.some.injEq] at hr
      subst hr
      rw [h2]
      exact hheld.1 data0 hp h0 (by rw [← h1]; exact hcs)
  obtain ⟨ho1, ho2, ho3, ho4, ho5, ho6, ho7⟩ :=
    Widget_BeginUpdate_own_quiet E hq (atLookup K E S w) w c2 p hc2 hh2 hownS
  rw [hat1, hcc] at ho5 ho6
  have hr := Widget_BeginUpdate_resolve_quiet E hq
    (Widget_BeginUpdate_own E (atLookup K E S w) w c2).2 w
    (Widget_BeginUpdate_own E (atLookup K E S w) w c2).1
    (by
      intro d hd hhash
      rw [ho1, hat1] at hhash ⊢
      rw [ho4, hat4]
      rw [ho5] at hd
      cases hcx : contextCache ws0 w p with
      | none => rw [hcx] at hd; cases hd
      | some x =>
        obtain ⟨d1, h1⟩ := x
        rw [hcx] at hd
        simp only [Option.map_some', Option.some.injEq] at hd
        subst hd
        rw [ho6 d1 h1 hcx, hf.2.2.1, hf.2.2.2.1]
        exact hheld.2.1 d1 h1 hcx (by rw [← hf.2.2.1]; exact hhash))
    (by
      intro hor
      rw [ho1, hat1] at hor ⊢
      rw [hf.2.2.2.1]
      refine hheld.2.2 ?_ S.widgets ?_
      rcases hor with e | e
      · left
        rw [ho5] at e
        cases hcx : contextCache ws0 w p with
        | none => rfl
        | some x => rw [hcx] at e; cases e
      · right
        rw [← hf.2.2.1]
        exact e
      · exact hkept)
  obtain ⟨hr1, hr2, hr3, hr4⟩ := hr
  refine ⟨_, _, heq, ?_, ?_, ?_⟩
  · rw [ho7]
    obtain ⟨c, hc, -, ho⟩ := Widget_BeginUpdate_diff K E S w ctx block hblock
    rw [heq] at hc
    simp only [Option.some.injEq] at hc
    rw [← ho7, hc]
    exact ho
  · intro c1 h1 h2
    rw [ho5] at h1
    cases hcx : contextCache ws0 w p with
    | none =>
      rw [hcx] at h1
      rw [findStyleCache_cons_none c1 ctx h1, hctx]
      cases p with
      | none => rfl
      | some x => simp [contextCache] at hcx
    | some x =>
      obtain ⟨d1, hx1⟩ := x
      rw [hcx] at h1
      rw [findStyleCache_cons_cached c1 ctx d1 h1, h2, ho6 d1 hx1 hcx]
  · rw [if_neg (by rw [hr1]; simp)]
    exact ⟨hr1.trans (ho1.trans hat1), hr2.trans (ho2.trans hat2), hr3.trans (ho3.trans hat3),
      hr4.trans (ho4.trans hat4)⟩

theorem Reached_inSubtree {E : Env} {ws : List Widget} {w i : Nat} (h : Reached E ws w i) :
    InSubtree ws w i := by
  induction h with
  | top w => exact Or.inl rfl
  | step _ hc _ ih => exact Or.inr (InSubtree_child hc ih)

theorem Reached_snoc {E : Env} {ws : List Widget} {w i c : Nat} (h : Reached E ws w i)
    (hg : offGated E ws i = false) (hc : c ∈ (getW ws i).children) : Reached E ws w c := by
  induction h with
  | top w => exact Reached.step hg hc (Reached.top c)
  | step hg1 hc1 _ ih => exact Reached.step hg1 hc1 (ih hg hc)

theorem Reached_of_gateFree {E : Env} {ws : List Widget} {w : Nat} (hfree : GateFree E ws w) :
    ∀ i, InSubtree ws w i → Reached E ws w i := by
  have hdesc : ∀ i, IsDescendant ws w i → Reached E ws w i := by
    intro i hi
    induction hi with
    | child h => exact Reached.step (hfree w (Or.inl rfl)) h (Reached.top _)
    | step hd h ih => exact Reached_snoc ih (hfree _ (Or.inr hd)) h
  intro i hi
  rcases hi with e | e
  · subst e; exact Reached.top _
  · exact hdesc i e

theorem Reached_gated {E : Env} {ws : List Widget} {w i : Nat} (h : Reached E ws w i)
    (hg : offGated E ws w = true) : i = w := by
  cases h with
  | top w => rfl
  | step hg1 _ _ => rw [hg] at hg1; cases hg1

theorem GateFree_sub {E : Env} {ws : List Widget} {w i : Nat} (hfree : GateFree E ws w)
    (hi : InSubtree ws w i) : GateFree E ws i := by
  intro g hg
  apply hfree
  rcases hi with e | e
  · subst e; exact hg
  · rcases hg with e2 | e2
    · subst e2; exact Or.inr e
    · exact Or.inr (IsDescendant_trans e e2)

theorem FlagsShrink_refl (ws : List Widget) (i : Nat) : FlagsShrink ws ws i :=
  ⟨fun h => h, fun h => h⟩

theorem FlagsShrink_trans {a b c : List Widget} {i : Nat} (h1 : FlagsShrink a b i)
    (h2 : FlagsShrink b c i) : FlagsShrink a c i :=
  ⟨fun h => h1.1 (h2.1 h), fun h => h1.2 (h2.2 h)⟩

theorem FlagsShrink_of_same {a b : List Widget} {i : Nat} (h : SameFlags a b i) :
    FlagsShrink a b i :=
  ⟨fun e => h.1 ▸ e, fun e => h.2 ▸ e⟩

theorem Dirty_of_shrink {a b : List Widget} {i : Nat} (h : FlagsShrink a b i) (hd : Dirty b i) :
    Dirty a i := by
  rcases hd with e | e
  · exact Or.inl (h.1 e)
  · exact Or.inr (h.2 e)

theorem Clean_of_shrink {a b : List Widget} {i : Nat} (h : FlagsShrink a b i) (hc : Clean a i) :
    Clean b i := by
  apply Clean_of_not_dirty
  intro hd
  exact not_dirty_of_clean hc (Dirty_of_shrink h hd)

theorem SameFlags_refl (ws : List Widget) (i : Nat) : SameFlags ws ws i := ⟨rfl, rfl⟩

/-- Closed flags of a subtree stay closed when no flag is set, the widgets
that the pass over `c` cannot reach keep their flags and the flags of the
subtree of `c` end closed. -/
theorem FlagsClosed_of_drained {E : Env} {ws0 ws ws1 : List Widget} {x c : Nat}
    (hcl : FlagsClosed ws0 ws x) (hshrink : ∀ i, FlagsShrink ws ws1 i)
    (hsame : ∀ i, ¬ Reached E ws0 c i → SameFlags ws ws1 i) (hclc : FlagsClosed ws0 ws1 c) :
    FlagsClosed ws0 ws1 x := by
  intro i d hi hd hdirty
  by_cases hr : Reached E ws0 c i
  · exact hclc i d (Reached_inSubtree hr) hd hdirty
  · rw [(hsame i hr).2]
    exact hcl i d hi hd (Dirty_of_shrink (hshrink d) hdirty)

/-- Closedness of the flags of a subtree reads the flags of the subtree only. -/
theorem FlagsClosed_congr {ws0 ws ws1 : List Widget} {x : Nat} (hcl : FlagsClosed ws0 ws x)
    (hsame : ∀ i, InSubtree ws0 x i → SameFlags ws ws1 i) : FlagsClosed ws0 ws1 x := by
  intro i d hi hd hdirty
  rw [(hsame i hi).2]
  exact hcl i d hi hd (Dirty_of_sameFlags (hsame d (InSubtree_step hi hd)) hdirty)

theorem FlagsClosed_sub {ws0 ws : List Widget} {w c : Nat} (hcl : FlagsClosed ws0 ws w)
    (hc : c ∈ (getW ws0 w).children) : FlagsClosed ws0 ws c :=
  fun i d hi hd hdirty => hcl i d (Or.inr (InSubtree_child hc hi)) hd hdirty

theorem TreeReady_child {K : Defs} {E : Env} {ws0 : List Widget}
    {dicts : List (List (Nat × Nat))} {rank : Nat → Nat} {q : Nat → Option (Nat × Nat)}
    {lag : Nat → Nat} {w c : Nat} (h : TreeReady K E ws0 dicts rank q lag w)
    (hg : offGated E ws0 w = false) (hc : c ∈ (getW ws0 w).children) :
    TreeReady K E ws0 dicts rank q lag c := by
  obtain ⟨htree, _, hplan, hheld, hrules, hlag⟩ := h
  have hr : ∀ i, Reached E ws0 c i → Reached E ws0 w i := fun i hi => Reached.step hg hc hi
  exact ⟨IsTreeUnder_child htree hc, (htree w c (Or.inl rfl) hc).1,
    fun i d hi => hplan i d (hr i hi), fun i hi => hheld i (hr i hi),
    fun i hi => hrules i (hr i hi), fun i d hi => hlag i d (hr i hi)⟩

theorem Reached_trans {E : Env} {ws : List Widget} {w i j : Nat} (h1 : Reached E ws w i)
    (h2 : Reached E ws i j) : Reached E ws w j := by
  induction h1 with
  | top w => exact h2
  | step hg hc _ ih => exact Reached.step hg hc (ih h2)

/-- A widget that an update of `w` can reach is `w` or a child of a reached
widget whose gate is open. -/
theorem Reached_cases_last {E : Env} {ws : List Widget} {w i : Nat} (h : Reached E ws w i) :
    i = w ∨ ∃ p, Reached E ws w p ∧ offGated E ws p = false ∧ i ∈ (getW ws p).children := by
  induction h with
  | top w => exact Or.inl rfl
  | step hg hc _ ih =>
    right
    rcases ih with e | ⟨p, hp, hgp, hip⟩
    · subst e
      exact ⟨_, Reached.top _, hg, hc⟩
    · exact ⟨p, Reached.step hg hc hp, hgp, hip⟩

theorem LagSteps_child {E : Env} {ws : List Widget} {lag : Nat → Nat} {w c : Nat}
    (h : LagSteps E ws lag w) (hg : offGated E ws w = false) (hc : c ∈ (getW ws w).children) :
    LagSteps E ws lag c :=
  fun i d hi => h i d (Reached.step hg hc hi)

/-- The lag does not decrease along what an update can reach. -/
theorem lag_mono {E : Env} {ws : List Widget} {lag : Nat → Nat} {w i : Nat}
    (h : LagSteps E ws lag w) (hi : Reached E ws w i) : lag w ≤ lag i := by
  rcases Reached_cases_last hi with e | ⟨p, hp, hgp, hip⟩
  · rw [e]
  · have h1 := (h p i hp hgp hip).1
    have h2 : lag w ≤ lag p := by
      clear h1 hip hgp hi
      induction hp with
      | top w => exact Nat.le_refl _
      | step hg hc _ ih =>
        exact Nat.le_trans (h _ _ (Reached.top _) hg hc).1 (ih (LagSteps_child h hg hc))
    exact Nat.le_trans h2 h1

/-- Below `w`, a widget whose first update of the children will stop after one
child has a lag above the lag of `w`. -/
theorem lag_zero_below {E : Env} {ws : List Widget} {lag : Nat → Nat} {w i : Nat}
    (h : LagSteps E ws lag w) (hi : Reached E ws w i) (hne : i ≠ w)
    (hz : zeroPending E ws ws i = true) : lag w + 1 ≤ lag i := by
  rcases Reached_cases_last hi with e | ⟨p, hp, hgp, hip⟩
  · exact absurd e hne
  · have h1 := (h p i hp hgp hip).2 hz
    have h2 := lag_mono h hp
    omega

/-- A widget whose first update of the children will stop after one child was
such a widget in every earlier arena of the frame. -/
theorem zeroPending_mono {E : Env} {ws0 ws ws1 : List Widget} {i : Nat}
    (hk : FrameKept ws0 ws) (hk1 : FrameKept ws0 ws1)
    (hfc : (getW ws1 i).task.for_children = true → (getW ws i).task.for_children = true)
    (ha : AllowanceKept ws ws1) (hz : zeroPending E ws0 ws1 i = true) :
    zeroPending E ws0 ws i = true := by
  unfold zeroPending at hz ⊢
  cases hr1 : (getW ws1 i).rules with
  | none => rw [hr1] at hz; simp at hz
  | some d1 =>
    rw [hr1] at hz
    simp only [Bool.and_eq_true, Bool.not_eq_true', decide_eq_true_eq] at hz
    obtain ⟨d0, h0, e1, -⟩ := FrameKept_rules_back hk1 i d1 hr1
    obtain ⟨d, hd, e2, -⟩ := (FrameKept_rules hk i).2 d0 h0
    have hza := ha i (by unfold zeroAllowance; rw [hr1]; simpa using hz.2.2)
    unfold zeroAllowance at hza
    rw [hd] at hza
    rw [hd]
    simp only [Bool.and_eq_true, Bool.not_eq_true', decide_eq_true_eq]
    exact ⟨⟨hz.1.1, hfc hz.1.2⟩, by rw [e2, ← e1]; exact hz.2.1, by simpa using hza⟩

theorem ZeroBound_mono {E : Env} {ws0 ws ws1 : List Widget} {lag : Nat → Nat} {k w : Nat}
    (hk : FrameKept ws0 ws) (hk1 : FrameKept ws0 ws1)
    (hfc : ∀ i, Reached E ws0 w i → (getW ws1 i).task.for_children = true →
      (getW ws i).task.for_children = true)
    (ha : AllowanceKept ws ws1) (h : ZeroBound E ws0 ws lag k w) :
    ZeroBound E ws0 ws1 lag k w :=
  fun i hi hz => h i hi (zeroPending_mono hk hk1 (hfc i hi) ha hz)

theorem ZeroBound_child {E : Env} {ws0 ws : List Widget} {lag : Nat → Nat} {k w c : Nat}
    (h : ZeroBound E ws0 ws lag k w) (hg : offGated E ws0 w = false)
    (hc : c ∈ (getW ws0 w).children) : ZeroBound E ws0 ws lag k c :=
  fun i hi hz => h i (Reached.step hg hc hi) hz

/-! #### The style caches are not written by Widget_UpdateSelf -/

theorem World.call_dicts (E : Env) (S : World) (c : Call) : (S.call E c).dicts = S.dicts := rfl

theorem World.onWidgets_dicts (S : World) (f : List Widget → List Widget) :
    (S.onWidgets f).dicts = S.dicts := rfl

theorem Widget_EndDiff_dicts (K : Defs) (E : Env) (S : World) (w : Nat)
    (ctx : LCUI_WidgetTaskContextRec) : (Widget_EndDiff K E S w ctx).2.2.dicts = S.dicts := by
  have hvis : ∀ (S : World) (d : LCUI_WidgetTaskDiffRec),
      (Widget_EndDiff_visibility K E S w d).2.dicts = S.dicts := by
    intro S d
    unfold Widget_EndDiff_visibility
    dsimp only
    split <;> rfl
  have hgeo : ∀ (S : World) (d : LCUI_WidgetTaskDiffRec),
      (Widget_EndDiff_geometry K E S w d).2.dicts = S.dicts := by
    intro S d
    unfold Widget_EndDiff_geometry
    dsimp only
    repeat' split
    all_goals rfl
  have hflex : ∀ (S : World) (d : LCUI_WidgetTaskDiffRec),
      (Widget_EndDiff_flex K E S w d).dicts = S.dicts := by
    intro S d
    unfold Widget_EndDiff_flex
    dsimp only
    repeat' split
    all_goals rfl
  have hdisplay : ∀ (S : World) (d : LCUI_WidgetTaskDiffRec),
      (Widget_EndDiff_display K E S w d).2.dicts = S.dicts := by
    intro S d
    unfold Widget_EndDiff_display
    dsimp only
    repeat' split
    all_goals rfl
  have hemit : ∀ (S : World) (d : LCUI_WidgetTaskDiffRec),
      (Widget_EndDiff_emit K E S w d).2.dicts = S.dicts := by
    intro S d
    unfold Widget_EndDiff_emit
    dsimp only
    repeat' split
    all_goals rfl
  have hafter : (afterLayoutChecks K E S w ctx).dicts = S.dicts := by
    have h1 : (atCompare K E S w ctx).dicts = S.dicts := by
      unfold atCompare Widget_EndDiff_boxes
      exact hvis S ctx.diff
    have h2 := hgeo (atCompare K E S w ctx) (diffAtCompare K E S w ctx)
    have h3 := hflex
      (Widget_EndDiff_geometry K E (atCompare K E S w ctx) w (diffAtCompare K E S w ctx)).2
      (Widget_EndDiff_geometry K E (atCompare K E S w ctx) w (diffAtCompare K E S w ctx)).1
    have h4 := hdisplay
      (Widget_EndDiff_flex K E
        (Widget_EndDiff_geometry K E (atCompare K E S w ctx) w (diffAtCompare K E S w ctx)).2 w
        (Widget_EndDiff_geometry K E (atCompare K E S w ctx) w (diffAtCompare K E S w ctx)).1)
      (Widget_EndDiff_geometry K E (atCompare K E S w ctx) w (diffAtCompare K E S w ctx)).1
    exact ((h4.trans h3).trans h2).trans h1
  cases hcan : ctx.diff.can_render with
  | false =>
    unfold Widget_EndDiff
    simp only [hcan]
    rfl
  | true =>
    rw [Widget_EndDiff_unfold K E S w ctx hcan]
    split
    · exact hafter
    · split
      · exact hafter
      · exact (hemit _ _).trans hafter

theorem Widget_UpdateSelf_dicts (K : Defs) (E : Env) (S : World) (w : Nat)
    (ctx : LCUI_WidgetTaskContextRec) (parent : LCUI_WidgetTaskContext) :
    (Widget_UpdateSelf K E S w ctx parent).2.dicts = S.dicts := by
  have htask : ∀ (S : World) (i : Nat), (Widget_UpdateSelf_task K E w S i).dicts = S.dicts := by
    intro S i
    unfold Widget_UpdateSelf_task
    split
    · dsimp only
      split
      · next h _ => cases h <;> rfl
      · rfl
    · rfl
  have hloop : ∀ (l : List Nat) (S : World),
      (l.foldl (Widget_UpdateSelf_task K E w) S).dicts = S.dicts := by
    intro l
    induction l with
    | nil => intro S; rfl
    | cons i rest ih =>
      intro S
      simp only [List.foldl_cons]
      exact (ih _).trans (htask S i)
  unfold Widget_UpdateSelf
  dsimp only
  rw [World.call_dicts, Widget_EndDiff_dicts, hloop, World.onWidgets_dicts]
  split <;> rfl

theorem FrameKept_updW_task {ws0 ws : List Widget} (h : FrameKept ws0 ws) (w : Nat)
    (f : Widget → Widget) (hf : ∀ x, f x = { x with task := (f x).task }) :
    FrameKept ws0 (updW ws w f) := by
  refine ⟨by rw [length_updW]; exact h.1, fun i => ?_⟩
  rw [getW_updW]
  split
  · next hi =>
    rw [← hi.1]
    have e := (h.2 w).1
    have e2 := (h.2 w).2
    rw [hf (getW ws w)]
    refine ⟨?_, e2⟩
    rw [e]
  · exact h.2 i

theorem SameFlags_updW_ne (ws : List Widget) (w i : Nat) (f : Widget → Widget) (h : i ≠ w) :
    SameFlags ws (updW ws w f) i := by
  unfold SameFlags
  rw [getW_updW_ne ws w i f (Ne.symm h)]
  exact ⟨rfl, rfl⟩

/-- One iteration of the loop of lines 578-623 for a child that reports no
work, when the rules lift every limit or the allowance is at least 1: the loop
goes on with the next child. -/
theorem updateChildrenLoop_cons_idle (K : Defs) (E : Env) (upd : UpdateFn) (w : Nat)
    (ctx : LCUI_WidgetTaskContext) (hasData : Bool) (child : Nat) (rest : List Nat)
    (S S1 : World) (msec : Int) (hupd : upd S child ctx = Except.ok (0, S1))
    (hgo : hasData = true → ∀ data, (getW S1.widgets w).rules = some data →
      0 ≤ data.rules.max_update_children_count → 1 ≤ data.default_max_update_count) :
    updateChildrenLoop K E upd w ctx hasData (child :: rest) S 0 0 msec =
      updateChildrenLoop K E upd w ctx hasData rest
        (if (getW S1.widgets child).task.for_self = true ∨
            (getW S1.widgets child).task.for_children = true then
          S1.onWidgets (fun ws => updW ws w (fun x => x.setForChildren true))
        else S1) 0 0 msec := by
  have hrules : (getW (if (getW S1.widgets child).task.for_self = true ∨
        (getW S1.widgets child).task.for_children = true then
      S1.onWidgets (fun ws => updW ws w (fun x => x.setForChildren true))
      else S1).widgets w).rules = (getW S1.widgets w).rules := by
    split
    · rw [World.onWidgets_widgets, getW_updW]
      split <;> rfl
    · rfl
  conv_lhs => unfold updateChildrenLoop
  simp only [hupd, Nat.lt_irrefl, and_false, if_false, Nat.add_zero]
  cases hasData with
  | false => rfl
  | true =>
    cases hr : (getW S1.widgets w).rules with
    | none =>
      rw [hr] at hrules
      simp only [hrules]
    | some data =>
      rw [hr] at hrules
      simp only [hrules]
      by_cases hneg : data.rules.max_update_children_count < 0
      · rw [if_pos hneg]
      · have h1 := hgo rfl data hr (by omega)
        rw [if_neg hneg, if_neg (by omega), if_pos (by omega)]

theorem not_reached_above {E : Env} {ws : List Widget} {rank : Nat → Nat} {w c : Nat}
    (ht : IsTreeUnder ws rank w) (hc : c ∈ (getW ws w).children) : ¬ Reached E ws c w :=
  fun h => not_inSubtree_above ht (IsDescendant.child hc) (Reached_inSubtree h)

theorem reached_ne_above {E : Env} {ws : List Widget} {rank : Nat → Nat} {w c i : Nat}
    (ht : IsTreeUnder ws rank w) (hc : c ∈ (getW ws w).children) (hi : Reached E ws c i) :
    i ≠ w := by
  intro e
  subst e
  exact not_reached_above ht hc hi

theorem rules_updW (ws : List Widget) (w : Nat) (f : Widget → Widget)
    (hf : ∀ x, (f x).rules = x.rules) (i : Nat) :
    (getW (updW ws w f) i).rules = (getW ws i).rules := by
  rw [getW_updW]
  split
  · next h => rw [← h.1]; exact hf _
  · rfl

theorem FrameKept_updW {ws0 ws : List Widget} (h : FrameKept ws0 ws) (w : Nat)
    (f : Widget → Widget)
    (hf : f (getW ws w) = { getW ws w with task := (f (getW ws w)).task,
                                           rules := (f (getW ws w)).rules })
    (hr : (f (getW ws w)).rules.map (fun d => d.settings) =
      (getW ws w).rules.map (fun d => d.settings)) :
    FrameKept ws0 (updW ws w f) := by
  refine ⟨by rw [length_updW]; exact h.1, fun i => ?_⟩
  rw [getW_updW]
  split
  · next hi =>
    rw [← hi.1]
    have e := (h.2 w).1
    refine ⟨?_, hr.trans (h.2 w).2⟩
    rw [hf, e]
  · exact h.2 i

theorem GoesOn_kept {ws0 ws ws1 : List Widget} {w : Nat} (hk : FrameKept ws0 ws)
    (hk1 : FrameKept ws0 ws1) (ha : AllowanceKept ws ws1) (h : GoesOn ws w) : GoesOn ws1 w := by
  intro d1 hd1 hmax
  by_cases hz : d1.default_max_update_count = 0
  · exfalso
    obtain ⟨d0, h0, e1, -⟩ := FrameKept_rules_back hk1 w d1 hd1
    obtain ⟨d, hd, e2, -⟩ := (FrameKept_rules hk w).2 d0 h0
    have hza := ha w (by unfold zeroAllowance; rw [hd1]; simpa using hz)
    unfold zeroAllowance at hza
    rw [hd] at hza
    have := h d hd (by rw [e2, ← e1]; exact hmax)
    simp only [decide_eq_true_eq] at hza
    omega
  · omega

theorem zeroPending_of_not_goesOn {E : Env} {ws0 ws : List Widget} {w : Nat}
    (hg : offGated E ws0 w = false) (hfc : (getW ws w).task.for_children = true)
    (h : ¬ GoesOn ws w) : zeroPending E ws0 ws w = true := by
  unfold GoesOn at h
  push_neg at h
  obtain ⟨data, hd, hmax, hlt⟩ := h
  unfold zeroPending
  rw [hd, hg, hfc]
  simp only [Bool.not_false, Bool.and_self, Bool.true_and, Bool.and_eq_true, decide_eq_true_eq]
  exact ⟨hmax, by omega⟩

theorem zeroPending_false_of_goesOn {E : Env} {ws0 ws : List Widget} {w : Nat}
    (h : GoesOn ws w) : zeroPending E ws0 ws w = false := by
  cases hz : zeroPending E ws0 ws w with
  | false => rfl
  | true =>
    exfalso
    unfold zeroPending at hz
    cases hr : (getW ws w).rules with
    | none => rw [hr] at hz; simp at hz
    | some d =>
      rw [hr] at hz
      simp only [Bool.and_eq_true, Bool.not_eq_true', decide_eq_true_eq] at hz
      have := h d hr hz.2.1
      omega

theorem zeroPending_false_of_flag {E : Env} {ws0 ws : List Widget} {w : Nat}
    (h : (getW ws w).task.for_children = false) : zeroPending E ws0 ws w = false := by
  unfold zeroPending
  rw [h]
  simp

theorem afterChild_step (ws0 : List Widget) (S1 : World) (w child : Nat)
    (h : FrameKept ws0 S1.widgets) (hw : w < ws0.length) :
    FrameStep ws0 S1 (afterChild S1 w child) ∧
      (∀ i, i ≠ w → SameFlags S1.widgets (afterChild S1 w child).widgets i) ∧
      (getW (afterChild S1 w child).widgets w).task.for_self = (getW S1.widgets w).task.for_self ∧
      ((getW S1.widgets w).task.for_children = true →
        (getW (afterChild S1 w child).widgets w).task.for_children = true) ∧
      (Dirty S1.widgets child → (getW (afterChild S1 w child).widgets w).task.for_children = true) ∧
      (Clean S1.widgets child → afterChild S1 w child = S1) ∧
      (∀ i, (getW (afterChild S1 w child).widgets i).rules = (getW S1.widgets i).rules) := by
  have hlen : w < S1.widgets.length := by rw [h.1]; exact hw
  unfold afterChild
  split
  · next hd =>
    have hk : FrameKept ws0 (updW S1.widgets w (fun x => x.setForChildren true)) :=
      FrameKept_updW_task h w _ (fun _ => rfl)
    have hs : ∀ i, i ≠ w →
        SameFlags S1.widgets (updW S1.widgets w (fun x => x.setForChildren true)) i :=
      fun i hi => SameFlags_updW_ne _ w i _ hi
    have hr : ∀ i, (getW (updW S1.widgets w (fun x => x.setForChildren true)) i).rules =
        (getW S1.widgets i).rules := rules_updW _ w _ (fun _ => rfl)
    refine ⟨⟨rfl, rfl, rfl, hk, AllowanceKept_of_rules hr⟩, hs, ?_, fun _ => ?_, fun _ => ?_,
      fun hc => ?_, hr⟩
    · rw [World.onWidgets_widgets, getW_updW_same _ _ _ hlen]; rfl
    · rw [World.onWidgets_widgets, getW_updW_same _ _ _ hlen]; rfl
    · rw [World.onWidgets_widgets, getW_updW_same _ _ _ hlen]; rfl
    · exact absurd hd (not_dirty_of_clean hc)
  · next hd =>
    exact ⟨FrameStep_refl ws0 S1 h, fun i _ => SameFlags_refl _ i, rfl, fun e => e,
      fun hdirty => absurd hdirty hd, fun _ => rfl, fun _ => rfl⟩

/-- After a child was updated no flag is set and no allowance is 0 that the
reference arena has not, `for_children` of the parent being set there. -/
theorem afterChild_below {ws0 : List Widget} {S1 : World} {w child : Nat}
    (hfc0 : (getW ws0 w).task.for_children = true) (hbelow : Below ws0 S1.widgets)
    (hsame : ∀ i, i ≠ w → SameFlags S1.widgets (afterChild S1 w child).widgets i)
    (hfs : (getW (afterChild S1 w child).widgets w).task.for_self =
      (getW S1.widgets w).task.for_self)
    (hr : ∀ i, (getW (afterChild S1 w child).widgets i).rules = (getW S1.widgets i).rules) :
    Below ws0 (afterChild S1 w child).widgets := by
  refine ⟨fun i => ?_, AllowanceKept_trans hbelow.2 (AllowanceKept_of_rules hr)⟩
  by_cases e : i = w
  · subst e
    exact ⟨fun h => (hbelow.1 i).1 (hfs ▸ h), fun _ => hfc0⟩
  · exact FlagsShrink_trans (hbelow.1 i) (FlagsShrink_of_same (hsame i e))

theorem getW_setDefaultMaxUpdateCount (ws : List Widget) (w v i : Nat) :
    getW (setDefaultMaxUpdateCount ws w v) i =
      if w = i ∧ w < ws.length then
        { getW ws w with
          rules := (getW ws w).rules.map (fun d => { d with default_max_update_count := v }) }
      else getW ws i := by
  unfold setDefaultMaxUpdateCount
  rw [getW_updW]
  split
  · cases h : (getW ws w).rules with
    | none =>
      simp only [Option.map_none']
      rw [← h]
    | some d => rfl
  · rfl

theorem FrameKept_setDefaultMaxUpdateCount {ws0 ws : List Widget} (h : FrameKept ws0 ws)
    (w v : Nat) : FrameKept ws0 (setDefaultMaxUpdateCount ws w v) := by
  refine ⟨?_, fun i => ?_⟩
  · unfold setDefaultMaxUpdateCount
    rw [length_updW]
    exact h.1
  · rw [getW_setDefaultMaxUpdateCount]
    split
    · next hi =>
      rw [← hi.1]
      have e := (h.2 w).1
      refine ⟨?_, ?_⟩
      · simp only
        rw [e]
      · simp only
        rw [← (h.2 w).2]
        cases (getW ws w).rules with
        | none => rfl
        | some d => rfl
    · exact h.2 i

/-- The state after the check of line 607 failed, when nothing is mutated:
`for_children` of the parent is set and its allowance is not 0. -/
theorem afterBudget_step (ws0 : List Widget) (S1 : World) (w child v : Nat)
    (h : FrameKept ws0 S1.widgets) (hw : w < ws0.length) (hv : 1 ≤ v) :
    FrameStep ws0 S1 (afterBudget S1 w child v) ∧
      (∀ i, i ≠ w → SameFlags S1.widgets (afterBudget S1 w child v).widgets i) ∧
      (getW (afterBudget S1 w child v).widgets w).task.for_self =
        (getW S1.widgets w).task.for_self ∧
      (getW (afterBudget S1 w child v).widgets w).task.for_children = true ∧
      GoesOn (afterBudget S1 w child v).widgets w := by
  obtain ⟨ha1, ha2, ha3, -, -, -, ha7⟩ := afterChild_step ws0 S1 w child h hw
  have hlenA : w < (afterChild S1 w child).widgets.length := by rw [ha1.2.2.2.1.1]; exact hw
  have hk4 : FrameKept ws0 (updW (afterChild S1 w child).widgets w
      (fun x => x.setForChildren true)) :=
    FrameKept_updW_task ha1.2.2.2.1 w _ (fun _ => rfl)
  have hlen4 : w < (updW (afterChild S1 w child).widgets w
      (fun x => x.setForChildren true)).length := by rw [length_updW]; exact hlenA
  have hw4 : getW (updW (afterChild S1 w child).widgets w (fun x => x.setForChildren true)) w =
      (getW (afterChild S1 w child).widgets w).setForChildren true :=
    getW_updW_same _ _ _ hlenA
  have hwid : (afterBudget S1 w child v).widgets = setDefaultMaxUpdateCount
      (updW (afterChild S1 w child).widgets w (fun x => x.setForChildren true)) w v := rfl
  have hget : ∀ i, getW (afterBudget S1 w child v).widgets i =
      if w = i then
        { (getW (afterChild S1 w child).widgets w).setForChildren true with
          rules := ((getW (afterChild S1 w child).widgets w).setForChildren true).rules.map
            (fun d => { d with default_max_update_count := v }) }
      else getW (afterChild S1 w child).widgets i := by
    intro i
    rw [hwid, getW_setDefaultMaxUpdateCount]
    by_cases e : w = i
    · subst e
      rw [if_pos ⟨rfl, hlen4⟩, if_pos rfl, hw4]
    · rw [if_neg (fun hh => e hh.1), if_neg e]
      exact getW_updW_ne _ _ _ _ e
  have hk : FrameKept ws0 (afterBudget S1 w child v).widgets := by
    rw [hwid]
    exact FrameKept_setDefaultMaxUpdateCount hk4 w v
  refine ⟨⟨ha1.1, ha1.2.1, ha1.2.2.1, hk, ?_⟩, ?_, ?_, ?_, ?_⟩
  · intro i hz
    unfold zeroAllowance at hz ⊢
    rw [hget i] at hz
    by_cases e : w = i
    · subst e
      rw [if_pos rfl] at hz
      exfalso
      simp only [Widget.setForChildren] at hz
      cases hr : (getW (afterChild S1 w child).widgets w).rules with
      | none => simp [hr] at hz
      | some data =>
        simp only [hr, Option.map_some', decide_eq_true_eq] at hz
        omega
    · rw [if_neg e, ha7 i] at hz
      exact hz
  · intro i hi
    unfold SameFlags
    rw [hget i, if_neg (Ne.symm hi)]
    exact ha2 i hi
  · rw [hget w, if_pos rfl, ← ha3]
    rfl
  · rw [hget w, if_pos rfl]
    rfl
  · intro data hd _
    rw [hget w, if_pos rfl] at hd
    simp only [Widget.setForChildren] at hd
    cases hr : (getW (afterChild S1 w child).widgets w).rules with
    | none => simp [hr] at hd
    | some d =>
      simp only [hr, Option.map_some', Option.some.injEq] at hd
      rw [← hd]
      exact hv

/-- One iteration of the loop of lines 578-623 for a child that reports no
work, when the check of line 607 fails: the clock is read and the loop goes
on with a larger allowance when no full tick has elapsed, and is left with an
allowance of at least 1 otherwise. -/
theorem updateChildrenLoop_cons_zero (K : Defs) (E : Env) (upd : UpdateFn) (w : Nat)
    (ctx : LCUI_WidgetTaskContext) (child : Nat) (rest : List Nat)
    (S S1 : World) (msec : Int) (data : LCUI_WidgetRulesDataRec)
    (hupd : upd S child ctx = Except.ok (0, S1))
    (hdata : (getW S1.widgets w).rules = some data)
    (hmax : 0 ≤ data.rules.max_update_children_count)
    (hzero : data.default_max_update_count = 0) :
    ∃ v, 1 ≤ v ∧ updateChildrenLoop K E upd w ctx true (child :: rest) S 0 0 msec =
      if E.clock (afterChild S1 w child).clocks - msec < 1 then
        updateChildrenLoop K E upd w ctx true rest (afterBudget S1 w child 128) 0 0
          (E.clock (afterChild S1 w child).clocks - msec)
      else Except.ok (0, afterBudget S1 w child v) := by
  have hrules : (getW (afterChild S1 w child).widgets w).rules = some data := by
    unfold afterChild
    split
    · rw [World.onWidgets_widgets,
        rules_updW S1.widgets w (fun x => x.setForChildren true) (fun _ => rfl) w]
      exact hdata
    · exact hdata
  refine ⟨if 0 * K.CLOCKS_PER_SEC / (afterChild S1 w child).self.max_updates_per_frame /
      K.LCUI_MAX_FRAMES_PER_SEC / (E.clock (afterChild S1 w child).clocks - msec).toNat < 1
    then 32 else 0 * K.CLOCKS_PER_SEC / (afterChild S1 w child).self.max_updates_per_frame /
      K.LCUI_MAX_FRAMES_PER_SEC / (E.clock (afterChild S1 w child).clocks - msec).toNat, ?_, ?_⟩
  · split <;> omega
  · conv_lhs => unfold updateChildrenLoop
    simp only [hupd, Nat.lt_irrefl, and_false, if_false, Nat.add_zero]
    change (match true, (getW (afterChild S1 w child).widgets w).rules with
      | true, some data => _
      | _, _ => _) = _
    rw [hrules]
    simp only
    rw [if_neg (by omega), if_neg (by omega), if_neg (by omega)]
    simp only [World.clock, hzero, Nat.zero_add]
    rfl

/-- What a child of `w` is ready for in the loops over the children. -/
theorem FrameReady_child {K : Defs} {E : Env} {ws0 : List Widget}
    {dicts : List (List (Nat × Nat))} {rank : Nat → Nat} {q : Nat → Option (Nat × Nat)}
    {lag : Nat → Nat} {k w c : Nat} {St : World} {ctx : LCUI_WidgetTaskContext}
    (hready : TreeReady K E ws0 dicts rank q lag w) (hgate : offGated E ws0 w = false)
    (hc : c ∈ (getW ws0 w).children) (hctx : findStyleCache ctx = q c)
    (hrefresh : St.self.refresh_all = false) (hkept : FrameKept ws0 St.widgets)
    (hbelow : Below ws0 St.widgets)
    (hdicts : St.dicts = dicts) (hcl : FlagsClosed ws0 St.widgets c)
    (hzero : ZeroBound E ws0 St.widgets lag k c) :
    FrameReady K E ws0 dicts rank q lag k St c ctx :=
  ⟨hrefresh, hkept, hbelow, hdicts, hctx, TreeReady_child hready hgate hc, hcl, hzero⟩

/-- The loop of lines 578-623 over the children of a widget whose gate is
open, in pass number `k + 1`, when nothing is mutated and every child is
updated as `FrameSpec` says: what the loop keeps, whatever the allowance is,
and what it achieves when it goes on after every child. -/
theorem updateChildrenLoop_frame (K : Defs) (E : Env) (ws0 : List Widget)
    (dicts : List (List (Nat × Nat))) (rank : Nat → Nat) (q : Nat → Option (Nat × Nat))
    (lag : Nat → Nat) (k : Nat) (upd : UpdateFn) (fuel : Nat) (w : Nat)
    (ctx : LCUI_WidgetTaskContext) (hasData : Bool)
    (ih : ∀ S c, FrameReady K E ws0 dicts rank q lag k S c ctx → rank c < fuel →
      FrameSpec E ws0 lag k S c (upd S c ctx))
    (hready : TreeReady K E ws0 dicts rank q lag w) (hgate : offGated E ws0 w = false)
    (hctx : ∀ c ∈ (getW ws0 w).children, findStyleCache ctx = q c) (hfuel : rank w < fuel + 1)
    (hfc0 : (getW ws0 w).task.for_children = true) :
    ∀ (cs : List Nat) (St : World) (msec : Int), (∀ c ∈ cs, c ∈ (getW ws0 w).children) →
      St.self.refresh_all = false → FrameKept ws0 St.widgets → Below ws0 St.widgets →
      St.dicts = dicts → (∀ c ∈ (getW ws0 w).children, FlagsClosed ws0 St.widgets c) →
      (∀ c ∈ (getW ws0 w).children, ZeroBound E ws0 St.widgets lag k c) →
      ∃ S1, updateChildrenLoop K E upd w ctx hasData cs St 0 0 msec = Except.ok (0, S1) ∧
        FrameStep ws0 St S1 ∧
        (∀ i, i ≠ w → FlagsShrink St.widgets S1.widgets i) ∧
        (getW S1.widgets w).task.for_self = (getW St.widgets w).task.for_self ∧
        ((getW St.widgets w).task.for_children = true →
          (getW S1.widgets w).task.for_children = true) ∧
        (∀ c ∈ cs, Dirty S1.widgets c → (getW S1.widgets w).task.for_children = true) ∧
        (∀ i, i ≠ w → (∀ c ∈ cs, ¬ Reached E ws0 c i) → SameFlags St.widgets S1.widgets i) ∧
        (∀ g, offGated E ws0 g = true →
          (getW S1.widgets g).task.for_children = (getW St.widgets g).task.for_children) ∧
        (∀ c ∈ (getW ws0 w).children, FlagsClosed ws0 S1.widgets c) ∧
        (hasData = true → cs ≠ [] → GoesOn S1.widgets w) ∧
        (GoesOn St.widgets w →
          ((∀ c ∈ cs, GateFree E ws0 c ∧ ∀ j, Reached E ws0 c j → lag j ≤ k) →
            (getW S1.widgets w).task.for_children = (getW St.widgets w).task.for_children) ∧
          (∀ c ∈ cs, ∀ i, Reached E ws0 c i → lag i ≤ k →
            (getW S1.widgets i).task.for_self = false) ∧
          (∀ c ∈ cs, ∀ i, Reached E ws0 c i → GateFree E ws0 i →
            (∀ j, Reached E ws0 i j → lag j ≤ k) → Clean S1.widgets i) ∧
          (∀ c ∈ cs, ZeroBound E ws0 S1.widgets lag (k + 1) c))
  | [], St, _, _, _, hkept, _, _, hcl, _ =>
    ⟨St, rfl, FrameStep_refl ws0 St hkept, fun i _ => FlagsShrink_refl _ i, rfl, fun h => h,
      fun _ hc => absurd hc (List.not_mem_nil _), fun i _ _ => SameFlags_refl _ i,
      fun _ _ => rfl, hcl, fun _ h => absurd rfl h,
      fun _ => ⟨fun _ => rfl, fun _ hc => absurd hc (List.not_mem_nil _),
        fun _ hc => absurd hc (List.not_mem_nil _), fun _ hc => absurd hc (List.not_mem_nil _)⟩⟩
  | c :: rest, St, msec, hcs, hrefresh, hkept, hbelow, hdicts, hcl, hzb => by
    have htree := hready.1
    have hw := hready.2.1
    have hc : c ∈ (getW ws0 w).children := hcs c (List.mem_cons_self _ _)
    have hcr := htree w c (Or.inl rfl) hc
    have hrest : ∀ x ∈ rest, x ∈ (getW ws0 w).children :=
      fun x hx => hcs x (List.mem_cons_of_mem _ hx)
    obtain ⟨S1, hr1, hk1, hshrink1, hsame1, hself1, hclean1, hgated1, hcl1, hzero1⟩ :=
      ih St c (FrameReady_child hready hgate hc (hctx c hc) hrefresh hkept hbelow hdicts
        (hcl c hc) (hzb c hc)) (by omega)
    have hwc : SameFlags St.widgets S1.widgets w := hsame1 w (not_reached_above htree hc)
    obtain ⟨ha1, ha2, ha3, ha4, ha5, ha6, ha7⟩ := afterChild_step ws0 S1 w c hk1.2.2.2.1 hw
    have hne : ∀ x ∈ (getW ws0 w).children, ∀ i, InSubtree ws0 x i → i ≠ w := by
      intro x hx i hi e
      subst e
      exact not_inSubtree_above htree (IsDescendant.child hx) hi
    have hgw : ∀ g, offGated E ws0 g = true → g ≠ w := by
      intro g hg e
      rw [e, hgate] at hg
      cases hg
    have hbelow1 : Below ws0 S1.widgets :=
      ⟨fun i => FlagsShrink_trans (hbelow.1 i) (hshrink1 i),
        AllowanceKept_trans hbelow.2 hk1.2.2.2.2⟩
    have hcl1k : ∀ x ∈ (getW ws0 w).children, FlagsClosed ws0 S1.widgets x :=
      fun x hx => FlagsClosed_of_drained (hcl x hx) hshrink1 hsame1 hcl1
    -- what holds in every state `B` that differs from `S1` by the flags and the
    -- allowance of `w` only
    have hnext : ∀ B : World, FrameStep ws0 S1 B →
        (∀ i, i ≠ w → SameFlags S1.widgets B.widgets i) →
        (getW B.widgets w).task.for_self = (getW S1.widgets w).task.for_self →
        B.self.refresh_all = false ∧ Below ws0 B.widgets ∧ B.dicts = dicts ∧
          (∀ x ∈ (getW ws0 w).children, FlagsClosed ws0 B.widgets x) ∧
          (∀ x ∈ (getW ws0 w).children, ZeroBound E ws0 B.widgets lag k x) := by
      intro B hB hsB hfsB
      refine ⟨by rw [hB.1, hk1.1]; exact hrefresh, ⟨fun i => ?_,
        AllowanceKept_trans hbelow1.2 hB.2.2.2.2⟩, by rw [hB.2.2.1, hk1.2.2.1]; exact hdicts,
        fun x hx => FlagsClosed_congr (hcl1k x hx) (fun i hi => hsB i (hne x hx i hi)),
        fun x hx => ?_⟩
      · by_cases e : i = w
        · subst e
          exact ⟨fun h => (hbelow1.1 i).1 (hfsB ▸ h), fun _ => hfc0⟩
        · exact FlagsShrink_trans (hbelow1.1 i) (FlagsShrink_of_same (hsB i e))
      · refine ZeroBound_mono hkept hB.2.2.2.1 (fun i hi h => ?_)
          (AllowanceKept_trans hk1.2.2.2.2 hB.2.2.2.2) (hzb x hx)
        have hiw : i ≠ w := hne x hx i (Reached_inSubtree hi)
        exact (hshrink1 i).2 ((hsB i hiw).2 ▸ h)
    -- the rest of the loop, from such a state
    have hloop : ∀ (B : World) (m : Int), FrameStep ws0 S1 B →
        (∀ i, i ≠ w → SameFlags S1.widgets B.widgets i) →
        (getW B.widgets w).task.for_self = (getW S1.widgets w).task.for_self →
        _ := fun B m hB hsB hfsB =>
      updateChildrenLoop_frame K E ws0 dicts rank q lag k upd fuel w ctx hasData ih hready hgate
        hctx hfuel hfc0 rest B m hrest (hnext B hB hsB hfsB).1 hB.2.2.2.1
        (hnext B hB hsB hfsB).2.1 (hnext B hB hsB hfsB).2.2.1 (hnext B hB hsB hfsB).2.2.2.1
        (hnext B hB hsB hfsB).2.2.2.2
    -- how the results of the rest of the loop combine with the first iteration
    have hjoin : ∀ (B S2 : World), FrameStep ws0 S1 B →
        (∀ i, i ≠ w → SameFlags S1.widgets B.widgets i) →
        (getW B.widgets w).task.for_self = (getW S1.widgets w).task.for_self →
        FrameStep ws0 B S2 →
        (∀ i, i ≠ w → FlagsShrink B.widgets S2.widgets i) →
        (getW S2.widgets w).task.for_self = (getW B.widgets w).task.for_self →
        (∀ i, i ≠ w → (∀ x ∈ rest, ¬ Reached E ws0 x i) → SameFlags B.widgets S2.widgets i) →
        (∀ g, offGated E ws0 g = true →
          (getW S2.widgets g).task.for_children = (getW B.widgets g).task.for_children) →
        FrameStep ws0 St S2 ∧
          (∀ i, i ≠ w → FlagsShrink St.widgets S2.widgets i) ∧
          (getW S2.widgets w).task.for_self = (getW St.widgets w).task.for_self ∧
          (∀ i, i ≠ w → (∀ x ∈ c :: rest, ¬ Reached E ws0 x i) →
            SameFlags St.widgets S2.widgets i) ∧
          (∀ g, offGated E ws0 g = true →
            (getW S2.widgets g).task.for_children = (getW St.widgets g).task.for_children) ∧
          (∀ i, i ≠ w → FlagsShrink S1.widgets S2.widgets i) := by
      intro B S2 hB hsB hfsB hk2 hshrink2 hfs2 hsame2 hgated2
      refine ⟨FrameStep_trans (FrameStep_trans hk1 hB) hk2,
        fun i hi => FlagsShrink_trans (FlagsShrink_trans (hshrink1 i)
          (FlagsShrink_of_same (hsB i hi))) (hshrink2 i hi),
        by rw [hfs2, hfsB]; exact hwc.1,
        fun i hi hnot => SameFlags_trans (SameFlags_trans
          (hsame1 i (hnot c (List.mem_cons_self _ _))) (hsB i hi))
          (hsame2 i hi (fun x hx => hnot x (List.mem_cons_of_mem _ hx))),
        fun g hg => by rw [hgated2 g hg, (hsB g (hgw g hg)).2, hgated1 g hg],
        fun i hi => FlagsShrink_trans (FlagsShrink_of_same (hsB i hi)) (hshrink2 i hi)⟩
    by_cases hgoA : hasData = true → GoesOn S1.widgets w
    · -- the loop goes on with the next child
      have hA := hloop (afterChild S1 w c) msec ha1 ha2 ha3
      obtain ⟨S2, hr2, hk2, hshrink2, hfs2, hfc2, hdirty2, hsame2, hgated2, hcl2, hgo2, hdr2⟩ :=
        hA
      obtain ⟨j1, j2, j3, j4, j5, hlate⟩ :=
        hjoin (afterChild S1 w c) S2 ha1 ha2 ha3 hk2 hshrink2 hfs2 hsame2 hgated2
      have hgoS2 : hasData = true → GoesOn S2.widgets w := fun hd =>
        GoesOn_kept hk1.2.2.2.1 hk2.2.2.2.1 (AllowanceKept_trans ha1.2.2.2.2 hk2.2.2.2.2)
          (hgoA hd)
      refine ⟨S2, ?_, j1, j2, j3, ?_, ?_, j4, j5, hcl2, fun hd _ => hgoS2 hd, fun hgoSt => ?_⟩
      · rw [updateChildrenLoop_cons_idle K E upd w ctx hasData c rest St S1 msec hr1 hgoA]
        exact hr2
      · intro h
        exact hfc2 (ha4 (by rw [hwc.2]; exact h))
      · intro x hx hdirty
        rcases List.mem_cons.mp hx with e | e
        · subst e
          have hxw : x ≠ w := hne x hc x (Or.inl rfl)
          exact hfc2 (ha5 (Dirty_of_shrink (hlate x hxw) hdirty))
        · exact hdirty2 x e hdirty
      · have hgoAA : GoesOn (afterChild S1 w c).widgets w :=
          GoesOn_kept hkept ha1.2.2.2.1 (AllowanceKept_trans hk1.2.2.2.2 ha1.2.2.2.2) hgoSt
        obtain ⟨d1, d2, d3, d4⟩ := hdr2 hgoAA
        refine ⟨fun hfree => ?_, fun x hx i hi hlag => ?_, fun x hx i hi hfree hlag => ?_,
          fun x hx => ?_⟩
        · have hcc : Clean S1.widgets c :=
            hclean1 c (Reached.top c) (hfree c (List.mem_cons_self _ _)).1
              (hfree c (List.mem_cons_self _ _)).2
          rw [d1 (fun x hx => hfree x (List.mem_cons_of_mem _ hx)), ha6 hcc]
          exact hwc.2
        · rcases List.mem_cons.mp hx with e | e
          · subst e
            have hiw : i ≠ w := reached_ne_above htree hc hi
            cases hfs : (getW S2.widgets i).task.for_self with
            | false => rfl
            | true =>
              have := (hlate i hiw).1 hfs
              rw [hself1 i hi hlag] at this
              cases this
          · exact d2 x e i hi hlag
        · rcases List.mem_cons.mp hx with e | e
          · subst e
            exact Clean_of_shrink (hlate i (reached_ne_above htree hc hi))
              (hclean1 i hi hfree hlag)
          · exact d3 x e i hi hfree hlag
        · rcases List.mem_cons.mp hx with e | e
          · subst e
            exact ZeroBound_mono hk1.2.2.2.1 hk2.2.2.2.1
              (fun i hi h => (hlate i (reached_ne_above htree hc hi)).2 h)
              (AllowanceKept_trans ha1.2.2.2.2 hk2.2.2.2.2) hzero1
          · exact d4 x e
    · -- the check of line 607 fails
      have hd : hasData = true := by
        cases hasData with
        | true => rfl
        | false => exact absurd (fun h => Bool.noConfusion h) hgoA
      have hgoN : ¬ GoesOn S1.widgets w := fun h => hgoA (fun _ => h)
      have hgoSt : ¬ GoesOn St.widgets w := fun h =>
        hgoN (GoesOn_kept hkept hk1.2.2.2.1 hk1.2.2.2.2 h)
      unfold GoesOn at hgoN
      push_neg at hgoN
      obtain ⟨data, hdata, hmax, hlt⟩ := hgoN
      obtain ⟨v, hv, hzeroeq⟩ := updateChildrenLoop_cons_zero K E upd w ctx c rest St S1 msec
        data hr1 hdata hmax (by omega)
      subst hd
      rw [hzeroeq]
      by_cases hm : E.clock (afterChild S1 w c).clocks - msec < 1
      · rw [if_pos hm]
        obtain ⟨hb1, hb2, hb3, hb4, hb5⟩ :=
          afterBudget_step ws0 S1 w c 128 hk1.2.2.2.1 hw (by omega)
        obtain ⟨S2, hr2, hk2, hshrink2, hfs2, hfc2, hdirty2, hsame2, hgated2, hcl2, -, -⟩ :=
          hloop (afterBudget S1 w c 128) (E.clock (afterChild S1 w c).clocks - msec) hb1 hb2 hb3
        obtain ⟨j1, j2, j3, j4, j5, -⟩ :=
          hjoin (afterBudget S1 w c 128) S2 hb1 hb2 hb3 hk2 hshrink2 hfs2 hsame2 hgated2
        exact ⟨S2, hr2, j1, j2, j3, fun _ => hfc2 hb4, fun _ _ _ => hfc2 hb4, j4, j5, hcl2,
          fun _ _ => GoesOn_kept hb1.2.2.2.1 hk2.2.2.2.1 hk2.2.2.2.2 hb5,
          fun h => absurd h hgoSt⟩
      · rw [if_neg hm]
        obtain ⟨hb1, hb2, hb3, hb4, hb5⟩ := afterBudget_step ws0 S1 w c v hk1.2.2.2.1 hw hv
        obtain ⟨j1, j2, j3, j4, j5, -⟩ :=
          hjoin (afterBudget S1 w c v) (afterBudget S1 w c v) hb1 hb2 hb3
            (FrameStep_refl ws0 _ hb1.2.2.2.1) (fun i _ => FlagsShrink_refl _ i) rfl
            (fun i _ _ => SameFlags_refl _ i) (fun _ _ => rfl)
        exact ⟨afterBudget S1 w c v, rfl, j1, j2, j3, fun _ => hb4, fun _ _ _ => hb4, j4, j5,
          (hnext (afterBudget S1 w c v) hb1 hb2 hb3).2.2.2.1, fun _ _ => hb5,
          fun h => absurd h hgoSt⟩

/-- The loop of lines 523-540 of Widget_UpdateVisibleChildren over the children
of a widget whose gate is open, when nothing is mutated and every child is
updated as `FrameSpec` says. -/
theorem updateVisibleChildrenLoop_frame (K : Defs) (E : Env) (ws0 : List Widget)
    (dicts : List (List (Nat × Nat))) (rank : Nat → Nat) (q : Nat → Option (Nat × Nat))
    (lag : Nat → Nat) (k : Nat) (upd : UpdateFn) (fuel : Nat) (w : Nat)
    (ctx : LCUI_WidgetTaskContext)
    (ih : ∀ S c, FrameReady K E ws0 dicts rank q lag k S c ctx → rank c < fuel →
      FrameSpec E ws0 lag k S c (upd S c ctx))
    (hready : TreeReady K E ws0 dicts rank q lag w) (hgate : offGated E ws0 w = false)
    (hctx : ∀ c ∈ (getW ws0 w).children, findStyleCache ctx = q c) (hfuel : rank w < fuel + 1)
    (hfc0 : (getW ws0 w).task.for_children = true) (rect : LCUI_RectF) :
    ∀ (cs : List Nat) (St : World) (found : Bool), (∀ c ∈ cs, c ∈ (getW ws0 w).children) →
      St.self.refresh_all = false → FrameKept ws0 St.widgets → Below ws0 St.widgets →
      St.dicts = dicts → (∀ c ∈ (getW ws0 w).children, FlagsClosed ws0 St.widgets c) →
      (∀ c ∈ (getW ws0 w).children, ZeroBound E ws0 St.widgets lag k c) →
      ∃ S1, updateVisibleChildrenLoop E upd w ctx rect cs St 0 found = Except.ok (0, S1) ∧
        FrameStep ws0 St S1 ∧
        (∀ i, i ≠ w → FlagsShrink St.widgets S1.widgets i) ∧
        (getW S1.widgets w).task.for_self = (getW St.widgets w).task.for_self ∧
        ((getW St.widgets w).task.for_children = true →
          (getW S1.widgets w).task.for_children = true) ∧
        (∀ i, i ≠ w → (∀ c ∈ cs, ¬ Reached E ws0 c i) → SameFlags St.widgets S1.widgets i) ∧
        (∀ g, offGated E ws0 g = true →
          (getW S1.widgets g).task.for_children = (getW St.widgets g).task.for_children) ∧
        (∀ c ∈ (getW ws0 w).children, FlagsClosed ws0 S1.widgets c)
  | [], St, _, _, _, hkept, _, _, hcl, _ =>
    ⟨St, rfl, FrameStep_refl ws0 St hkept, fun i _ => FlagsShrink_refl _ i, rfl, fun h => h,
      fun i _ _ => SameFlags_refl _ i, fun _ _ => rfl, hcl⟩
  | c :: rest, St, found, hcs, hrefresh, hkept, hbelow, hdicts, hcl, hzb => by
    have htree := hready.1
    have hw := hready.2.1
    have hc : c ∈ (getW ws0 w).children := hcs c (List.mem_cons_self _ _)
    have hcr := htree w c (Or.inl rfl) hc
    have hrest : ∀ x ∈ rest, x ∈ (getW ws0 w).children :=
      fun x hx => hcs x (List.mem_cons_of_mem _ hx)
    cases hov : E.LCUIRectF_GetOverlayRect rect (getW St.widgets c).box.border with
    | none =>
      cases found with
      | true =>
        refine ⟨St, ?_, FrameStep_refl ws0 St hkept, fun i _ => FlagsShrink_refl _ i, rfl,
          fun h => h, fun i _ _ => SameFlags_refl _ i, fun _ _ => rfl, hcl⟩
        unfold updateVisibleChildrenLoop
        simp only [hov, if_true]
      | false =>
        obtain ⟨S2, hr2, hk2, hshrink2, hfs2, hfc2, hsame2, hgated2, hcl2⟩ :=
          updateVisibleChildrenLoop_frame K E ws0 dicts rank q lag k upd fuel w ctx ih hready
            hgate hctx hfuel hfc0 rect rest St false hrest hrefresh hkept hbelow hdicts hcl hzb
        refine ⟨S2, ?_, hk2, hshrink2, hfs2, hfc2,
          fun i hi hnot => hsame2 i hi (fun x hx => hnot x (List.mem_cons_of_mem _ hx)), hgated2,
          hcl2⟩
        unfold updateVisibleChildrenLoop
        simp only [hov, Bool.false_eq_true, if_false]
        exact hr2
    | some r =>
      obtain ⟨S1, hr1, hk1, hshrink1, hsame1, -, -, hgated1, hcl1, -⟩ :=
        ih St c (FrameReady_child hready hgate hc (hctx c hc) hrefresh hkept hbelow hdicts
          (hcl c hc) (hzb c hc)) (by omega)
      have hwc : SameFlags St.widgets S1.widgets w := hsame1 w (not_reached_above htree hc)
      obtain ⟨ha1, ha2, ha3, ha4, -, -, ha7⟩ := afterChild_step ws0 S1 w c hk1.2.2.2.1 hw
      have hne : ∀ x ∈ (getW ws0 w).children, ∀ i, InSubtree ws0 x i → i ≠ w := by
        intro x hx i hi e
        subst e
        exact not_inSubtree_above htree (IsDescendant.child hx) hi
      have hbelow1 : Below ws0 S1.widgets :=
        ⟨fun i => FlagsShrink_trans (hbelow.1 i) (hshrink1 i),
          AllowanceKept_trans hbelow.2 hk1.2.2.2.2⟩
      obtain ⟨S2, hr2, hk2, hshrink2, hfs2, hfc2, hsame2, hgated2, hcl2⟩ :=
        updateVisibleChildrenLoop_frame K E ws0 dicts rank q lag k upd fuel w ctx ih hready hgate
          hctx hfuel hfc0 rect rest (afterChild S1 w c) true hrest
          (by rw [ha1.1, hk1.1]; exact hrefresh) ha1.2.2.2.1
          (afterChild_below hfc0 hbelow1 ha2 ha3 ha7)
          (by rw [ha1.2.2.1, hk1.2.2.1]; exact hdicts)
          (fun x hx => FlagsClosed_congr
            (FlagsClosed_of_drained (hcl x hx) hshrink1 hsame1 hcl1)
            (fun i hi => ha2 i (hne x hx i hi)))
          (fun x hx => ZeroBound_mono hkept ha1.2.2.2.1
            (fun i hi h => (hshrink1 i).2
              ((ha2 i (hne x hx i (Reached_inSubtree hi))).2 ▸ h))
            (AllowanceKept_trans hk1.2.2.2.2 ha1.2.2.2.2) (hzb x hx))
      have hgw : ∀ g, offGated E ws0 g = true → g ≠ w := by
        intro g hg e
        rw [e, hgate] at hg
        cases hg
      refine ⟨S2, ?_, FrameStep_trans (FrameStep_trans hk1 ha1) hk2, ?_, ?_, ?_, ?_, ?_, hcl2⟩
      · unfold updateVisibleChildrenLoop
        simp only [hov, hr1, Nat.add_zero]
        exact hr2
      · exact fun i hi => FlagsShrink_trans
          (FlagsShrink_trans (hshrink1 i) (FlagsShrink_of_same (ha2 i hi))) (hshrink2 i hi)
      · rw [hfs2, ha3]; exact hwc.1
      · intro h
        exact hfc2 (ha4 (by rw [hwc.2]; exact h))
      · intro i hi hnot
        exact SameFlags_trans (SameFlags_trans (hsame1 i (hnot c (List.mem_cons_self _ _)))
          (ha2 i hi)) (hsame2 i hi (fun x hx => hnot x (List.mem_cons_of_mem _ hx)))
      · intro g hg
        rw [hgated2 g hg, (ha2 g (hgw g hg)).2, hgated1 g hg]

/-- The walk over the ancestors of lines 505-514 returns when it ends in the
reference arena and the parent links are those of the reference arena. -/
theorem visibleRectLoop_defined (E : Env) (ws0 ws : List Widget) (w : Nat)
    (hparent : ∀ i, (getW ws i).parent = (getW ws0 i).parent) :
    ∀ (n child : Nat) (parent : Option Nat) (rect : LCUI_RectF),
      ancestorsEnd n ws0 parent = true →
      ∃ r, visibleRectLoop E ws w n child parent rect = Except.ok r
  | 0, _, _, _, h => by simp [ancestorsEnd] at h
  | n + 1, _, none, rect, _ => ⟨rect, rfl⟩
  | n + 1, child, some p, rect, h => by
    have h1 : ancestorsEnd n ws0 (getW ws p).parent = true := by
      rw [hparent p]
      simpa [ancestorsEnd] using h
    unfold visibleRectLoop
    split
    · exact visibleRectLoop_defined E ws0 ws w hparent n p _ _ h1
    · exact visibleRectLoop_defined E ws0 ws w hparent n p _ _ h1

/-- Widget_UpdateVisibleChildren (lines 489-542) on a widget whose gate is open
and whose visible rectangle is defined, when nothing is mutated and every child
is updated as `FrameSpec` says. -/
theorem Widget_UpdateVisibleChildren_frame (K : Defs) (E : Env) (ws0 : List Widget)
    (dicts : List (List (Nat × Nat))) (rank : Nat → Nat) (q : Nat → Option (Nat × Nat))
    (lag : Nat → Nat) (k : Nat) (upd : UpdateFn) (fuel : Nat) (w : Nat)
    (ctx : LCUI_WidgetTaskContext)
    (ih : ∀ S c, FrameReady K E ws0 dicts rank q lag k S c ctx → rank c < fuel →
      FrameSpec E ws0 lag k S c (upd S c ctx))
    (hready : TreeReady K E ws0 dicts rank q lag w) (hgate : offGated E ws0 w = false)
    (hctx : ∀ c ∈ (getW ws0 w).children, findStyleCache ctx = q c) (hfuel : rank w < fuel + 1)
    (hfc0 : (getW ws0 w).task.for_children = true)
    (hrect : VisibleRectDefined K E ws0 w) (St : World)
    (hrefresh : St.self.refresh_all = false) (hkept : FrameKept ws0 St.widgets)
    (hbelow : Below ws0 St.widgets) (hdicts : St.dicts = dicts)
    (hcl : ∀ c ∈ (getW ws0 w).children, FlagsClosed ws0 St.widgets c)
    (hzb : ∀ c ∈ (getW ws0 w).children, ZeroBound E ws0 St.widgets lag k c) :
    ∃ S1, Widget_UpdateVisibleChildren K E upd St w ctx = Except.ok (0, S1) ∧
      FrameStep ws0 St S1 ∧
      (∀ i, i ≠ w → FlagsShrink St.widgets S1.widgets i) ∧
      (getW S1.widgets w).task.for_self = (getW St.widgets w).task.for_self ∧
      ((getW St.widgets w).task.for_children = true →
        (getW S1.widgets w).task.for_children = true) ∧
      (∀ i, i ≠ w → (∀ c ∈ (getW ws0 w).children, ¬ Reached E ws0 c i) →
        SameFlags St.widgets S1.widgets i) ∧
      (∀ g, offGated E ws0 g = true →
        (getW S1.widgets g).task.for_children = (getW St.widgets g).task.for_children) ∧
      (∀ c ∈ (getW ws0 w).children, FlagsClosed ws0 S1.widgets c) := by
  have hf := FrameKept_fields hkept w
  have hidle : ∃ S1, (Except.ok (0, St) : Except Fault (Nat × World)) = Except.ok (0, S1) ∧
      FrameStep ws0 St S1 ∧
      (∀ i, i ≠ w → FlagsShrink St.widgets S1.widgets i) ∧
      (getW S1.widgets w).task.for_self = (getW St.widgets w).task.for_self ∧
      ((getW St.widgets w).task.for_children = true →
        (getW S1.widgets w).task.for_children = true) ∧
      (∀ i, i ≠ w → (∀ c ∈ (getW ws0 w).children, ¬ Reached E ws0 c i) →
        SameFlags St.widgets S1.widgets i) ∧
      (∀ g, offGated E ws0 g = true →
        (getW S1.widgets g).task.for_children = (getW St.widgets g).task.for_children) ∧
      (∀ c ∈ (getW ws0 w).children, FlagsClosed ws0 S1.widgets c) :=
    ⟨St, rfl, FrameStep_refl ws0 St hkept, fun i _ => FlagsShrink_refl _ i, rfl, fun h => h,
      fun i _ _ => SameFlags_refl _ i, fun _ _ => rfl, hcl⟩
  have hloop : ∀ (p : Option Nat) (rect : LCUI_RectF),
      ancestorsEnd (St.widgets.length + 1) ws0 p = true →
      ∃ r, visibleRectLoop E St.widgets w (St.widgets.length + 1) w p rect = Except.ok r :=
    fun p rect h => visibleRectLoop_defined E ws0 St.widgets w
      (fun i => (FrameKept_fields hkept i).2.1) _ w p rect h
  have hend : ancestorsEnd (St.widgets.length + 1) ws0 (getW St.widgets w).parent = true := by
    rw [hkept.1, hf.2.1]
    exact hrect.2
  unfold Widget_UpdateVisibleChildren
  dsimp only
  split
  · next hpar hneed =>
    exfalso
    have h1 := hrect.1 (by rw [← hf.2.1]; exact hpar)
    rw [hf.2.2.2.2] at hneed
    by_cases hwd : (getW ws0 w).box.padding.width < 1
    · by_cases hht : (getW ws0 w).box.padding.height < 1
      · simp [hwd, hht, h1.1 hwd St.widgets hkept, h1.2 hht St.widgets hkept] at hneed
      · simp [hwd, hht, h1.1 hwd St.widgets hkept] at hneed
    · by_cases hht : (getW ws0 w).box.padding.height < 1
      · simp [hwd, hht, h1.2 hht St.widgets hkept] at hneed
      · simp [hwd, hht] at hneed
  · obtain ⟨r, hr⟩ := hloop (getW St.widgets w).parent _ hend
    rw [hr]
    dsimp only
    split
    · exact hidle
    · rw [hf.1]
      exact updateVisibleChildrenLoop_frame K E ws0 dicts rank q lag k upd fuel w ctx ih hready
        hgate hctx hfuel hfc0 _ (getW ws0 w).children St false (fun _ h => h) hrefresh hkept
        hbelow hdicts hcl hzb

/-- Lines 624-631 of Widget_UpdateChildren when nothing is mutated: nothing but
the progress index changes. -/
theorem Widget_UpdateChildren_finish_frame (E : Env) (hq : Quiet E) (ws0 : List Widget)
    (S : World) (w : Nat) (hasData : Bool) (hkept : FrameKept ws0 S.widgets) :
    FrameStep ws0 S (Widget_UpdateChildren_finish E S w hasData) ∧
      (∀ i, SameFlags S.widgets (Widget_UpdateChildren_finish E S w hasData).widgets i) ∧
      (GoesOn S.widgets w → GoesOn (Widget_UpdateChildren_finish E S w hasData).widgets w) := by
  have hcall : ∀ (S1 : World) (c : Call),
      (FrameStep ws0 S S1 ∧ (∀ i, SameFlags S.widgets S1.widgets i) ∧
        (GoesOn S.widgets w → GoesOn S1.widgets w)) →
      FrameStep ws0 S (S1.call E c) ∧ (∀ i, SameFlags S.widgets (S1.call E c).widgets i) ∧
        (GoesOn S.widgets w → GoesOn (S1.call E c).widgets w) := by
    intro S1 c h
    rw [World.call_widgets, hq.1]
    exact ⟨⟨h.1.1, h.1.2.1, h.1.2.2.1, by rw [World.call_widgets, hq.1]; exact h.1.2.2.2.1,
      by rw [World.call_widgets, hq.1]; exact h.1.2.2.2.2⟩, h.2.1, h.2.2⟩
  have htail : ∀ (S1 : World),
      (FrameStep ws0 S S1 ∧ (∀ i, SameFlags S.widgets S1.widgets i) ∧
        (GoesOn S.widgets w → GoesOn S1.widgets w)) →
      FrameStep ws0 S
          (match (getW S1.widgets w).rules with
          | some data1 =>
            if data1.rules.on_update_progress = true then
              S1.call E (Call.on_update_progress w data1.progress)
            else S1
          | none => S1) ∧
        (∀ i, SameFlags S.widgets
          (match (getW S1.widgets w).rules with
          | some data1 =>
            if data1.rules.on_update_progress = true then
              S1.call E (Call.on_update_progress w data1.progress)
            else S1
          | none => S1).widgets i) ∧
        (GoesOn S.widgets w → GoesOn
          (match (getW S1.widgets w).rules with
          | some data1 =>
            if data1.rules.on_update_progress = true then
              S1.call E (Call.on_update_progress w data1.progress)
            else S1
          | none => S1).widgets w) := by
    intro S1 h
    split
    · split
      · exact hcall S1 _ h
      · exact h
    · exact h
  unfold Widget_UpdateChildren_finish
  split
  · next data hdata =>
    dsimp only
    apply htail
    split
    · have hk : FrameKept ws0 (updW S.widgets w (fun x =>
          { x with rules := some { data with progress := x.children_show_length } })) := by
        apply FrameKept_updW hkept
        · rfl
        · rw [hdata]; rfl
      have hget : ∀ i, getW (updW S.widgets w (fun x =>
          { x with rules := some { data with progress := x.children_show_length } })) i =
          if w = i ∧ w < S.widgets.length then
            { getW S.widgets w with
              rules := some { data with progress := (getW S.widgets w).children_show_length } }
          else getW S.widgets i := fun i => getW_updW _ _ _ _
      refine ⟨⟨rfl, rfl, rfl, hk, fun i hz => ?_⟩, fun i => ?_, fun hgo d hd hmax => ?_⟩
      · unfold zeroAllowance at hz ⊢
        rw [World.onWidgets_widgets, hget i] at hz
        by_cases hi : w = i ∧ w < S.widgets.length
        · rw [if_pos hi] at hz
          rw [← hi.1, hdata]
          exact hz
        · rw [if_neg hi] at hz
          exact hz
      · unfold SameFlags
        rw [World.onWidgets_widgets, hget i]
        split
        · next hi => rw [← hi.1]; exact ⟨rfl, rfl⟩
        · exact ⟨rfl, rfl⟩
      · rw [World.onWidgets_widgets, hget w] at hd
        by_cases hi : w = w ∧ w < S.widgets.length
        · rw [if_pos hi] at hd
          simp only [Option.some.injEq] at hd
          rw [← hd]
          rw [← hd] at hmax
          exact hgo data hdata hmax
        · rw [if_neg hi] at hd
          exact hgo d hd hmax
    · exact ⟨FrameStep_refl ws0 S hkept, fun i => SameFlags_refl _ i, fun h => h⟩
  · exact ⟨FrameStep_refl ws0 S hkept, fun i => SameFlags_refl _ i, fun h => h⟩

/-- Lines 574-632 of Widget_UpdateChildren on a widget with `for_children` set
whose gate is open, in pass number `k + 1`, when nothing is mutated and every
child is updated as `FrameSpec` says. -/
theorem Widget_UpdateChildren_pass_frame (K : Defs) (E : Env) (hq : Quiet E)
    (ws0 : List Widget) (dicts : List (List (Nat × Nat))) (rank : Nat → Nat)
    (q : Nat → Option (Nat × Nat)) (lag : Nat → Nat) (k : Nat) (upd : UpdateFn) (fuel : Nat)
    (w : Nat) (ctx : LCUI_WidgetTaskContext) (hasData : Bool)
    (ih : ∀ S c, FrameReady K E ws0 dicts rank q lag k S c ctx → rank c < fuel →
      FrameSpec E ws0 lag k S c (upd S c ctx))
    (hready : TreeReady K E ws0 dicts rank q lag w) (hgate : offGated E ws0 w = false)
    (hctx : ∀ c ∈ (getW ws0 w).children, findStyleCache ctx = q c) (hfuel : rank w < fuel + 1)
    (hfc0 : (getW ws0 w).task.for_children = true)
    (hhas : hasData = false → (getW ws0 w).rules = none)
    (msec : Int) (St : World) (hfc : (getW St.widgets w).task.for_children = true)
    (hrefresh : St.self.refresh_all = false) (hkept : FrameKept ws0 St.widgets)
    (hbelow : Below ws0 St.widgets) (hdicts : St.dicts = dicts)
    (hcl : ∀ c ∈ (getW ws0 w).children, FlagsClosed ws0 St.widgets c)
    (hzb : ∀ c ∈ (getW ws0 w).children, ZeroBound E ws0 St.widgets lag k c) :
    ∃ S1, Widget_UpdateChildren_pass K E upd St w ctx hasData (getW ws0 w).children 0 msec =
        Except.ok (0, S1) ∧ FrameStep ws0 St S1 ∧
      ChildrenKept E ws0 St.widgets S1.widgets w ∧ zeroPending E ws0 S1.widgets w = false ∧
      (GoesOn St.widgets w → ChildrenDrained E ws0 S1.widgets lag k w) := by
  have htree := hready.1
  have hw := hready.2.1
  have hlen : w < St.widgets.length := by rw [hkept.1]; exact hw
  have hne : ∀ x ∈ (getW ws0 w).children, ∀ i, InSubtree ws0 x i → i ≠ w := by
    intro x hx i hi e
    subst e
    exact not_inSubtree_above htree (IsDescendant.child hx) hi
  have hk0 : FrameKept ws0 (updW St.widgets w (fun x => x.setForChildren false)) :=
    FrameKept_updW_task hkept w _ (fun _ => rfl)
  have hs0 : ∀ i, i ≠ w →
      SameFlags St.widgets (updW St.widgets w (fun x => x.setForChildren false)) i :=
    fun i hi => SameFlags_updW_ne _ w i _ hi
  have hw0 : getW (updW St.widgets w (fun x => x.setForChildren false)) w =
      (getW St.widgets w).setForChildren false := getW_updW_same _ _ _ hlen
  have hr0 : ∀ i, (getW (updW St.widgets w (fun x => x.setForChildren false)) i).rules =
      (getW St.widgets i).rules := rules_updW _ w _ (fun _ => rfl)
  have hstep0 : FrameStep ws0 St
      (St.onWidgets (fun ws => updW ws w (fun x => x.setForChildren false))) :=
    ⟨rfl, rfl, rfl, hk0, AllowanceKept_of_rules hr0⟩
  have hb0 : Below ws0 (updW St.widgets w (fun x => x.setForChildren false)) := by
    refine ⟨fun i => ?_, AllowanceKept_trans hbelow.2 (AllowanceKept_of_rules hr0)⟩
    by_cases e : i = w
    · subst e
      rw [FlagsShrink, hw0]
      exact ⟨fun h => (hbelow.1 i).1 h, fun _ => hfc0⟩
    · exact FlagsShrink_trans (hbelow.1 i) (FlagsShrink_of_same (hs0 i e))
  obtain ⟨S1, hr1, hk1, hshrink1, hfs1, -, hdirty1, hsame1, hgated1, hcl1, hgo1, hdr1⟩ :=
    updateChildrenLoop_frame K E ws0 dicts rank q lag k upd fuel w ctx hasData ih hready hgate
      hctx hfuel hfc0 (getW ws0 w).children
      (St.onWidgets (fun ws => updW ws w (fun x => x.setForChildren false))) msec
      (fun _ h => h) hrefresh hk0 hb0 hdicts
      (fun x hx => FlagsClosed_congr (hcl x hx) (fun i hi => hs0 i (hne x hx i hi)))
      (fun x hx => ZeroBound_mono hkept hk0
        (fun i hi h => (hs0 i (hne x hx i (Reached_inSubtree hi))).2 ▸ h)
        (AllowanceKept_of_rules hr0) (hzb x hx))
  obtain ⟨hk2, hsame2, hgo2⟩ :=
    Widget_UpdateChildren_finish_frame E hq ws0 S1 w hasData hk1.2.2.2.1
  have hgw : ∀ g, offGated E ws0 g = true → g ≠ w := by
    intro g hg e
    rw [e, hgate] at hg
    cases hg
  have hgo0 : GoesOn St.widgets w →
      GoesOn (updW St.widgets w (fun x => x.setForChildren false)) w := by
    intro h d hd
    rw [hr0 w] at hd
    exact h d hd
  refine ⟨Widget_UpdateChildren_finish E S1 w hasData, ?_,
    FrameStep_trans (FrameStep_trans hstep0 hk1) hk2, ⟨?_, ?_, ?_, ?_, ?_, ?_⟩, ?_, fun hgo => ?_⟩
  · unfold Widget_UpdateChildren_pass
    simp only [hfc, Bool.not_true, Bool.false_eq_true, if_false, hr1]
  · exact fun i hi => FlagsShrink_trans
      (FlagsShrink_trans (FlagsShrink_of_same (hs0 i hi)) (hshrink1 i hi))
      (FlagsShrink_of_same (hsame2 i))
  · rw [(hsame2 w).1, hfs1]
    show (getW (updW St.widgets w (fun x => x.setForChildren false)) w).task.for_self = _
    rw [hw0]; rfl
  · intro c hc hdirty
    rw [(hsame2 w).2]
    exact hdirty1 c hc (Dirty_of_sameFlags (hsame2 c) hdirty)
  · exact fun i hi hnot => SameFlags_trans (SameFlags_trans (hs0 i hi) (hsame1 i hi hnot))
      (hsame2 i)
  · intro g hg
    rw [(hsame2 g).2, hgated1 g hg]
    exact (hs0 g (hgw g hg)).2
  · exact fun c hc => FlagsClosed_congr (hcl1 c hc) (fun i _ => hsame2 i)
  · cases hkids : (getW ws0 w).children with
    | nil =>
      apply zeroPending_false_of_flag
      rw [(hsame2 w).2]
      rw [hkids] at hr1
      simp only [updateChildrenLoop, Except.ok.injEq, Prod.mk.injEq, true_and] at hr1
      rw [← hr1]
      show (getW (updW St.widgets w (fun x => x.setForChildren false)) w).task.for_children = _
      rw [hw0]; rfl
    | cons c rest =>
      apply zeroPending_false_of_goesOn
      by_cases hd : hasData = true
      · apply hgo2
        exact hgo1 hd (by rw [hkids]; exact List.cons_ne_nil _ _)
      · intro d hdd
        have h0 := hhas (by simpa using hd)
        obtain ⟨d0, hd0, -⟩ := FrameKept_rules_back (FrameStep_trans hk1 hk2).2.2.2.1 w d hdd
        rw [h0] at hd0
        cases hd0
  · obtain ⟨d1, d2, d3, d4⟩ := hdr1 (hgo0 hgo)
    refine ⟨fun hfree => ?_, fun c hc i hi hlag => ?_, fun c hc i hi hfree hlag => ?_,
      fun c hc => ?_⟩
    · rw [(hsame2 w).2, d1 hfree]
      show (getW (updW St.widgets w (fun x => x.setForChildren false)) w).task.for_children = _
      rw [hw0]; rfl
    · rw [(hsame2 i).1]
      exact d2 c hc i hi hlag
    · exact Clean_of_sameFlags (hsame2 i) (d3 c hc i hi hfree hlag)
    · exact ZeroBound_mono hk1.2.2.2.1 hk2.2.2.2.1 (fun i _ h => (hsame2 i).2 ▸ h)
        hk2.2.2.2.2 (d4 c hc)

/-- Widget_UpdateChildren (lines 544-633) on a widget with `for_children` set
whose gate is open, in pass number `k + 1`, when nothing is mutated and every
child is updated as `FrameSpec` says. -/
theorem Widget_UpdateChildren_frame (K : Defs) (E : Env) (hq : Quiet E)
    (ws0 : List Widget) (dicts : List (List (Nat × Nat))) (rank : Nat → Nat)
    (q : Nat → Option (Nat × Nat)) (lag : Nat → Nat) (k : Nat) (upd : UpdateFn) (fuel : Nat)
    (w : Nat) (ctx : LCUI_WidgetTaskContext)
    (ih : ∀ S c, FrameReady K E ws0 dicts rank q lag k S c ctx → rank c < fuel →
      FrameSpec E ws0 lag k S c (upd S c ctx))
    (hready : TreeReady K E ws0 dicts rank q lag w) (hgate : offGated E ws0 w = false)
    (hctx : ∀ c ∈ (getW ws0 w).children, findStyleCache ctx = q c) (hfuel : rank w < fuel + 1)
    (St : World) (hfc : (getW St.widgets w).task.for_children = true)
    (hrefresh : St.self.refresh_all = false) (hkept : FrameKept ws0 St.widgets)
    (hbelow : Below ws0 St.widgets) (hdicts : St.dicts = dicts)
    (hcl : ∀ c ∈ (getW ws0 w).children, FlagsClosed ws0 St.widgets c)
    (hzb : ∀ c ∈ (getW ws0 w).children, ZeroBound E ws0 St.widgets lag k c) :
    ∃ S1, Widget_UpdateChildren K E upd St w ctx = Except.ok (0, S1) ∧ FrameStep ws0 St S1 ∧
      ChildrenKept E ws0 St.widgets S1.widgets w ∧ zeroPending E ws0 S1.widgets w = false ∧
      (GoesOn St.widgets w → ChildrenDrained E ws0 S1.widgets lag k w) := by
  have hf := FrameKept_fields hkept w
  have hfc0 : (getW ws0 w).task.for_children = true := (hbelow.1 w).2 hfc
  have hrules := hready.2.2.2.2.1 w (Reached.top w) hfc0
  unfold Widget_UpdateChildren
  simp only [hfc, Bool.not_true, Bool.false_eq_true, if_false, hf.1]
  cases h0 : (getW ws0 w).rules with
  | none =>
    rw [(FrameKept_rules hkept w).1 h0]
    exact Widget_UpdateChildren_pass_frame K E hq ws0 dicts rank q lag k upd fuel w ctx false ih
      hready hgate hctx hfuel hfc0 (fun _ => h0) 0 St hfc hrefresh hkept hbelow hdicts hcl hzb
  | some data0 =>
    obtain ⟨data, hd, e1, -⟩ := (FrameKept_rules hkept w).2 data0 h0
    obtain ⟨hvis, hrect⟩ := hrules data0 h0
    have hgateS : (data.rules.only_on_visible && !E.Widget_InVisibleArea St.widgets w) =
        false := by
      rw [e1]
      cases hov : data0.rules.only_on_visible with
      | false => rfl
      | true =>
        rw [hvis hov St.widgets hkept]
        unfold offGated at hgate
        rw [h0] at hgate
        simpa [hov] using hgate
    rw [hd]
    simp only [World.clock, hgateS, Bool.false_eq_true, if_false]
    have hkc : FrameStep ws0 St { St with clocks := St.clocks + 1 } :=
      ⟨rfl, rfl, rfl, hkept, AllowanceKept_refl _⟩
    cases hfirst : data.rules.first_update_visible_children with
    | false =>
      simp only [Bool.false_eq_true, if_false]
      exact Widget_UpdateChildren_pass_frame K E hq ws0 dicts rank q lag k upd fuel w ctx true ih
        hready hgate hctx hfuel hfc0 (fun h => Bool.noConfusion h) _
        { St with clocks := St.clocks + 1 } hfc hrefresh hkept hbelow hdicts hcl hzb
    | true =>
      simp only [if_true]
      obtain ⟨S1, hr1, hk1, hshrink1, hfs1, hfc1, hsame1, hgated1, hcl1⟩ :=
        Widget_UpdateVisibleChildren_frame K E ws0 dicts rank q lag k upd fuel w ctx ih hready
          hgate hctx hfuel hfc0 (hrect hgate (by rw [← e1]; exact hfirst))
          { St with clocks := St.clocks + 1 } hrefresh hkept hbelow hdicts hcl hzb
      have hne : ∀ x ∈ (getW ws0 w).children, ∀ i, InSubtree ws0 x i → i ≠ w := by
        intro x hx i hi e
        subst e
        exact not_inSubtree_above hready.1 (IsDescendant.child hx) hi
      obtain ⟨S2, hr2, hk2, ⟨hshrink2, hfs2, hdirty2, hsame2, hgated2, hcl2⟩, hz2, hdr2⟩ :=
        Widget_UpdateChildren_pass_frame K E hq ws0 dicts rank q lag k upd fuel w ctx true ih
          hready hgate hctx hfuel hfc0 (fun h => Bool.noConfusion h) (E.clock St.clocks) S1
          (hfc1 hfc) (by rw [hk1.1]; exact hrefresh) hk1.2.2.2.1
          ⟨fun i => by
            by_cases e : i = w
            · subst e
              exact ⟨fun h => (hbelow.1 i).1 (hfs1 ▸ h), fun _ => hfc0⟩
            · exact FlagsShrink_trans (hbelow.1 i) (hshrink1 i e),
            AllowanceKept_trans hbelow.2 hk1.2.2.2.2⟩
          (by rw [hk1.2.2.1]; exact hdicts) hcl1
          (fun x hx => ZeroBound_mono hkept hk1.2.2.2.1
            (fun i hi h => (hshrink1 i (hne x hx i (Reached_inSubtree hi))).2 h)
            hk1.2.2.2.2 (hzb x hx))
      refine ⟨S2, ?_, FrameStep_trans (FrameStep_trans hkc hk1) hk2,
        ⟨fun i hi => FlagsShrink_trans (hshrink1 i hi) (hshrink2 i hi), hfs2.trans hfs1, hdirty2,
          fun i hi hnot => SameFlags_trans (hsame1 i hi hnot) (hsame2 i hi hnot),
          fun g hg => (hgated2 g hg).trans (hgated1 g hg), hcl2⟩, hz2,
        fun hgo => hdr2 (GoesOn_kept hkept hk1.2.2.2.1 hk1.2.2.2.2 hgo)⟩
      rw [hr1]
      exact hr2

/-- Widget_UpdateChildren (lines 544-633) on a widget whose gate is closed:
the clock is read and nothing else happens. -/
theorem Widget_UpdateChildren_gated (K : Defs) (E : Env) (ws0 : List Widget) (upd : UpdateFn)
    (w : Nat) (ctx : LCUI_WidgetTaskContext) (St : World) (hkept : FrameKept ws0 St.widgets)
    (hgate : offGated E ws0 w = true)
    (hvis : ∀ data, (getW ws0 w).rules = some data → data.rules.only_on_visible = true →
      ∀ ws1, FrameKept ws0 ws1 → E.Widget_InVisibleArea ws1 w = E.Widget_InVisibleArea ws0 w)
    (hfc : (getW St.widgets w).task.for_children = true) :
    Widget_UpdateChildren K E upd St w ctx =
      Except.ok (0, { St with clocks := St.clocks + 1 }) := by
  unfold offGated at hgate
  cases h0 : (getW ws0 w).rules with
  | none => rw [h0] at hgate; cases hgate
  | some data0 =>
    rw [h0] at hgate
    obtain ⟨data, hd, e1, -⟩ := (FrameKept_rules hkept w).2 data0 h0
    have hov : data0.rules.only_on_visible = true := by
      cases h : data0.rules.only_on_visible with
      | true => rfl
      | false => simp [h] at hgate
    have hgateS : (data.rules.only_on_visible && !E.Widget_InVisibleArea St.widgets w) =
        true := by
      rw [e1, hvis data0 h0 hov St.widgets hkept]
      exact hgate
    unfold Widget_UpdateChildren
    simp only [hfc, Bool.not_true, Bool.false_eq_true, if_false, hd, World.clock, hgateS, if_true]

theorem zeroPending_false_of_gated {E : Env} {ws0 ws : List Widget} {w : Nat}
    (h : offGated E ws0 w = true) : zeroPending E ws0 ws w = false := by
  simp [zeroPending, h]

/-- Lines 664-684 of Widget_UpdateWithContext up to the update of the widget
itself, when nothing is mutated. -/
theorem Widget_UpdateWithContext_self_frame (K : Defs) (E : Env) (hq : Quiet E) (S : World)
    (w : Nat) (c : LCUI_WidgetTaskContextRec) (ctx : LCUI_WidgetTaskContext)
    (hrefresh : S.self.refresh_all = false)
    (r2 : LCUI_WidgetTaskContextRec × World)
    (hr2 : (if (getW S.widgets w).task.for_self = true then Widget_UpdateSelf K E S w c ctx
      else (c, S)) = r2) :
    r2.2.self = S.self ∧ r2.2.metrics = S.metrics ∧ r2.2.dicts = S.dicts ∧
      BodyKept S.widgets r2.2.widgets ∧ r2.1.style_cache = c.style_cache ∧
      r2.1.style_hash = c.style_hash ∧ (getW r2.2.widgets w).task.for_self = false ∧
      ∀ i, (getW r2.2.widgets i).task.for_children = (getW S.widgets i).task.for_children ∧
        (i ≠ w → (getW r2.2.widgets i).task.for_self = (getW S.widgets i).task.for_self) := by
  rw [← hr2]
  split
  · have h := Widget_UpdateSelf_quiet K E hq S w c ctx hrefresh
    have hf := Widget_UpdateSelf_fields K E S w c ctx
    exact ⟨h.1, h.2.1, Widget_UpdateSelf_dicts K E S w c ctx, h.2.2.1, hf.2.1, hf.2.2,
      h.2.2.2.2.1, h.2.2.2.2.2⟩
  · next hns =>
    exact ⟨rfl, rfl, rfl, BodyKept_refl _, rfl, rfl, by simpa using hns,
      fun i => ⟨rfl, fun _ => rfl⟩⟩

/-- Closed flags stay closed when no flag is set and every `for_children` flag
is kept. -/
theorem FlagsClosed_of_kept {ws0 ws ws1 : List Widget} {x : Nat} (hcl : FlagsClosed ws0 ws x)
    (hshrink : ∀ i, FlagsShrink ws ws1 i)
    (hfc : ∀ i, (getW ws1 i).task.for_children = (getW ws i).task.for_children) :
    FlagsClosed ws0 ws1 x := by
  intro i d hi hd hdirty
  rw [hfc i]
  exact hcl i d hi hd (Dirty_of_shrink (hshrink d) hdirty)

/-- Lines 685-693 of Widget_UpdateWithContext when nothing is mutated: sorting
the children and running a pending reflow change task states only. -/
theorem Widget_UpdateWithContext_end_frame (K : Defs) (E : Env) (hq : Quiet E)
    (ws0 : List Widget) (S3 : World) (w : Nat) (c : LCUI_WidgetTaskContextRec)
    (hkept : FrameKept ws0 S3.widgets) (S5 : World)
    (hS5 : (if (getW (S3.call E (Call.Widget_SortChildrenShow w)).widgets
        w).task.states K.LCUI_WTASK_REFLOW = true then
      (Widget_RunReflowTask E (S3.call E (Call.Widget_SortChildrenShow w)) w c).onWidgets
        (fun ws => updW ws w (fun x => x.setTaskState K.LCUI_WTASK_REFLOW false))
      else S3.call E (Call.Widget_SortChildrenShow w)) = S5) :
    FrameStep ws0 S3 S5 ∧ ∀ i, SameFlags S3.widgets S5.widgets i := by
  have h5 : QuietStep S3 S5 := by
    rw [← hS5]
    split
    · exact QuietStep_trans (QuietStep_call E hq S3 _)
        (QuietStep_trans (QuietStep_call E hq _ _)
          (QuietStep_states _ _ (StatesOnly_setTaskState _ w _ false)))
    · exact QuietStep_call E hq S3 _
  have hd : S5.dicts = S3.dicts := by
    rw [← hS5]
    split <;> rfl
  exact ⟨⟨h5.1, h5.2.1, hd, FrameKept_body hkept (StatesOnly_body h5.2.2),
    AllowanceKept_body (StatesOnly_body h5.2.2)⟩, fun i => StatesOnly_flags h5.2.2 i⟩

/-- The flags after a widget was updated and its children were not: the
children have no pending work, or the gate of the widget is closed. -/
theorem FlagsDrained_of_self {E : Env} {ws0 ws ws1 : List Widget} {rank : Nat → Nat}
    {lag : Nat → Nat} {k w : Nat}
    (htree : IsTreeUnder ws0 rank w) (hcl : FlagsClosed ws0 ws w)
    (hfs : (getW ws1 w).task.for_self = false)
    (hflags : ∀ i, (getW ws1 i).task.for_children = (getW ws i).task.for_children ∧
      (i ≠ w → (getW ws1 i).task.for_self = (getW ws i).task.for_self))
    (hcase : offGated E ws0 w = true ∨ (getW ws w).task.for_children = false) :
    FlagsDrained E ws0 ws ws1 lag k w := by
  have hshrink : ∀ i, FlagsShrink ws ws1 i := by
    intro i
    refine ⟨fun h => ?_, fun h => (hflags i).1 ▸ h⟩
    by_cases e : i = w
    · subst e; rw [hfs] at h; cases h
    · exact (hflags i).2 e ▸ h
  have hdesc : ∀ i, IsDescendant ws0 w i → i ≠ w := by
    intro i hi e
    subst e
    exact Nat.lt_irrefl _ (IsTreeUnder_rank_lt htree hi)
  have hclean : ∀ i, Reached E ws0 w i → Clean ws1 i ∨ (i = w ∧ offGated E ws0 w = true) := by
    intro i hi
    rcases hcase with hg | hfc
    · exact Or.inr ⟨Reached_gated hi hg, hg⟩
    · left
      rcases Reached_inSubtree hi with e | e
      · subst e
        exact ⟨hfs, (hflags i).1.trans hfc⟩
      · have hc := clean_of_flagsClosed hcl hfc i e
        exact ⟨((hflags i).2 (hdesc i e)).trans hc.1, (hflags i).1.trans hc.2⟩
  refine ⟨hshrink, ?_, ?_, ?_, fun g _ => (hflags g).1, FlagsClosed_of_kept hcl hshrink
    (fun i => (hflags i).1), ?_⟩
  · intro i hi
    have hiw : i ≠ w := fun e => hi (by rw [e]; exact Reached.top w)
    exact ⟨(hflags i).2 hiw, (hflags i).1⟩
  · intro i hi _
    rcases hclean i hi with h | h
    · exact h.1
    · rw [h.1]; exact hfs
  · intro i hi hfree _
    rcases hclean i hi with h | h
    · exact h
    · have := hfree i (Or.inl rfl)
      rw [h.1, h.2] at this
      cases this
  · intro i hi hz
    rcases hclean i hi with h | h
    · rw [zeroPending_false_of_flag h.2] at hz
      cases hz
    · rw [h.1, zeroPending_false_of_gated h.2] at hz
      cases hz

/-- The flags after a widget was updated and then its children, the gate of
the widget being open: either the loop over the children visited every child,
or the lag of the widget is above `k`. -/
theorem FlagsDrained_of_children {E : Env} {ws0 ws ws1 ws2 : List Widget} {rank : Nat → Nat}
    {lag : Nat → Nat} {k w : Nat} (htree : IsTreeUnder ws0 rank w)
    (hsteps : LagSteps E ws0 lag w) (hgate : offGated E ws0 w = false)
    (hfc : (getW ws w).task.for_children = true)
    (hfs : (getW ws1 w).task.for_self = false)
    (hflags : ∀ i, (getW ws1 i).task.for_children = (getW ws i).task.for_children ∧
      (i ≠ w → (getW ws1 i).task.for_self = (getW ws i).task.for_self))
    (hch : ChildrenKept E ws0 ws1 ws2 w) (hz : zeroPending E ws0 ws2 w = false)
    (hk2 : FrameKept ws0 ws2) (hbelow : Below ws0 ws) (ha : AllowanceKept ws ws2)
    (hcase : ChildrenDrained E ws0 ws2 lag k w ∨ k + 1 ≤ lag w) :
    FlagsDrained E ws0 ws ws2 lag k w := by
  obtain ⟨hshrink, hself, hdirty, hsame, hgated, hcl⟩ := hch
  have hsame1 : ∀ i, i ≠ w → SameFlags ws ws1 i := fun i hi => ⟨(hflags i).2 hi, (hflags i).1⟩
  have hcases : ∀ i, Reached E ws0 w i → i = w ∨ ∃ c ∈ (getW ws0 w).children,
      Reached E ws0 c i := by
    intro i hi
    cases hi with
    | top w => exact Or.inl rfl
    | step _ hc h => exact Or.inr ⟨_, hc, h⟩
  have hall : ∀ i, FlagsShrink ws ws2 i := by
    intro i
    by_cases e : i = w
    · subst e
      refine ⟨fun h => ?_, fun _ => hfc⟩
      rw [hself, hfs] at h
      cases h
    · exact FlagsShrink_trans (FlagsShrink_of_same (hsame1 i e)) (hshrink i e)
  refine ⟨hall, ?_, ?_, ?_, ?_, ?_, ?_⟩
  · intro i hi
    have hiw : i ≠ w := fun e => hi (by rw [e]; exact Reached.top w)
    exact SameFlags_trans (hsame1 i hiw)
      (hsame i hiw (fun c hc h => hi (Reached.step hgate hc h)))
  · intro i hi hlag
    rcases hcases i hi with e | ⟨c, hc, h⟩
    · rw [e, hself]; exact hfs
    · rcases hcase with hdr | hw
      · exact hdr.2.1 c hc i h hlag
      · have := lag_mono hsteps hi
        omega
  · intro i hi hfreei hlag
    rcases hcase with hdr | hw
    · rcases hcases i hi with e | ⟨c, hc, h⟩
      · subst e
        refine ⟨by rw [hself]; exact hfs, hdr.1 (fun c hc => ⟨?_, fun j hj => ?_⟩)⟩
        · exact GateFree_sub hfreei (Or.inr (IsDescendant.child hc))
        · exact hlag j (Reached.step hgate hc hj)
      · exact hdr.2.2.1 c hc i h hfreei hlag
    · have h1 := lag_mono hsteps hi
      have h2 := hlag i (Reached.top i)
      omega
  · intro g hg
    rw [hgated g hg]
    exact (hflags g).1
  · intro i d hi hd hdirtyd
    rcases hi with e | e
    · subst e
      exact hdirty d hd hdirtyd
    · obtain ⟨c, hc, hcd⟩ := IsDescendant_cases_top e
      exact hcl c hc i d hcd hd hdirtyd
  · intro i hi hzi
    rcases hcases i hi with e | ⟨c, hc, h⟩
    · rw [e, hz] at hzi
      cases hzi
    · rcases hcase with hdr | hw
      · exact hdr.2.2.2 c hc i h hzi
      · have hne : i ≠ w := fun e => by
          subst e
          rw [hz] at hzi
          cases hzi
        have hz0 : zeroPending E ws0 ws0 i = true :=
          zeroPending_mono (FrameKept_refl ws0) hk2
            (fun h => (hbelow.1 i).2 ((hall i).2 h)) (AllowanceKept_trans hbelow.2 ha) hzi
        have := lag_zero_below hsteps hi hne hz0
        omega

theorem FlagsDrained_refl_of_clean {E : Env} {ws0 ws : List Widget} {lag : Nat → Nat}
    {k w : Nat} (hcl : FlagsClosed ws0 ws w) (hclean : Clean ws w) :
    FlagsDrained E ws0 ws ws lag k w := by
  have hall : ∀ i, Reached E ws0 w i → Clean ws i := by
    intro i hi
    rcases Reached_inSubtree hi with e | e
    · subst e; exact hclean
    · exact clean_of_flagsClosed hcl hclean.2 i e
  refine ⟨fun i => FlagsShrink_refl _ i, fun i _ => SameFlags_refl _ i,
    fun i hi _ => (hall i hi).1, fun i hi _ _ => hall i hi, fun _ _ => rfl, hcl,
    fun i hi hz => ?_⟩
  rw [zeroPending_false_of_flag (hall i hi).2] at hz
  cases hz

theorem FlagsDrained_trans_same {E : Env} {ws0 ws ws1 ws2 : List Widget} {lag : Nat → Nat}
    {k w : Nat} (hk1 : FrameKept ws0 ws1) (hk2 : FrameKept ws0 ws2) (ha : AllowanceKept ws1 ws2)
    (h : FlagsDrained E ws0 ws ws1 lag k w) (hsame : ∀ i, SameFlags ws1 ws2 i) :
    FlagsDrained E ws0 ws ws2 lag k w := by
  obtain ⟨h1, h2, h3, h4, h5, h6, h7⟩ := h
  exact ⟨fun i => FlagsShrink_trans (h1 i) (FlagsShrink_of_same (hsame i)),
    fun i hi => SameFlags_trans (h2 i hi) (hsame i),
    fun i hi hl => (hsame i).1.trans (h3 i hi hl),
    fun i hi hf hl => Clean_of_sameFlags (hsame i) (h4 i hi hf hl),
    fun g hg => (hsame g).2.trans (h5 g hg),
    FlagsClosed_congr h6 (fun i _ => hsame i),
    ZeroBound_mono hk1 hk2 (fun i _ h => (hsame i).2 ▸ h) ha h7⟩

/-- Pass number `k + 1` of Widget_UpdateWithContext over a finite tree, update
rules included, when nothing is mutated: it returns 0 and drains the flags of
the widgets that it can reach, as far as their lag allows. -/
theorem Widget_UpdateWithContext_frame (K : Defs) (E : Env) (hq : Quiet E) (ws0 : List Widget)
    (dicts : List (List (Nat × Nat))) (rank : Nat → Nat) (q : Nat → Option (Nat × Nat))
    (lag : Nat → Nat) (k : Nat) :
    ∀ (fuel : Nat) (ctx : LCUI_WidgetTaskContext) (S : World) (w : Nat),
      FrameReady K E ws0 dicts rank q lag k S w ctx → rank w < fuel →
      FrameSpec E ws0 lag k S w (Widget_UpdateWithContext K E fuel S w ctx)
  | 0, _, _, _, _, h => absurd h (Nat.not_lt_zero _)
  | fuel + 1, ctx, S, w, hready, hfuel => by
    obtain ⟨hrefresh, hkept, hbelow, hdicts, hctx, htr, hcl, hzb⟩ := hready
    have htree := htr.1
    have hw := htr.2.1
    by_cases hidle : (getW S.widgets w).task.for_self = false ∧
        (getW S.widgets w).task.for_children = false
    · -- nothing is pending
      refine ⟨S, ?_, FrameStep_refl ws0 S hkept, FlagsDrained_refl_of_clean hcl hidle⟩
      simp [Widget_UpdateWithContext, hidle.1, hidle.2]
    · -- the widget is updated
      have hdirty : Dirty ws0 w := by
        apply Dirty_of_shrink (hbelow.1 w)
        unfold Dirty
        cases h1 : (getW S.widgets w).task.for_self <;>
          cases h2 : (getW S.widgets w).task.for_children <;> simp_all
      obtain ⟨c0, S1, hbegin, -, hcache, hw1, hs1, hm1, hd1⟩ :=
        Widget_BeginUpdate_settled K E hq ws0 S w ctx (q w) hkept hctx
          (by rw [hdicts]; exact htr.2.2.2.1 w (Reached.top w) hdirty)
      have hinit := Widget_InitDiff_fields K S1 w c0 ctx
      -- the widget itself
      generalize hr2 : (if (getW S1.widgets w).task.for_self = true then
        Widget_UpdateSelf K E S1 w (Widget_InitDiff K S1 w c0 ctx) ctx
        else (Widget_InitDiff K S1 w c0 ctx, S1)) = r2
      obtain ⟨h2self, h2metrics, h2dicts, h2body, h2cache, h2hash, h2fs, h2flags⟩ :=
        Widget_UpdateWithContext_self_frame K E hq S1 w (Widget_InitDiff K S1 w c0 ctx) ctx
          (by rw [hs1]; exact hrefresh) r2 hr2
      rw [hw1] at h2body h2flags
      have h2kept : FrameKept ws0 r2.2.widgets := FrameKept_body hkept h2body
      have h2step : FrameStep ws0 S r2.2 :=
        ⟨h2self.trans hs1, h2metrics.trans hm1, h2dicts.trans hd1, h2kept,
          AllowanceKept_body h2body⟩
      have h2below : Below ws0 r2.2.widgets := by
        refine ⟨fun i => ?_, AllowanceKept_trans hbelow.2 (AllowanceKept_body h2body)⟩
        refine FlagsShrink_trans (hbelow.1 i) ⟨fun h => ?_, fun h => (h2flags i).1 ▸ h⟩
        by_cases e : i = w
        · subst e; rw [h2fs] at h; cases h
        · exact (h2flags i).2 e ▸ h
      have h2ctx : findStyleCache (r2.1 :: ctx) = contextCache ws0 w (q w) :=
        hcache r2.1 (h2cache.trans hinit.2.1) (h2hash.trans hinit.2.2)
      -- the children
      generalize hr3 : (if (getW r2.2.widgets w).task.for_children = true then
        Widget_UpdateChildren K E (Widget_UpdateWithContext K E fuel) r2.2 w (r2.1 :: ctx)
        else Except.ok (0, r2.2)) = r3
      have h3 : ∃ S3, r3 = Except.ok (0, S3) ∧ FrameStep ws0 S S3 ∧
          FlagsDrained E ws0 S.widgets S3.widgets lag k w := by
        rw [← hr3]
        by_cases hfc : (getW r2.2.widgets w).task.for_children = true
        · rw [if_pos hfc]
          cases hgate : offGated E ws0 w with
          | false =>
            have hne : ∀ x ∈ (getW ws0 w).children, ∀ i, InSubtree ws0 x i → i ≠ w := by
              intro x hx i hi e
              subst e
              exact not_inSubtree_above htree (IsDescendant.child hx) hi
            obtain ⟨S3, hr, hk, hkeep, hz, hdr⟩ := Widget_UpdateChildren_frame K E hq ws0 dicts
              rank q lag k (Widget_UpdateWithContext K E fuel) fuel w (r2.1 :: ctx)
              (fun S c hr hf => Widget_UpdateWithContext_frame K E hq ws0 dicts rank q lag k fuel
                (r2.1 :: ctx) S c hr hf)
              htr hgate
              (fun c hc => h2ctx.trans (htr.2.2.1 w c (Reached.top w) hgate hc).symm)
              hfuel r2.2 hfc (by rw [h2step.1]; exact hrefresh) h2kept h2below
              (by rw [h2step.2.2.1]; exact hdicts)
              (fun c hc => FlagsClosed_congr (FlagsClosed_sub hcl hc)
                (fun i hi => ⟨(h2flags i).2 (hne c hc i hi), (h2flags i).1⟩))
              (fun c hc => ZeroBound_mono hkept h2kept (fun i _ h => (h2flags i).1 ▸ h)
                (AllowanceKept_body h2body) (ZeroBound_child hzb hgate hc))
            have hcase : ChildrenDrained E ws0 S3.widgets lag k w ∨ k + 1 ≤ lag w := by
              by_cases hgo : GoesOn r2.2.widgets w
              · exact Or.inl (hdr hgo)
              · exact Or.inr (hzb w (Reached.top w)
                  (zeroPending_mono hkept h2kept (fun h => (h2flags w).1 ▸ h)
                    (AllowanceKept_body h2body) (zeroPending_of_not_goesOn hgate hfc hgo)))
            exact ⟨S3, hr, FrameStep_trans h2step hk,
              FlagsDrained_of_children htree htr.2.2.2.2.2 hgate
                (by rw [← (h2flags w).1]; exact hfc) h2fs h2flags hkeep hz hk.2.2.2.1 hbelow
                (FrameStep_trans h2step hk).2.2.2.2 hcase⟩
          | true =>
            refine ⟨{ r2.2 with clocks := r2.2.clocks + 1 }, ?_,
              ⟨h2step.1, h2step.2.1, h2step.2.2.1, h2kept, h2step.2.2.2.2⟩,
              FlagsDrained_of_self htree hcl h2fs h2flags (Or.inl hgate)⟩
            exact Widget_UpdateChildren_gated K E ws0 _ w _ r2.2 h2kept hgate
              (fun data hd hov =>
                (htr.2.2.2.2.1 w (Reached.top w) ((h2below.1 w).2 hfc) data hd).1 hov) hfc
        · rw [if_neg hfc]
          have hfc2 : (getW S.widgets w).task.for_children = false := by
            rw [← (h2flags w).1]; simpa using hfc
          exact ⟨r2.2, rfl, h2step, FlagsDrained_of_self htree hcl h2fs h2flags (Or.inr hfc2)⟩
      obtain ⟨S3, hr3ok, hk3, hdr3⟩ := h3
      -- the end: the children are sorted and a pending reflow runs
      generalize hS5 : (if (getW (S3.call E (Call.Widget_SortChildrenShow w)).widgets
          w).task.states K.LCUI_WTASK_REFLOW = true then
        (Widget_RunReflowTask E (S3.call E (Call.Widget_SortChildrenShow w)) w r2.1).onWidgets
          (fun ws => updW ws w (fun x => x.setTaskState K.LCUI_WTASK_REFLOW false))
        else S3.call E (Call.Widget_SortChildrenShow w)) = S5
      obtain ⟨hk5, hsame5⟩ :=
        Widget_UpdateWithContext_end_frame K E hq ws0 S3 w r2.1 hk3.2.2.2.1 S5 hS5
      refine ⟨S5, ?_, FrameStep_trans hk3 hk5,
        FlagsDrained_trans_same hk3.2.2.2.1 hk5.2.2.2.1 hk5.2.2.2.2 hdr3 hsame5⟩
      have hnot : (!(getW S.widgets w).task.for_self && !(getW S.widgets w).task.for_children)
          = false := by
        cases h1 : (getW S.widgets w).task.for_self <;>
          cases h2 : (getW S.widgets w).task.for_children <;> simp_all
      simp only [Widget_UpdateWithContext, hnot, Bool.false_eq_true, ↓reduceIte, hbegin, hr2,
        hr3, hr3ok, hS5, Widget_EndUpdate]

/-- Two passes in a row: the second one decides what is drained. -/
theorem FlagsDrained_trans {E : Env} {ws0 ws ws1 ws2 : List Widget} {lag : Nat → Nat}
    {k k2 w : Nat} (h : FlagsDrained E ws0 ws ws1 lag k w)
    (h2 : FlagsDrained E ws0 ws1 ws2 lag k2 w) : FlagsDrained E ws0 ws ws2 lag k2 w :=
  ⟨fun i => FlagsShrink_trans (h.1 i) (h2.1 i),
    fun i hi => SameFlags_trans (h.2.1 i hi) (h2.2.1 i hi), h2.2.2.1, h2.2.2.2.1,
    fun g hg => (h2.2.2.2.2.1 g hg).trans (h.2.2.2.2.1 g hg), h2.2.2.2.2.2.1,
    h2.2.2.2.2.2.2⟩

theorem contextCache_idem (ws : List Widget) (i : Nat) :
    contextCache ws i (contextCache ws i none) = contextCache ws i none := by
  cases h : contextCache ws i none with
  | none => exact h
  | some x => rfl

/-- Style resolution that marks no new task for a widget under its own context
marks none for it at the head of a chain: Widget_Update resolves the style of
the root both ways. -/
theorem StyleHeld_head {E : Env} {ws : List Widget} {dicts : List (List (Nat × Nat))} {i : Nat}
    (h : StyleHeld E ws dicts i (contextCache ws i none)) : StyleHeld E ws dicts i none := by
  obtain ⟨h1, h2, h3⟩ := h
  rw [contextCache_idem] at h2 h3
  refine ⟨fun data _ hdata hcc => ?_, h2, h3⟩
  cases hc : contextCache ws i none with
  | none => exact h1 data hc hdata hcc
  | some x =>
    intro hnone
    simp [contextCache, hdata, hcc, hnone] at hc

/-- Pass number `k + 1` of Widget_Update over a finite tree, update rules
included, when nothing is mutated. -/
theorem Widget_Update_frame (K : Defs) (E : Env) (hq : Quiet E) (ws0 : List Widget)
    (dicts : List (List (Nat × Nat))) (rank : Nat → Nat) (q : Nat → Option (Nat × Nat))
    (lag : Nat → Nat) (k : Nat)
    (fuel : Nat) (S : World) (w : Nat) (hrefresh : S.self.refresh_all = false)
    (hkept : FrameKept ws0 S.widgets) (hbelow : Below ws0 S.widgets)
    (hdicts : S.dicts = dicts) (hq0 : q w = contextCache ws0 w none)
    (hheld0 : StyleHeld E ws0 dicts w (q w)) (htr : TreeReady K E ws0 dicts rank q lag w)
    (hcl : FlagsClosed ws0 S.widgets w) (hzb : ZeroBound E ws0 S.widgets lag k w)
    (hfuel : rank w < fuel) :
    FrameSpec E ws0 lag k S w (Widget_Update K E fuel S w) := by
  have hheld : StyleHeld E ws0 S.dicts w none := by
    rw [hdicts]
    apply StyleHeld_head
    rw [← hq0]
    exact hheld0
  obtain ⟨c0, S1, hbegin, -, hcache, hw1, hs1, hm1, hd1⟩ :=
    Widget_BeginUpdate_settled K E hq ws0 S w [] none hkept rfl hheld
  have hinit := Widget_InitDiff_fields K S1 w c0 []
  have hready1 : FrameReady K E ws0 dicts rank q lag k S1 w [Widget_InitDiff K S1 w c0 []] :=
    ⟨by rw [hs1]; exact hrefresh, by rw [hw1]; exact hkept, by rw [hw1]; exact hbelow,
      by rw [hd1]; exact hdicts,
      (hcache _ hinit.2.1 hinit.2.2).trans hq0.symm, htr, by rw [hw1]; exact hcl,
      by rw [hw1]; exact hzb⟩
  obtain ⟨S2, hr, hk, hdr⟩ := Widget_UpdateWithContext_frame K E hq ws0 dicts rank q lag k fuel _
    S1 w hready1 hfuel
  rw [hw1] at hdr
  refine ⟨S2, ?_, ⟨hk.1.trans hs1, hk.2.1.trans hm1, hk.2.2.1.trans hd1, hk.2.2.2.1, ?_⟩, hdr⟩
  · simp only [Widget_Update, hbegin, hr, Widget_EndUpdate]
  · have := hk.2.2.2.2
    rw [hw1] at this
    exact this

/-- The passes of LCUIWidget_Update over a finite tree, update rules included,
when nothing is mutated: `n + 1` passes from pass number `k + 1` on. -/
theorem updatePasses_frame (K : Defs) (E : Env) (hq : Quiet E) (ws0 : List Widget)
    (dicts : List (List (Nat × Nat))) (rank : Nat → Nat) (q : Nat → Option (Nat × Nat))
    (lag : Nat → Nat) (fuel : Nat) (w : Nat) (hq0 : q w = contextCache ws0 w none)
    (hheld0 : StyleHeld E ws0 dicts w (q w))
    (htr : TreeReady K E ws0 dicts rank q lag w) (hfuel : rank w < fuel) :
    ∀ (n k : Nat) (S : World), S.self.refresh_all = false → FrameKept ws0 S.widgets →
      Below ws0 S.widgets → S.dicts = dicts → FlagsClosed ws0 S.widgets w →
      ZeroBound E ws0 S.widgets lag k w →
      ∃ S1, updatePasses K E fuel w (n + 1) S 0 = Except.ok (0, S1) ∧ FrameStep ws0 S S1 ∧
        FlagsDrained E ws0 S.widgets S1.widgets lag (k + n) w
  | 0, k, S, hrefresh, hkept, hbelow, hdicts, hcl, hzb => by
    obtain ⟨S1, hr, hk, hdr⟩ := Widget_Update_frame K E hq ws0 dicts rank q lag k fuel S w
      hrefresh hkept hbelow hdicts hq0 hheld0 htr hcl hzb hfuel
    exact ⟨S1, by simp only [updatePasses, hr], hk, hdr⟩
  | n + 1, k, S, hrefresh, hkept, hbelow, hdicts, hcl, hzb => by
    obtain ⟨S1, hr, hk, hdr⟩ := Widget_Update_frame K E hq ws0 dicts rank q lag k fuel S w
      hrefresh hkept hbelow hdicts hq0 hheld0 htr hcl hzb hfuel
    obtain ⟨S2, hr2, hk2, hdr2⟩ := updatePasses_frame K E hq ws0 dicts rank q lag fuel w hq0
      hheld0 htr hfuel n (k + 1) S1 (by rw [hk.1]; exact hrefresh) hk.2.2.2.1
      ⟨fun i => FlagsShrink_trans (hbelow.1 i) (hdr.1 i),
        AllowanceKept_trans hbelow.2 hk.2.2.2.2⟩ (by rw [hk.2.2.1]; exact hdicts)
      hdr.2.2.2.2.2.1 hdr.2.2.2.2.2.2
    have e : k + (n + 1) = k + 1 + n := by omega
    rw [e]
    refine ⟨S2, ?_, FrameStep_trans hk hk2, FlagsDrained_trans hdr hdr2⟩
    rw [updatePasses, hr]
    simpa using hr2

theorem InSubtree_trans {ws : List Widget} {w g i : Nat} (hg : InSubtree ws w g)
    (hi : InSubtree ws g i) : InSubtree ws w i := by
  rcases hg with e | e
  · subst e; exact hi
  · rcases hi with e2 | e2
    · subst e2; exact Or.inr e
    · exact Or.inr (IsDescendant_trans e e2)

/-- In a tree whose parent links agree with the children links, an update of
the root cannot reach the widgets below a closed gate. -/
theorem not_reached_below_gate {E : Env} {ws : List Widget} {rank : Nat → Nat} {w g d : Nat}
    (ht : IsTreeUnder ws rank w) (hp : ParentsLinked ws w) (hg : InSubtree ws w g)
    (hgate : offGated E ws g = true) (hd : IsDescendant ws g d) : ¬ Reached E ws w d := by
  have hroot : ∀ x, IsDescendant ws g x → x ≠ w := by
    intro x hx e
    subst e
    rcases hg with e | e
    · subst e
      exact Nat.lt_irrefl _ (IsTreeUnder_rank_lt ht hx)
    · exact Nat.lt_irrefl _ (IsTreeUnder_rank_lt ht (IsDescendant_trans e hx))
  induction hd with
  | child hc =>
    intro hr
    rcases Reached_cases_last hr with e | ⟨p, hrp, hgp, hcp⟩
    · exact hroot _ (IsDescendant.child hc) e
    · have h1 := hp p _ (Reached_inSubtree hrp) hcp
      rw [hp g _ hg hc] at h1
      simp only [Option.some.injEq] at h1
      rw [← h1, hgate] at hgp
      cases hgp
  | step hx hc ih =>
    intro hr
    rcases Reached_cases_last hr with e | ⟨p, hrp, _, hcp⟩
    · exact hroot _ (IsDescendant.step hx hc) e
    · have h1 := hp p _ (Reached_inSubtree hrp) hcp
      rw [hp _ _ (InSubtree_trans hg (Or.inr hx)) hc] at h1
      simp only [Option.some.injEq] at h1
      rw [← h1] at hrp
      exact ih hrp

/-- The bound on the first pass: a widget whose first update of the children
will stop after one child has a lag of 1 at least. -/
theorem ZeroBound_of_lagPlan {E : Env} {ws : List Widget} {lag : Nat → Nat} {w : Nat}
    (h : LagPlan E ws lag w) : ZeroBound E ws ws lag 0 w := by
  intro i hi hz
  by_cases e : i = w
  · subst e
    have := h.1 hz
    omega
  · have := lag_zero_below h.2 hi e hz
    omega

/-- C2, amended. Idempotence of the frame update, update rules included.  Once
one LCUIWidget_Update call has completed and nothing is mutated (the other
modules change no widget, allocations succeed, the metrics are those just
stored), take a finite tree under the root whose flags are closed (every
widget with a child that has pending work has `for_children` set), in which
style resolution marks no new task for the root and for the widgets with
pending work (`StyleHeld`: the sheet resolved, through the style cache that
`q` plans along the tree or through the global cache, is the sheet held), in
which the rules of the containers with `for_children` set let a pass go
through (`RulesReady`: the visible area does not change with the task records,
and the visible rectangle of a container that updates its visible children
first is defined) and in which at most 3 of the widgets on a path from the
root will stop their first update of the children after one child (`LagPlan`
with a bound of 3 on `lag`: such a widget has an open gate, `for_children`
set, rules that do not lift the limits and an allowance of the adaptive budget
of 0).  Then a second LCUIWidget_Update call returns 0, and in the state it
leaves: every widget that the update can reach (the root, and the children of
the reached widgets whose gate is open) has `for_self` clear, and
`for_children` clear as well when no gate is closed in its subtree; so when no
gate is closed in the tree (no widget that updates its children only when it
is visible is outside the visible area), every widget of the tree has
`for_self` and `for_children` clear; a widget whose gate is closed keeps
`for_children` as it was; and the widgets that the update cannot reach keep
their flags, which are, when the parent links agree with the children links,
the widgets below a closed gate. -/
theorem LCUIWidget_Update_idempotent (K : Defs) (E : Env) (hq : Quiet E) (fuel : Nat)
    (S0 S1 : World) (c1 : Nat) (rank : Nat → Nat) (q : Nat → Option (Nat × Nat))
    (lag : Nat → Nat)
    (hfirst : LCUIWidget_Update K E fuel S0 = Except.ok (c1, S1))
    (htree : IsTreeUnder S1.widgets rank E.LCUIWidget_GetRoot)
    (hfuel : rank E.LCUIWidget_GetRoot < fuel)
    (hroot : E.LCUIWidget_GetRoot < S1.widgets.length)
    (hclosed : FlagsClosed S1.widgets S1.widgets E.LCUIWidget_GetRoot)
    (hq0 : q E.LCUIWidget_GetRoot = contextCache S1.widgets E.LCUIWidget_GetRoot none)
    (hplan : CachePlan E S1.widgets q E.LCUIWidget_GetRoot)
    (hstyle0 : StyleHeld E S1.widgets S1.dicts E.LCUIWidget_GetRoot (q E.LCUIWidget_GetRoot))
    (hstyles : StylesHeld E S1.widgets S1.dicts q E.LCUIWidget_GetRoot)
    (hrules : RulesReady K E S1.widgets E.LCUIWidget_GetRoot)
    (hlag : LagPlan E S1.widgets lag E.LCUIWidget_GetRoot)
    (hbound : ∀ i, Reached E S1.widgets E.LCUIWidget_GetRoot i → lag i ≤ 3) :
    ∃ S2, LCUIWidget_Update K E fuel S1 = Except.ok (0, S2) ∧
      (∀ i, Reached E S1.widgets E.LCUIWidget_GetRoot i →
        (getW S2.widgets i).task.for_self = false ∧
          (GateFree E S1.widgets i → Clean S2.widgets i)) ∧
      (GateFree E S1.widgets E.LCUIWidget_GetRoot →
        ∀ i, InSubtree S1.widgets E.LCUIWidget_GetRoot i → Clean S2.widgets i) ∧
      (∀ g, offGated E S1.widgets g = true →
        (getW S2.widgets g).task.for_children = (getW S1.widgets g).task.for_children) ∧
      (∀ i, ¬ Reached E S1.widgets E.LCUIWidget_GetRoot i →
        SameFlags S1.widgets S2.widgets i) ∧
      (ParentsLinked S1.widgets E.LCUIWidget_GetRoot →
        ∀ g d, InSubtree S1.widgets E.LCUIWidget_GetRoot g → offGated E S1.widgets g = true →
          IsDescendant S1.widgets g d → SameFlags S1.widgets S2.widgets d) := by
  obtain ⟨hrefresh, hmetrics⟩ := LCUIWidget_Update_commits K E fuel S0 S1 c1 hfirst
  obtain ⟨S3, hr, _, hshrink, hsame, hself, hclean, hgated, _⟩ :=
    updatePasses_frame K E hq S1.widgets S1.dicts rank q lag fuel E.LCUIWidget_GetRoot hq0
      hstyle0 ⟨htree, hroot, hplan, hstyles, hrules, hlag.2⟩ hfuel 3 0 S1 hrefresh
      (FrameKept_refl _) (Below_refl _) rfl hclosed (ZeroBound_of_lagPlan hlag)
  have hall : ∀ i j, Reached E S1.widgets E.LCUIWidget_GetRoot i → Reached E S1.widgets i j →
      lag j ≤ 0 + 3 := fun i j hi hj => by
    have := hbound j (Reached_trans hi hj)
    omega
  have heq : LCUIWidget_Update K E fuel S1 = Except.ok (0,
      { (S3.onWidgets (fun ws => updW ws E.LCUIWidget_GetRoot (fun x =>
          { x with state := K.LCUI_WSTATE_NORMAL }))).call E Call.LCUIWidget_ClearTrash with
        self := { S3.self with metrics := S3.metrics, refresh_all := false } }) := by
    have h4 : (4 : Nat) = 3 + 1 := rfl
    simp only [LCUIWidget_Update, hmetrics, ne_eq, not_true_eq_false, ↓reduceIte, hrefresh,
      Bool.false_eq_true, h4, hr]
    rfl
  have hlast : ∀ i, SameFlags S3.widgets
      (E.effect Call.LCUIWidget_ClearTrash (updW S3.widgets E.LCUIWidget_GetRoot (fun x =>
        { x with state := K.LCUI_WSTATE_NORMAL }))) i := by
    intro i
    rw [hq.1]
    unfold SameFlags
    rw [getW_updW]
    split
    · next h => rw [h.1]; exact ⟨rfl, rfl⟩
    · exact ⟨rfl, rfl⟩
  refine ⟨_, heq, fun i hi => ⟨?_, fun hfree => ?_⟩, fun hfree i hi => ?_, fun g hg => ?_,
    fun i hi => ?_, fun hp g d hg hgate hd => ?_⟩
  · exact (hlast i).1.trans (hself i hi (hall i i hi (Reached.top i)))
  · exact Clean_of_sameFlags (hlast i) (hclean i hi hfree (fun j hj => hall i j hi hj))
  · exact Clean_of_sameFlags (hlast i)
      (hclean i (Reached_of_gateFree hfree i hi) (GateFree_sub hfree hi)
        (fun j hj => hall i j (Reached_of_gateFree hfree i hi) hj))
  · exact (hlast g).2.trans (hgated g hg)
  · exact SameFlags_trans (hsame i hi) (hlast i)
  · exact SameFlags_trans (hsame d (not_reached_below_gate htree hp hg hgate hd)) (hlast d)


/-! ## Checking the hypotheses on concrete arenas -/

theorem getW_mem (ws : List Widget) (i : Nat) (h : i < ws.length) : getW ws i ∈ ws := by
  have : getW ws i = ws[i] := by
    simp [getW, List.getD_eq_getElem?_getD, List.getElem?_eq_getElem h]
  rw [this]
  exact List.getElem_mem _

theorem ValidParents_of_check (ws : List Widget) (h : checkValidParents ws = true) :
    ValidParents ws := by
  intro i p hp
  by_cases hi : i < ws.length
  · have := List.all_eq_true.mp h _ (getW_mem ws i hi)
    rw [hp] at this
    simpa using this
  · rw [getW_of_length_le ws i (Nat.le_of_not_lt hi)] at hp
    cases hp

theorem UpClosed_of_check (ws : List Widget) (h : checkUpClosed ws = true) : UpClosed ws := by
  intro i p hfc hp
  by_cases hi : i < ws.length
  · have := List.all_eq_true.mp h _ (getW_mem ws i hi)
    rw [hp, hfc] at this
    simpa using this
  · rw [getW_of_length_le ws i (Nat.le_of_not_lt hi)] at hp
    cases hp

theorem IsTreeUnder_of_check (ws : List Widget) (rank : Nat → Nat) (w : Nat)
    (h : checkRanked ws rank = true) : IsTreeUnder ws rank w := by
  intro i c _ hc
  by_cases hi : i < ws.length
  · have h1 := List.all_eq_true.mp h i (List.mem_range.mpr hi)
    have h2 := List.all_eq_true.mp h1 c hc
    simpa using h2
  · rw [getW_of_length_le ws i (Nat.le_of_not_lt hi)] at hc
    cases hc

theorem quietEnv_quiet : Quiet quietEnv := ⟨fun _ _ => rfl, fun _ => rfl⟩

theorem FlagsClosed_of_check (ws : List Widget) (w : Nat) (h : checkFlagsClosed ws = true) :
    FlagsClosed ws ws w := by
  intro i c _ hc hdirty
  by_cases hi : i < ws.length
  · have h1 := List.all_eq_true.mp h i (List.mem_range.mpr hi)
    have h2 := List.all_eq_true.mp h1 c hc
    unfold Dirty at hdirty
    rcases hdirty with e | e <;> simpa [e] using h2
  · rw [getW_of_length_le ws i (Nat.le_of_not_lt hi)] at hc
    cases hc

theorem ok_of_okCount (r : Except Fault (Nat × World)) (c : Nat) (h : okCount r = some c) :
    r = Except.ok (c, okWorld r) := by
  cases r with
  | error e => cases h
  | ok p =>
    obtain ⟨n, S⟩ := p
    simp only [okCount, Option.some.injEq] at h
    rw [h]; rfl

/-! ### The hypotheses of the frame over a tree with update rules, decided on
concrete arenas -/

theorem sideEnv_quiet : Quiet sideEnv := ⟨fun _ _ => rfl, fun _ => rfl⟩

theorem Reached_lt {E : Env} {ws : List Widget} {rank : Nat → Nat} {w i : Nat}
    (ht : IsTreeUnder ws rank w) (hw : w < ws.length) (h : Reached E ws w i) :
    i < ws.length := by
  have hdesc : ∀ d, IsDescendant ws w d → d < ws.length := by
    intro d hd
    cases hd with
    | child hc => exact (ht w d (Or.inl rfl) hc).1
    | step hx hc => exact (ht _ d (Or.inr hx) hc).1
  rcases Reached_inSubtree h with e | e
  · rw [e]; exact hw
  · exact hdesc i e

theorem CachePlan_of_check (E : Env) (ws : List Widget) (q : Nat → Option (Nat × Nat))
    (w : Nat) (h : checkCachePlan ws q = true) : CachePlan E ws q w := by
  intro i c _ _ hc
  by_cases hi : i < ws.length
  · have h1 := List.all_eq_true.mp h i (List.mem_range.mpr hi)
    have h2 := List.all_eq_true.mp h1 c hc
    simpa using h2
  · rw [getW_of_length_le ws i (Nat.le_of_not_lt hi)] at hc
    cases hc

theorem StyleHeld_of_check (E : Env) (ws : List Widget) (dicts : List (List (Nat × Nat)))
    (q : Nat → Option (Nat × Nat)) (sheet : Nat)
    (hE : ∀ ws1 i, E.LCUI_GetCachedStyleSheet ws1 i = sheet)
    (h : checkStyleHeld ws dicts q sheet = true) (i : Nat) (hi : i < ws.length) :
    StyleHeld E ws dicts i (q i) := by
  have h1 := List.all_eq_true.mp h i (List.mem_range.mpr hi)
  rw [Bool.and_eq_true] at h1
  obtain ⟨ha, hb⟩ := h1
  refine ⟨fun data hq hdata hcc => ?_, fun d x hc hhash => ?_, fun hor ws1 _ => ?_⟩
  · rw [hq, hdata] at ha
    simp only [hcc, Bool.not_true, Bool.false_or] at ha
    intro hnone
    rw [hnone] at ha
    cases ha
  · rw [hc] at hb
    simp only [hhash, if_false] at hb
    cases hf : Dict_FetchValue dicts d (styleCacheKey x (getW ws i).hash) with
    | none => rw [hf] at hb; cases hb
    | some s =>
      rw [hf] at hb
      exact ⟨s, rfl, by simpa using hb⟩
  · rw [hE]
    rcases hor with e | e
    · rw [e] at hb
      simpa using hb
    · cases hc : contextCache ws i (q i) with
      | none =>
        rw [hc] at hb
        simpa using hb
      | some x =>
        obtain ⟨d, y⟩ := x
        rw [hc] at hb
        simp only [e, if_true] at hb
        simpa using hb

theorem RulesReady_of_check (K : Defs) (E : Env) (ws : List Widget) (rank : Nat → Nat) (w : Nat)
    (hvis : ∀ ws1 ws2 i, E.Widget_InVisibleArea ws1 i = E.Widget_InVisibleArea ws2 i)
    (hauto : ∀ ws1 i k, E.Widget_HasAutoStyle ws1 i k = false)
    (ht : IsTreeUnder ws rank w) (hw : w < ws.length)
    (h : checkRulesReady E ws = true) : RulesReady K E ws w := by
  intro i hi _ data hdata
  have h1 := List.all_eq_true.mp h i (List.mem_range.mpr (Reached_lt ht hw hi))
  rw [hdata] at h1
  refine ⟨fun _ ws1 _ => hvis ws1 ws i, fun hg hfirst => ⟨fun _ => ⟨fun _ ws1 _ => hauto ws1 i _,
    fun _ ws1 _ => hauto ws1 i _⟩, ?_⟩⟩
  simpa [hg, hfirst] using h1

theorem LagPlan_of_check (E : Env) (ws : List Widget) (rank : Nat → Nat) (lag : Nat → Nat)
    (bound w : Nat) (ht : IsTreeUnder ws rank w) (hw : w < ws.length)
    (h : checkLagPlan E ws lag bound = true) :
    LagPlan E ws lag w ∧ ∀ i, Reached E ws w i → lag i ≤ bound := by
  have hall : ∀ i, i < ws.length → lag i ≤ bound ∧ (zeroPending E ws ws i = true → 1 ≤ lag i) ∧
      (offGated E ws i = false → ∀ c ∈ (getW ws i).children,
        lag i ≤ lag c ∧ (zeroPending E ws ws c = true → lag i + 1 ≤ lag c)) := by
    intro i hi
    have h1 := List.all_eq_true.mp h i (List.mem_range.mpr hi)
    simp only [Bool.and_eq_true, decide_eq_true_eq, Bool.or_eq_true, Bool.not_eq_true',
      List.all_eq_true] at h1
    refine ⟨h1.1.1, fun hz => ?_, fun hg c hc => ?_⟩
    · rcases h1.1.2 with e | e
      · rw [hz] at e; cases e
      · exact e
    · rcases h1.2 with e | e
      · rw [hg] at e; cases e
      · refine ⟨(e c hc).1, fun hz => ?_⟩
        rcases (e c hc).2 with e2 | e2
        · rw [hz] at e2; cases e2
        · exact e2
  exact ⟨⟨(hall w hw).2.1, fun i c hi hg hc => (hall i (Reached_lt ht hw hi)).2.2 hg c hc⟩,
    fun i hi => (hall i (Reached_lt ht hw hi)).1⟩

/-! ## Witnesses -/

/-- Witness of C1: marking the child of `paddedChildArena` marks the root. -/
theorem Widget_AddTask_propagation_witness :
    (getW (Widget_AddTask sampleDefs paddedChildArena 1 13) 1).task.states 13 = true ∧
      (getW (Widget_AddTask sampleDefs paddedChildArena 1 13) 1).task.for_self = true ∧
      ∀ a, IsAncestor paddedChildArena 1 a →
        (getW (Widget_AddTask sampleDefs paddedChildArena 1 13) a).task.for_children = true :=
  Widget_AddTask_propagation sampleDefs paddedChildArena 1 13 (by decide)
    (ValidParents_of_check _ (by decide)) (UpClosed_of_check _ (by decide)) (by decide)

/-- Witness of C3: a widget of `paddedChildArena` has no flag set. -/
theorem Widget_UpdateWithContext_idle_witness :
    Widget_UpdateWithContext sampleDefs quietEnv 1 (worldOf paddedChildArena) 0 [] =
      Except.ok (0, worldOf paddedChildArena) :=
  Widget_UpdateWithContext_idle sampleDefs quietEnv 0 (worldOf paddedChildArena) 0 []
    (by decide) (by decide)

/-- Witness of C9: the same arena with the child in the deleted state. -/
theorem Widget_AddTask_deleted_noop_witness :
    Widget_AddTask sampleDefs [plainWidget none [1], { plainWidget (some 0) [] with state := 5 }]
      1 13 = [plainWidget none [1], { plainWidget (some 0) [] with state := 5 }] :=
  Widget_AddTask_deleted_noop sampleDefs _ 1 13 (by decide)

/-- Witness of C10: the subtree of the root of `paddedChildArena`. -/
theorem Widget_AddTaskForChildren_marks_subtree_witness :
    ∃ ws', Widget_AddTaskForChildren sampleDefs 2 paddedChildArena 0 0 = some ws' ∧
      (∀ d, IsDescendant paddedChildArena 0 d →
        (getW paddedChildArena d).state ≠ sampleDefs.LCUI_WSTATE_DELETED →
        (getW ws' d).task.states 0 = true ∧ (getW ws' d).task.for_self = true) ∧
      (getW ws' 0).task.for_children = true ∧
      (getW ws' 0).task.states 0 = (getW paddedChildArena 0).task.states 0 ∧
      (getW ws' 0).task.for_self = (getW paddedChildArena 0).task.for_self :=
  Widget_AddTaskForChildren_marks_subtree sampleDefs paddedChildArena 0 0
    (fun i => 1 - i) (by decide) (IsTreeUnder_of_check _ _ _ (by decide)) 2 (by decide)

/-- Witness of C4: the child of `paddedChildArena`, whose padding box differs
from the snapshot, under a root; the arena is extended by a grandchild. -/
theorem Widget_EndDiff_padding_change_witness :
    (getW (Widget_EndDiff sampleDefs quietEnv
        (worldOf [plainWidget none [1],
          { plainWidget (some 0) [2] with
            box := { LCUI_WidgetBoxModelRec.zero with padding := ⟨0, 0, 20, 20⟩ } },
          plainWidget (some 1) []]) 1 plainContext).2.2.widgets 1).task.states
        sampleDefs.LCUI_WTASK_REFLOW = true ∧
      (getW (Widget_EndDiff sampleDefs quietEnv
        (worldOf [plainWidget none [1],
          { plainWidget (some 0) [2] with
            box := { LCUI_WidgetBoxModelRec.zero with padding := ⟨0, 0, 20, 20⟩ } },
          plainWidget (some 1) []]) 1 plainContext).2.2.widgets 2).task.states
        sampleDefs.LCUI_WTASK_POSITION = true :=
  have h := Widget_EndDiff_padding_change sampleDefs quietEnv
    (worldOf [plainWidget none [1],
      { plainWidget (some 0) [2] with
        box := { LCUI_WidgetBoxModelRec.zero with padding := ⟨0, 0, 20, 20⟩ } },
      plainWidget (some 1) []]) 1 plainContext (by decide) (by decide) (by decide) (by decide)
  ⟨h.1, (h.2 2 (by decide) (by decide) (by decide)).1⟩

theorem quietEnv_painterKeepsTasks : PainterKeepsTasks quietEnv :=
  fun _ _ => ⟨fun _ => rfl, fun _ _ _ => rfl⟩

theorem quietEnv_boxUpdateKeepsTasks : BoxUpdateKeepsTasks quietEnv :=
  fun _ _ => ⟨fun _ _ _ => rfl, fun _ => rfl, fun _ => rfl⟩

theorem quietEnv_flexIgnoresTasks : FlexIgnoresTasks quietEnv :=
  fun _ _ _ _ => rfl

/-- Counterexample to C5 as stated: the child of `paddedChildArena` takes part
in flex layout and only its padding box differs from the snapshot; its parent
had no REFLOW task and has one after Widget_EndDiff. -/
theorem Widget_EndDiff_padding_marks_flex_parent :
    plainContext.diff.can_render = true ∧
    (getW (atCompare sampleDefs flexEnv (worldOf paddedChildArena) 1 plainContext).widgets
      1).parent = some 0 ∧
    plainContext.diff.box.padding ≠
      (getW (atCompare sampleDefs flexEnv (worldOf paddedChildArena) 1 plainContext).widgets
        1).box.padding ∧
    plainContext.diff.flex =
      (getW (atCompare sampleDefs flexEnv (worldOf paddedChildArena) 1 plainContext).widgets
        1).computed_style.flex ∧
    plainContext.diff.display =
      (getW (atCompare sampleDefs flexEnv (worldOf paddedChildArena) 1 plainContext).widgets
        1).computed_style.display ∧
    plainContext.diff.position =
      (getW (atCompare sampleDefs flexEnv (worldOf paddedChildArena) 1 plainContext).widgets
        1).computed_style.position ∧
    (getW (worldOf paddedChildArena).widgets 0).task.states sampleDefs.LCUI_WTASK_REFLOW
      = false ∧
    (getW (atCompare sampleDefs flexEnv (worldOf paddedChildArena) 1 plainContext).widgets
      0).task.states sampleDefs.LCUI_WTASK_REFLOW = false ∧
    (getW (Widget_EndDiff sampleDefs flexEnv (worldOf paddedChildArena) 1
      plainContext).2.2.widgets 0).task.states sampleDefs.LCUI_WTASK_REFLOW = true := by
  decide

/-- Witness of C5, amended: the same input in the quiet environment, where no
widget takes part in flex layout. -/
theorem Widget_EndDiff_padding_keeps_parent_witness :
    (getW (Widget_EndDiff sampleDefs quietEnv (worldOf paddedChildArena) 1
      plainContext).2.2.widgets 0).task.states sampleDefs.LCUI_WTASK_REFLOW =
    (getW (worldOf paddedChildArena).widgets 0).task.states sampleDefs.LCUI_WTASK_REFLOW :=
  Widget_EndDiff_padding_keeps_parent sampleDefs quietEnv (worldOf paddedChildArena) 1 0
    plainContext quietEnv_boxUpdateKeepsTasks quietEnv_painterKeepsTasks
    quietEnv_flexIgnoresTasks (by decide) (by decide) (by decide) (by decide) (by decide)
    (by decide) (by decide) (by decide) (by decide)

/-- Witness of C6: the child of `marginChildArena`, whose outer box alone
differs from the snapshot. -/
theorem Widget_EndDiff_outer_change_witness :
    (getW (Widget_EndDiff sampleDefs quietEnv (worldOf marginChildArena) 1
      plainContext).2.2.widgets 0).task.states sampleDefs.LCUI_WTASK_REFLOW = true ∧
    (getW (Widget_EndDiff sampleDefs quietEnv (worldOf marginChildArena) 1
      plainContext).2.2.widgets 1).task.states sampleDefs.LCUI_WTASK_REFLOW =
    (getW (worldOf marginChildArena).widgets 1).task.states sampleDefs.LCUI_WTASK_REFLOW :=
  Widget_EndDiff_outer_change sampleDefs quietEnv (worldOf marginChildArena) 1 0 plainContext
    quietEnv_boxUpdateKeepsTasks quietEnv_painterKeepsTasks (by decide) (by decide) (by decide)
    (by decide) (by decide) (by decide) (by decide) (by decide) (by decide) (by decide)
    (by decide)

/-- Counterexample to C7 as stated: the child of `layoutedArena` completed its
layout, refresh-all is clear, its parent context cannot render, so its
context starts at level none, and only its background changes (from 1 to 2);
Widget_EndDiff returns at line 316 and the level stays none, which is not the
border box. -/
theorem Widget_EndDiff_background_hidden_parent :
    (worldOf (layoutedArena 1)).self.refresh_all = false ∧
    sampleDefs.LCUI_WSTATE_LAYOUTED ≤ (getW (worldOf (layoutedArena 1)).widgets 1).state ∧
    (Widget_InitDiff sampleDefs (worldOf (layoutedArena 1)) 1 plainContext
      [hiddenParentContext]).diff.invalid_box = 0 ∧
    (layoutedSnapshot [hiddenParentContext]).diff.background ≠
      (getW (worldOf (layoutedArena 2)).widgets 1).computed_style.background ∧
    { (layoutedSnapshot [hiddenParentContext]).diff with background := 2 } =
      (Widget_BeginDiff sampleDefs (worldOf (layoutedArena 2)) 1
        (layoutedSnapshot [hiddenParentContext]) [hiddenParentContext]).diff ∧
    (Widget_EndDiff sampleDefs quietEnv (worldOf (layoutedArena 2)) 1
      (layoutedSnapshot [hiddenParentContext])).2.1.diff.invalid_box = 0 ∧
    (Widget_EndDiff sampleDefs quietEnv (worldOf (layoutedArena 2)) 1
      (layoutedSnapshot [hiddenParentContext])).2.1.diff.invalid_box ≠
      sampleDefs.SV_BORDER_BOX := by
  decide

/-- Witness of C7, amended: the same input under a parent context that can
render. -/
theorem Widget_EndDiff_background_level_witness :
    (Widget_EndDiff sampleDefs quietEnv (worldOf (layoutedArena 2)) 1
      (layoutedSnapshot [plainContext])).2.1.diff.invalid_box = sampleDefs.SV_BORDER_BOX ∧
    (Widget_EndDiff sampleDefs quietEnv (worldOf (layoutedArena 2)) 1
      (layoutedSnapshot [plainContext])).2.1.diff.invalid_box ≠ sampleDefs.SV_GRAPH_BOX ∧
    ∀ l ∈ invalidationLevels (callsSince (worldOf (layoutedArena 2))
        (Widget_EndDiff sampleDefs quietEnv (worldOf (layoutedArena 2)) 1
          (layoutedSnapshot [plainContext])).2.2),
      l ≤ sampleDefs.SV_BORDER_BOX :=
  Widget_EndDiff_background_level sampleDefs ⟨by decide, by decide, by decide⟩ quietEnv (worldOf (layoutedArena 1))
    (worldOf (layoutedArena 2)) 1 plainContext [plainContext] (layoutedSnapshot [plainContext])
    (by decide) (by decide) (by decide) rfl (by decide) (by decide) (by decide) (by decide)

/-- Failing input of C8: with a cap of one child per pass, a single
Widget_UpdateChildren pass over `cappedArena` updates all three children with
pending work (each is handed to Widget_AddState as updated and has `for_self`
cleared), reports 0 and leaves `for_children` of the container clear. -/
theorem Widget_UpdateChildren_exceeds_cap :
    okCount (Widget_UpdateChildren sampleDefs quietEnv
      (Widget_UpdateWithContext sampleDefs quietEnv 1) (worldOf cappedArena) 0
      [plainContext]) = some 0 ∧
    (okWorld (Widget_UpdateChildren sampleDefs quietEnv
      (Widget_UpdateWithContext sampleDefs quietEnv 1) (worldOf cappedArena) 0
      [plainContext])).trace.filter
        (fun c => match c with
          | Call.Widget_AddState _ _ => true
          | _ => false) =
      [Call.Widget_AddState 1 1, Call.Widget_AddState 2 1, Call.Widget_AddState 3 1] ∧
    ((okWorld (Widget_UpdateChildren sampleDefs quietEnv
      (Widget_UpdateWithContext sampleDefs quietEnv 1) (worldOf cappedArena) 0
      [plainContext])).widgets.map (fun x => (x.task.for_self, x.task.for_children))) =
      [(false, false), (false, false), (false, false), (false, false)] := by
  decide!


/-- Counterexample to C12 as stated: no task state of the widget of
`staleSummaryArena` is set and its `for_self` is set; it is still set after
Widget_UpdateTaskStatus. -/
theorem Widget_UpdateTaskStatus_keeps_stale_summary :
    NoTaskPending sampleDefs staleSummaryArena 0 ∧
      (getW (Widget_UpdateTaskStatus sampleDefs staleSummaryArena 0) 0).task.for_self = true := by
  refine ⟨?_, by decide⟩
  unfold NoTaskPending
  decide

/-- Witness of C12, amended: the child of `paddedChildArena` has no task
state set and `for_self` clear. -/
theorem Widget_UpdateTaskStatus_no_pending_witness :
    Widget_UpdateTaskStatus sampleDefs paddedChildArena 1 = paddedChildArena ∧
      (getW (Widget_UpdateTaskStatus sampleDefs paddedChildArena 1) 1).task.for_self =
        (getW paddedChildArena 1).task.for_self :=
  Widget_UpdateTaskStatus_no_pending sampleDefs paddedChildArena 1
    (by unfold NoTaskPending; decide)

/-- Counterexample to C13 as stated: the child of `relinkedArena` has a task
state set; Widget_UpdateTaskStatus on it sets `for_children`, which was clear,
on the child itself and on the root. -/
theorem Widget_UpdateTaskStatus_marks_for_children :
    (getW relinkedArena 1).task.for_children = false ∧
      (getW relinkedArena 0).task.for_children = false ∧
      (getW (Widget_UpdateTaskStatus sampleDefs relinkedArena 1) 1).task.for_children = true ∧
      (getW (Widget_UpdateTaskStatus sampleDefs relinkedArena 1) 0).task.for_children = true := by
  decide

/-- Witness of C13, amended: on the child of `relinkedArena` the flag is set
on the child and on its ancestor, the root. -/
theorem Widget_UpdateTaskStatus_raises_for_children_witness :
    (getW (Widget_UpdateTaskStatus sampleDefs relinkedArena 1) 1).task.for_children = true ∧
      (getW (Widget_UpdateTaskStatus sampleDefs relinkedArena 1) 0).task.for_children = true :=
  have h := (Widget_UpdateTaskStatus_raises_for_children sampleDefs relinkedArena 1).2.2.2
    (by unfold NoTaskPending; decide) (by decide)
  ⟨h.1, h.2 (ValidParents_of_check _ (by decide)) (UpClosed_of_check _ (by decide)) 0
    (IsAncestor.parent (by decide))⟩

/-- Counterexample to C14 as stated: under a parent context that can render
and is at the border box level, which is below the graph box level,
Widget_InitDiff leaves `should_add_invalid_area` clear and sets the level to
the graph box; the same holds at the padding box level. -/
theorem Widget_InitDiff_border_parent_not_eligible :
    (parentContextAt sampleDefs.SV_BORDER_BOX).diff.can_render = true ∧
      (parentContextAt sampleDefs.SV_BORDER_BOX).diff.invalid_box < sampleDefs.SV_GRAPH_BOX ∧
      (worldOf (layoutedArena 1)).self.refresh_all = false ∧
      (Widget_InitDiff sampleDefs (worldOf (layoutedArena 1)) 1 plainContext
        [parentContextAt sampleDefs.SV_BORDER_BOX]).diff.should_add_invalid_area = false ∧
      (Widget_InitDiff sampleDefs (worldOf (layoutedArena 1)) 1 plainContext
        [parentContextAt sampleDefs.SV_BORDER_BOX]).diff.invalid_box = sampleDefs.SV_GRAPH_BOX ∧
      (Widget_InitDiff sampleDefs (worldOf (layoutedArena 1)) 1 plainContext
        [parentContextAt sampleDefs.SV_PADDING_BOX]).diff.should_add_invalid_area = false := by
  decide

/-- Witness of C14, amended: under a parent context at level none the child of
`layoutedArena` is eligible, under one at the border box level it is not. -/
theorem Widget_InitDiff_eligibility_witness :
    (Widget_InitDiff sampleDefs (worldOf (layoutedArena 1)) 1 plainContext
        [parentContextAt 0]).diff.should_add_invalid_area = true ∧
      (Widget_InitDiff sampleDefs (worldOf (layoutedArena 1)) 1 plainContext
        [parentContextAt sampleDefs.SV_BORDER_BOX]).diff.should_add_invalid_area = false :=
  ⟨(Widget_InitDiff_eligibility sampleDefs (worldOf (layoutedArena 1)) 1 plainContext
      [parentContextAt 0]).1.mpr (Or.inr ⟨_, _, rfl, by decide, by decide⟩),
    ((Widget_InitDiff_eligibility sampleDefs (worldOf (layoutedArena 1)) 1 plainContext
      [parentContextAt sampleDefs.SV_BORDER_BOX]).2 _ _ rfl (by decide) (by decide)).1⟩

/-- Witness of C16: the padding box of the child of `paddedChildArena` differs
from the snapshot of `plainContext`. -/
theorem Widget_EndDiff_reflow_defers_witness :
    (Widget_EndDiff sampleDefs quietEnv (worldOf paddedChildArena) 1 plainContext).1 = 0 ∧
      invalidationLevels (callsSince (worldOf paddedChildArena)
        (Widget_EndDiff sampleDefs quietEnv (worldOf paddedChildArena) 1 plainContext).2.2) = [] :=
  Widget_EndDiff_reflow_defers sampleDefs quietEnv (worldOf paddedChildArena) 1 plainContext
    (Or.inr ⟨by decide, by decide, by decide⟩)

theorem quietEnv_hashOnly : HashOnly quietEnv :=
  fun _ _ _ => ⟨rfl, fun _ => rfl⟩

/-- Witness of C17: the two children of `twinsArena` with the hash 7, updated
one after the other under the context that owns the style cache, get the same
sheet; the selector matching is done for the first one only. -/
theorem Widget_BeginUpdate_cache_hit_stability_witness :
    ∃ s, (getW (Widget_BeginUpdate sampleDefs quietEnv twinsWorld 1
          [cachingContext]).2.widgets 1).inherited_style = some (StyleRef.sheet s) ∧
      (getW (Widget_BeginUpdate sampleDefs quietEnv
          (Widget_BeginUpdate sampleDefs quietEnv twinsWorld 1 [cachingContext]).2 2
          [cachingContext]).2.widgets 2).inherited_style = some (StyleRef.sheet s) ∧
      styleSheetCalls (callsSince twinsWorld
        (Widget_BeginUpdate sampleDefs quietEnv twinsWorld 1 [cachingContext]).2) ≤ 1 ∧
      styleSheetCalls (callsSince
        (Widget_BeginUpdate sampleDefs quietEnv twinsWorld 1 [cachingContext]).2
        (Widget_BeginUpdate sampleDefs quietEnv
          (Widget_BeginUpdate sampleDefs quietEnv twinsWorld 1 [cachingContext]).2 2
          [cachingContext]).2) = 0 := by
  obtain ⟨s, h1, h2, h3, h4⟩ := Widget_BeginUpdate_cache_hit_stability sampleDefs quietEnv
    quietEnv_hashOnly twinsWorld 1 [cachingContext] 0 3 rfl (by decide) (by decide) (by decide)
  have h5 := h4 (Widget_BeginUpdate sampleDefs quietEnv twinsWorld 1 [cachingContext]).2 2
    [cachingContext] rfl (by decide) (by decide!) h2
  exact ⟨s, h1, h5.1, h3, h5.2⟩

/-- Witness of C18: the inherited style of the first twin of `twinsArena`
changes from the sheet of the global cache to a sheet of the style cache, and
its REFRESH_STYLE task is set. -/
theorem Widget_BeginUpdate_refresh_iff_witness :
    (getW (Widget_BeginUpdate sampleDefs quietEnv twinsWorld 1
      [cachingContext]).2.widgets 1).task.states sampleDefs.LCUI_WTASK_REFRESH_STYLE = true :=
  (Widget_BeginUpdate_refresh_iff sampleDefs quietEnv quietEnv_hashOnly twinsWorld 1
    [cachingContext] (by decide) (by decide)).1.mpr (Or.inr (by decide!))

/-- Witness of C19: the first twin of `twinsArena` (hash 7) under the style
hash 3; the cache is empty, and holds the new sheet 0 under the key
3 * 33 + 7 = 106 afterwards. -/
theorem Widget_BeginUpdate_cache_key_witness :
    styleCacheKey 3 7 = 106 ∧
      Dict_FetchValue (Widget_BeginUpdate sampleDefs quietEnv twinsWorld 1
        [cachingContext]).2.dicts 0 106 = some 0 :=
  have h := Widget_BeginUpdate_cache_key sampleDefs quietEnv quietEnv_hashOnly twinsWorld 1
    [cachingContext] 0 3 rfl (by decide) (by decide) (by decide)
  ⟨h.1 3 7, (h.2.2 (by decide)).2⟩

/-- Counterexample to C20 as stated: the third child of `twinsArena` has no
hash (it is zero) and its style refresh is pending; under the context that
owns the style cache, Widget_BeginUpdate does not call
Widget_GenerateSelfHash, the hash stays zero, the style comes from the global
cache and the style cache stays empty. -/
theorem Widget_BeginUpdate_zero_hash_not_generated :
    (getW twinsWorld.widgets 3).hash = 0 ∧
      (getW twinsWorld.widgets 3).task.states sampleDefs.LCUI_WTASK_REFRESH_STYLE = true ∧
      findStyleCache [cachingContext] = some (0, 3) ∧
      (Widget_BeginUpdate sampleDefs hashingEnv twinsWorld 3 [cachingContext]).2.trace =
        [Call.LCUI_GetCachedStyleSheet 3] ∧
      (getW (Widget_BeginUpdate sampleDefs hashingEnv twinsWorld 3
        [cachingContext]).2.widgets 3).hash = 0 ∧
      (getW (Widget_BeginUpdate sampleDefs hashingEnv twinsWorld 3
        [cachingContext]).2.widgets 3).inherited_style = some (StyleRef.cached 0) ∧
      (Widget_BeginUpdate sampleDefs hashingEnv twinsWorld 3 [cachingContext]).2.dicts = [[]] := by
  decide

/-- Witness of C20, amended: the third child of `twinsArena`, which has no
hash. -/
theorem Widget_BeginUpdate_hash_regeneration_witness :
    generateHashCalls (callsSince twinsWorld
        (Widget_BeginUpdate sampleDefs hashingEnv twinsWorld 3 [cachingContext]).2) = 0 ∧
      callsSince twinsWorld
        (Widget_BeginUpdate sampleDefs hashingEnv twinsWorld 3 [cachingContext]).2 =
        [Call.LCUI_GetCachedStyleSheet 3] :=
  have h := Widget_BeginUpdate_hash_regeneration sampleDefs hashingEnv twinsWorld 3
    [cachingContext] 0 3 rfl (by decide)
  ⟨h.1, (h.2 (by decide)).1⟩

/-- Witness of C11: the widget of `userTaskArena`, with the constants of
`sampleDefs`, in the quiet environment. -/
theorem Widget_UpdateWithContext_leaks_user_task_witness :
    TaskInvariant sampleDefs (worldOf userTaskArena).widgets 0 ∧
      ∃ S', Widget_UpdateWithContext sampleDefs quietEnv 1 (worldOf userTaskArena) 0 [] =
          Except.ok (0, S') ∧
        (getW S'.widgets 0).task.states sampleDefs.LCUI_WTASK_USER = true ∧
        (getW S'.widgets 0).task.for_self = false ∧
        ¬ TaskInvariant sampleDefs S'.widgets 0 :=
  Widget_UpdateWithContext_leaks_user_task sampleDefs quietEnv quietEnv_quiet 0
    (worldOf userTaskArena) 0 [] (by decide) (by decide) (by decide) rfl
    (fun c hc => absurd hc (List.not_mem_nil _)) (by decide) (by decide) (by decide) (by decide)
    (by decide) (by decide)

/-- Witness of C21: the loop over the child of `budgetArena`, entered with
`update_count` 7000 under a clock that advances by five ticks per reading, is
left after the allowance was recomputed from 7000 updates in 5 ticks; the
stored allowance is 7000 * 1000000 / (4 * 120 * 5) rounded down. -/
theorem Widget_UpdateChildren_budget_formula_witness :
    loopExit (updateChildrenLoopTraced sampleDefs tickingEnv
      (Widget_UpdateWithContext sampleDefs tickingEnv 2) 0 [plainContext] true [1] budgetWorld 0
      7000 0) = some (LoopExit.recomputed 7000 5 2916666) ∧
    storedAllowance (loopWorld (updateChildrenLoopTraced sampleDefs tickingEnv
      (Widget_UpdateWithContext sampleDefs tickingEnv 2) 0 [plainContext] true [1] budgetWorld 0
      7000 0)).widgets 0 = some 2916666 ∧
    2916666 = 7000 * sampleDefs.CLOCKS_PER_SEC /
      (budgetWorld.self.max_updates_per_frame * sampleDefs.LCUI_MAX_FRAMES_PER_SEC * 5) :=
  ⟨by decide!,
    (Widget_UpdateChildren_budget_formula sampleDefs tickingEnv
      (Widget_UpdateWithContext sampleDefs tickingEnv 2) 0 [plainContext] true [1] budgetWorld 0
      7000 0 7000 5 2916666 (by decide!)).2.2.2,
    by decide⟩

/-- Witness of C22: the loop over the child of `budgetArena`, entered with
`update_count` 0 under a clock that advances by five ticks per reading, is
left after the allowance was recomputed, and the stored allowance is 32. -/
theorem Widget_UpdateChildren_budget_floor_witness :
    loopExit (updateChildrenLoopTraced sampleDefs tickingEnv
      (Widget_UpdateWithContext sampleDefs tickingEnv 2) 0 [plainContext] true [1] budgetWorld 0
      0 0) = some (LoopExit.recomputed 0 5 32) ∧
    storedAllowance (loopWorld (updateChildrenLoopTraced sampleDefs tickingEnv
      (Widget_UpdateWithContext sampleDefs tickingEnv 2) 0 [plainContext] true [1] budgetWorld 0
      0 0)).widgets 0 = some 32 :=
  ⟨by decide!,
    (Widget_UpdateChildren_budget_floor sampleDefs tickingEnv 2 0 [plainContext] true [1]
      budgetWorld 0 0 0 5 32 (by decide!)).2.2.2.2⟩

/-- Witness of C28: Widget_UpdateWithContext over `cappedArena`, where three
children have pending work, returns, and the count is 0. -/
theorem Widget_UpdateWithContext_reports_zero_witness :
    ∃ count S', Widget_UpdateWithContext sampleDefs quietEnv 2 (worldOf cappedArena) 0 [] =
      Except.ok (count, S') ∧ count = 0 :=
  have h := ok_of_okCount
    (Widget_UpdateWithContext sampleDefs quietEnv 2 (worldOf cappedArena) 0 []) 0 (by decide!)
  ⟨_, _, h, (Widget_UpdateWithContext_reports_zero sampleDefs quietEnv 2).1 _ _ _ _ _ h⟩

/-- Witness of C23: in `resizedWorld` a refresh of everything is pending and
the current metrics are not the stored ones; LCUIWidget_Update returns, and
in the state returned `refresh_all` is false, the stored metrics are the
current ones and the first part of a following LCUIWidget_Update changes
nothing. -/
theorem LCUIWidget_Update_commits_at_end_witness :
    resizedWorld.metrics ≠ resizedWorld.self.metrics ∧
    ∃ count S', LCUIWidget_Update sampleDefs quietEnv 3 resizedWorld = Except.ok (count, S') ∧
      S'.self.refresh_all = false ∧ S'.self.metrics = S'.metrics ∧
      S'.metrics = resizedWorld.metrics ∧
      LCUIWidget_Update_begin sampleDefs quietEnv 3 S' = Except.ok S' :=
  have h := ok_of_okCount (LCUIWidget_Update sampleDefs quietEnv 3 resizedWorld) 0 (by decide!)
  have ⟨_, _, _, _, _, _, _, _, h1, h2, h3, h4⟩ :=
    LCUIWidget_Update_commits_at_end sampleDefs quietEnv 3 resizedWorld _ _ h
  ⟨by decide, _, _, h, h1, h2, h3, h4⟩

/-- Witness of C30: in `resizedWorld` the current metrics are not the stored
ones; LCUIWidget_UpdateWithProfile returns with `refresh_all` true and the
old snapshot, where LCUIWidget_Update returns with `refresh_all` false and
the current metrics stored.  On `freshRootArena` the passes of
LCUIWidget_UpdateWithProfile hand no area to the painter when the allocated
block comes zeroed and one area when it comes with `can_render` set, where
LCUIWidget_Update hands none in both cases: the flags of the root context are
those of the block. -/
theorem LCUIWidget_UpdateWithProfile_leaves_refresh_pending_witness :
    resizedWorld.metrics ≠ resizedWorld.self.metrics ∧
    LCUIWidget_UpdateWithProfile sampleDefs quietEnv 3 resizedWorld =
      Except.ok (okState (LCUIWidget_UpdateWithProfile sampleDefs quietEnv 3 resizedWorld)) ∧
    (okState (LCUIWidget_UpdateWithProfile sampleDefs quietEnv 3
      resizedWorld)).self.refresh_all = true ∧
    (okState (LCUIWidget_UpdateWithProfile sampleDefs quietEnv 3 resizedWorld)).self.metrics ≠
      (okState (LCUIWidget_UpdateWithProfile sampleDefs quietEnv 3 resizedWorld)).metrics ∧
    (okWorld (LCUIWidget_Update sampleDefs quietEnv 3 resizedWorld)).self.refresh_all = false ∧
    (okWorld (LCUIWidget_Update sampleDefs quietEnv 3 resizedWorld)).self.metrics =
      (okWorld (LCUIWidget_Update sampleDefs quietEnv 3 resizedWorld)).metrics ∧
    invalidateAreaCalls (okState (LCUIWidget_UpdateWithProfile sampleDefs quietEnv 3
      (worldOf freshRootArena))).trace = 0 ∧
    invalidateAreaCalls (okState (LCUIWidget_UpdateWithProfile sampleDefs usedBlockEnv 3
      (worldOf freshRootArena))).trace = 1 ∧
    invalidateAreaCalls (okWorld (LCUIWidget_Update sampleDefs quietEnv 3
      (worldOf freshRootArena))).trace = 0 ∧
    invalidateAreaCalls (okWorld (LCUIWidget_Update sampleDefs usedBlockEnv 3
      (worldOf freshRootArena))).trace = 0 :=
  have h := ok_of_isOk (LCUIWidget_UpdateWithProfile sampleDefs quietEnv 3 resizedWorld)
    (by decide!)
  have h1 := ((LCUIWidget_UpdateWithProfile_leaves_refresh_pending sampleDefs quietEnv 3).1
    resizedWorld _ h).2.2.2 (by decide)
  ⟨by decide, h, h1.1, h1.2, by decide!, by decide!, by decide!, by decide!, by decide!,
    by decide!⟩

/-- Witness of C25: every allocation fails in `noMemoryEnv` and the root of
`freshRootArena` has pending work. -/
theorem Widget_UpdateWithContext_null_context_witness :
    (getW (worldOf freshRootArena).widgets 0).task.for_self = true ∧
    (Widget_BeginUpdate sampleDefs noMemoryEnv (worldOf freshRootArena) 0 []).1 = none ∧
    Widget_UpdateWithContext sampleDefs noMemoryEnv 3 (worldOf freshRootArena) 0 [] =
      Except.error Fault.null ∧
    Widget_Update sampleDefs noMemoryEnv 2 (worldOf freshRootArena) 0 = Except.error Fault.null :=
  have h := Widget_UpdateWithContext_null_context sampleDefs noMemoryEnv 2
    (worldOf freshRootArena) 0 [] rfl
  ⟨by decide, h.1, h.2.1 (Or.inl (by decide)), h.2.2⟩

/-- Witness of C26: the container (widget 1) of `gatedArena` is not in the
visible area and its child (widget 2) has pending work. -/
theorem Widget_UpdateChildren_visibility_gate_witness :
    (getW gatedArena 2).task.for_self = true ∧
    okCount (Widget_UpdateChildren sampleDefs offscreenEnv
      (Widget_UpdateWithContext sampleDefs offscreenEnv 2) (worldOf gatedArena) 1
      [plainContext]) = some 0 ∧
    (okWorld (Widget_UpdateChildren sampleDefs offscreenEnv
      (Widget_UpdateWithContext sampleDefs offscreenEnv 2) (worldOf gatedArena) 1
      [plainContext])).widgets = gatedArena :=
  have h := Widget_UpdateChildren_visibility_gate sampleDefs offscreenEnv
    (Widget_UpdateWithContext sampleDefs offscreenEnv 2) (worldOf gatedArena) 1 [plainContext]
    _ (by decide) rfl (by decide) (by decide)
  ⟨by decide, by rw [h.1]; rfl, h.2.1⟩

/-- Witness of C27: of the five children of `stripArena` the children 2, 3
and 5 overlap the rectangle; the first run is 2, 3, and after the loop the
children 2 and 3 were updated (`for_self` is clear) and the children 1, 4 and
5 were not, the child 5 although it overlaps. -/
theorem Widget_UpdateVisibleChildren_first_run_witness :
    firstRun clippingEnv ⟨0, 0, 100, 100⟩ (worldOf stripArena) [1, 2, 3, 4, 5] = [2, 3] ∧
    overlapsVisible clippingEnv ⟨0, 0, 100, 100⟩ (worldOf stripArena) 5 = true ∧
    updateVisibleChildrenLoop clippingEnv (Widget_UpdateWithContext sampleDefs clippingEnv 2) 0
        [plainContext] ⟨0, 0, 100, 100⟩ [1, 2, 3, 4, 5] (worldOf stripArena) 0 false =
      updateEach (Widget_UpdateWithContext sampleDefs clippingEnv 2) 0 [plainContext] [2, 3]
        (worldOf stripArena) 0 ∧
    (okWorld (updateVisibleChildrenLoop clippingEnv
      (Widget_UpdateWithContext sampleDefs clippingEnv 2) 0 [plainContext] ⟨0, 0, 100, 100⟩
      [1, 2, 3, 4, 5] (worldOf stripArena) 0 false)).widgets.map (fun x => x.task.for_self) =
      [false, true, false, false, true, true] :=
  ⟨by decide,  by decide,
    (Widget_UpdateVisibleChildren_first_run sampleDefs clippingEnv 0 [plainContext]).2.2.2.1
      ⟨fun _ _ => rfl, fun _ => rfl⟩ 2 ⟨0, 0, 100, 100⟩ [1, 2, 3, 4, 5] (worldOf stripArena) 0,
    by decide!⟩

/-- Counterexample to C24 as stated: Widget_Update on the root of
`parentChildArena` returns and updates the child; the same run in which every
update of a child is restricted to the chains without two contexts for one
widget does not get through, and neither does the run in which the child of
the root is restricted to the chains with one context for the root, while the
run in which it is restricted to the chains with exactly two contexts, both
created for the root, returns and updates the child. -/
theorem Widget_Update_two_contexts_for_root :
    okCount (Widget_Update sampleDefs quietEnv 2 (worldOf parentChildArena) 0) = some 0 ∧
    (okWorld (Widget_Update sampleDefs quietEnv 2 (worldOf parentChildArena) 0)).widgets.map
      (fun x => x.task.for_self) = [false, false] ∧
    faultOf (Widget_Update_step sampleDefs quietEnv
      (Widget_UpdateWithContext_single sampleDefs quietEnv 2) (worldOf parentChildArena) 0) =
      some Fault.fuel ∧
    faultOf (Widget_Update_step sampleDefs quietEnv
      (Widget_UpdateWithContext_step sampleDefs quietEnv
        (onChains (fun chain => decide (owners chain = [0]))
          (Widget_UpdateWithContext sampleDefs quietEnv 1))) (worldOf parentChildArena) 0) =
      some Fault.fuel ∧
    okCount (Widget_Update_step sampleDefs quietEnv
      (Widget_UpdateWithContext_step sampleDefs quietEnv
        (onChains (fun chain => decide (owners chain = [0, 0]))
          (Widget_UpdateWithContext sampleDefs quietEnv 1))) (worldOf parentChildArena) 0) =
      some 0 ∧
    (okWorld (Widget_Update_step sampleDefs quietEnv
      (Widget_UpdateWithContext_step sampleDefs quietEnv
        (onChains (fun chain => decide (owners chain = [0, 0]))
          (Widget_UpdateWithContext sampleDefs quietEnv 1)))
      (worldOf parentChildArena) 0)).widgets.map (fun x => x.task.for_self) = [false, false] := by
  decide!

/-- Witness of C24, amended: Widget_Update on the root of `parentChildArena`
is the run in which Widget_UpdateWithContext is called under a chain of one
context for the root, and in it the child is updated under a chain of two
contexts for the root. -/
theorem Widget_Update_context_chain_witness :
    Widget_Update sampleDefs quietEnv 2 (worldOf parentChildArena) 0 =
      Widget_Update_step sampleDefs quietEnv (onChains (fun chain => decide (owners chain = [0]))
        (Widget_UpdateWithContext sampleDefs quietEnv 2)) (worldOf parentChildArena) 0 ∧
    Widget_UpdateWithContext sampleDefs quietEnv 2 (worldOf parentChildArena) 0 [plainContext] =
      Widget_UpdateWithContext_step sampleDefs quietEnv
        (onChains (fun chain => decide (owners chain = 0 :: owners [plainContext]))
          (Widget_UpdateWithContext sampleDefs quietEnv 1))
        (worldOf parentChildArena) 0 [plainContext] ∧
    owners [plainContext] = [0] :=
  ⟨(Widget_Update_context_chain sampleDefs quietEnv 2).2.1 (worldOf parentChildArena) 0,
    (Widget_Update_context_chain sampleDefs quietEnv 1).2.2.2 (worldOf parentChildArena) 0
      [plainContext],
    rfl⟩

/-- Witness of C29: the root of `cacheArena` becomes the owner of the style
cache 0 with its hash 5 as style hash; the widgets 1 and 3, children of the
root, and the widget 2, a child of the widget 1, have the hash 7 and get the
same sheet, which the cache holds under 5 * 33 + 7 = 172, with one selector
matching for the three (and one for the root itself). -/
theorem Widget_BeginUpdate_inherits_owner_hash_witness :
    (∃ c0 S1 cache, Widget_BeginUpdate sampleDefs quietEnv (worldOf cacheArena) 0 [] =
        (some c0, S1) ∧ c0.style_cache = some cache ∧
      c0.style_hash = (getW (worldOf cacheArena).widgets 0).hash ∧
      ∀ fuel, Widget_UpdateWithContext sampleDefs quietEnv fuel (worldOf cacheArena) 0 [] =
        Widget_UpdateWithContext_cached sampleDefs quietEnv cache
          (getW (worldOf cacheArena).widgets 0).hash fuel (worldOf cacheArena) 0 []) ∧
    (getW (worldOf cacheArena).widgets 0).hash = 5 ∧
    (okWorld (Widget_UpdateWithContext sampleDefs quietEnv 4 (worldOf cacheArena) 0 [])).dicts =
      [[(170, 0), (172, 1)]] ∧
    (okWorld (Widget_UpdateWithContext sampleDefs quietEnv 4 (worldOf cacheArena) 0
      [])).widgets.map (fun x => x.inherited_style) =
      [some (StyleRef.sheet 0), some (StyleRef.sheet 1), some (StyleRef.sheet 1),
        some (StyleRef.sheet 1)] ∧
    styleSheetCalls (okWorld (Widget_UpdateWithContext sampleDefs quietEnv 4 (worldOf cacheArena)
      0 [])).trace = 2 :=
  ⟨(Widget_BeginUpdate_inherits_owner_hash sampleDefs quietEnv).2.1
      ⟨fun _ _ => rfl, fun _ => rfl⟩ (worldOf cacheArena) 0 [] _ rfl rfl (by decide),
    by decide, by decide!, by decide!, by decide!⟩
/-- Counterexamples to C2 as stated; in each of them the other modules change
nothing, no handler is installed, a first LCUIWidget_Update completes and the
second one, run on the state that the first one left, returns 0 and leaves
pending work.  In `gatedArena` the container is outside the visible area:
the pending child still has `for_self` set and its ancestors still have
`for_children` set.  In `chainArena 8` the allowance of the adaptive budget is
0, so that every container leaves the loop after its first child the first
time it is updated: the first call leaves four nested containers that were
not updated yet (widgets 8, 10, 12 and 14), and the eight passes of the two
calls do not reach the pending leaf (widget 16), which still has `for_self`
set.  In `relinkedArena` the root has no flag set: the pending child is never
reached and still has `for_self` set. -/
theorem LCUIWidget_Update_not_drained :
    (okCount (LCUIWidget_Update sampleDefs offscreenEnv 3 (worldOf gatedArena)) = some 0 ∧
      okCount (LCUIWidget_Update sampleDefs offscreenEnv 3
        (okWorld (LCUIWidget_Update sampleDefs offscreenEnv 3 (worldOf gatedArena)))) = some 0 ∧
      (okWorld (LCUIWidget_Update sampleDefs offscreenEnv 3
        (okWorld (LCUIWidget_Update sampleDefs offscreenEnv 3 (worldOf gatedArena))))).widgets.map
          (fun x => (x.task.for_self, x.task.for_children)) =
        [(false, true), (false, true), (true, false)]) ∧
    (okCount (LCUIWidget_Update sampleDefs quietEnv 9 (worldOf (chainArena 8))) = some 0 ∧
      (List.range 17).filter (zeroPending quietEnv
          (okWorld (LCUIWidget_Update sampleDefs quietEnv 9 (worldOf (chainArena 8)))).widgets
          (okWorld (LCUIWidget_Update sampleDefs quietEnv 9 (worldOf (chainArena 8)))).widgets) =
        [8, 10, 12, 14] ∧
      okCount (LCUIWidget_Update sampleDefs quietEnv 9
        (okWorld (LCUIWidget_Update sampleDefs quietEnv 9 (worldOf (chainArena 8))))) = some 0 ∧
      (getW (okWorld (LCUIWidget_Update sampleDefs quietEnv 9
        (okWorld (LCUIWidget_Update sampleDefs quietEnv 9
          (worldOf (chainArena 8)))))).widgets 16).task.for_self = true) ∧
    (okCount (LCUIWidget_Update sampleDefs quietEnv 3 (worldOf relinkedArena)) = some 0 ∧
      okCount (LCUIWidget_Update sampleDefs quietEnv 3
        (okWorld (LCUIWidget_Update sampleDefs quietEnv 3 (worldOf relinkedArena)))) = some 0 ∧
      (okWorld (LCUIWidget_Update sampleDefs quietEnv 3
        (okWorld (LCUIWidget_Update sampleDefs quietEnv 3 (worldOf relinkedArena))))).widgets.map
          (fun x => (x.task.for_self, x.task.for_children)) =
        [(false, false), (true, false)]) := by
  decide!

/-- Witness of C2, amended: `frameArena` has update rules of every kind and
widget 8 is outside the visible area.  After LCUIWidget_InitTasks a first
LCUIWidget_Update refreshes everything, creates the style cache, raises the
allowances that it reads and leaves widget 13, whose allowance is still 0, and
its children with pending work; the second one returns 0, clears the flags of
widgets 7, 11, 13, 14 and 15 and keeps `for_children` of widget 8 and the
flags of its child (widget 9).  In `chainArena 7` the first LCUIWidget_Update
leaves three nested containers that will stop their first update of the
children after one child (widgets 8, 10 and 12), which is the bound, and the
second one clears every flag. -/
theorem LCUIWidget_Update_idempotent_witness :
    (∃ S2, LCUIWidget_Update sampleDefs sideEnv 17
        (okWorld (LCUIWidget_Update sampleDefs sideEnv 17 frameWorld)) = Except.ok (0, S2) ∧
      (∀ i, Reached sideEnv (okWorld (LCUIWidget_Update sampleDefs sideEnv 17 frameWorld)).widgets
          sideEnv.LCUIWidget_GetRoot i →
        (getW S2.widgets i).task.for_self = false ∧
          (GateFree sideEnv (okWorld (LCUIWidget_Update sampleDefs sideEnv 17 frameWorld)).widgets
            i → Clean S2.widgets i)) ∧
      (GateFree sideEnv (okWorld (LCUIWidget_Update sampleDefs sideEnv 17 frameWorld)).widgets
          sideEnv.LCUIWidget_GetRoot →
        ∀ i, InSubtree (okWorld (LCUIWidget_Update sampleDefs sideEnv 17 frameWorld)).widgets
          sideEnv.LCUIWidget_GetRoot i → Clean S2.widgets i) ∧
      (∀ g, offGated sideEnv
          (okWorld (LCUIWidget_Update sampleDefs sideEnv 17 frameWorld)).widgets g = true →
        (getW S2.widgets g).task.for_children =
          (getW (okWorld (LCUIWidget_Update sampleDefs sideEnv 17
            frameWorld)).widgets g).task.for_children) ∧
      (∀ i, ¬ Reached sideEnv
          (okWorld (LCUIWidget_Update sampleDefs sideEnv 17 frameWorld)).widgets
          sideEnv.LCUIWidget_GetRoot i →
        SameFlags (okWorld (LCUIWidget_Update sampleDefs sideEnv 17 frameWorld)).widgets
          S2.widgets i) ∧
      (ParentsLinked (okWorld (LCUIWidget_Update sampleDefs sideEnv 17 frameWorld)).widgets
          sideEnv.LCUIWidget_GetRoot →
        ∀ g d, InSubtree (okWorld (LCUIWidget_Update sampleDefs sideEnv 17 frameWorld)).widgets
            sideEnv.LCUIWidget_GetRoot g →
          offGated sideEnv
            (okWorld (LCUIWidget_Update sampleDefs sideEnv 17 frameWorld)).widgets g = true →
          IsDescendant (okWorld (LCUIWidget_Update sampleDefs sideEnv 17 frameWorld)).widgets
            g d →
          SameFlags (okWorld (LCUIWidget_Update sampleDefs sideEnv 17 frameWorld)).widgets
            S2.widgets d)) ∧
    (okWorld (LCUIWidget_Update sampleDefs sideEnv 17 frameWorld)).widgets.map
        (fun x => (x.task.for_self, x.task.for_children)) =
      [(false, true), (false, false), (false, true), (false, false), (false, true),
        (false, false), (false, true), (false, true), (false, true), (true, true),
        (false, false), (false, true), (false, false), (true, true), (true, true),
        (true, true)] ∧
    (List.range 16).filter (zeroPending sideEnv
        (okWorld (LCUIWidget_Update sampleDefs sideEnv 17 frameWorld)).widgets
        (okWorld (LCUIWidget_Update sampleDefs sideEnv 17 frameWorld)).widgets) = [13] ∧
    (okWorld (LCUIWidget_Update sampleDefs sideEnv 17
      (okWorld (LCUIWidget_Update sampleDefs sideEnv 17 frameWorld)))).widgets.map
        (fun x => (x.task.for_self, x.task.for_children)) =
      [(false, true), (false, false), (false, true), (false, false), (false, true),
        (false, false), (false, true), (false, false), (false, true), (true, true),
        (false, false), (false, false), (false, false), (false, false), (false, false),
        (false, false)] ∧
    (∃ S2, LCUIWidget_Update sampleDefs quietEnv 8
        (okWorld (LCUIWidget_Update sampleDefs quietEnv 8 (worldOf (chainArena 7)))) =
          Except.ok (0, S2) ∧
      ∀ i, Reached quietEnv
          (okWorld (LCUIWidget_Update sampleDefs quietEnv 8 (worldOf (chainArena 7)))).widgets
          quietEnv.LCUIWidget_GetRoot i →
        (getW S2.widgets i).task.for_self = false ∧
          (GateFree quietEnv
            (okWorld (LCUIWidget_Update sampleDefs quietEnv 8 (worldOf (chainArena 7)))).widgets
            i → Clean S2.widgets i)) ∧
    (List.range 15).filter (zeroPending quietEnv
        (okWorld (LCUIWidget_Update sampleDefs quietEnv 8 (worldOf (chainArena 7)))).widgets
        (okWorld (LCUIWidget_Update sampleDefs quietEnv 8 (worldOf (chainArena 7)))).widgets) =
      [8, 10, 12] ∧
    (okWorld (LCUIWidget_Update sampleDefs quietEnv 8
      (okWorld (LCUIWidget_Update sampleDefs quietEnv 8
        (worldOf (chainArena 7)))))).widgets.all
          (fun x => !x.task.for_self && !x.task.for_children) = true :=
  ⟨LCUIWidget_Update_idempotent sampleDefs sideEnv sideEnv_quiet 17 frameWorld
    (okWorld (LCUIWidget_Update sampleDefs sideEnv 17 frameWorld)) 0 frameRank
    framePlan frameLag (ok_of_okCount _ 0 (by decide!))
    (IsTreeUnder_of_check _ _ _ (by decide!)) (by decide) (by decide!)
    (FlagsClosed_of_check _ _ (by decide!)) (by decide!)
    (CachePlan_of_check _ _ _ _ (by decide!))
    (StyleHeld_of_check _ _ _ _ 0 (fun _ _ => rfl) (by decide!) _ (by decide!))
    (fun i hi _ => StyleHeld_of_check _ _ _ _ 0 (fun _ _ => rfl) (by decide!) i
      (Reached_lt (IsTreeUnder_of_check _ frameRank _ (by decide!)) (by decide!) hi))
    (RulesReady_of_check _ _ _ frameRank _ (fun _ _ _ => rfl) (fun _ _ _ => rfl)
      (IsTreeUnder_of_check _ _ _ (by decide!)) (by decide!) (by decide!))
    (LagPlan_of_check _ _ frameRank frameLag 3 _ (IsTreeUnder_of_check _ _ _ (by decide!))
      (by decide!) (by decide!)).1
    (LagPlan_of_check _ _ frameRank frameLag 3 _ (IsTreeUnder_of_check _ _ _ (by decide!))
      (by decide!) (by decide!)).2,
    by decide!, by decide!, by decide!,
    (LCUIWidget_Update_idempotent sampleDefs quietEnv quietEnv_quiet 8 (worldOf (chainArena 7))
      (okWorld (LCUIWidget_Update sampleDefs quietEnv 8 (worldOf (chainArena 7)))) 0 chainRank
      chainPlan chainLag (ok_of_okCount _ 0 (by decide!))
      (IsTreeUnder_of_check _ _ _ (by decide!)) (by decide) (by decide!)
      (FlagsClosed_of_check _ _ (by decide!)) (by decide!)
      (CachePlan_of_check _ _ _ _ (by decide!))
      (StyleHeld_of_check _ _ _ _ 0 (fun _ _ => rfl) (by decide!) _ (by decide!))
      (fun i hi _ => StyleHeld_of_check _ _ _ _ 0 (fun _ _ => rfl) (by decide!) i
        (Reached_lt (IsTreeUnder_of_check _ chainRank _ (by decide!)) (by decide!) hi))
      (RulesReady_of_check _ _ _ chainRank _ (fun _ _ _ => rfl) (fun _ _ _ => rfl)
        (IsTreeUnder_of_check _ _ _ (by decide!)) (by decide!) (by decide!))
      (LagPlan_of_check _ _ chainRank chainLag 3 _ (IsTreeUnder_of_check _ _ _ (by decide!))
        (by decide!) (by decide!)).1
      (LagPlan_of_check _ _ chainRank chainLag 3 _ (IsTreeUnder_of_check _ _ _ (by decide!))
        (by decide!) (by decide!)).2).imp (fun _ h => ⟨h.1, h.2.1⟩),
    by decide!, by decide!⟩

end LCUI
